import Mathlib

/-!
SeaTable nodes: a shallow embedding and its properties.

The Go package `v1` wraps the SeaTable HTTP API in workflow nodes.  This file
embeds the client registry (`common.go`), the request executor
(`doSeaTableRequest`), the Auto Link node (`auto_link.go`) and the Rows Get
Many node (`rows_get_many.go`) as Lean functions, and proves properties of
them.

Conventions of the embedding:

* a Go `map[string]T` is an association list read with `mapGet`; an assignment
  `m[k] = v` puts the new binding in front, so a lookup sees the latest one;
* a Go `error` is a value of `Error`; a Go function returning `(T, error)`
  returns `Except Error T`;
* everything the package obtains from outside itself (the network, the JSON
  decoder, `fmt`, `net/url`) is a field of `Env`; every theorem holds for all
  environments;
* every HTTP request handed to `client.Do` is appended to a trace, so that
  statements about which calls were issued, and in which order, can be made;
* Go `int` is `Int` (64 bits wide).  The addition on the paging offset, whose
  operand is a caller input of any size, wraps through `wrapInt64`.  The
  counters of both loops are kept exact: they count rows held in memory, or
  targets of rows held in memory, and stay far below the `int` range.
-/

namespace SeaTable

/-! ## Values and errors -/

/-- Go error values as the package builds them. -/
inductive Error where
  /-- The value `runtime.NewError(code, msg)`. -/
  | runtimeError (code msg : String)
  /-- The value `fmt.Errorf(msg)`, with no wrapped cause. -/
  | errorf (msg : String)
  /-- The value `fmt.Errorf(msg + ": %w", cause)`. -/
  | wrapf (msg : String) (cause : Error)
  /-- An error produced outside the package: a variable read of the host
  runtime, `net/http`, `net/url` or `encoding/json`. -/
  | external (msg : String)
  deriving DecidableEq, Repr

/-- A Go value of type `any`, restricted to the dynamic types that occur in the
package: `nil`, `bool`, `float64` (identified by its IEEE-754 bit pattern),
`int`, `string`, slices and `map[string]any`. -/
inductive Value where
  | null
  | bool (b : Bool)
  | float64 (bits : Nat)
  | int (n : Int)
  | str (s : String)
  | arr (items : List Value)
  | obj (fields : List (String × Value))

/-- A row: the Go type `map[string]any`; `none` is the nil map. -/
abbrev Row := Option (List (String × Value))

/-- Lookup `m[k]` in a Go map: `none` when the key is absent. -/
def mapGet {α : Type} (m : List (String × α)) (k : String) : Option α :=
  match m with
  | [] => none
  | (k1, v) :: rest => if k1 = k then some v else mapGet rest k

/-- Assignment `m[k] = v` in a Go map. -/
def mapSet {α : Type} (m : List (String × α)) (k : String) (v : α) : List (String × α) :=
  (k, v) :: m

/-- White space as recognised by `unicode.IsSpace`, which `strings.TrimSpace` uses. -/
def isSpace (c : Char) : Bool :=
  c.toNat = 0x09 || c.toNat = 0x0A || c.toNat = 0x0B || c.toNat = 0x0C || c.toNat = 0x0D ||
  c.toNat = 0x20 || c.toNat = 0x85 || c.toNat = 0xA0 || c.toNat = 0x1680 ||
  (0x2000 ≤ c.toNat && c.toNat ≤ 0x200A) || c.toNat = 0x2028 || c.toNat = 0x2029 ||
  c.toNat = 0x202F || c.toNat = 0x205F || c.toNat = 0x3000

/-- The Go function `strings.TrimSpace`. -/
def trimSpace (s : String) : String :=
  String.mk ((s.toList.dropWhile isSpace).reverse.dropWhile isSpace).reverse

/-- The call `strings.ReplaceAll(s, "-", "")`. -/
def removeDashes (s : String) : String :=
  String.mk (s.toList.filter (fun c => c ≠ '-'))

/-- The bounds of a 64-bit Go `int`. -/
def maxInt64 : Int := 9223372036854775807

/-- Two-complement wrap-around of a 64-bit Go `int`. -/
def wrapInt64 (x : Int) : Int :=
  (x + 9223372036854775808) % 18446744073709551616 - 9223372036854775808

/-! ## The client registry (`common.go`) -/

/-- SeaTableClient holds connection info for a base. -/
structure SeaTableClient where
  Server : String
  BaseUUID : String
  Token : String
  deriving DecidableEq, Repr

/-- The package variable `seaTableClients`. -/
abbrev Registry := List (String × SeaTableClient)

/-- The registry of a fresh process: `make(map[string]*SeaTableClient)`. -/
def emptyRegistry : Registry := []

/-- The client id `fmt.Sprintf("st-%s-%d", strings.ReplaceAll(BaseUUID, "-", ""), now)`. -/
def clientIdFor (cfg : SeaTableClient) (now : Int) : String :=
  "st-" ++ removeDashes cfg.BaseUUID ++ "-" ++ toString now

/-- registerSeaTableClient stores cfg and returns a clientId; `now` is the
value of `time.Now().UnixNano()` read by the call.  The result is the id and
the registry after the call. -/
def registerSeaTableClient (reg : Registry) (cfg : SeaTableClient) (now : Int) :
    String × Registry :=
  let id := clientIdFor cfg now
  (id, mapSet reg id cfg)

/-- The Go function `getSeaTableClient`: `some cfg` is `(cfg, true)` and `none`
is `(nil, false)`. -/
def getSeaTableClient (reg : Registry) (id : String) : Option SeaTableClient :=
  mapGet reg id

/-- A run of registrations, each with its config and clock reading, from a
given registry: the ids returned, in call order, and the final registry. -/
def registerAll (reg : Registry) : List (SeaTableClient × Int) → List String × Registry
  | [] => ([], reg)
  | (cfg, now) :: rest =>
    let r := registerSeaTableClient reg cfg now
    let rs := registerAll r.2 rest
    (r.1 :: rs.1, rs.2)

/-! ## The request executor (`doSeaTableRequest`) -/

/-- A request URL: the text handed to `url.Parse` (or used as is) and the query
parameters set on it with `q.Set`, in the order of the calls. -/
structure Url where
  raw : String
  query : List (String × String)

/-- The request given to `client.Do`. -/
structure HttpRequest where
  method : String
  url : Url
  headers : List (String × String)
  /-- The value whose JSON serialisation is the request body; `none` is the
  empty body. -/
  body : Option Value

/-- What `client.Do` and the read of the response body produce. -/
inductive Transport where
  /-- `client.Do` returned an error. -/
  | doFailed (e : Error)
  /-- A response arrived but reading its body failed. -/
  | readFailed (status : Int) (e : Error)
  /-- A response with this body and status code. -/
  | reply (body : String) (status : Int)

/-- The world outside the package. -/
structure Env where
  /-- The call `json.Marshal(v)`: `some e` when it fails. -/
  marshalError : Value → Option Error
  /-- The call `http.NewRequestWithContext`: `some e` when it fails. -/
  newRequestError : String → Url → Option Error
  /-- The round trip of the n-th request sent by this invocation. -/
  roundTrip : Nat → HttpRequest → Transport
  /-- The call `json.Unmarshal(body, &v)` with `v` of type `any`. -/
  jsonUnmarshal : String → Except Error Value
  /-- The call `json.Unmarshal(body, &parsed)` with `parsed` of type
  `struct { Results []map[string]any }`: the `Results` field after a
  successful decode, `none` when it is nil. -/
  jsonUnmarshalResults : String → Except Error (Option (List Row))
  /-- The call `fmt.Sprintf("%v", v)`. -/
  sprintV : Value → String
  /-- The call `url.Parse(s)`: `some e` when it fails. -/
  urlParseError : String → Option Error

/-- The triple `([]byte, int, error)` returned by `doSeaTableRequest`. -/
structure Response where
  body : String
  status : Int
  err : Option Error

/-- The headers `doSeaTableRequest` sets, in the order it sets them. -/
def requestHeaders (token : String) (body : Option Value) : List (String × String) :=
  (if trimSpace token ≠ "" then [("Authorization", "Bearer " ++ token)] else []) ++
  (if body.isSome then [("Content-Type", "application/json")] else []) ++
  [("Accept", "application/json")]

/-- doSeaTableRequest marshals body (if not nil) and performs an HTTP request.
`n` is the number of requests this invocation has sent before.  The second
component is the request handed to `client.Do`, if the call got that far. -/
def doSeaTableRequest (env : Env) (n : Nat) (method : String) (url : Url) (token : String)
    (body : Option Value) : Response × Option HttpRequest :=
  match body.bind env.marshalError with
  | some e => (⟨"", 0, some (.wrapf "marshal request body" e)⟩, none)
  | none =>
    match env.newRequestError method url with
    | some e => (⟨"", 0, some (.wrapf "create request" e)⟩, none)
    | none =>
      let req : HttpRequest := ⟨method, url, requestHeaders token body, body⟩
      match env.roundTrip n req with
      | .doFailed e => (⟨"", 0, some (.wrapf "http request failed" e)⟩, some req)
      | .readFailed status e => (⟨"", status, some (.wrapf "read response body" e)⟩, some req)
      | .reply respBody status => (⟨respBody, status, none⟩, some req)

/-! ## Auto Link (`auto_link.go`) -/

/-- The Go function `strings.TrimSuffix(s, ".0")` guarded by `strings.HasSuffix(s, ".0")`. -/
def trimDotZero (s : String) : String :=
  match s.toList.reverse with
  | '0' :: '.' :: rest => String.mk rest.reverse
  | _ => s

/-- The Go function `getStringFromRow`. -/
def getStringFromRow (env : Env) (row : Row) (key : String) : String :=
  match row with
  | none => ""
  | some fields =>
    match mapGet fields key with
    | none => ""
    | some .null => ""
    | some (.str t) => t
    | some (.float64 bits) => trimDotZero (env.sprintV (.float64 bits))
    | some v => env.sprintV v

/-- The URL `fmt.Sprintf("%s/api-gateway/api/v2/dtables/%s/sql/", cfg.Server, cfg.BaseUUID)`. -/
def sqlUrl (cfg : SeaTableClient) : Url :=
  ⟨cfg.Server ++ "/api-gateway/api/v2/dtables/" ++ cfg.BaseUUID ++ "/sql/", []⟩

/-- The URL `fmt.Sprintf("%s/api-gateway/api/v2/dtables/%s/links/", cfg.Server, cfg.BaseUUID)`. -/
def linksUrl (cfg : SeaTableClient) : Url :=
  ⟨cfg.Server ++ "/api-gateway/api/v2/dtables/" ++ cfg.BaseUUID ++ "/links/", []⟩

/-- The SQL text built by `fetchRowsForKey`. -/
def fetchSql (tableName keyColumn : String) (limit : Int) : String :=
  "SELECT _id, " ++ keyColumn ++ " FROM " ++ tableName ++ " WHERE " ++ keyColumn ++
    " IS NOT NULL LIMIT " ++ toString limit

/-- The request body built by `fetchRowsForKey`. -/
def fetchBody (tableName keyColumn : String) (limit : Int) : Value :=
  .obj [("sql", .str (fetchSql tableName keyColumn limit)), ("convert_keys", .bool true)]

/-- The call `json.Unmarshal(respBody, &alt)` with `alt` of type
`map[string]any`: a JSON object decodes to its fields, `null` leaves the map
nil, every other JSON value is a type error. -/
def unmarshalObject (env : Env) (body : String) : Except Error (List (String × Value)) :=
  match env.jsonUnmarshal body with
  | .error e => .error e
  | .ok (.obj fields) => .ok fields
  | .ok .null => .ok []
  | .ok _ => .error (.external "json: cannot unmarshal into Go value of type map[string]interface {}")

/-- The rows kept by the fallback of `fetchRowsForKey`: the elements of the
array that are `map[string]any`. -/
def objectRows : List Value → List Row
  | [] => []
  | .obj fields :: rest => some fields :: objectRows rest
  | _ :: rest => objectRows rest

/-- The part of `fetchRowsForKey` that follows a successful request: decoding
the response body into rows. -/
def parseFetchedRows (env : Env) (respBody : String) : Except Error (List Row) :=
  match env.jsonUnmarshalResults respBody with
  | .ok (some rows) => .ok rows
  | _ =>
    match unmarshalObject env respBody with
    | .error e => .error e
    | .ok alt =>
      match mapGet alt "results" with
      | some (.arr items) => .ok (objectRows items)
      | _ => .error (.errorf "unexpected SQL response for fetchRowsForKey")

/-- fetchRowsForKey uses SQL API to fetch _id and keyColumn.  The second
component is the request sent, if any. -/
def fetchRowsForKey (env : Env) (n : Nat) (cfg : SeaTableClient) (tableName keyColumn : String)
    (limit : Int) : Except Error (List Row) × Option HttpRequest :=
  let r := doSeaTableRequest env n "POST" (sqlUrl cfg) cfg.Token
    (some (fetchBody tableName keyColumn limit))
  match r.1.err with
  | some e => (.error e, r.2)
  | none => (parseFetchedRows env r.1.body, r.2)

/-- The map `rightIndex` of `OnMessage`: key value to row ids. -/
abbrev KeyIndex := List (String × List String)

/-- The loop of `OnMessage` over the right rows, which fills `rightIndex`. -/
def buildRightIndex (env : Env) (rightKeyCol : String) : List Row → KeyIndex → KeyIndex
  | [], rightIndex => rightIndex
  | r :: rest, rightIndex =>
    let keyVal := getStringFromRow env r rightKeyCol
    if keyVal = "" then buildRightIndex env rightKeyCol rest rightIndex
    else
      let rid := getStringFromRow env r "_id"
      if rid = "" then buildRightIndex env rightKeyCol rest rightIndex
      else
        buildRightIndex env rightKeyCol rest
          (mapSet rightIndex keyVal ((mapGet rightIndex keyVal).getD [] ++ [rid]))

/-- The four counters of the loop over the left rows. -/
structure LinkCounters where
  processed : Int
  matched : Int
  skipped : Int
  created : Int
  deriving DecidableEq, Repr

/-- The body of a link-update call. -/
def linkUpdateBody (linkID tableName otherTableName leftRowID : String)
    (targets : List String) : Value :=
  .obj [("link_id", .str linkID), ("table_name", .str tableName),
    ("other_table_name", .str otherTableName), ("row_id", .str leftRowID),
    ("other_rows_ids", .arr (targets.map Value.str))]

/-- The loop of `OnMessage` over the left rows.  `tr` is the trace of requests
sent so far; the result is the error returned from inside the loop or the
counters at its end, with the trace. -/
def linkLoop (env : Env) (cfg : SeaTableClient) (linkID tableName otherTableName leftKeyCol : String)
    (dryRun : Bool) (rightIndex : KeyIndex) :
    List Row → LinkCounters → List HttpRequest → Except Error LinkCounters × List HttpRequest
  | [], c, tr => (.ok c, tr)
  | row :: rest, c, tr =>
    let c1 : LinkCounters := { c with processed := c.processed + 1 }
    let skip : LinkCounters := { c1 with skipped := c1.skipped + 1 }
    let leftRowID := getStringFromRow env row "_id"
    if leftRowID = "" then
      linkLoop env cfg linkID tableName otherTableName leftKeyCol dryRun rightIndex rest skip tr
    else
      let keyVal := getStringFromRow env row leftKeyCol
      if keyVal = "" then
        linkLoop env cfg linkID tableName otherTableName leftKeyCol dryRun rightIndex rest skip tr
      else
        match mapGet rightIndex keyVal with
        | none =>
          linkLoop env cfg linkID tableName otherTableName leftKeyCol dryRun rightIndex rest skip tr
        | some targets =>
          if targets.length = 0 then
            linkLoop env cfg linkID tableName otherTableName leftKeyCol dryRun rightIndex rest
              skip tr
          else
            let c2 : LinkCounters := { c1 with matched := c1.matched + 1 }
            let done : LinkCounters := { c2 with created := c2.created + targets.length }
            if dryRun then
              linkLoop env cfg linkID tableName otherTableName leftKeyCol dryRun rightIndex rest
                done tr
            else
              let r := doSeaTableRequest env tr.length "PUT" (linksUrl cfg) cfg.Token
                (some (linkUpdateBody linkID tableName otherTableName leftRowID targets))
              match r.1.err with
              | some e =>
                (.error (.wrapf ("update links for row " ++ leftRowID) e), tr ++ r.2.toList)
              | none =>
                linkLoop env cfg linkID tableName otherTableName leftKeyCol dryRun rightIndex rest
                  done (tr ++ r.2.toList)

/-- The node SeaTableAutoLink: the values its input and option variables yield
when `OnMessage` reads them.  An option read whose error the code drops is
the value read. -/
structure SeaTableAutoLink where
  InClientID : Except Error String
  InTableName : Except Error String
  InOtherTableName : Except Error String
  InLinkID : Except Error String
  InLeftKeyColumn : Except Error String
  InRightKeyColumn : Except Error String
  OptMaxLeftRows : Int
  OptMaxRightRows : Int
  OptDryRun : Bool

/-- The output variables set by a successful Auto Link. -/
structure AutoLinkOutputs where
  OutProcessedLeftRows : Int
  OutMatchedRows : Int
  OutSkippedRows : Int
  OutCreatedLinks : Int
  OutMode : String
  deriving DecidableEq, Repr

/-- The clamp `if max <= 0 { max = 1000 }` of the row limits. -/
def clampMaxRows (m : Int) : Int := if m ≤ 0 then 1000 else m

/-- The part of `SeaTableAutoLink.OnMessage` after validation: the two fetches,
the index and the loop over the left rows. -/
def autoLinkRun (env : Env) (cfg : SeaTableClient)
    (tableName otherTableName linkID leftKeyCol rightKeyCol : String)
    (maxLeft maxRight : Int) (dryRun : Bool) : Except Error AutoLinkOutputs × List HttpRequest :=
  let fr := fetchRowsForKey env 0 cfg otherTableName rightKeyCol maxRight
  match fr.1 with
  | .error e => (.error (.wrapf "fetch right table rows" e), fr.2.toList)
  | .ok rightRows =>
    let rightIndex := buildRightIndex env rightKeyCol rightRows []
    let fl := fetchRowsForKey env fr.2.toList.length cfg tableName leftKeyCol maxLeft
    match fl.1 with
    | .error e => (.error (.wrapf "fetch left table rows" e), fr.2.toList ++ fl.2.toList)
    | .ok leftRows =>
      let out := linkLoop env cfg linkID tableName otherTableName leftKeyCol dryRun rightIndex
        leftRows ⟨0, 0, 0, 0⟩ (fr.2.toList ++ fl.2.toList)
      match out.1 with
      | .error e => (.error e, out.2)
      | .ok c => (.ok ⟨c.processed, c.matched, c.skipped, c.created, "override"⟩, out.2)

/-- The method `SeaTableAutoLink.OnMessage`: the error it returns or the outputs
it sets, and the requests it sent. -/
def SeaTableAutoLink.OnMessage (env : Env) (reg : Registry) (n : SeaTableAutoLink) :
    Except Error AutoLinkOutputs × List HttpRequest :=
  match n.InClientID with
  | .error e => (.error e, [])
  | .ok clientID =>
  match getSeaTableClient reg clientID with
  | none =>
    (.error (.runtimeError "ErrInvalidArg" "Unknown Client ID – run SeaTable.Connect first"), [])
  | some cfg =>
  match n.InTableName with
  | .error e => (.error e, [])
  | .ok tableName0 =>
  let tableName := trimSpace tableName0
  match n.InOtherTableName with
  | .error e => (.error e, [])
  | .ok otherTableName0 =>
  let otherTableName := trimSpace otherTableName0
  match n.InLinkID with
  | .error e => (.error e, [])
  | .ok linkID0 =>
  let linkID := trimSpace linkID0
  match n.InLeftKeyColumn with
  | .error e => (.error e, [])
  | .ok leftKeyCol0 =>
  let leftKeyCol := trimSpace leftKeyCol0
  match n.InRightKeyColumn with
  | .error e => (.error e, [])
  | .ok rightKeyCol0 =>
  let rightKeyCol := trimSpace rightKeyCol0
  if tableName = "" ∨ otherTableName = "" ∨ linkID = "" ∨ leftKeyCol = "" ∨ rightKeyCol = "" then
    (.error (.runtimeError "ErrInvalidArg"
      "Table, Other Table, Link ID and key columns are required"), [])
  else
    autoLinkRun env cfg tableName otherTableName linkID leftKeyCol rightKeyCol
      (clampMaxRows n.OptMaxLeftRows) (clampMaxRows n.OptMaxRightRows) n.OptDryRun

/-! ## Rows Get Many (`rows_get_many.go`) -/

/-- The node SeaTableRowsGetMany: the values its input and option variables
yield when `OnMessage` reads them. -/
structure SeaTableRowsGetMany where
  InClientID : Except Error String
  InTableName : Except Error String
  OptViewName : String
  OptStart : Int
  OptPageSize : Int
  OptMaxRows : Int
  OptConvert : Bool

/-- The output variables set by a successful Rows Get Many. -/
structure RowsGetManyOutputs where
  OutStatusCode : Int
  OutRows : List Value
  OutJSON : Value

/-- The variables of the paging loop of `OnMessage`. -/
structure PageState where
  allRows : List Value
  statusCode : Int
  fetched : Int
  offset : Int

/-- The text `fmt.Sprintf("%s/api-gateway/api/v2/dtables/%s/rows/", cfg.Server, cfg.BaseUUID)`. -/
def rowsUrl (cfg : SeaTableClient) : String :=
  cfg.Server ++ "/api-gateway/api/v2/dtables/" ++ cfg.BaseUUID ++ "/rows/"

/-- The query parameters set on the rows URL, in the order of the `q.Set` calls. -/
def rowsQuery (tableName viewName : String) (offset limit : Int) (convert : Bool) :
    List (String × String) :=
  [("table_name", tableName)] ++
  (if trimSpace viewName ≠ "" then [("view_name", viewName)] else []) ++
  [("start", toString offset), ("limit", toString limit)] ++
  (if convert then [("convert_keys", "true")] else [])

/-- The page of rows read out of a decoded response: the `rows` array of an
object, or a top-level array, and no rows otherwise. -/
def rowsPageOf (parsed : Value) : List Value :=
  match parsed with
  | .obj fields =>
    match mapGet fields "rows" with
    | some (.arr items) => items
    | _ => []
  | .arr items => items
  | _ => []

/-- The `for` loop of `SeaTableRowsGetMany.OnMessage`.  The first argument
bounds the number of iterations; `none` reports that the bound was reached.
`tr` is the trace of requests sent so far.  The addition on `offset` is the
addition of Go `int`. -/
def pageLoop (env : Env) (cfg : SeaTableClient) (tableName viewName : String) (convert : Bool)
    (pageSize maxRows : Int) :
    Nat → PageState → List HttpRequest → Option (Except Error PageState) × List HttpRequest
  | 0, _, tr => (none, tr)
  | fuel + 1, st, tr =>
    if st.fetched ≥ maxRows then (some (.ok st), tr)
    else
      match env.urlParseError (rowsUrl cfg) with
      | some e => (some (.error (.wrapf "parse rows URL" e)), tr)
      | none =>
        let remaining := maxRows - st.fetched
        let limit := if remaining < pageSize then remaining else pageSize
        let r := doSeaTableRequest env tr.length "GET"
          ⟨rowsUrl cfg, rowsQuery tableName viewName st.offset limit convert⟩ cfg.Token none
        match r.1.err with
        | some e => (some (.error e), tr ++ r.2.toList)
        | none =>
          match env.jsonUnmarshal r.1.body with
          | .error e =>
            (some (.error (.wrapf "unmarshal list rows response" e)), tr ++ r.2.toList)
          | .ok parsed =>
            let rowsPage := rowsPageOf parsed
            if rowsPage.length = 0 then
              (some (.ok { st with statusCode := r.1.status }), tr ++ r.2.toList)
            else
              let st2 : PageState :=
                { allRows := st.allRows ++ rowsPage, statusCode := r.1.status,
                  fetched := st.fetched + rowsPage.length,
                  offset := wrapInt64 (st.offset + rowsPage.length) }
              if (rowsPage.length : Int) < limit then (some (.ok st2), tr ++ r.2.toList)
              else
                pageLoop env cfg tableName viewName convert pageSize maxRows fuel st2
                  (tr ++ r.2.toList)

/-- The part of `SeaTableRowsGetMany.OnMessage` after validation: the
normalisation of the numeric options, the paging loop and the outputs.  The
loop is given `maxRows + 1` iterations, which it never exhausts
(`rowsGetManyRun_returns`). -/
def rowsGetManyRun (env : Env) (cfg : SeaTableClient) (tableName viewName : String)
    (start0 pageSize0 maxRows0 : Int) (convert : Bool) :
    Option (Except Error RowsGetManyOutputs) × List HttpRequest :=
  let start := if start0 < 0 then 0 else start0
  let pageSize := if pageSize0 ≤ 0 ∨ pageSize0 > 1000 then 1000 else pageSize0
  let maxRows := if maxRows0 ≤ 0 then 10000 else maxRows0
  let out := pageLoop env cfg tableName viewName convert pageSize maxRows (maxRows.toNat + 1)
    ⟨[], 0, 0, start⟩ []
  match out.1 with
  | none => (none, out.2)
  | some (.error e) => (some (.error e), out.2)
  | some (.ok st) =>
    (some (.ok ⟨st.statusCode, st.allRows,
      .obj [("rows", .arr st.allRows), ("count", .int st.allRows.length),
        ("start", .int start)]⟩), out.2)

/-- The method `SeaTableRowsGetMany.OnMessage`: the error it returns or the
outputs it sets, and the requests it sent. -/
def SeaTableRowsGetMany.OnMessage (env : Env) (reg : Registry) (n : SeaTableRowsGetMany) :
    Option (Except Error RowsGetManyOutputs) × List HttpRequest :=
  match n.InClientID with
  | .error e => (some (.error e), [])
  | .ok clientID =>
  match getSeaTableClient reg clientID with
  | none =>
    (some (.error (.runtimeError "ErrInvalidArg"
      "Unknown Client ID – run SeaTable.Connect first")), [])
  | some cfg =>
  match n.InTableName with
  | .error e => (some (.error e), [])
  | .ok tableName0 =>
  let tableName := trimSpace tableName0
  if tableName = "" then
    (some (.error (.runtimeError "ErrInvalidArg" "Table Name is required")), [])
  else
    rowsGetManyRun env cfg tableName n.OptViewName n.OptStart n.OptPageSize n.OptMaxRows
      n.OptConvert

/-! ## Reference definitions for the paging of Rows Get Many -/

/-- The page size the specification prescribes: the option when it lies in the
inclusive range 1 to 1000, otherwise 1000. -/
def specPageSize (pageSize0 : Int) : Int :=
  if 1 ≤ pageSize0 ∧ pageSize0 ≤ 1000 then pageSize0 else 1000

/-- The row cap the specification prescribes: 10000 when the option is zero or
negative, otherwise the option. -/
def specMaxRows (maxRows0 : Int) : Int :=
  if maxRows0 ≤ 0 then 10000 else maxRows0

/-- The start offset the specification prescribes: 0 when the option is negative,
otherwise the option. -/
def specStart (start0 : Int) : Int :=
  if start0 < 0 then 0 else start0

/-- The request for one page: a GET of the rows URL with the given start and limit. -/
def getRowsRequest (cfg : SeaTableClient) (tableName viewName : String) (convert : Bool)
    (offset limit : Int) : HttpRequest :=
  ⟨"GET", ⟨rowsUrl cfg, rowsQuery tableName viewName offset limit convert⟩,
    requestHeaders cfg.Token none, none⟩

/-- The page of rows the environment returns for the i-th request: the rows read
out of the decoded response body, and no rows when there is no decodable
response. -/
def answerPage (env : Env) (i : Nat) (req : HttpRequest) : List Value :=
  match env.roundTrip i req with
  | .reply body _ =>
    match env.jsonUnmarshal body with
    | .ok parsed => rowsPageOf parsed
    | .error _ => []
  | _ => []

/-- The pages returned for a run of requests sent from position `i` on. -/
def pagesFrom (env : Env) : Nat → List HttpRequest → List (List Value)
  | _, [] => []
  | i, r :: rs => answerPage env i r :: pagesFrom env (i + 1) rs

/-- The number of rows in the first `i` pages. -/
def rowsBefore (pages : List (List Value)) (i : Nat) : Int :=
  (((pages.take i).map List.length).sum : Nat)

/-- The requests that paging issues for a sequence of returned pages, from a
given offset and count of rows fetched so far: each asks for the smaller of
the page size and the rows still wanted, at the current offset, and the offset
then advances, in Go `int` arithmetic, by the rows the page returned. -/
def requestsFor (cfg : SeaTableClient) (tableName viewName : String) (convert : Bool)
    (pageSize maxRows : Int) : Int → Int → List (List Value) → List HttpRequest
  | _, _, [] => []
  | offset, fetched, page :: pages =>
    getRowsRequest cfg tableName viewName convert offset (min pageSize (maxRows - fetched)) ::
      requestsFor cfg tableName viewName convert pageSize maxRows
        (wrapInt64 (offset + page.length)) (fetched + page.length) pages

/-- Paging goes on after the i-th of the pages returned so far, `fetched` rows
having been accumulated before the first of them: the page is not empty, it
has at least as many rows as the limit requested for it, and the accumulated
count after it is still below the row cap. -/
def continuesAt (pageSize maxRows fetched : Int) (pages : List (List Value)) (i : Nat) : Prop :=
  (pages.getD i []).length ≠ 0 ∧
  min pageSize (maxRows - (fetched + rowsBefore pages i)) ≤ ((pages.getD i []).length : Int) ∧
  fetched + rowsBefore pages (i + 1) < maxRows

/-- The environment answers the i-th request, whatever it asks, with a response
that decodes to the given page of rows. -/
def Answers (env : Env) (i : Nat) (page : List Value) : Prop :=
  ∀ req, ∃ body status parsed, env.roundTrip i req = .reply body status ∧
    env.jsonUnmarshal body = .ok parsed ∧ rowsPageOf parsed = page

/-- The environment answers the requests from position `i` on with the given
pages, each of them full: not empty, with at least as many rows as the limit
requested for it, and leaving the accumulated count below the row cap. -/
def FullPages (env : Env) (pageSize maxRows : Int) : Nat → Int → List (List Value) → Prop
  | _, _, [] => True
  | i, fetched, page :: pages =>
    Answers env i page ∧ page.length ≠ 0 ∧
    min pageSize (maxRows - fetched) ≤ (page.length : Int) ∧
    fetched + page.length < maxRows ∧
    FullPages env pageSize maxRows (i + 1) (fetched + page.length) pages

/-- The inputs of a Rows Get Many invocation pass validation: both inputs are
read without error, the client id is registered for `cfg`, and the table name
is, after trimming, the given non-empty value. -/
structure ValidPaging (reg : Registry) (n : SeaTableRowsGetMany) (cfg : SeaTableClient)
    (tableName : String) : Prop where
  client : ∃ cid, n.InClientID = .ok cid ∧ getSeaTableClient reg cid = some cfg
  table : ∃ s, n.InTableName = .ok s ∧ trimSpace s = tableName ∧ tableName ≠ ""

/-! ## Reference definitions for the Auto Link join -/

/-- The ids of the right rows whose key value is `k` and whose key value and
`_id` are both non-empty, in the order of the rows. -/
def rightTargets (env : Env) (rightKeyCol : String) (rightRows : List Row) (k : String) :
    List String :=
  (rightRows.filter (fun r => decide (getStringFromRow env r rightKeyCol = k ∧
      getStringFromRow env r rightKeyCol ≠ "" ∧ getStringFromRow env r "_id" ≠ ""))).map
    (fun r => getStringFromRow env r "_id")

/-- A left row is matched by the targets `T` when it has a non-empty `_id`, a
non-empty key value, and `T` has at least one id for that key value. -/
def isMatched (env : Env) (leftKeyCol : String) (T : String → List String) (row : Row) : Bool :=
  decide (getStringFromRow env row "_id" ≠ "" ∧ getStringFromRow env row leftKeyCol ≠ "" ∧
    T (getStringFromRow env row leftKeyCol) ≠ [])

/-- The number of matched rows among the left rows. -/
def matchedCount (env : Env) (leftKeyCol : String) (T : String → List String)
    (leftRows : List Row) : Nat :=
  (leftRows.filter (isMatched env leftKeyCol T)).length

/-- The sum, over the matched left rows, of the number of their targets. -/
def targetCount (env : Env) (leftKeyCol : String) (T : String → List String)
    (leftRows : List Row) : Nat :=
  ((leftRows.filter (isMatched env leftKeyCol T)).map
    (fun row => (T (getStringFromRow env row leftKeyCol)).length)).sum

/-- The link-update request for a left row with the targets `T` of its key:
a PUT on the links URL carrying `row_id` and `other_rows_ids`. -/
def putRequest (env : Env) (cfg : SeaTableClient) (linkID tableName otherTableName leftKeyCol : String)
    (T : String → List String) (row : Row) : HttpRequest :=
  let body := linkUpdateBody linkID tableName otherTableName (getStringFromRow env row "_id")
    (T (getStringFromRow env row leftKeyCol))
  ⟨"PUT", linksUrl cfg, requestHeaders cfg.Token (some body), some body⟩

/-- One link-update request per matched left row, in the order of the rows. -/
def putRequests (env : Env) (cfg : SeaTableClient) (linkID tableName otherTableName leftKeyCol : String)
    (T : String → List String) (leftRows : List Row) : List HttpRequest :=
  (leftRows.filter (isMatched env leftKeyCol T)).map
    (putRequest env cfg linkID tableName otherTableName leftKeyCol T)

/-- The inputs of an Auto Link invocation pass validation: every input is read
without error, the client id is registered for `cfg`, and the five required
strings are, after trimming, the given non-empty values. -/
structure ValidInputs (reg : Registry) (n : SeaTableAutoLink) (cfg : SeaTableClient)
    (tableName otherTableName linkID leftKeyCol rightKeyCol : String) : Prop where
  client : ∃ cid, n.InClientID = .ok cid ∧ getSeaTableClient reg cid = some cfg
  table : ∃ s, n.InTableName = .ok s ∧ trimSpace s = tableName ∧ tableName ≠ ""
  otherTable : ∃ s, n.InOtherTableName = .ok s ∧ trimSpace s = otherTableName ∧ otherTableName ≠ ""
  link : ∃ s, n.InLinkID = .ok s ∧ trimSpace s = linkID ∧ linkID ≠ ""
  leftKey : ∃ s, n.InLeftKeyColumn = .ok s ∧ trimSpace s = leftKeyCol ∧ leftKeyCol ≠ ""
  rightKey : ∃ s, n.InRightKeyColumn = .ok s ∧ trimSpace s = rightKeyCol ∧ rightKeyCol ≠ ""

/-- The request a successful `fetchRowsForKey` has sent. -/
def fetchRequest (cfg : SeaTableClient) (tableName keyColumn : String) (limit : Int) :
    HttpRequest :=
  ⟨"POST", sqlUrl cfg, requestHeaders cfg.Token (some (fetchBody tableName keyColumn limit)),
    some (fetchBody tableName keyColumn limit)⟩

/-- The node with its dry-run option read as `b` and every other variable unchanged. -/
def withDryRun (n : SeaTableAutoLink) (b : Bool) : SeaTableAutoLink :=
  { n with OptDryRun := b }

/-- The environment that answers as `env` does, except that the status code of
every response is replaced through `f`. -/
def withStatus (f : Nat → HttpRequest → Int → Int) (env : Env) : Env where
  marshalError := env.marshalError
  newRequestError := env.newRequestError
  roundTrip := fun k r =>
    match env.roundTrip k r with
    | .doFailed e => .doFailed e
    | .readFailed status e => .readFailed (f k r status) e
    | .reply body status => .reply body (f k r status)
  jsonUnmarshal := env.jsonUnmarshal
  jsonUnmarshalResults := env.jsonUnmarshalResults
  sprintV := env.sprintV
  urlParseError := env.urlParseError

/-! ## The nodes that make a single API call -/

/-- What an `OnMessage` leaves behind: the error it returns (`none` for nil), the
output variables it has set, by the name of the variable and in the order of
the `Set` calls, and the requests it has sent. -/
structure NodeResult where
  err : Option Error
  writes : List (String × Value)
  trace : List HttpRequest

/-- The response of the upload-link endpoint, the Go type `uploadLinkResponse`. -/
structure UploadLinkResponse where
  UploadLink : String
  ParentPath : String
  FileRelativePath : String
  ImageRelativePath : String

/-- Library functions and the local machine, as the nodes below use them. -/
structure Host where
  /-- The call `strings.ToLower(s)`. -/
  toLower : String → String
  /-- The text `err.Error()` of an error value, as the verb `%v` prints it. -/
  errorText : Error → String
  /-- The call `json.Unmarshal(s, &ids)` with `ids` of type `[]string`. -/
  jsonUnmarshalStrings : String → Except Error (List String)
  /-- The call `json.Unmarshal(body, &out)` with `out` of type `uploadLinkResponse`. -/
  jsonUnmarshalUploadLink : String → Except Error UploadLinkResponse
  /-- The call `json.Unmarshal(body, &arr)` with `arr` of type `[]map[string]any`. -/
  jsonUnmarshalObjects : String → Except Error (List Row)
  /-- The call `filepath.Base(path)`. -/
  filepathBase : String → String
  /-- The call `filepath.Dir(path)`. -/
  filepathDir : String → String
  /-- The call `os.Open(path)`: `some e` when it fails. -/
  openError : String → Option Error
  /-- Writing the multipart form of an upload (`CreateFormFile`, `io.Copy`,
  `WriteField`, `Close`) for a file path, a file name and a parent directory:
  the first error, or the content type `mw.FormDataContentType()`. -/
  writeForm : String → String → String → Except Error String
  /-- The call `os.MkdirAll(dir, 0755)`: `some e` when it fails. -/
  mkdirAllError : String → Option Error
  /-- The call `os.Create(path)`: `some e` when it fails. -/
  createError : String → Option Error
  /-- The call `io.Copy(outFile, resp.Body)` for a path and a response body that
  can be read: the error, or the number of bytes written. -/
  copyToFile : String → String → Except Error Int

/-- The error every node returns for a client id that is not registered. -/
def unknownClient : Error :=
  .runtimeError "ErrInvalidArg" "Unknown Client ID – run SeaTable.Connect first"

/-- A return with an error before anything was set or sent. -/
def failed (e : Error) : NodeResult := ⟨some e, [], []⟩

/-- The value of the variable `parsed` after `json.Unmarshal(respBody, &parsed)`:
nil when the body is not valid JSON. -/
def parsedOrNil (decoded : Except Error Value) : Value :=
  match decoded with
  | .ok v => v
  | .error _ => .null

/-- The tail shared by the nodes that pass a response through: the call of
`doSeaTableRequest`, the return of its error, and otherwise the outputs
`statusCode`, `body`, `json` (set only when the body is valid JSON) followed by
the outputs the node derives from the parsed body. -/
def passThrough (env : Env) (method : String) (url : Url) (token : String)
    (body : Option Value) (extra : Value → List (String × Value)) : NodeResult :=
  let r := doSeaTableRequest env 0 method url token body
  match r.1.err with
  | some e => ⟨some e, [], r.2.toList⟩
  | none =>
    let decoded := env.jsonUnmarshal r.1.body
    ⟨none,
      [("statusCode", .int r.1.status), ("body", .str r.1.body)] ++
        (match decoded with
          | .ok parsed => [("json", parsed)]
          | .error _ => []) ++
        extra (parsedOrNil decoded),
      r.2.toList⟩

/-- No output beyond `statusCode`, `body` and `json`. -/
def noExtra (_ : Value) : List (String × Value) := []

/-! ### Search (`search.go`) -/

/-- The Go function `strings.Split(s, ",")` on the characters of `s`. -/
def splitComma : List Char → List (List Char)
  | [] => [[]]
  | c :: cs =>
    match splitComma cs with
    | [] => [[]]
    | part :: parts => if c = ',' then [] :: part :: parts else (c :: part) :: parts

/-- The comma-separated parts of `s`, each trimmed, the empty ones dropped: the
loop shared by `splitColumns` and `parseRowIDs`. -/
def trimmedParts (s : String) : List String :=
  (((splitComma s.toList).map String.mk).map trimSpace).filter (fun part => part ≠ "")

/-- The Go function `splitColumns`. -/
def splitColumns (s : String) : List String := trimmedParts s

/-- The node SeaTableSearch: the values its variables yield when read. -/
structure SeaTableSearch where
  InClientID : Except Error String
  InTableName : Except Error String
  InColumns : Except Error String
  InKeyword : Except Error String
  OptMatchMode : String
  OptCaseSensitive : Bool
  OptMaxRows : Int
  OptConvert : Bool

/-- The condition and the parameter appended for one column by the loop of
`SeaTableSearch.OnMessage`. -/
def searchCondition (h : Host) (caseSensitive : Bool) (matchMode col keyword : String) :
    String × Value :=
  if !caseSensitive then
    if matchMode = "equals" then
      ("LOWER(" ++ col ++ ") = ?", .str (h.toLower keyword))
    else if matchMode = "startsWith" then
      ("LOWER(" ++ col ++ ") LIKE ?", .str (h.toLower keyword ++ "%"))
    else if matchMode = "endsWith" then
      ("LOWER(" ++ col ++ ") LIKE ?", .str ("%" ++ h.toLower keyword))
    else
      ("LOWER(" ++ col ++ ") LIKE ?", .str ("%" ++ h.toLower keyword ++ "%"))
  else
    if matchMode = "equals" then
      (col ++ " = ?", .str keyword)
    else if matchMode = "startsWith" then
      (col ++ " LIKE ?", .str (keyword ++ "%"))
    else if matchMode = "endsWith" then
      (col ++ " LIKE ?", .str ("%" ++ keyword))
    else
      (col ++ " LIKE ?", .str ("%" ++ keyword ++ "%"))

/-- The request body of the Search node. -/
def searchBody (h : Host) (tableName : String) (cols : List String) (keyword matchMode : String)
    (caseSensitive : Bool) (maxRows : Int) (convert : Bool) : Value :=
  let conditions := cols.map (fun col => (searchCondition h caseSensitive matchMode col keyword).1)
  let params := cols.map (fun col => (searchCondition h caseSensitive matchMode col keyword).2)
  let whereClause := String.intercalate " OR " conditions
  let sqlText := "SELECT * FROM " ++ tableName ++ " WHERE " ++ whereClause ++ " LIMIT " ++
    toString maxRows
  .obj [("sql", .str sqlText), ("params", .arr params), ("convert_keys", .bool convert)]

/-- The elements of the array under `key` in a parsed object, and none when the
body is no object or has no array there. -/
def arrayField (key : String) (parsed : Value) : List Value :=
  match parsed with
  | .obj m =>
    match mapGet m key with
    | some (.arr items) => items
    | _ => []
  | _ => []

/-- The outputs `rows` and `count` of the Search node. -/
def searchExtra (parsed : Value) : List (String × Value) :=
  [("rows", .arr (arrayField "results" parsed)),
    ("count", .int (arrayField "results" parsed).length)]

/-- The method `SeaTableSearch.OnMessage`. -/
def SeaTableSearch.OnMessage (env : Env) (h : Host) (reg : Registry) (n : SeaTableSearch) :
    NodeResult :=
  match n.InClientID with
  | .error e => failed e
  | .ok clientID =>
  match getSeaTableClient reg clientID with
  | none => failed unknownClient
  | some cfg =>
  match n.InTableName with
  | .error e => failed e
  | .ok tableName0 =>
  let tableName := trimSpace tableName0
  if tableName = "" then failed (.runtimeError "ErrInvalidArg" "Table Name is required")
  else
  match n.InColumns with
  | .error e => failed e
  | .ok columnsStr =>
  let cols := splitColumns columnsStr
  if cols.length = 0 then
    failed (.runtimeError "ErrInvalidArg" "At least one column is required")
  else
  match n.InKeyword with
  | .error e => failed e
  | .ok keyword0 =>
  let keyword := trimSpace keyword0
  if keyword = "" then failed (.runtimeError "ErrInvalidArg" "Keyword is required")
  else
    let matchMode := if n.OptMatchMode = "" then "contains" else n.OptMatchMode
    let maxRows := if n.OptMaxRows ≤ 0 then 100 else n.OptMaxRows
    passThrough env "POST" (sqlUrl cfg) cfg.Token
      (some (searchBody h tableName cols keyword matchMode n.OptCaseSensitive maxRows
        n.OptConvert)) searchExtra

/-! ### Link (`link.go`) -/

/-- The Go function `parseRowIDs`; in the result `none` is the nil slice. -/
def parseRowIDs (h : Host) (s : String) : Except Error (Option (List String)) :=
  if s = "" then .ok (some [])
  else
    let s1 := trimSpace s
    if s1.toList.head? = some '[' then
      match h.jsonUnmarshalStrings s1 with
      | .error e => .error e
      | .ok ids => .ok (some ids)
    else
      let ids := trimmedParts s1
      .ok (if ids = [] then none else some ids)

/-- A `[]string` as a value of type `any`: the nil slice serialises as null. -/
def stringsValue (ids : Option (List String)) : Value :=
  match ids with
  | none => .null
  | some l => .arr (l.map Value.str)

/-- The node SeaTableLink: the values its variables yield when read. -/
structure SeaTableLink where
  InClientID : Except Error String
  InOperation : Except Error String
  InLinkID : Except Error String
  InTableName : Except Error String
  InOtherTableName : Except Error String
  InRowID : Except Error String
  OptOtherRowID : String
  OptOtherRowIDs : String

/-- The payload of the operations add and remove. -/
def linkRowPayload (linkID tableName otherTableName rowID otherRowID : String) : Value :=
  .obj [("link_id", .str linkID), ("table_name", .str tableName),
    ("other_table_name", .str otherTableName), ("table_row_id", .str rowID),
    ("other_table_row_id", .str otherRowID)]

/-- The payload of the operation update. -/
def linkUpdatePayload (linkID tableName otherTableName rowID : String)
    (ids : Option (List String)) : Value :=
  .obj [("link_id", .str linkID), ("table_name", .str tableName),
    ("other_table_name", .str otherTableName), ("row_id", .str rowID),
    ("other_rows_ids", stringsValue ids)]

/-- The `switch op` of `SeaTableLink.OnMessage` and the call that follows it. -/
def linkSwitch (env : Env) (h : Host) (cfg : SeaTableClient) (n : SeaTableLink)
    (op linkID tableName otherTableName rowID : String) : NodeResult :=
  if op = "add" then
    let otherRowID := trimSpace n.OptOtherRowID
    if otherRowID = "" then
      failed (.runtimeError "ErrInvalidArg" "Other Row ID is required for add")
    else
      passThrough env "POST" (linksUrl cfg) cfg.Token
        (some (linkRowPayload linkID tableName otherTableName rowID otherRowID)) noExtra
  else if op = "remove" then
    let otherRowID := trimSpace n.OptOtherRowID
    if otherRowID = "" then
      failed (.runtimeError "ErrInvalidArg" "Other Row ID is required for remove")
    else
      passThrough env "DELETE" (linksUrl cfg) cfg.Token
        (some (linkRowPayload linkID tableName otherTableName rowID otherRowID)) noExtra
  else if op = "update" then
    let raw := trimSpace n.OptOtherRowIDs
    if raw = "" then
      failed (.runtimeError "ErrInvalidArg" "Other Row IDs is required for update")
    else
      match parseRowIDs h raw with
      | .error e =>
        failed (.runtimeError "ErrInvalidArg" ("parse Other Row IDs: " ++ h.errorText e))
      | .ok ids =>
        passThrough env "PUT" (linksUrl cfg) cfg.Token
          (some (linkUpdatePayload linkID tableName otherTableName rowID ids)) noExtra
  else
    failed (.runtimeError "ErrInvalidArg" "Operation must be add, update or remove")

/-- The method `SeaTableLink.OnMessage`. -/
def SeaTableLink.OnMessage (env : Env) (h : Host) (reg : Registry) (n : SeaTableLink) :
    NodeResult :=
  match n.InClientID with
  | .error e => failed e
  | .ok clientID =>
  match getSeaTableClient reg clientID with
  | none => failed unknownClient
  | some cfg =>
  match n.InOperation with
  | .error e => failed e
  | .ok op0 =>
  let op := h.toLower (trimSpace op0)
  match n.InLinkID with
  | .error e => failed e
  | .ok linkID0 =>
  let linkID := trimSpace linkID0
  match n.InTableName with
  | .error e => failed e
  | .ok tableName0 =>
  let tableName := trimSpace tableName0
  match n.InOtherTableName with
  | .error e => failed e
  | .ok otherTableName0 =>
  let otherTableName := trimSpace otherTableName0
  match n.InRowID with
  | .error e => failed e
  | .ok rowID0 =>
  let rowID := trimSpace rowID0
  if linkID = "" ∨ tableName = "" ∨ otherTableName = "" ∨ rowID = "" then
    failed (.runtimeError "ErrInvalidArg" "Link ID, Table, Other Table and Row ID are required")
  else
    linkSwitch env h cfg n op linkID tableName otherTableName rowID

/-! ### Rows (`rows.go`) -/

/-- The node SeaTableRows: the values its variables yield when read. -/
structure SeaTableRows where
  InClientID : Except Error String
  OptAction : String
  InTableName : Except Error String
  OptViewName : Except Error String
  OptStart : Except Error Int
  OptLimit : Except Error Int
  OptConvert : Except Error Bool
  OptRowID : Except Error String
  OptRowData : Except Error Value

/-- The query parameters of the action list, in the order of the `q.Set` calls. -/
def listQuery (n : SeaTableRows) (tableName : String) : List (String × String) :=
  [("table_name", tableName)] ++
  (match n.OptViewName with
    | .ok v => if trimSpace v ≠ "" then [("view_name", v)] else []
    | .error _ => []) ++
  (match n.OptStart with
    | .ok s => if s > 0 then [("start", toString s)] else []
    | .error _ => []) ++
  (match n.OptLimit with
    | .ok l => if l > 0 then [("limit", toString l)] else []
    | .error _ => []) ++
  (match n.OptConvert with
    | .ok c => if c then [("convert_keys", "true")] else []
    | .error _ => [])

/-- The row data of an append or update: `none` when the read failed or gave nil. -/
def readRowData (n : SeaTableRows) : Option Value :=
  match n.OptRowData with
  | .error _ => none
  | .ok .null => none
  | .ok v => some v

/-- The row id of an update or delete: `none` when the read failed or gave a
blank text. -/
def readRowID (n : SeaTableRows) : Option String :=
  match n.OptRowID with
  | .error _ => none
  | .ok rowID => if trimSpace rowID = "" then none else some rowID

/-- The `switch action` of `SeaTableRows.OnMessage` and the call that follows it. -/
def rowsSwitch (env : Env) (cfg : SeaTableClient) (n : SeaTableRows) (tableName action : String) :
    NodeResult :=
  if action = "list" then
    match env.urlParseError (rowsUrl cfg) with
    | some e => failed e
    | none => passThrough env "GET" ⟨rowsUrl cfg, listQuery n tableName⟩ cfg.Token none noExtra
  else if action = "append" then
    match readRowData n with
    | none => failed (.runtimeError "ErrInvalidArg" "Row Data is required for append")
    | some rowData =>
      passThrough env "POST" ⟨rowsUrl cfg, []⟩ cfg.Token
        (some (.obj [("table_name", .str tableName), ("row", rowData)])) noExtra
  else if action = "update" then
    match readRowID n with
    | none => failed (.runtimeError "ErrInvalidArg" "Row ID is required for update")
    | some rowID =>
      match readRowData n with
      | none => failed (.runtimeError "ErrInvalidArg" "Row Data is required for update")
      | some rowData =>
        passThrough env "PUT" ⟨rowsUrl cfg, []⟩ cfg.Token
          (some (.obj [("table_name", .str tableName), ("row_id", .str rowID),
            ("row", rowData)])) noExtra
  else if action = "delete" then
    match readRowID n with
    | none => failed (.runtimeError "ErrInvalidArg" "Row ID is required for delete")
    | some rowID =>
      passThrough env "DELETE" ⟨rowsUrl cfg, []⟩ cfg.Token
        (some (.obj [("table_name", .str tableName), ("row_id", .str rowID)])) noExtra
  else
    failed (.runtimeError "ErrInvalidArg" "Unsupported action for Rows")

/-- The method `SeaTableRows.OnMessage`. -/
def SeaTableRows.OnMessage (env : Env) (reg : Registry) (n : SeaTableRows) : NodeResult :=
  match n.InClientID with
  | .error e => failed e
  | .ok clientID =>
  match getSeaTableClient reg clientID with
  | none => failed unknownClient
  | some cfg =>
  match n.InTableName with
  | .error e => failed e
  | .ok tableName0 =>
  let tableName := trimSpace tableName0
  if tableName = "" then failed (.runtimeError "ErrInvalidArg" "Table Name is required")
  else
    rowsSwitch env cfg n tableName (if n.OptAction = "" then "list" else n.OptAction)

/-! ### SQL Query (`sql_query.go`) -/

/-- The node SeaTableSQLQuery: the values its variables yield when read. -/
structure SeaTableSQLQuery where
  InClientID : Except Error String
  InSQL : Except Error String
  OptParams : Except Error Value
  OptConvert : Bool

/-- The slice `params` of `SeaTableSQLQuery.OnMessage`.  A value that is no
slice is serialised and decoded into `[]any`, which fails for every dynamic
type of `Value` other than a slice and leaves `params` nil. -/
def sqlParams (n : SeaTableSQLQuery) : List Value :=
  match n.OptParams with
  | .ok (.arr t) => t
  | _ => []

/-- The request body of the SQL Query node. -/
def sqlQueryBody (sqlText : String) (params : List Value) (convert : Bool) : Value :=
  .obj ([("sql", .str sqlText)] ++
    (if params.length > 0 then [("params", .arr params)] else []) ++
    [("convert_keys", .bool convert)])

/-- The method `SeaTableSQLQuery.OnMessage`. -/
def SeaTableSQLQuery.OnMessage (env : Env) (reg : Registry) (n : SeaTableSQLQuery) :
    NodeResult :=
  match n.InClientID with
  | .error e => failed e
  | .ok clientID =>
  match getSeaTableClient reg clientID with
  | none => failed unknownClient
  | some cfg =>
  match n.InSQL with
  | .error e => failed e
  | .ok sqlText =>
  if trimSpace sqlText = "" then failed (.runtimeError "ErrInvalidArg" "SQL is required")
  else
    passThrough env "POST" (sqlUrl cfg) cfg.Token
      (some (sqlQueryBody sqlText (sqlParams n) n.OptConvert)) noExtra

/-! ### Get Row (`get_row.go`) -/

/-- The node SeaTableGetRow: the values its variables yield when read. -/
structure SeaTableGetRow where
  InClientID : Except Error String
  InTableName : Except Error String
  InRowID : Except Error String
  OptViewName : String
  OptConvert : Bool

/-- The output `row` of the Get Row node: the field `row` of a parsed object
when it has one, the parsed body otherwise. -/
def getRowExtra (parsed : Value) : List (String × Value) :=
  match parsed with
  | .obj m =>
    match mapGet m "row" with
    | some v => [("row", v)]
    | none => [("row", parsed)]
  | _ => [("row", parsed)]

/-- The method `SeaTableGetRow.OnMessage`. -/
def SeaTableGetRow.OnMessage (env : Env) (reg : Registry) (n : SeaTableGetRow) : NodeResult :=
  match n.InClientID with
  | .error e => failed e
  | .ok clientID =>
  match getSeaTableClient reg clientID with
  | none => failed unknownClient
  | some cfg =>
  match n.InTableName with
  | .error e => failed e
  | .ok tableName0 =>
  let tableName := trimSpace tableName0
  if tableName = "" then failed (.runtimeError "ErrInvalidArg" "Table Name is required")
  else
  match n.InRowID with
  | .error e => failed e
  | .ok rowID0 =>
  let rowID := trimSpace rowID0
  if rowID = "" then failed (.runtimeError "ErrInvalidArg" "Row ID is required")
  else
    match env.urlParseError (rowsUrl cfg ++ rowID ++ "/") with
    | some e => failed (.wrapf "parse Get Row URL" e)
    | none =>
      passThrough env "GET"
        ⟨rowsUrl cfg ++ rowID ++ "/",
          [("table_name", tableName)] ++
          (if trimSpace n.OptViewName ≠ "" then [("view_name", n.OptViewName)] else []) ++
          (if n.OptConvert then [("convert_keys", "true")] else [])⟩
        cfg.Token none getRowExtra

/-! ### Get Metadata (`get_metadata.go`) -/

/-- The node SeaTableGetMetadata: the value its variable yields when read. -/
structure SeaTableGetMetadata where
  InClientID : Except Error String

/-- The variable `tables` of `SeaTableGetMetadata.OnMessage` before the final
default: `.null` is nil. -/
def metadataTables (parsed : Value) : Value :=
  match parsed with
  | .obj m =>
    let tables : Value :=
      match mapGet m "metadata" with
      | some (.obj metadata) =>
        match mapGet metadata "tables" with
        | some t => t
        | none => .null
      | _ => .null
    match tables with
    | .null =>
      match mapGet m "tables" with
      | some t => t
      | none => .null
    | t => t
  | _ => .null

/-- The output `tables` of the Get Metadata node. -/
def metadataExtra (parsed : Value) : List (String × Value) :=
  match metadataTables parsed with
  | .null => [("tables", .arr [])]
  | t => [("tables", t)]

/-- The method `SeaTableGetMetadata.OnMessage`. -/
def SeaTableGetMetadata.OnMessage (env : Env) (reg : Registry) (n : SeaTableGetMetadata) :
    NodeResult :=
  match n.InClientID with
  | .error e => failed e
  | .ok clientID =>
  match getSeaTableClient reg clientID with
  | none => failed unknownClient
  | some cfg =>
    passThrough env "GET"
      ⟨cfg.Server ++ "/api-gateway/api/v2/dtables/" ++ cfg.BaseUUID ++ "/metadata/", []⟩
      cfg.Token none metadataExtra

/-! ### List Columns and List Views (`list_columns.go`, `list_views.go`) -/

/-- The node SeaTableListColumns: the values its variables yield when read. -/
structure SeaTableListColumns where
  InClientID : Except Error String
  InTableName : Except Error String
  OptViewName : String

/-- The node SeaTableListViews: the values its variables yield when read. -/
structure SeaTableListViews where
  InClientID : Except Error String
  InTableName : Except Error String

/-- The outputs named `key` and `count` of the two list nodes. -/
def listExtra (key : String) (parsed : Value) : List (String × Value) :=
  [(key, .arr (arrayField key parsed)), ("count", .int (arrayField key parsed).length)]

/-- The method `SeaTableListColumns.OnMessage`. -/
def SeaTableListColumns.OnMessage (env : Env) (reg : Registry) (n : SeaTableListColumns) :
    NodeResult :=
  match n.InClientID with
  | .error e => failed e
  | .ok clientID =>
  match getSeaTableClient reg clientID with
  | none => failed unknownClient
  | some cfg =>
  match n.InTableName with
  | .error e => failed e
  | .ok tableName0 =>
  let tableName := trimSpace tableName0
  if tableName = "" then failed (.runtimeError "ErrInvalidArg" "Table Name is required")
  else
    let raw := cfg.Server ++ "/api-gateway/api/v2/dtables/" ++ cfg.BaseUUID ++ "/columns/"
    match env.urlParseError raw with
    | some e => failed (.wrapf "parse URL" e)
    | none =>
      passThrough env "GET"
        ⟨raw, [("table_name", tableName)] ++
          (if trimSpace n.OptViewName ≠ "" then [("view_name", n.OptViewName)] else [])⟩
        cfg.Token none (listExtra "columns")

/-- The method `SeaTableListViews.OnMessage`. -/
def SeaTableListViews.OnMessage (env : Env) (reg : Registry) (n : SeaTableListViews) :
    NodeResult :=
  match n.InClientID with
  | .error e => failed e
  | .ok clientID =>
  match getSeaTableClient reg clientID with
  | none => failed unknownClient
  | some cfg =>
  match n.InTableName with
  | .error e => failed e
  | .ok tableName0 =>
  let tableName := trimSpace tableName0
  if tableName = "" then failed (.runtimeError "ErrInvalidArg" "Table Name is required")
  else
    let raw := cfg.Server ++ "/api-gateway/api/v2/dtables/" ++ cfg.BaseUUID ++ "/views/"
    match env.urlParseError raw with
    | some e => failed (.wrapf "parse URL" e)
    | none =>
      passThrough env "GET" ⟨raw, [("table_name", tableName)]⟩ cfg.Token none (listExtra "views")

/-! ### Upload Attachment (`upload_attachment.go`) -/

/-- The node SeaTableUploadAttachment: the values its variables yield when read. -/
structure SeaTableUploadAttachment where
  InClientID : Except Error String
  InFilePath : Except Error String
  OptFileName : String
  OptKind : String

/-- A `map[string]any` as a value of type `any`. -/
def rowValue (row : Row) : Value :=
  match row with
  | some fields => .obj fields
  | none => .null

/-- The Go function `getUploadLink`, with the request it sent, if any. -/
def getUploadLink (env : Env) (h : Host) (cfg : SeaTableClient) :
    Except Error UploadLinkResponse × List HttpRequest :=
  let r := doSeaTableRequest env 0 "GET" ⟨cfg.Server ++ "/api/v2.1/dtable/app-upload-link/", []⟩
    cfg.Token none
  match r.1.err with
  | some e => (.error e, r.2.toList)
  | none =>
    if r.1.status ≥ 300 then
      (.error (.errorf ("get upload link failed: status=" ++ toString r.1.status ++ " body=" ++
        r.1.body)), r.2.toList)
    else
      match h.jsonUnmarshalUploadLink r.1.body with
      | .error e => (.error e, r.2.toList)
      | .ok out =>
        if out.UploadLink = "" then (.error (.errorf "upload_link is empty"), r.2.toList)
        else (.ok out, r.2.toList)

/-- The Go function `uploadFileWithLink`, with the request it sent, if any.  `k`
is the number of requests sent before.  The multipart body is represented by
its two parts, the file under its name and the field `parent_dir`. -/
def uploadFileWithLink (env : Env) (h : Host) (k : Nat) (cfg : SeaTableClient)
    (link : UploadLinkResponse) (filePath fileName0 kind : String) :
    Except Error (Row × String) × List HttpRequest :=
  let fileName := if fileName0 = "" then h.filepathBase filePath else fileName0
  match h.openError filePath with
  | some e => (.error (.wrapf "open file" e), [])
  | none =>
    match h.writeForm filePath fileName link.ParentPath with
    | .error e => (.error e, [])
    | .ok contentType =>
      let uploadURL : Url :=
        ⟨cfg.Server ++ "/seafhttp/upload-api/" ++ link.UploadLink ++ "?ret-json=1", []⟩
      match env.newRequestError "POST" uploadURL with
      | some e => (.error e, [])
      | none =>
        let req : HttpRequest := ⟨"POST", uploadURL, [("Content-Type", contentType)],
          some (.obj [("file", .str fileName), ("parent_dir", .str link.ParentPath)])⟩
        match env.roundTrip k req with
        | .doFailed e => (.error e, [req])
        | .readFailed _ e => (.error e, [req])
        | .reply respBody status =>
          if status ≥ 300 then
            (.error (.errorf ("upload failed: status=" ++ toString status ++ " body=" ++
              respBody)), [req])
          else
            match h.jsonUnmarshalObjects respBody with
            | .error e => (.error e, [req])
            | .ok [] => (.error (.errorf "no attachment returned"), [req])
            | .ok (first :: _) =>
              (.ok (first,
                if kind = "image" ∧ link.ImageRelativePath ≠ "" then link.ImageRelativePath
                else link.FileRelativePath), [req])

/-- The method `SeaTableUploadAttachment.OnMessage`. -/
def SeaTableUploadAttachment.OnMessage (env : Env) (h : Host) (reg : Registry)
    (n : SeaTableUploadAttachment) : NodeResult :=
  match n.InClientID with
  | .error e => failed e
  | .ok clientID =>
  match getSeaTableClient reg clientID with
  | none => failed unknownClient
  | some cfg =>
  match n.InFilePath with
  | .error e => failed e
  | .ok filePath =>
  if trimSpace filePath = "" then failed (.runtimeError "ErrInvalidArg" "File Path is required")
  else
    let kind := if n.OptKind = "" then "file" else n.OptKind
    let l := getUploadLink env h cfg
    match l.1 with
    | .error e => ⟨some e, [], l.2⟩
    | .ok linkResp =>
      let u := uploadFileWithLink env h l.2.length cfg linkResp filePath n.OptFileName kind
      match u.1 with
      | .error e => ⟨some e, [], l.2 ++ u.2⟩
      | .ok (attachment, rel) =>
        ⟨none, [("attachment", rowValue attachment), ("relativePath", .str rel)], l.2 ++ u.2⟩

/-! ### Download File (`download_file.go`) -/

/-- The node SeaTableDownloadFile: the values its variables yield when read. -/
structure SeaTableDownloadFile where
  InClientID : Except Error String
  InFilePath : Except Error String
  OptSavePath : String

/-- The Go function `getDownloadLink`, with the request it sent, if any. -/
def getDownloadLink (env : Env) (cfg : SeaTableClient) (filePath : String) :
    Except Error String × List HttpRequest :=
  let r := doSeaTableRequest env 0 "GET"
    ⟨cfg.Server ++ "/api/v2.1/dtable/app-download-link/?path=" ++ filePath, []⟩ cfg.Token none
  match r.1.err with
  | some e => (.error e, r.2.toList)
  | none =>
    if r.1.status ≥ 300 then
      (.error (.errorf ("get download link failed: status=" ++ toString r.1.status ++ " body=" ++
        r.1.body)), r.2.toList)
    else
      match unmarshalObject env r.1.body with
      | .error e => (.error (.wrapf "parse download link response" e), r.2.toList)
      | .ok result =>
        match mapGet result "download_link" with
        | some (.str downloadLink) =>
          if downloadLink = "" then
            (.error (.errorf "download_link not found in response"), r.2.toList)
          else (.ok downloadLink, r.2.toList)
        | _ => (.error (.errorf "download_link not found in response"), r.2.toList)

/-- The Go function `downloadAndSaveFile`, with the request it sent, if any.  `k`
is the number of requests sent before. -/
def downloadAndSaveFile (env : Env) (h : Host) (k : Nat) (downloadURL savePath : String) :
    Except Error Int × List HttpRequest :=
  let dir := h.filepathDir savePath
  match (if dir ≠ "" ∧ dir ≠ "." then h.mkdirAllError dir else none) with
  | some e => (.error (.wrapf "create directory" e), [])
  | none =>
    match env.newRequestError "GET" ⟨downloadURL, []⟩ with
    | some e => (.error (.wrapf "create download request" e), [])
    | none =>
      let req : HttpRequest := ⟨"GET", ⟨downloadURL, []⟩, [], none⟩
      match env.roundTrip k req with
      | .doFailed e => (.error (.wrapf "download request failed" e), [req])
      | .readFailed status e =>
        if status ≥ 300 then
          (.error (.errorf ("download failed with status: " ++ toString status)), [req])
        else
          match h.createError savePath with
          | some e1 => (.error (.wrapf "create output file" e1), [req])
          | none => (.error (.wrapf "save file" e), [req])
      | .reply respBody status =>
        if status ≥ 300 then
          (.error (.errorf ("download failed with status: " ++ toString status)), [req])
        else
          match h.createError savePath with
          | some e => (.error (.wrapf "create output file" e), [req])
          | none =>
            match h.copyToFile savePath respBody with
            | .error e => (.error (.wrapf "save file" e), [req])
            | .ok written => (.ok written, [req])

/-- The method `SeaTableDownloadFile.OnMessage`. -/
def SeaTableDownloadFile.OnMessage (env : Env) (h : Host) (reg : Registry)
    (n : SeaTableDownloadFile) : NodeResult :=
  match n.InClientID with
  | .error e => failed e
  | .ok clientID =>
  match getSeaTableClient reg clientID with
  | none => failed unknownClient
  | some cfg =>
  match n.InFilePath with
  | .error e => failed e
  | .ok filePath0 =>
  let filePath := trimSpace filePath0
  if filePath = "" then failed (.runtimeError "ErrInvalidArg" "File Path is required")
  else
    let savePath := trimSpace n.OptSavePath
    let l := getDownloadLink env cfg filePath
    match l.1 with
    | .error e => ⟨some e, [], l.2⟩
    | .ok downloadURL =>
      if savePath ≠ "" then
        let d := downloadAndSaveFile env h l.2.length downloadURL savePath
        match d.1 with
        | .error e => ⟨some e, [("downloadUrl", .str downloadURL)], l.2 ++ d.2⟩
        | .ok fileSize =>
          ⟨none, [("downloadUrl", .str downloadURL), ("savedPath", .str savePath),
            ("fileSize", .int fileSize), ("statusCode", .int 200)], l.2 ++ d.2⟩
      else
        ⟨none, [("downloadUrl", .str downloadURL), ("savedPath", .str ""),
          ("fileSize", .int 0), ("statusCode", .int 200)], l.2⟩

/-! ### The outputs of Auto Link and Rows Get Many, by variable name -/

/-- The `Set` calls at the end of `SeaTableAutoLink.OnMessage`. -/
def AutoLinkOutputs.writes (o : AutoLinkOutputs) : List (String × Value) :=
  [("processedLeftRows", .int o.OutProcessedLeftRows), ("matchedLeftRows", .int o.OutMatchedRows),
    ("skippedRows", .int o.OutSkippedRows), ("createdLinks", .int o.OutCreatedLinks),
    ("mode", .str o.OutMode)]

/-- The `Set` calls at the end of `SeaTableRowsGetMany.OnMessage`. -/
def RowsGetManyOutputs.writes (o : RowsGetManyOutputs) : List (String × Value) :=
  [("statusCode", .int o.OutStatusCode), ("rows", .arr o.OutRows), ("json", o.OutJSON)]

/-- The names of the output variables in a list of `Set` calls. -/
def outputNames (writes : List (String × Value)) : List String := writes.map Prod.fst

/-! ## Reference definitions for the Search conditions -/

/-- The supported match modes of the Search node. -/
def supportedModes : List String := ["contains", "equals", "startsWith", "endsWith"]

/-- The condition and the parameter the specification gives for one column:
the column is wrapped in `LOWER(...)` and the keyword lower-cased unless the
search is case-sensitive; `equals` compares with `=`, the other modes with
`LIKE` and a pattern.  There is none for an unsupported mode. -/
def specCondition (h : Host) (caseSensitive : Bool) (mode col keyword : String) :
    Option (String × String) :=
  let c := if caseSensitive then col else "LOWER(" ++ col ++ ")"
  let k := if caseSensitive then keyword else h.toLower keyword
  if mode = "equals" then some (c ++ " = ?", k)
  else if mode = "startsWith" then some (c ++ " LIKE ?", k ++ "%")
  else if mode = "endsWith" then some (c ++ " LIKE ?", "%" ++ k)
  else if mode = "contains" then some (c ++ " LIKE ?", "%" ++ k ++ "%")
  else none

/-- The match mode in effect: `contains` when the option is empty. -/
def effectiveMode (n : SeaTableSearch) : String :=
  if n.OptMatchMode = "" then "contains" else n.OptMatchMode

/-- The row limit in effect: 100 when the option is not positive. -/
def effectiveMaxRows (n : SeaTableSearch) : Int :=
  if n.OptMaxRows ≤ 0 then 100 else n.OptMaxRows

/-- The node with its match mode set to `mode` and every other variable unchanged. -/
def withMatchMode (n : SeaTableSearch) (mode : String) : SeaTableSearch :=
  { n with OptMatchMode := mode }

/-! ## Reference definitions for the single-call nodes -/

/-- The request can be built: the body, if any, serialises and
`http.NewRequestWithContext` accepts the method and the URL. -/
def CanSend (env : Env) (method : String) (url : Url) (body : Option Value) : Prop :=
  body.bind env.marshalError = none ∧ env.newRequestError method url = none

/-- The request `doSeaTableRequest` hands to `client.Do` for its arguments. -/
def requestOf (method : String) (url : Url) (token : String) (body : Option Value) :
    HttpRequest :=
  ⟨method, url, requestHeaders token body, body⟩

/-- The result `r` of a node passes its response through: if the node sent one
request and that request was answered with a body and a status code, the node
returns no error and its first two outputs are that status code, as
`statusCode`, and that body, as `body`, and no later output replaces them. -/
def PassesThrough (env : Env) (r : NodeResult) : Prop :=
  ∀ (req : HttpRequest) (body : String) (status : Int),
    r.trace = [req] → env.roundTrip 0 req = .reply body status →
      r.err = none ∧
      ∃ rest, r.writes = ("statusCode", .int status) :: ("body", .str body) :: rest ∧
        "statusCode" ∉ outputNames rest ∧ "body" ∉ outputNames rest

/-- The result `r` of a node reports its response: if the node returned no
error, it sent one request, the request was answered with a body and a status
code, the first two outputs are that status code, as `statusCode`, and that
body, as `body`, and the output `json` follows, holding the decoded body, when
the body is valid JSON and is not set when it is not. -/
def SetsResponse (env : Env) (r : NodeResult) : Prop :=
  r.err = none →
    ∃ (req : HttpRequest) (body : String) (status : Int) (rest : List (String × Value)),
      r.trace = [req] ∧ env.roundTrip 0 req = .reply body status ∧
      r.writes = ("statusCode", .int status) :: ("body", .str body) :: rest ∧
      match env.jsonUnmarshal body with
      | .ok parsed => ∃ rest2, rest = ("json", parsed) :: rest2 ∧ "json" ∉ outputNames rest2
      | .error _ => "json" ∉ outputNames rest

/-! ## Connect (`connect.go`) -/

/-- The Go function `trimTrailingSlash`: `strings.TrimSpace`, then
`strings.TrimRight(s, "/")`. -/
def trimTrailingSlash (s : String) : String :=
  String.mk ((trimSpace s).toList.reverse.dropWhile (fun c => c = '/')).reverse

/-- The node SeaTableConnect: the values its variables yield when read, and the
error, if any, that setting its output returns. -/
structure SeaTableConnect where
  InServer : Except Error String
  InBaseUUID : Except Error String
  /-- The vault item `OptBaseToken.Get` returns: `none` is the nil map. -/
  OptBaseToken : Except Error Row
  /-- The error `OutClientID.Set` returns for a client id, `none` for nil. -/
  OutClientID : String → Option Error

/-- The method `SeaTableConnect.OnMessage`, run on a registry at the clock reading
`now`: the error it returns or the client id it outputs, and the registry
after the call. -/
def SeaTableConnect.OnMessage (reg : Registry) (now : Int) (n : SeaTableConnect) :
    Except Error String × Registry :=
  match n.InServer with
  | .error e => (.error e, reg)
  | .ok server0 =>
  match n.InBaseUUID with
  | .error e => (.error e, reg)
  | .ok baseUUID0 =>
  let server := trimTrailingSlash server0
  let baseUUID := trimSpace baseUUID0
  if server = "" then (.error (.runtimeError "ErrInvalidArg" "Server URL is required"), reg)
  else if baseUUID = "" then
    (.error (.runtimeError "ErrInvalidArg" "Base UUID is required"), reg)
  else
  match n.OptBaseToken with
  | .error e => (.error e, reg)
  | .ok none => (.error (.runtimeError "ErrInvalidArg" "Base Token is required"), reg)
  | .ok (some item) =>
    match mapGet item "value" with
    | none => (.error (.runtimeError "ErrInvalidArg" "Vault item missing \x27value\x27"), reg)
    | some (.str token) =>
      if trimSpace token = "" then
        (.error (.runtimeError "ErrInvalidArg" "Invalid Base Token value"), reg)
      else
        let r := registerSeaTableClient reg ⟨server, baseUUID, token⟩ now
        match n.OutClientID r.1 with
        | some e => (.error e, r.2)
        | none => (.ok r.1, r.2)
    | some _ => (.error (.runtimeError "ErrInvalidArg" "Invalid Base Token value"), reg)

/-! ## Reference definitions for the registry -/

/-- A call on the registry: a registration, with the clock reading it sees, or a
lookup. -/
inductive RegistryCall where
  | register (cfg : SeaTableClient) (now : Int)
  | lookup (id : String)

/-- The registry after a call: `registerSeaTableClient` assigns one entry,
`getSeaTableClient` only reads. -/
def runCall (reg : Registry) : RegistryCall → Registry
  | .register cfg now => (registerSeaTableClient reg cfg now).2
  | .lookup _ => reg

/-- The registry after a sequence of calls. -/
def runCalls (reg : Registry) (calls : List RegistryCall) : Registry :=
  calls.foldl runCall reg

/-- The number of target ids a request carries: the length of the array under
`other_rows_ids` in its body, and none when the body has no such array. -/
def carriedIds (r : HttpRequest) : Nat :=
  match r.body with
  | some (.obj fields) =>
    match mapGet fields "other_rows_ids" with
    | some (.arr ids) => ids.length
    | _ => 0
  | _ => 0

/-- The link-update calls among the requests of a trace. -/
def linkUpdateCalls (trace : List HttpRequest) : List HttpRequest :=
  trace.filter (fun r => r.method = "PUT")

/-- The row an element of a decoded array stands for: an object is a row, any
other value is none. -/
def asObject (v : Value) : Option Row :=
  match v with
  | .obj fields => some (some fields)
  | _ => none

/-- The result `r` of a node delivers the response to the call with the given
method, URL, token and body: when that request can be built, it is the one
request the node sends, and when it is answered with a body and a status
code, the node returns no error and its first two outputs are that status
code, as `statusCode`, and that body, as `body`, and no later output replaces
them. -/
def Delivers (env : Env) (r : NodeResult) (method : String) (url : Url) (token : String)
    (body : Option Value) : Prop :=
  CanSend env method url body →
    r.trace = [requestOf method url token body] ∧
    ∀ (b : String) (status : Int),
      env.roundTrip 0 (requestOf method url token body) = .reply b status →
        r.err = none ∧
        ∃ rest, r.writes = ("statusCode", .int status) :: ("body", .str b) :: rest ∧
          "statusCode" ∉ outputNames rest ∧ "body" ∉ outputNames rest

/-- No client of the registry has a blank token: the token of every client a
lookup can return is not empty once surrounding white space is removed. -/
def TokensNotBlank (reg : Registry) : Prop :=
  ∀ id cfg, getSeaTableClient reg id = some cfg → trimSpace cfg.Token ≠ ""

/-! ## A concrete invocation, used to instantiate the theorems -/

/-- Right rows of the example: two rows with key A and one with key B. -/
def exampleRightRows : List Row :=
  [some [("_id", .str "r1"), ("key", .str "A")], some [("_id", .str "r2"), ("key", .str "A")],
    some [("_id", .str "r3"), ("key", .str "B")]]

/-- Left rows of the example: one row with key A and one with key C. -/
def exampleLeftRows : List Row :=
  [some [("_id", .str "l1"), ("key", .str "A")], some [("_id", .str "l2"), ("key", .str "C")]]

/-- A connection config. -/
def exampleCfg : SeaTableClient := ⟨"https://cloud.example", "ab-12", "secret"⟩

/-- The registry after one registration of `exampleCfg` at clock reading 42. -/
def exampleRegistry : Registry := (registerSeaTableClient emptyRegistry exampleCfg 42).2

/-- An environment in which the first two requests are answered with the example
rows and every request is answered with the given status code. -/
def exampleEnv (status : Int) : Env where
  marshalError := fun _ => none
  newRequestError := fun _ _ => none
  roundTrip := fun n _ =>
    match n with
    | 0 => .reply "right" status
    | 1 => .reply "left" status
    | _ => .reply "" status
  jsonUnmarshal := fun _ => .error (.external "invalid character")
  jsonUnmarshalResults := fun s =>
    if s = "right" then .ok (some exampleRightRows)
    else if s = "left" then .ok (some exampleLeftRows)
    else .error (.external "unexpected end of JSON input")
  sprintV := fun _ => ""
  urlParseError := fun _ => none

/-- An Auto Link node reading the example inputs. -/
def exampleNode (dryRun : Bool) : SeaTableAutoLink where
  InClientID := .ok "st-ab12-42"
  InTableName := .ok " Orders"
  InOtherTableName := .ok "Customers "
  InLinkID := .ok "Lk01"
  InLeftKeyColumn := .ok "key"
  InRightKeyColumn := .ok "key"
  OptMaxLeftRows := 0
  OptMaxRightRows := 500
  OptDryRun := dryRun

/-- Left rows of the second example: keys B, A and C. -/
def exampleLeftRows3 : List Row :=
  [some [("_id", .str "l0"), ("key", .str "B")], some [("_id", .str "l1"), ("key", .str "A")],
    some [("_id", .str "l2"), ("key", .str "C")]]

/-- An environment in which the fetches return the example right rows and
`exampleLeftRows3`, the first link-update call is answered and every later
request is refused by the network. -/
def refusingEnv : Env where
  marshalError := fun _ => none
  newRequestError := fun _ _ => none
  roundTrip := fun n _ =>
    match n with
    | 0 => .reply "right" 200
    | 1 => .reply "left" 200
    | 2 => .reply "" 200
    | _ => .doFailed (.external "connection refused")
  jsonUnmarshal := fun _ => .error (.external "invalid character")
  jsonUnmarshalResults := fun s =>
    if s = "right" then .ok (some exampleRightRows)
    else if s = "left" then .ok (some exampleLeftRows3)
    else .error (.external "unexpected end of JSON input")
  sprintV := fun _ => ""
  urlParseError := fun _ => none

/-- The example node with a link id made of white space only. -/
def blankLinkNode : SeaTableAutoLink :=
  { exampleNode false with InLinkID := .ok "   " }

/-- A response body for each page of the paging example. -/
def pageBody (k : Nat) : Value := .obj [("rows", .arr (List.replicate k .null))]

/-- An environment whose rows endpoint returns pages of 1000, 1000 and 400 rows
and then no rows. -/
def pagingEnv : Env where
  marshalError := fun _ => none
  newRequestError := fun _ _ => none
  roundTrip := fun n _ =>
    match n with
    | 0 => .reply "full" 200
    | 1 => .reply "full" 200
    | 2 => .reply "short" 200
    | _ => .reply "none" 200
  jsonUnmarshal := fun s =>
    if s = "full" then .ok (pageBody 1000)
    else if s = "short" then .ok (pageBody 400)
    else .ok (pageBody 0)
  jsonUnmarshalResults := fun _ => .ok none
  sprintV := fun _ => ""
  urlParseError := fun _ => none

/-- A Rows Get Many node reading start 0, page size 1000 and at most 10000 rows. -/
def pagingNode : SeaTableRowsGetMany where
  InClientID := .ok "st-ab12-42"
  InTableName := .ok "Orders"
  OptViewName := ""
  OptStart := 0
  OptPageSize := 1000
  OptMaxRows := 10000
  OptConvert := true

/-- An environment whose rows endpoint returns one row and then no rows. -/
def oneRowEnv : Env where
  marshalError := fun _ => none
  newRequestError := fun _ _ => none
  roundTrip := fun n _ =>
    match n with
    | 0 => .reply "one" 200
    | _ => .reply "none" 200
  jsonUnmarshal := fun s => if s = "one" then .ok (pageBody 1) else .ok (pageBody 0)
  jsonUnmarshalResults := fun _ => .ok none
  sprintV := fun _ => ""
  urlParseError := fun _ => none

/-- A Rows Get Many node reading the largest `int` as start offset, page size 1
and at most 2 rows. -/
def lastOffsetNode : SeaTableRowsGetMany where
  InClientID := .ok "st-ab12-42"
  InTableName := .ok "Orders"
  OptViewName := ""
  OptStart := 9223372036854775807
  OptPageSize := 1
  OptMaxRows := 2
  OptConvert := false

/-- A Rows Get Many node whose numeric options all need normalising. -/
def rawOptionsNode : SeaTableRowsGetMany where
  InClientID := .ok "st-ab12-42"
  InTableName := .ok "Orders"
  OptViewName := ""
  OptStart := -5
  OptPageSize := 1001
  OptMaxRows := 0
  OptConvert := true

/-- An environment whose rows endpoint never returns a row. -/
def noRowsEnv : Env where
  marshalError := fun _ => none
  newRequestError := fun _ _ => none
  roundTrip := fun _ _ => .reply "none" 200
  jsonUnmarshal := fun _ => .ok (pageBody 0)
  jsonUnmarshalResults := fun _ => .ok none
  sprintV := fun _ => ""
  urlParseError := fun _ => none

/-- A Rows Get Many node reading page size 1000 and at most 500 rows. -/
def cappedNode : SeaTableRowsGetMany where
  InClientID := .ok "st-ab12-42"
  InTableName := .ok "Orders"
  OptViewName := ""
  OptStart := 0
  OptPageSize := 1000
  OptMaxRows := 500
  OptConvert := true

/-- A host whose lower-casing is that of the ASCII letters and whose decoder of
string arrays knows one text. -/
def exampleHost : Host where
  toLower := fun s => String.mk (s.toList.map Char.toLower)
  errorText := fun _ => "invalid character"
  jsonUnmarshalStrings := fun s =>
    if s = "[\"a\",\"b\"]" then .ok ["a", "b"] else .error (.external "invalid character")
  jsonUnmarshalUploadLink := fun _ => .error (.external "invalid character")
  jsonUnmarshalObjects := fun _ => .error (.external "invalid character")
  filepathBase := fun s => s
  filepathDir := fun _ => "."
  openError := fun _ => none
  writeForm := fun _ _ _ => .ok "multipart/form-data"
  mkdirAllError := fun _ => none
  createError := fun _ => none
  copyToFile := fun _ body => .ok body.length

/-- A Search node looking for the keyword foo in the column Name. -/
def searchNode (mode : String) (caseSensitive : Bool) : SeaTableSearch where
  InClientID := .ok "st-ab12-42"
  InTableName := .ok "People"
  InColumns := .ok "Name"
  InKeyword := .ok "foo"
  OptMatchMode := mode
  OptCaseSensitive := caseSensitive
  OptMaxRows := 0
  OptConvert := true

/-- A Link node reading the operation `op`. -/
def linkNode (op : String) : SeaTableLink where
  InClientID := .ok "st-ab12-42"
  InOperation := .ok op
  InLinkID := .ok " Lk01"
  InTableName := .ok "Orders"
  InOtherTableName := .ok "Customers"
  InRowID := .ok "l0 "
  OptOtherRowID := " r0"
  OptOtherRowIDs := "r0, r1"

/-- A Rows node reading the action `action`. -/
def rowsNode (action : String) : SeaTableRows where
  InClientID := .ok "st-ab12-42"
  OptAction := action
  InTableName := .ok "Orders"
  OptViewName := .ok ""
  OptStart := .ok 0
  OptLimit := .ok 10
  OptConvert := .ok true
  OptRowID := .ok "l0"
  OptRowData := .ok (.obj [("key", .str "A")])

/-- An SQL Query node. -/
def sqlNode : SeaTableSQLQuery where
  InClientID := .ok "st-ab12-42"
  InSQL := .ok "SELECT 1"
  OptParams := .ok .null
  OptConvert := true

/-- A Get Row node. -/
def getRowNode : SeaTableGetRow where
  InClientID := .ok "st-ab12-42"
  InTableName := .ok "Orders"
  InRowID := .ok "l0"
  OptViewName := ""
  OptConvert := true

/-- A Get Metadata node. -/
def metadataNode : SeaTableGetMetadata where
  InClientID := .ok "st-ab12-42"

/-- A List Columns node. -/
def listColumnsNode : SeaTableListColumns where
  InClientID := .ok "st-ab12-42"
  InTableName := .ok "Orders"
  OptViewName := ""

/-- A List Views node. -/
def listViewsNode : SeaTableListViews where
  InClientID := .ok "st-ab12-42"
  InTableName := .ok "Orders"

/-- An Upload Attachment node. -/
def uploadNode : SeaTableUploadAttachment where
  InClientID := .ok "st-ab12-42"
  InFilePath := .ok "/tmp/report.pdf"
  OptFileName := ""
  OptKind := ""

/-- A Download File node saving to `savePath`. -/
def downloadNode (savePath : String) : SeaTableDownloadFile where
  InClientID := .ok "st-ab12-42"
  InFilePath := .ok "/files/report.pdf"
  OptSavePath := savePath

/-- An environment for the two-step transfers: the first call is answered with
status 204 and the text `link`, which decodes to an object holding a download
link, the second with status 201 and the text `done`. -/
def transferEnv : Env where
  marshalError := fun _ => none
  newRequestError := fun _ _ => none
  roundTrip := fun n _ =>
    match n with
    | 0 => .reply "link" 204
    | _ => .reply "done" 201
  jsonUnmarshal := fun s =>
    if s = "link" then .ok (.obj [("download_link", .str "https://files.example/report.pdf")])
    else .error (.external "invalid character")
  jsonUnmarshalResults := fun _ => .ok none
  sprintV := fun _ => ""
  urlParseError := fun _ => none

/-- A host for the two-step transfers: the text `link` decodes to an upload
link, the text `done` to one attachment object. -/
def transferHost : Host where
  toLower := fun s => String.mk (s.toList.map Char.toLower)
  errorText := fun _ => "invalid character"
  jsonUnmarshalStrings := fun _ => .error (.external "invalid character")
  jsonUnmarshalUploadLink := fun s =>
    if s = "link" then .ok ⟨"up-1", "/asset", "files/report.pdf", "images/report.pdf"⟩
    else .error (.external "invalid character")
  jsonUnmarshalObjects := fun s =>
    if s = "done" then .ok [some [("name", .str "report.pdf")]]
    else .error (.external "invalid character")
  filepathBase := fun _ => "report.pdf"
  filepathDir := fun _ => "."
  openError := fun _ => none
  writeForm := fun _ _ _ => .ok "multipart/form-data"
  mkdirAllError := fun _ => none
  createError := fun _ => none
  copyToFile := fun _ body => .ok body.length

/-- An environment in which the download link is delivered and the transfer of
the file is answered with status 500 and the text `oops`. -/
def failingDownloadEnv : Env where
  marshalError := fun _ => none
  newRequestError := fun _ _ => none
  roundTrip := fun n _ =>
    match n with
    | 0 => .reply "link" 200
    | _ => .reply "oops" 500
  jsonUnmarshal := fun s =>
    if s = "link" then .ok (.obj [("download_link", .str "https://files.example/report.pdf")])
    else .error (.external "invalid character")
  jsonUnmarshalResults := fun _ => .ok none
  sprintV := fun _ => ""
  urlParseError := fun _ => none

/-- An environment in which every call is answered with status 101 and a body
that holds a download link. -/
def switchingEnv : Env where
  marshalError := fun _ => none
  newRequestError := fun _ _ => none
  roundTrip := fun _ _ => .reply "link" 101
  jsonUnmarshal := fun s =>
    if s = "link" then .ok (.obj [("download_link", .str "https://files.example/report.pdf")])
    else .error (.external "invalid character")
  jsonUnmarshalResults := fun _ => .ok none
  sprintV := fun _ => ""
  urlParseError := fun _ => none

/-- A Connect node reading the server URL `server`. -/
def connectNode (server : String) : SeaTableConnect where
  InServer := .ok server
  InBaseUUID := .ok " ab-12 "
  OptBaseToken := .ok (some [("value", .str "secret")])
  OutClientID := fun _ => none

/-- An environment whose SQL endpoint answers with the text `nulls`, standing for
the JSON text of an object whose `results` array holds the single element
null: decoded into the typed envelope it gives one nil row, decoded into `any`
it gives the object with the array of one null. -/
def nullRowEnv : Env where
  marshalError := fun _ => none
  newRequestError := fun _ _ => none
  roundTrip := fun _ _ => .reply "nulls" 200
  jsonUnmarshal := fun _ => .ok (.obj [("results", .arr [.null])])
  jsonUnmarshalResults := fun _ => .ok (some [none])
  sprintV := fun _ => ""
  urlParseError := fun _ => none

/-- An environment whose SQL endpoint answers with the text `mixed`, standing for
the JSON text of an object whose `results` array holds an object, a string and
another object: the typed envelope rejects it, and decoded into `any` it gives
the object with that array. -/
def mixedEnv : Env where
  marshalError := fun _ => none
  newRequestError := fun _ _ => none
  roundTrip := fun _ _ => .reply "mixed" 200
  jsonUnmarshal := fun _ =>
    .ok (.obj [("results", .arr [.obj [("_id", .str "r1")], .str "x",
      .obj [("_id", .str "r2")]])])
  jsonUnmarshalResults := fun _ => .error (.external "json: cannot unmarshal string")
  sprintV := fun _ => ""
  urlParseError := fun _ => none

/-- An environment in which the two row fetches of the example are answered
with status 200 and the example rows, and every later request, the
link-update call first, is answered with status 500 and an error text. -/
def rejectedUpdateEnv : Env where
  marshalError := fun _ => none
  newRequestError := fun _ _ => none
  roundTrip := fun n _ =>
    match n with
    | 0 => .reply "right" 200
    | 1 => .reply "left" 200
    | _ => .reply "Internal Server Error" 500
  jsonUnmarshal := fun _ => .error (.external "invalid character")
  jsonUnmarshalResults := fun s =>
    if s = "right" then .ok (some exampleRightRows)
    else if s = "left" then .ok (some exampleLeftRows)
    else .error (.external "invalid character")
  sprintV := fun _ => ""
  urlParseError := fun _ => none

/-! ## Properties of the client registry -/

theorem mapGet_mapSet_same {α : Type} (m : List (String × α)) (k : String) (v : α) :
    mapGet (mapSet m k v) k = some v := by
  simp [mapSet, mapGet]

theorem registerAll_absent (calls : List (SeaTableClient × Int)) :
    ∀ (reg : Registry) (id : String), id ∉ (registerAll reg calls).1 →
      getSeaTableClient (registerAll reg calls).2 id = getSeaTableClient reg id := by
  induction calls with
  | nil => intro reg id _; rfl
  | cons call rest ih =>
    intro reg id hid
    obtain ⟨cfg, now⟩ := call
    simp only [registerAll, List.mem_cons, not_or] at hid ⊢
    rw [ih _ _ hid.2]
    simp only [getSeaTableClient, registerSeaTableClient, mapSet, mapGet]
    rw [if_neg (fun h => hid.1 h.symm)]

/-- C1: registering a config and looking up the returned id finds exactly that
config, and in a registry built by registrations from the empty one an id that
no registration returned is not found. -/
theorem register_then_lookup (reg : Registry) (cfg : SeaTableClient) (now : Int) :
    getSeaTableClient (registerSeaTableClient reg cfg now).2
        (registerSeaTableClient reg cfg now).1 = some cfg ∧
    ∀ (calls : List (SeaTableClient × Int)) (id : String),
      id ∉ (registerAll emptyRegistry calls).1 →
        getSeaTableClient (registerAll emptyRegistry calls).2 id = none := by
  refine ⟨?_, ?_⟩
  · simp [getSeaTableClient, registerSeaTableClient, mapGet_mapSet_same]
  · intro calls id hid
    rw [registerAll_absent calls emptyRegistry id hid]
    rfl

/-- C1, on the example registry: the id returned for the example config finds it,
and an id no registration returned is not found. -/
theorem register_then_lookup_witness :
    getSeaTableClient exampleRegistry "st-ab12-42" = some exampleCfg ∧
      getSeaTableClient exampleRegistry "st-zz-1" = none :=
  ⟨(register_then_lookup emptyRegistry exampleCfg 42).1,
    (register_then_lookup emptyRegistry exampleCfg 42).2 [(exampleCfg, 42)] "st-zz-1"
      (by decide)⟩

/-! ## Properties of the request executor -/

theorem doSeaTableRequest_sent (env : Env) (n : Nat) (method : String) (url : Url)
    (token : String) (body : Option Value)
    (h : (doSeaTableRequest env n method url token body).1.err = none) :
    (doSeaTableRequest env n method url token body).2 =
      some ⟨method, url, requestHeaders token body, body⟩ := by
  unfold doSeaTableRequest at h ⊢
  cases h1 : body.bind env.marshalError with
  | some e => simp [h1] at h
  | none =>
    cases h2 : env.newRequestError method url with
    | some e => simp [h1, h2] at h
    | none =>
      simp only [h1, h2] at h ⊢
      cases h3 : env.roundTrip n ⟨method, url, requestHeaders token body, body⟩ <;> simp_all

theorem doSeaTableRequest_sent_eq (env : Env) (n : Nat) (method : String) (url : Url)
    (token : String) (body : Option Value) (r : HttpRequest)
    (h : (doSeaTableRequest env n method url token body).2 = some r) :
    r = ⟨method, url, requestHeaders token body, body⟩ := by
  unfold doSeaTableRequest at h
  cases h1 : body.bind env.marshalError with
  | some e => simp [h1] at h
  | none =>
    cases h2 : env.newRequestError method url with
    | some e => simp [h1, h2] at h
    | none =>
      simp only [h1, h2] at h
      cases h3 : env.roundTrip n ⟨method, url, requestHeaders token body, body⟩ <;>
        simp_all

/-! ## Properties of Auto Link -/

theorem OnMessage_eq_run (env : Env) (reg : Registry) (n : SeaTableAutoLink)
    (cfg : SeaTableClient) (tableName otherTableName linkID leftKeyCol rightKeyCol : String)
    (hv : ValidInputs reg n cfg tableName otherTableName linkID leftKeyCol rightKeyCol) :
    SeaTableAutoLink.OnMessage env reg n =
      autoLinkRun env cfg tableName otherTableName linkID leftKeyCol rightKeyCol
        (clampMaxRows n.OptMaxLeftRows) (clampMaxRows n.OptMaxRightRows) n.OptDryRun := by
  obtain ⟨cid, h1, h2⟩ := hv.client
  obtain ⟨s1, t1, rfl, n1⟩ := hv.table
  obtain ⟨s2, t2, rfl, n2⟩ := hv.otherTable
  obtain ⟨s3, t3, rfl, n3⟩ := hv.link
  obtain ⟨s4, t4, rfl, n4⟩ := hv.leftKey
  obtain ⟨s5, t5, rfl, n5⟩ := hv.rightKey
  simp only [SeaTableAutoLink.OnMessage, h1, h2, t1, t2, t3, t4, t5]
  rw [if_neg]
  simp [n1, n2, n3, n4, n5]


theorem rightTargets_cons (env : Env) (col : String) (r : Row) (rest : List Row) (k : String) :
    rightTargets env col (r :: rest) k =
      (if getStringFromRow env r col = k ∧ getStringFromRow env r col ≠ "" ∧
          getStringFromRow env r "_id" ≠ "" then [getStringFromRow env r "_id"] else []) ++
        rightTargets env col rest k := by
  unfold rightTargets
  by_cases h : getStringFromRow env r col = k ∧ getStringFromRow env r col ≠ "" ∧
      getStringFromRow env r "_id" ≠ ""
  · rw [List.filter_cons_of_pos (by simpa using h), if_pos h]; rfl
  · rw [List.filter_cons_of_neg (by simpa using h), if_neg h]; rfl

theorem buildRightIndex_getD (env : Env) (col : String) (rows : List Row) :
    ∀ (idx : KeyIndex) (k : String),
      (mapGet (buildRightIndex env col rows idx) k).getD [] =
        (mapGet idx k).getD [] ++ rightTargets env col rows k := by
  induction rows with
  | nil => intro idx k; simp [buildRightIndex, rightTargets]
  | cons r rest ih =>
    intro idx k
    rw [rightTargets_cons, buildRightIndex]
    by_cases hk : getStringFromRow env r col = ""
    · simp [hk, ih]
    · by_cases hid : getStringFromRow env r "_id" = ""
      · simp [hk, hid, ih]
      · simp only [hk, hid, if_false, ih, mapSet, mapGet]
        by_cases hkk : getStringFromRow env r col = k
        · have hk2 : ¬ k = "" := fun h => hk (hkk.trans h)
          simp [hkk, hk2, hid]
        · simp [hkk]

theorem buildRightIndex_none (env : Env) (col : String) (rows : List Row) :
    ∀ (idx : KeyIndex) (k : String),
      mapGet (buildRightIndex env col rows idx) k = none ↔
        mapGet idx k = none ∧ rightTargets env col rows k = [] := by
  induction rows with
  | nil => intro idx k; simp [buildRightIndex, rightTargets]
  | cons r rest ih =>
    intro idx k
    rw [rightTargets_cons, buildRightIndex]
    by_cases hk : getStringFromRow env r col = ""
    · simp [hk, ih]
    · by_cases hid : getStringFromRow env r "_id" = ""
      · simp [hk, hid, ih]
      · simp only [hk, hid, if_false, ih, mapSet, mapGet]
        by_cases hkk : getStringFromRow env r col = k
        · have hk2 : ¬ k = "" := fun h => hk (hkk.trans h)
          simp [hkk, hk2, hid]
        · simp [hkk]

/-- C8: the index built from the right rows maps a key value to the ids of the
rows with that key value whose key value and `_id` are both non-empty, in row
order, and has no entry for a key value without such a row. -/
theorem rightIndex_spec (env : Env) (rightKeyCol : String) (rightRows : List Row) (k : String) :
    mapGet (buildRightIndex env rightKeyCol rightRows []) k =
      if rightTargets env rightKeyCol rightRows k = [] then none
      else some (rightTargets env rightKeyCol rightRows k) := by
  have hd := buildRightIndex_getD env rightKeyCol rightRows [] k
  have hn := buildRightIndex_none env rightKeyCol rightRows [] k
  simp only [mapGet, Option.getD_none, List.nil_append, true_and] at hd hn
  by_cases h : rightTargets env rightKeyCol rightRows k = []
  · rw [if_pos h]; exact hn.mpr h
  · rw [if_neg h]
    cases hg : mapGet (buildRightIndex env rightKeyCol rightRows []) k with
    | none => exact absurd (hn.mp hg) h
    | some l => rw [hg] at hd; simp at hd; rw [hd]


section LinkLoop

variable (env : Env) (cfg : SeaTableClient) (linkID tableName otherTableName leftKeyCol : String)
  (dryRun : Bool) (idx : KeyIndex) (T : String → List String)

theorem linkLoop_skip (hidx : ∀ k, (mapGet idx k).getD [] = T k) (row : Row) (rest : List Row)
    (c : LinkCounters) (tr : List HttpRequest) (hm : isMatched env leftKeyCol T row = false) :
    linkLoop env cfg linkID tableName otherTableName leftKeyCol dryRun idx (row :: rest) c tr =
      linkLoop env cfg linkID tableName otherTableName leftKeyCol dryRun idx rest
        ⟨c.processed + 1, c.matched, c.skipped + 1, c.created⟩ tr := by
  rw [linkLoop]
  by_cases h1 : getStringFromRow env row "_id" = ""
  · simp [h1]
  · by_cases h2 : getStringFromRow env row leftKeyCol = ""
    · simp [h1, h2]
    · have h3 : T (getStringFromRow env row leftKeyCol) = [] := by
        simpa [isMatched, h1, h2] using hm
      have h4 := hidx (getStringFromRow env row leftKeyCol)
      rw [h3] at h4
      simp only [h1, h2, if_false]
      cases hg : mapGet idx (getStringFromRow env row leftKeyCol) with
      | none => rfl
      | some targets =>
        rw [hg] at h4
        simp only [Option.getD_some] at h4
        simp [h4]

theorem matched_lookup (hidx : ∀ k, (mapGet idx k).getD [] = T k) (row : Row)
    (hm : isMatched env leftKeyCol T row = true) :
    getStringFromRow env row "_id" ≠ "" ∧ getStringFromRow env row leftKeyCol ≠ "" ∧
      T (getStringFromRow env row leftKeyCol) ≠ [] ∧
      mapGet idx (getStringFromRow env row leftKeyCol) =
        some (T (getStringFromRow env row leftKeyCol)) := by
  have h : getStringFromRow env row "_id" ≠ "" ∧ getStringFromRow env row leftKeyCol ≠ "" ∧
      T (getStringFromRow env row leftKeyCol) ≠ [] := by
    simpa [isMatched] using hm
  refine ⟨h.1, h.2.1, h.2.2, ?_⟩
  have h4 := hidx (getStringFromRow env row leftKeyCol)
  cases hg : mapGet idx (getStringFromRow env row leftKeyCol) with
  | none => rw [hg] at h4; exact absurd h4.symm h.2.2
  | some targets => rw [hg] at h4; simp only [Option.getD_some] at h4; rw [h4]

theorem linkLoop_dry (hidx : ∀ k, (mapGet idx k).getD [] = T k) (row : Row) (rest : List Row)
    (c : LinkCounters) (tr : List HttpRequest) (hm : isMatched env leftKeyCol T row = true) :
    linkLoop env cfg linkID tableName otherTableName leftKeyCol true idx (row :: rest) c tr =
      linkLoop env cfg linkID tableName otherTableName leftKeyCol true idx rest
        ⟨c.processed + 1, c.matched + 1, c.skipped,
          c.created + (T (getStringFromRow env row leftKeyCol)).length⟩ tr := by
  obtain ⟨h1, h2, h3, h4⟩ := matched_lookup env leftKeyCol idx T hidx row hm
  rw [linkLoop]
  simp [h1, h2, h3, h4]

theorem linkLoop_put_ok (hidx : ∀ k, (mapGet idx k).getD [] = T k) (row : Row) (rest : List Row)
    (c : LinkCounters) (tr : List HttpRequest) (hm : isMatched env leftKeyCol T row = true)
    (hok : (doSeaTableRequest env tr.length "PUT" (linksUrl cfg) cfg.Token
      (some (linkUpdateBody linkID tableName otherTableName (getStringFromRow env row "_id")
        (T (getStringFromRow env row leftKeyCol))))).1.err = none) :
    linkLoop env cfg linkID tableName otherTableName leftKeyCol false idx (row :: rest) c tr =
      linkLoop env cfg linkID tableName otherTableName leftKeyCol false idx rest
        ⟨c.processed + 1, c.matched + 1, c.skipped,
          c.created + (T (getStringFromRow env row leftKeyCol)).length⟩
        (tr ++ [putRequest env cfg linkID tableName otherTableName leftKeyCol T row]) := by
  obtain ⟨h1, h2, h3, h4⟩ := matched_lookup env leftKeyCol idx T hidx row hm
  have hs := doSeaTableRequest_sent env tr.length "PUT" (linksUrl cfg) cfg.Token _ hok
  rw [linkLoop]
  simp [h1, h2, h3, h4, hok, hs, putRequest]

theorem linkLoop_put_err (hidx : ∀ k, (mapGet idx k).getD [] = T k) (row : Row) (rest : List Row)
    (c : LinkCounters) (tr : List HttpRequest) (hm : isMatched env leftKeyCol T row = true)
    (e : Error)
    (herr : (doSeaTableRequest env tr.length "PUT" (linksUrl cfg) cfg.Token
      (some (linkUpdateBody linkID tableName otherTableName (getStringFromRow env row "_id")
        (T (getStringFromRow env row leftKeyCol))))).1.err = some e) :
    linkLoop env cfg linkID tableName otherTableName leftKeyCol false idx (row :: rest) c tr =
      (.error (.wrapf ("update links for row " ++ getStringFromRow env row "_id") e),
        tr ++ (doSeaTableRequest env tr.length "PUT" (linksUrl cfg) cfg.Token
          (some (linkUpdateBody linkID tableName otherTableName (getStringFromRow env row "_id")
            (T (getStringFromRow env row leftKeyCol))))).2.toList) := by
  obtain ⟨h1, h2, h3, h4⟩ := matched_lookup env leftKeyCol idx T hidx row hm
  rw [linkLoop]
  simp [h1, h2, h3, h4, herr]

/-- The loop over `rows ++ rest` when every link-update call made for `rows`
succeeds: it reaches `rest` with the counters advanced by `rows` and one
request per matched row of `rows` added to the trace. -/
theorem linkLoop_append_ok (hidx : ∀ k, (mapGet idx k).getD [] = T k) (rest : List Row) :
    ∀ (rows : List Row) (c : LinkCounters) (tr : List HttpRequest),
      (dryRun = false → ∀ (j : Nat) (body : Value),
        j < (putRequests env cfg linkID tableName otherTableName leftKeyCol T rows).length →
        (doSeaTableRequest env (tr.length + j) "PUT" (linksUrl cfg) cfg.Token
          (some body)).1.err = none) →
      linkLoop env cfg linkID tableName otherTableName leftKeyCol dryRun idx (rows ++ rest) c tr =
        linkLoop env cfg linkID tableName otherTableName leftKeyCol dryRun idx rest
          ⟨c.processed + rows.length, c.matched + matchedCount env leftKeyCol T rows,
            c.skipped + (rows.length - matchedCount env leftKeyCol T rows),
            c.created + targetCount env leftKeyCol T rows⟩
          (tr ++ (if dryRun then []
            else putRequests env cfg linkID tableName otherTableName leftKeyCol T rows)) := by
  have key : ∀ {c1 c2 : LinkCounters} {t1 t2 : List HttpRequest}, c1 = c2 → t1 = t2 →
      linkLoop env cfg linkID tableName otherTableName leftKeyCol dryRun idx rest c1 t1 =
        linkLoop env cfg linkID tableName otherTableName leftKeyCol dryRun idx rest c2 t2 := by
    intro _ _ _ _ h1 h2; rw [h1, h2]
  intro rows
  induction rows with
  | nil =>
    intro c tr _
    simp [matchedCount, targetCount, putRequests]
  | cons row rows ih =>
    intro c tr hput
    rw [List.cons_append]
    cases hm : isMatched env leftKeyCol T row with
    | false =>
      rw [linkLoop_skip env cfg linkID tableName otherTableName leftKeyCol dryRun idx T hidx
        row (rows ++ rest) c tr hm]
      have hp : putRequests env cfg linkID tableName otherTableName leftKeyCol T (row :: rows) =
          putRequests env cfg linkID tableName otherTableName leftKeyCol T rows := by
        simp [putRequests, List.filter_cons, hm]
      rw [ih _ tr (by rw [hp] at hput; exact hput), hp]
      have h1 : matchedCount env leftKeyCol T (row :: rows) = matchedCount env leftKeyCol T rows := by
        simp [matchedCount, List.filter_cons, hm]
      have h2 : targetCount env leftKeyCol T (row :: rows) = targetCount env leftKeyCol T rows := by
        simp [targetCount, List.filter_cons, hm]
      rw [h1, h2]
      apply key
      · congr 1 <;> (simp only [List.length_cons, Nat.cast_add, Nat.cast_one]; omega)
      · rfl
    | true =>
      have hp : putRequests env cfg linkID tableName otherTableName leftKeyCol T (row :: rows) =
          putRequest env cfg linkID tableName otherTableName leftKeyCol T row ::
            putRequests env cfg linkID tableName otherTableName leftKeyCol T rows := by
        simp [putRequests, List.filter_cons, hm]
      have h1 : matchedCount env leftKeyCol T (row :: rows) =
          matchedCount env leftKeyCol T rows + 1 := by
        simp [matchedCount, List.filter_cons, hm]
      have h2 : targetCount env leftKeyCol T (row :: rows) =
          (T (getStringFromRow env row leftKeyCol)).length + targetCount env leftKeyCol T rows := by
        simp [targetCount, List.filter_cons, hm]
      cases hd : dryRun with
      | true =>
        subst hd
        rw [linkLoop_dry env cfg linkID tableName otherTableName leftKeyCol idx T hidx
          row (rows ++ rest) c tr hm]
        rw [ih _ tr (by intro h; cases h), h1, h2]
        apply key
        · congr 1 <;> (simp only [List.length_cons, Nat.cast_add, Nat.cast_one]; omega)
        · rfl
      | false =>
        subst hd
        have hok := hput rfl 0 (linkUpdateBody linkID tableName otherTableName
          (getStringFromRow env row "_id") (T (getStringFromRow env row leftKeyCol)))
          (by rw [hp]; simp)
        rw [linkLoop_put_ok env cfg linkID tableName otherTableName leftKeyCol idx T hidx
          row (rows ++ rest) c tr hm hok]
        rw [ih _ _ (by
          intro _ j body hj
          have := hput rfl (j + 1) body (by rw [hp]; simpa using hj)
          simpa [Nat.add_assoc, Nat.add_comm 1 j] using this), h1, h2, hp]
        apply key
        · congr 1 <;> (simp only [List.length_cons, Nat.cast_add, Nat.cast_one]; omega)
        · simp

/-- The loop over `rows` when every link-update call succeeds. -/
theorem linkLoop_all_ok (hidx : ∀ k, (mapGet idx k).getD [] = T k)
    (rows : List Row) (c : LinkCounters) (tr : List HttpRequest)
    (hput : dryRun = false → ∀ (j : Nat) (body : Value),
        j < (putRequests env cfg linkID tableName otherTableName leftKeyCol T rows).length →
        (doSeaTableRequest env (tr.length + j) "PUT" (linksUrl cfg) cfg.Token
          (some body)).1.err = none) :
    linkLoop env cfg linkID tableName otherTableName leftKeyCol dryRun idx rows c tr =
      (.ok ⟨c.processed + rows.length, c.matched + matchedCount env leftKeyCol T rows,
          c.skipped + (rows.length - matchedCount env leftKeyCol T rows),
          c.created + targetCount env leftKeyCol T rows⟩,
        tr ++ (if dryRun then []
          else putRequests env cfg linkID tableName otherTableName leftKeyCol T rows)) := by
  have h := linkLoop_append_ok env cfg linkID tableName otherTableName leftKeyCol dryRun idx T
    hidx [] rows c tr hput
  rw [List.append_nil] at h
  rw [h, linkLoop]

/-- The link-update calls the loop issues, whatever their outcome: they are the
requests of the matched rows in row order up to the point where the loop
stops, and all of them when the loop reaches its end. -/
theorem linkLoop_calls (hidx : ∀ k, (mapGet idx k).getD [] = T k) :
    ∀ (rows : List Row) (c : LinkCounters) (tr : List HttpRequest),
      ∃ puts : List HttpRequest,
        (linkLoop env cfg linkID tableName otherTableName leftKeyCol false idx rows c tr).2 =
          tr ++ puts ∧
        puts <+: putRequests env cfg linkID tableName otherTableName leftKeyCol T rows ∧
        (∀ c', (linkLoop env cfg linkID tableName otherTableName leftKeyCol false idx
            rows c tr).1 = .ok c' →
          puts = putRequests env cfg linkID tableName otherTableName leftKeyCol T rows) := by
  intro rows
  induction rows with
  | nil =>
    intro c tr
    exact ⟨[], by simp [linkLoop], by simp [putRequests], by simp [putRequests]⟩
  | cons row rows ih =>
    intro c tr
    cases hm : isMatched env leftKeyCol T row with
    | false =>
      have hp : putRequests env cfg linkID tableName otherTableName leftKeyCol T (row :: rows) =
          putRequests env cfg linkID tableName otherTableName leftKeyCol T rows := by
        simp [putRequests, List.filter_cons, hm]
      rw [linkLoop_skip env cfg linkID tableName otherTableName leftKeyCol false idx T hidx
        row rows c tr hm, hp]
      exact ih _ tr
    | true =>
      have hp : putRequests env cfg linkID tableName otherTableName leftKeyCol T (row :: rows) =
          putRequest env cfg linkID tableName otherTableName leftKeyCol T row ::
            putRequests env cfg linkID tableName otherTableName leftKeyCol T rows := by
        simp [putRequests, List.filter_cons, hm]
      cases he : (doSeaTableRequest env tr.length "PUT" (linksUrl cfg) cfg.Token
          (some (linkUpdateBody linkID tableName otherTableName (getStringFromRow env row "_id")
            (T (getStringFromRow env row leftKeyCol))))).1.err with
      | none =>
        rw [linkLoop_put_ok env cfg linkID tableName otherTableName leftKeyCol idx T hidx
          row rows c tr hm he, hp]
        obtain ⟨puts, h1, h2, h3⟩ := ih
          ⟨c.processed + 1, c.matched + 1, c.skipped,
            c.created + (T (getStringFromRow env row leftKeyCol)).length⟩
          (tr ++ [putRequest env cfg linkID tableName otherTableName leftKeyCol T row])
        refine ⟨putRequest env cfg linkID tableName otherTableName leftKeyCol T row :: puts,
          ?_, ?_, ?_⟩
        · rw [h1]; simp
        · exact List.cons_prefix_cons.mpr ⟨rfl, h2⟩
        · intro c' hc; rw [h3 c' hc]
      | some e =>
        rw [linkLoop_put_err env cfg linkID tableName otherTableName leftKeyCol idx T hidx
          row rows c tr hm e he, hp]
        refine ⟨_, rfl, ?_, ?_⟩
        · cases hs : (doSeaTableRequest env tr.length "PUT" (linksUrl cfg) cfg.Token
              (some (linkUpdateBody linkID tableName otherTableName
                (getStringFromRow env row "_id")
                (T (getStringFromRow env row leftKeyCol))))).2 with
          | none => simp
          | some r =>
            have hr := doSeaTableRequest_sent_eq env _ _ _ _ _ r hs
            simp only [Option.toList_some]
            rw [hr]
            exact List.cons_prefix_cons.mpr ⟨rfl, List.nil_prefix⟩
        · intro c' hc; simp at hc

end LinkLoop

theorem exampleNode_valid (dryRun : Bool) :
    ValidInputs exampleRegistry (exampleNode dryRun) exampleCfg "Orders" "Customers" "Lk01"
      "key" "key" :=
  ⟨⟨_, rfl, by decide⟩, ⟨_, rfl, by decide, by decide⟩, ⟨_, rfl, by decide, by decide⟩,
    ⟨_, rfl, by decide, by decide⟩, ⟨_, rfl, by decide, by decide⟩,
    ⟨_, rfl, by decide, by decide⟩⟩

theorem exampleEnv_call_ok (status : Int) (k : Nat) (method : String) (url : Url)
    (token : String) (body : Option Value) :
    (doSeaTableRequest (exampleEnv status) k method url token body).1.err = none := by
  match k with
  | 0 => cases body <;> rfl
  | 1 => cases body <;> rfl
  | k + 2 => cases body <;> rfl

theorem fetchRowsForKey_ok_sent (env : Env) (n : Nat) (cfg : SeaTableClient)
    (tableName keyColumn : String) (limit : Int) (rows : List Row)
    (h : (fetchRowsForKey env n cfg tableName keyColumn limit).1 = .ok rows) :
    (fetchRowsForKey env n cfg tableName keyColumn limit).2 =
      some (fetchRequest cfg tableName keyColumn limit) := by
  unfold fetchRowsForKey at h ⊢
  cases he : (doSeaTableRequest env n "POST" (sqlUrl cfg) cfg.Token
      (some (fetchBody tableName keyColumn limit))).1.err with
  | some e => simp [he] at h
  | none =>
    simp only [he]
    exact doSeaTableRequest_sent env n "POST" (sqlUrl cfg) cfg.Token _ he

/-- A run of Auto Link after validation in which both fetches return rows and
every link-update call succeeds. -/
theorem autoLinkRun_ok (env : Env) (cfg : SeaTableClient)
    (tableName otherTableName linkID leftKeyCol rightKeyCol : String) (maxLeft maxRight : Int)
    (dryRun : Bool) (rightRows leftRows : List Row)
    (hright : (fetchRowsForKey env 0 cfg otherTableName rightKeyCol maxRight).1 = .ok rightRows)
    (hleft : (fetchRowsForKey env 1 cfg tableName leftKeyCol maxLeft).1 = .ok leftRows)
    (hput : dryRun = false → ∀ (j : Nat) (body : Value),
      j < (putRequests env cfg linkID tableName otherTableName leftKeyCol
        (rightTargets env rightKeyCol rightRows) leftRows).length →
      (doSeaTableRequest env (2 + j) "PUT" (linksUrl cfg) cfg.Token (some body)).1.err = none) :
    autoLinkRun env cfg tableName otherTableName linkID leftKeyCol rightKeyCol maxLeft maxRight
        dryRun =
      (.ok ⟨leftRows.length,
          matchedCount env leftKeyCol (rightTargets env rightKeyCol rightRows) leftRows,
          leftRows.length -
            matchedCount env leftKeyCol (rightTargets env rightKeyCol rightRows) leftRows,
          targetCount env leftKeyCol (rightTargets env rightKeyCol rightRows) leftRows,
          "override"⟩,
        fetchRequest cfg otherTableName rightKeyCol maxRight ::
          fetchRequest cfg tableName leftKeyCol maxLeft ::
          (if dryRun then []
            else putRequests env cfg linkID tableName otherTableName leftKeyCol
              (rightTargets env rightKeyCol rightRows) leftRows)) := by
  have hs1 := fetchRowsForKey_ok_sent env 0 cfg otherTableName rightKeyCol maxRight _ hright
  have hs2 := fetchRowsForKey_ok_sent env 1 cfg tableName leftKeyCol maxLeft _ hleft
  have hidx : ∀ k, (mapGet (buildRightIndex env rightKeyCol rightRows []) k).getD [] =
      rightTargets env rightKeyCol rightRows k := by
    intro k
    simpa [mapGet] using buildRightIndex_getD env rightKeyCol rightRows [] k
  have hloop := linkLoop_all_ok env cfg linkID tableName otherTableName leftKeyCol dryRun
    (buildRightIndex env rightKeyCol rightRows []) (rightTargets env rightKeyCol rightRows) hidx
    leftRows ⟨0, 0, 0, 0⟩
    [fetchRequest cfg otherTableName rightKeyCol maxRight,
      fetchRequest cfg tableName leftKeyCol maxLeft] hput
  unfold autoLinkRun
  simp only [hright, hs1, Option.toList_some, List.length_singleton, hleft, hs2,
    List.singleton_append, hloop]
  simp

/-- C2: with valid inputs, when the two fetches return `rightRows` and `leftRows`
and every link-update call succeeds, Auto Link reports processed = number of
left rows, matched = number of matched left rows, skipped = the remaining left
rows, createdLinks = the sum over matched left rows of their target counts. -/
theorem autoLink_counters (env : Env) (reg : Registry) (n : SeaTableAutoLink)
    (cfg : SeaTableClient) (tableName otherTableName linkID leftKeyCol rightKeyCol : String)
    (rightRows leftRows : List Row)
    (hv : ValidInputs reg n cfg tableName otherTableName linkID leftKeyCol rightKeyCol)
    (hright : (fetchRowsForKey env 0 cfg otherTableName rightKeyCol
      (clampMaxRows n.OptMaxRightRows)).1 = .ok rightRows)
    (hleft : (fetchRowsForKey env 1 cfg tableName leftKeyCol
      (clampMaxRows n.OptMaxLeftRows)).1 = .ok leftRows)
    (hput : n.OptDryRun = false → ∀ (k : Nat) (body : Value),
      (doSeaTableRequest env k "PUT" (linksUrl cfg) cfg.Token (some body)).1.err = none) :
    (SeaTableAutoLink.OnMessage env reg n).1 =
      .ok ⟨leftRows.length,
        matchedCount env leftKeyCol (rightTargets env rightKeyCol rightRows) leftRows,
        leftRows.length -
          matchedCount env leftKeyCol (rightTargets env rightKeyCol rightRows) leftRows,
        targetCount env leftKeyCol (rightTargets env rightKeyCol rightRows) leftRows,
        "override"⟩ := by
  rw [OnMessage_eq_run env reg n cfg _ _ _ _ _ hv,
    autoLinkRun_ok env cfg _ _ _ _ _ _ _ _ rightRows leftRows hright hleft
      (fun hd j body _ => hput hd (2 + j) body)]

/-- C2, on the example of the specification: right rows r1:A, r2:A, r3:B and left
rows l1:A, l2:C give processed 2, matched 1, skipped 1, createdLinks 2. -/
theorem autoLink_counters_witness :
    (SeaTableAutoLink.OnMessage (exampleEnv 200) exampleRegistry (exampleNode false)).1 =
      .ok ⟨2, 1, 1, 2, "override"⟩ :=
  autoLink_counters (exampleEnv 200) exampleRegistry (exampleNode false) exampleCfg
    "Orders" "Customers" "Lk01" "key" "key" exampleRightRows exampleLeftRows
    (exampleNode_valid false) rfl rfl (fun _ k body => exampleEnv_call_ok 200 k _ _ _ (some body))


/-- C3: with dry-run off, valid inputs and both fetches returning rows, the
requests Auto Link sends are the two fetches followed by link-update calls
that are, in left-row order, the PUT requests of the matched left rows (each
carrying the row id and the full list of targets of its key) up to the point
where the operation stops; when the operation succeeds they are all of them,
one per matched left row and none for a skipped row. -/
theorem autoLink_calls (env : Env) (reg : Registry) (n : SeaTableAutoLink)
    (cfg : SeaTableClient) (tableName otherTableName linkID leftKeyCol rightKeyCol : String)
    (rightRows leftRows : List Row)
    (hv : ValidInputs reg n cfg tableName otherTableName linkID leftKeyCol rightKeyCol)
    (hdry : n.OptDryRun = false)
    (hright : (fetchRowsForKey env 0 cfg otherTableName rightKeyCol
      (clampMaxRows n.OptMaxRightRows)).1 = .ok rightRows)
    (hleft : (fetchRowsForKey env 1 cfg tableName leftKeyCol
      (clampMaxRows n.OptMaxLeftRows)).1 = .ok leftRows) :
    ∃ puts : List HttpRequest,
      (SeaTableAutoLink.OnMessage env reg n).2 =
        fetchRequest cfg otherTableName rightKeyCol (clampMaxRows n.OptMaxRightRows) ::
          fetchRequest cfg tableName leftKeyCol (clampMaxRows n.OptMaxLeftRows) :: puts ∧
      puts <+: putRequests env cfg linkID tableName otherTableName leftKeyCol
        (rightTargets env rightKeyCol rightRows) leftRows ∧
      (∀ out, (SeaTableAutoLink.OnMessage env reg n).1 = .ok out →
        puts = putRequests env cfg linkID tableName otherTableName leftKeyCol
          (rightTargets env rightKeyCol rightRows) leftRows) := by
  have hs1 := fetchRowsForKey_ok_sent env 0 cfg otherTableName rightKeyCol _ _ hright
  have hs2 := fetchRowsForKey_ok_sent env 1 cfg tableName leftKeyCol _ _ hleft
  have hidx : ∀ k, (mapGet (buildRightIndex env rightKeyCol rightRows []) k).getD [] =
      rightTargets env rightKeyCol rightRows k := by
    intro k
    simpa [mapGet] using buildRightIndex_getD env rightKeyCol rightRows [] k
  obtain ⟨puts, h1, h2, h3⟩ := linkLoop_calls env cfg linkID tableName otherTableName leftKeyCol
    (buildRightIndex env rightKeyCol rightRows []) (rightTargets env rightKeyCol rightRows) hidx
    leftRows ⟨0, 0, 0, 0⟩
    [fetchRequest cfg otherTableName rightKeyCol (clampMaxRows n.OptMaxRightRows),
      fetchRequest cfg tableName leftKeyCol (clampMaxRows n.OptMaxLeftRows)]
  refine ⟨puts, ?_, h2, ?_⟩
  · rw [OnMessage_eq_run env reg n cfg _ _ _ _ _ hv, hdry]
    unfold autoLinkRun
    simp only [hright, hs1, Option.toList_some, List.length_singleton, hleft, hs2,
      List.singleton_append]
    split
    · rename_i e he; simpa [he] using h1
    · rename_i c hc; simpa [hc] using h1
  · intro out hout
    rw [OnMessage_eq_run env reg n cfg _ _ _ _ _ hv, hdry] at hout
    unfold autoLinkRun at hout
    simp only [hright, hs1, Option.toList_some, List.length_singleton, hleft, hs2,
      List.singleton_append] at hout
    split at hout
    · simp at hout
    · rename_i c hc; exact h3 c hc

/-- C3, on the example of the specification: a single link-update call is issued,
for l1, with targets r1 and r2. -/
theorem autoLink_calls_witness :
    (SeaTableAutoLink.OnMessage (exampleEnv 200) exampleRegistry (exampleNode false)).2 =
      [fetchRequest exampleCfg "Customers" "key" 500, fetchRequest exampleCfg "Orders" "key" 1000,
        ⟨"PUT", linksUrl exampleCfg,
          [("Authorization", "Bearer secret"), ("Content-Type", "application/json"),
            ("Accept", "application/json")],
          some (.obj [("link_id", .str "Lk01"), ("table_name", .str "Orders"),
            ("other_table_name", .str "Customers"), ("row_id", .str "l1"),
            ("other_rows_ids", .arr [.str "r1", .str "r2"])])⟩] := by
  obtain ⟨puts, h1, _, h3⟩ := autoLink_calls (exampleEnv 200) exampleRegistry (exampleNode false)
    exampleCfg "Orders" "Customers" "Lk01" "key" "key" exampleRightRows exampleLeftRows
    (exampleNode_valid false) rfl rfl rfl
  rw [h1, h3 ⟨2, 1, 1, 2, "override"⟩ rfl]
  rfl


/-- Validation either rejects the inputs, with an error and no request and
whatever the environment and the dry-run option, or accepts them. -/
theorem OnMessage_cases (reg : Registry) (n : SeaTableAutoLink) :
    (∃ e, ∀ (env : Env) (b : Bool),
      SeaTableAutoLink.OnMessage env reg (withDryRun n b) = (.error e, [])) ∨
    (∃ cfg tableName otherTableName linkID leftKeyCol rightKeyCol,
      ValidInputs reg n cfg tableName otherTableName linkID leftKeyCol rightKeyCol) := by
  cases h0 : n.InClientID with
  | error e => left; exact ⟨e, fun env b => by simp [SeaTableAutoLink.OnMessage, withDryRun, h0]⟩
  | ok cid =>
  cases h1 : getSeaTableClient reg cid with
  | none =>
    left
    exact ⟨.runtimeError "ErrInvalidArg" "Unknown Client ID – run SeaTable.Connect first",
      fun env b => by simp [SeaTableAutoLink.OnMessage, withDryRun, h0, h1]⟩
  | some cfg =>
  cases h2 : n.InTableName with
  | error e =>
    left; exact ⟨e, fun env b => by simp [SeaTableAutoLink.OnMessage, withDryRun, h0, h1, h2]⟩
  | ok s2 =>
  cases h3 : n.InOtherTableName with
  | error e =>
    left; exact ⟨e, fun env b => by simp [SeaTableAutoLink.OnMessage, withDryRun, h0, h1, h2, h3]⟩
  | ok s3 =>
  cases h4 : n.InLinkID with
  | error e =>
    left
    exact ⟨e, fun env b => by simp [SeaTableAutoLink.OnMessage, withDryRun, h0, h1, h2, h3, h4]⟩
  | ok s4 =>
  cases h5 : n.InLeftKeyColumn with
  | error e =>
    left
    exact ⟨e, fun env b => by
      simp [SeaTableAutoLink.OnMessage, withDryRun, h0, h1, h2, h3, h4, h5]⟩
  | ok s5 =>
  cases h6 : n.InRightKeyColumn with
  | error e =>
    left
    exact ⟨e, fun env b => by
      simp [SeaTableAutoLink.OnMessage, withDryRun, h0, h1, h2, h3, h4, h5, h6]⟩
  | ok s6 =>
  by_cases hempty : trimSpace s2 = "" ∨ trimSpace s3 = "" ∨ trimSpace s4 = "" ∨
      trimSpace s5 = "" ∨ trimSpace s6 = ""
  · left
    refine ⟨.runtimeError "ErrInvalidArg"
      "Table, Other Table, Link ID and key columns are required", fun env b => ?_⟩
    simp only [SeaTableAutoLink.OnMessage, withDryRun, h0, h1, h2, h3, h4, h5, h6]
    rw [if_pos hempty]
  · right
    simp only [not_or] at hempty
    exact ⟨cfg, _, _, _, _, _, ⟨cid, h0, h1⟩, ⟨s2, h2, rfl, hempty.1⟩, ⟨s3, h3, rfl, hempty.2.1⟩,
      ⟨s4, h4, rfl, hempty.2.2.1⟩, ⟨s5, h5, rfl, hempty.2.2.2.1⟩, ⟨s6, h6, rfl, hempty.2.2.2.2⟩⟩

theorem ValidInputs_withDryRun {reg : Registry} {n : SeaTableAutoLink} {cfg : SeaTableClient}
    {tableName otherTableName linkID leftKeyCol rightKeyCol : String}
    (hv : ValidInputs reg n cfg tableName otherTableName linkID leftKeyCol rightKeyCol)
    (b : Bool) :
    ValidInputs reg (withDryRun n b) cfg tableName otherTableName linkID leftKeyCol rightKeyCol :=
  ⟨hv.client, hv.table, hv.otherTable, hv.link, hv.leftKey, hv.rightKey⟩

theorem fetchRowsForKey_sent_post (env : Env) (k : Nat) (cfg : SeaTableClient)
    (tableName keyColumn : String) (limit : Int) :
    ∀ r ∈ (fetchRowsForKey env k cfg tableName keyColumn limit).2.toList, r.method = "POST" := by
  intro r hr
  have h2 : (fetchRowsForKey env k cfg tableName keyColumn limit).2 =
      (doSeaTableRequest env k "POST" (sqlUrl cfg) cfg.Token
        (some (fetchBody tableName keyColumn limit))).2 := by
    cases he : (doSeaTableRequest env k "POST" (sqlUrl cfg) cfg.Token
        (some (fetchBody tableName keyColumn limit))).1.err <;>
      simp [fetchRowsForKey, he]
  rw [h2] at hr
  cases hs : (doSeaTableRequest env k "POST" (sqlUrl cfg) cfg.Token
      (some (fetchBody tableName keyColumn limit))).2 with
  | none => rw [hs] at hr; simp at hr
  | some q =>
    rw [hs] at hr
    simp only [Option.toList_some, List.mem_singleton] at hr
    rw [hr, doSeaTableRequest_sent_eq env _ _ _ _ _ q hs]

/-- After validation, a dry run and a run sending link-update calls that all
succeed end alike, and the dry run sends nothing but its fetches. -/
theorem autoLinkRun_dry (env : Env) (cfg : SeaTableClient)
    (tableName otherTableName linkID leftKeyCol rightKeyCol : String) (maxLeft maxRight : Int)
    (hput : ∀ (k : Nat) (body : Value),
      (doSeaTableRequest env k "PUT" (linksUrl cfg) cfg.Token (some body)).1.err = none) :
    (autoLinkRun env cfg tableName otherTableName linkID leftKeyCol rightKeyCol maxLeft maxRight
        true).1 =
      (autoLinkRun env cfg tableName otherTableName linkID leftKeyCol rightKeyCol maxLeft maxRight
        false).1 ∧
    ∀ r ∈ (autoLinkRun env cfg tableName otherTableName linkID leftKeyCol rightKeyCol maxLeft
        maxRight true).2, r.method = "POST" := by
  have hp1 := fetchRowsForKey_sent_post env 0 cfg otherTableName rightKeyCol maxRight
  cases hfr : (fetchRowsForKey env 0 cfg otherTableName rightKeyCol maxRight).1 with
  | error e =>
    constructor
    · simp only [autoLinkRun, hfr]
    · simp only [autoLinkRun, hfr]; exact hp1
  | ok rightRows =>
    have hp2 := fetchRowsForKey_sent_post env
      (fetchRowsForKey env 0 cfg otherTableName rightKeyCol maxRight).2.toList.length
      cfg tableName leftKeyCol maxLeft
    have hmem : ∀ r ∈ (fetchRowsForKey env 0 cfg otherTableName rightKeyCol maxRight).2.toList ++
        (fetchRowsForKey env
          (fetchRowsForKey env 0 cfg otherTableName rightKeyCol maxRight).2.toList.length
          cfg tableName leftKeyCol maxLeft).2.toList, r.method = "POST" := by
      intro r hr
      rcases List.mem_append.mp hr with h | h
      · exact hp1 r h
      · exact hp2 r h
    cases hfl : (fetchRowsForKey env
        (fetchRowsForKey env 0 cfg otherTableName rightKeyCol maxRight).2.toList.length
        cfg tableName leftKeyCol maxLeft).1 with
    | error e =>
      constructor
      · simp only [autoLinkRun, hfr, hfl]
      · simp only [autoLinkRun, hfr, hfl]; exact hmem
    | ok leftRows =>
      have hidx : ∀ k, (mapGet (buildRightIndex env rightKeyCol rightRows []) k).getD [] =
          rightTargets env rightKeyCol rightRows k := by
        intro k
        simpa [mapGet] using buildRightIndex_getD env rightKeyCol rightRows [] k
      have hd := linkLoop_all_ok env cfg linkID tableName otherTableName leftKeyCol true _ _ hidx
          leftRows ⟨0, 0, 0, 0⟩
          ((fetchRowsForKey env 0 cfg otherTableName rightKeyCol maxRight).2.toList ++
            (fetchRowsForKey env
              (fetchRowsForKey env 0 cfg otherTableName rightKeyCol maxRight).2.toList.length
              cfg tableName leftKeyCol maxLeft).2.toList) (by intro h; cases h)
      have hw := linkLoop_all_ok env cfg linkID tableName otherTableName leftKeyCol false _ _ hidx
          leftRows ⟨0, 0, 0, 0⟩
          ((fetchRowsForKey env 0 cfg otherTableName rightKeyCol maxRight).2.toList ++
            (fetchRowsForKey env
              (fetchRowsForKey env 0 cfg otherTableName rightKeyCol maxRight).2.toList.length
              cfg tableName leftKeyCol maxLeft).2.toList) (fun _ j body _ => hput _ body)
      constructor
      · simp only [autoLinkRun, hfr, hfl, hd, hw]
      · simp only [autoLinkRun, hfr, hfl, hd]
        simpa using hmem

/-- C4: when every link-update call succeeds, Auto Link with dry-run enabled
ends with the same result, hence the same four counters, as with dry-run
disabled, and with dry-run enabled it sends no link-update call: every request
it sends is a POST of a fetch. -/
theorem autoLink_dryRun (env : Env) (reg : Registry) (n : SeaTableAutoLink)
    (hput : ∀ (k : Nat) (url : Url) (token : String) (body : Value),
      (doSeaTableRequest env k "PUT" url token (some body)).1.err = none) :
    (SeaTableAutoLink.OnMessage env reg (withDryRun n true)).1 =
      (SeaTableAutoLink.OnMessage env reg (withDryRun n false)).1 ∧
    ∀ r ∈ (SeaTableAutoLink.OnMessage env reg (withDryRun n true)).2, r.method ≠ "PUT" := by
  rcases OnMessage_cases reg n with ⟨e, he⟩ | ⟨cfg, t, o, l, lk, rk, hv⟩
  · rw [he env true, he env false]
    exact ⟨rfl, by simp⟩
  · rw [OnMessage_eq_run env reg _ cfg _ _ _ _ _ (ValidInputs_withDryRun hv true),
      OnMessage_eq_run env reg _ cfg _ _ _ _ _ (ValidInputs_withDryRun hv false)]
    have h := autoLinkRun_dry env cfg t o l lk rk (clampMaxRows n.OptMaxLeftRows)
      (clampMaxRows n.OptMaxRightRows) (fun k body => hput k _ _ body)
    refine ⟨h.1, fun r hr => ?_⟩
    have hpost := h.2 r hr
    rw [hpost]
    decide

/-- C4, on the example of the specification: the dry run reports the counters
2, 1, 1, 2 of the run that links, and sends the two fetches only. -/
theorem autoLink_dryRun_witness :
    (SeaTableAutoLink.OnMessage (exampleEnv 200) exampleRegistry (exampleNode true)).1 =
        (SeaTableAutoLink.OnMessage (exampleEnv 200) exampleRegistry (exampleNode false)).1 ∧
      (SeaTableAutoLink.OnMessage (exampleEnv 200) exampleRegistry (exampleNode true)).1 =
        .ok ⟨2, 1, 1, 2, "override"⟩ ∧
      ∀ r ∈ (SeaTableAutoLink.OnMessage (exampleEnv 200) exampleRegistry (exampleNode true)).2,
        r.method ≠ "PUT" :=
  ⟨(autoLink_dryRun (exampleEnv 200) exampleRegistry (exampleNode false)
      (fun k url token body => exampleEnv_call_ok 200 k _ url token (some body))).1,
    rfl,
    (autoLink_dryRun (exampleEnv 200) exampleRegistry (exampleNode false)
      (fun k url token body => exampleEnv_call_ok 200 k _ url token (some body))).2⟩


/-- The run in which the link-update call of a matched left row fails after the
calls of the rows before it succeeded. -/
theorem OnMessage_abort (env : Env) (reg : Registry) (n : SeaTableAutoLink)
    (cfg : SeaTableClient) (tableName otherTableName linkID leftKeyCol rightKeyCol : String)
    (rightRows pre post : List Row) (row : Row) (e : Error)
    (hv : ValidInputs reg n cfg tableName otherTableName linkID leftKeyCol rightKeyCol)
    (hdry : n.OptDryRun = false)
    (hright : (fetchRowsForKey env 0 cfg otherTableName rightKeyCol
      (clampMaxRows n.OptMaxRightRows)).1 = .ok rightRows)
    (hleft : (fetchRowsForKey env 1 cfg tableName leftKeyCol
      (clampMaxRows n.OptMaxLeftRows)).1 = .ok (pre ++ row :: post))
    (hm : isMatched env leftKeyCol (rightTargets env rightKeyCol rightRows) row = true)
    (hpre : ∀ (j : Nat) (body : Value),
      j < (putRequests env cfg linkID tableName otherTableName leftKeyCol
        (rightTargets env rightKeyCol rightRows) pre).length →
      (doSeaTableRequest env (2 + j) "PUT" (linksUrl cfg) cfg.Token (some body)).1.err = none)
    (herr : (doSeaTableRequest env
        (2 + (putRequests env cfg linkID tableName otherTableName leftKeyCol
          (rightTargets env rightKeyCol rightRows) pre).length)
        "PUT" (linksUrl cfg) cfg.Token
        (some (linkUpdateBody linkID tableName otherTableName (getStringFromRow env row "_id")
          (rightTargets env rightKeyCol rightRows
            (getStringFromRow env row leftKeyCol))))).1.err = some e) :
    ∃ attempt : List HttpRequest,
      attempt <+: [putRequest env cfg linkID tableName otherTableName leftKeyCol
        (rightTargets env rightKeyCol rightRows) row] ∧
      SeaTableAutoLink.OnMessage env reg n =
        (.error (.wrapf ("update links for row " ++ getStringFromRow env row "_id") e),
          fetchRequest cfg otherTableName rightKeyCol (clampMaxRows n.OptMaxRightRows) ::
            fetchRequest cfg tableName leftKeyCol (clampMaxRows n.OptMaxLeftRows) ::
            (putRequests env cfg linkID tableName otherTableName leftKeyCol
              (rightTargets env rightKeyCol rightRows) pre ++ attempt)) := by
  have hs1 := fetchRowsForKey_ok_sent env 0 cfg otherTableName rightKeyCol _ _ hright
  have hs2 := fetchRowsForKey_ok_sent env 1 cfg tableName leftKeyCol _ _ hleft
  have hidx : ∀ k, (mapGet (buildRightIndex env rightKeyCol rightRows []) k).getD [] =
      rightTargets env rightKeyCol rightRows k := by
    intro k
    simpa [mapGet] using buildRightIndex_getD env rightKeyCol rightRows [] k
  have hlen : ([fetchRequest cfg otherTableName rightKeyCol (clampMaxRows n.OptMaxRightRows),
      fetchRequest cfg tableName leftKeyCol (clampMaxRows n.OptMaxLeftRows)] ++
      putRequests env cfg linkID tableName otherTableName leftKeyCol
        (rightTargets env rightKeyCol rightRows) pre).length =
      2 + (putRequests env cfg linkID tableName otherTableName leftKeyCol
        (rightTargets env rightKeyCol rightRows) pre).length := by
    simp only [List.length_append, List.length_cons, List.length_nil]
  rw [← hlen] at herr
  have h1 := linkLoop_append_ok env cfg linkID tableName otherTableName leftKeyCol false
    (buildRightIndex env rightKeyCol rightRows []) (rightTargets env rightKeyCol rightRows) hidx
    (row :: post) pre ⟨0, 0, 0, 0⟩
    [fetchRequest cfg otherTableName rightKeyCol (clampMaxRows n.OptMaxRightRows),
      fetchRequest cfg tableName leftKeyCol (clampMaxRows n.OptMaxLeftRows)]
    (fun _ j body hj => hpre j body hj)
  simp only [Bool.false_eq_true, if_false] at h1
  have h2 := linkLoop_put_err env cfg linkID tableName otherTableName leftKeyCol
    (buildRightIndex env rightKeyCol rightRows []) (rightTargets env rightKeyCol rightRows) hidx
    row post
    ⟨0 + pre.length, 0 + matchedCount env leftKeyCol (rightTargets env rightKeyCol rightRows) pre,
      0 + (pre.length - matchedCount env leftKeyCol (rightTargets env rightKeyCol rightRows) pre),
      0 + targetCount env leftKeyCol (rightTargets env rightKeyCol rightRows) pre⟩
    ([fetchRequest cfg otherTableName rightKeyCol (clampMaxRows n.OptMaxRightRows),
        fetchRequest cfg tableName leftKeyCol (clampMaxRows n.OptMaxLeftRows)] ++
      putRequests env cfg linkID tableName otherTableName leftKeyCol
        (rightTargets env rightKeyCol rightRows) pre) hm e herr
  refine ⟨(doSeaTableRequest env
        ([fetchRequest cfg otherTableName rightKeyCol (clampMaxRows n.OptMaxRightRows),
            fetchRequest cfg tableName leftKeyCol (clampMaxRows n.OptMaxLeftRows)] ++
          putRequests env cfg linkID tableName otherTableName leftKeyCol
            (rightTargets env rightKeyCol rightRows) pre).length
        "PUT" (linksUrl cfg) cfg.Token
        (some (linkUpdateBody linkID tableName otherTableName (getStringFromRow env row "_id")
          (rightTargets env rightKeyCol rightRows
            (getStringFromRow env row leftKeyCol))))).2.toList, ?_, ?_⟩
  rotate_left
  · rw [OnMessage_eq_run env reg n cfg _ _ _ _ _ hv, hdry]
    unfold autoLinkRun
    simp only [hright, hs1, Option.toList_some, List.length_singleton, hleft, hs2,
      List.singleton_append, h1, h2]
    simp only [List.cons_append, List.nil_append, List.append_assoc]
  · cases hs : (doSeaTableRequest env
        ([fetchRequest cfg otherTableName rightKeyCol (clampMaxRows n.OptMaxRightRows),
            fetchRequest cfg tableName leftKeyCol (clampMaxRows n.OptMaxLeftRows)] ++
          putRequests env cfg linkID tableName otherTableName leftKeyCol
            (rightTargets env rightKeyCol rightRows) pre).length
        "PUT" (linksUrl cfg) cfg.Token
        (some (linkUpdateBody linkID tableName otherTableName (getStringFromRow env row "_id")
          (rightTargets env rightKeyCol rightRows
            (getStringFromRow env row leftKeyCol))))).2 with
    | none => simp
    | some r =>
      have hr := doSeaTableRequest_sent_eq env _ _ _ _ _ r hs
      simp only [Option.toList_some]
      rw [hr]
      exact List.prefix_refl _


/-- C5: with dry-run off, when the link-update call for a matched left row fails
after the calls for the rows before it succeeded, Auto Link returns the error
wrapping that failure and sets no output; the requests sent are the two
fetches, the calls of the matched rows before it in row order, and the failed
call if it reached the network; no call is made for a later row. -/
theorem autoLink_abort (env : Env) (reg : Registry) (n : SeaTableAutoLink)
    (cfg : SeaTableClient) (tableName otherTableName linkID leftKeyCol rightKeyCol : String)
    (rightRows pre post : List Row) (row : Row) (e : Error)
    (hv : ValidInputs reg n cfg tableName otherTableName linkID leftKeyCol rightKeyCol)
    (hdry : n.OptDryRun = false)
    (hright : (fetchRowsForKey env 0 cfg otherTableName rightKeyCol
      (clampMaxRows n.OptMaxRightRows)).1 = .ok rightRows)
    (hleft : (fetchRowsForKey env 1 cfg tableName leftKeyCol
      (clampMaxRows n.OptMaxLeftRows)).1 = .ok (pre ++ row :: post))
    (hm : isMatched env leftKeyCol (rightTargets env rightKeyCol rightRows) row = true)
    (hpre : ∀ (j : Nat) (body : Value),
      j < (putRequests env cfg linkID tableName otherTableName leftKeyCol
        (rightTargets env rightKeyCol rightRows) pre).length →
      (doSeaTableRequest env (2 + j) "PUT" (linksUrl cfg) cfg.Token (some body)).1.err = none)
    (herr : (doSeaTableRequest env
        (2 + (putRequests env cfg linkID tableName otherTableName leftKeyCol
          (rightTargets env rightKeyCol rightRows) pre).length)
        "PUT" (linksUrl cfg) cfg.Token
        (some (linkUpdateBody linkID tableName otherTableName (getStringFromRow env row "_id")
          (rightTargets env rightKeyCol rightRows
            (getStringFromRow env row leftKeyCol))))).1.err = some e) :
    ∃ attempt : List HttpRequest,
      attempt <+: [putRequest env cfg linkID tableName otherTableName leftKeyCol
        (rightTargets env rightKeyCol rightRows) row] ∧
      SeaTableAutoLink.OnMessage env reg n =
        (.error (.wrapf ("update links for row " ++ getStringFromRow env row "_id") e),
          fetchRequest cfg otherTableName rightKeyCol (clampMaxRows n.OptMaxRightRows) ::
            fetchRequest cfg tableName leftKeyCol (clampMaxRows n.OptMaxLeftRows) ::
            (putRequests env cfg linkID tableName otherTableName leftKeyCol
              (rightTargets env rightKeyCol rightRows) pre ++ attempt)) :=
  OnMessage_abort env reg n cfg tableName otherTableName linkID leftKeyCol rightKeyCol
    rightRows pre post row e hv hdry hright hleft hm hpre herr

/-- C5, on the second example: the call for l0 is answered, the call for l1 is
refused, and the operation stops there with the wrapped refusal; l2 is never
reached. -/
theorem autoLink_abort_witness :
    ∃ attempt : List HttpRequest,
      attempt <+: [putRequest refusingEnv exampleCfg "Lk01" "Orders" "Customers" "key"
        (rightTargets refusingEnv "key" exampleRightRows)
        (some [("_id", .str "l1"), ("key", .str "A")])] ∧
      SeaTableAutoLink.OnMessage refusingEnv exampleRegistry (exampleNode false) =
        (.error (.wrapf "update links for row l1"
            (.wrapf "http request failed" (.external "connection refused"))),
          fetchRequest exampleCfg "Customers" "key" 500 ::
            fetchRequest exampleCfg "Orders" "key" 1000 ::
            ([putRequest refusingEnv exampleCfg "Lk01" "Orders" "Customers" "key"
                (rightTargets refusingEnv "key" exampleRightRows)
                (some [("_id", .str "l0"), ("key", .str "B")])] ++ attempt)) :=
  autoLink_abort refusingEnv exampleRegistry (exampleNode false) exampleCfg
    "Orders" "Customers" "Lk01" "key" "key" exampleRightRows
    [some [("_id", .str "l0"), ("key", .str "B")]] [some [("_id", .str "l2"), ("key", .str "C")]]
    (some [("_id", .str "l1"), ("key", .str "A")])
    (.wrapf "http request failed" (.external "connection refused"))
    (exampleNode_valid false) rfl rfl rfl rfl
    (fun j body hj => by
      have hj1 : j < 1 := hj
      obtain rfl : j = 0 := by omega
      rfl)
    rfl


/-! ### The status code of a response is not inspected -/

theorem doSeaTableRequest_withStatus (f : Nat → HttpRequest → Int → Int) (env : Env) (k : Nat)
    (method : String) (url : Url) (token : String) (body : Option Value) :
    (doSeaTableRequest (withStatus f env) k method url token body).1.err =
        (doSeaTableRequest env k method url token body).1.err ∧
      (doSeaTableRequest (withStatus f env) k method url token body).1.body =
        (doSeaTableRequest env k method url token body).1.body ∧
      (doSeaTableRequest (withStatus f env) k method url token body).2 =
        (doSeaTableRequest env k method url token body).2 := by
  unfold doSeaTableRequest
  simp only [withStatus]
  cases h1 : body.bind env.marshalError with
  | some e => simp
  | none =>
    cases h2 : env.newRequestError method url with
    | some e => simp
    | none =>
      cases h3 : env.roundTrip k ⟨method, url, requestHeaders token body, body⟩ <;> simp [h3]

theorem getStringFromRow_withStatus (f : Nat → HttpRequest → Int → Int) (env : Env) (row : Row)
    (key : String) : getStringFromRow (withStatus f env) row key = getStringFromRow env row key :=
  rfl

theorem fetchRowsForKey_withStatus (f : Nat → HttpRequest → Int → Int) (env : Env) (k : Nat)
    (cfg : SeaTableClient) (tableName keyColumn : String) (limit : Int) :
    fetchRowsForKey (withStatus f env) k cfg tableName keyColumn limit =
      fetchRowsForKey env k cfg tableName keyColumn limit := by
  obtain ⟨h1, h2, h3⟩ := doSeaTableRequest_withStatus f env k "POST" (sqlUrl cfg) cfg.Token
    (some (fetchBody tableName keyColumn limit))
  unfold fetchRowsForKey
  simp only [h1, h2, h3]
  rfl

theorem buildRightIndex_withStatus (f : Nat → HttpRequest → Int → Int) (env : Env)
    (col : String) (rows : List Row) :
    ∀ idx : KeyIndex,
      buildRightIndex (withStatus f env) col rows idx = buildRightIndex env col rows idx := by
  induction rows with
  | nil => intro idx; rfl
  | cons r rest ih =>
    intro idx
    rw [buildRightIndex, buildRightIndex]
    simp only [getStringFromRow_withStatus, ih]

theorem linkLoop_withStatus (f : Nat → HttpRequest → Int → Int) (env : Env)
    (cfg : SeaTableClient) (linkID tableName otherTableName leftKeyCol : String) (dryRun : Bool)
    (idx : KeyIndex) (rows : List Row) :
    ∀ (c : LinkCounters) (tr : List HttpRequest),
      linkLoop (withStatus f env) cfg linkID tableName otherTableName leftKeyCol dryRun idx
          rows c tr =
        linkLoop env cfg linkID tableName otherTableName leftKeyCol dryRun idx rows c tr := by
  induction rows with
  | nil => intro c tr; rfl
  | cons row rest ih =>
    intro c tr
    rw [linkLoop, linkLoop]
    simp only [getStringFromRow_withStatus, ih]
    split
    · rfl
    · split
      · rfl
      · split
        · rfl
        · rename_i targets _
          obtain ⟨h1, _, h3⟩ := doSeaTableRequest_withStatus f env tr.length "PUT"
            (linksUrl cfg) cfg.Token
            (some (linkUpdateBody linkID tableName otherTableName
              (getStringFromRow env row "_id") targets))
          simp only [h1, h3]

theorem OnMessage_withStatus (f : Nat → HttpRequest → Int → Int) (env : Env) (reg : Registry)
    (n : SeaTableAutoLink) :
    SeaTableAutoLink.OnMessage (withStatus f env) reg n = SeaTableAutoLink.OnMessage env reg n := by
  have hrun : ∀ cfg t o l lk rk ml mr d,
      autoLinkRun (withStatus f env) cfg t o l lk rk ml mr d =
        autoLinkRun env cfg t o l lk rk ml mr d := by
    intro cfg t o l lk rk ml mr d
    unfold autoLinkRun
    simp only [fetchRowsForKey_withStatus, buildRightIndex_withStatus, linkLoop_withStatus]
  unfold SeaTableAutoLink.OnMessage
  simp only [hrun]


/-- Claim C6, evaluated where the code departs from it.  Auto Link runs with
dry-run off on the example.  The two row fetches are answered with status 200
and the link-update call for row l1, the third request, is answered with
status 500: the claim requires an error and no counters, and the code returns
no error and reports processed 2, matched 1, skipped 1 and created links 2,
counting the two links of the rejected update as created.  The same result is
reported when all three requests, the fetches included, are answered with
status 500. -/
theorem autoLink_put_status_discarded :
    rejectedUpdateEnv.roundTrip 2
        (putRequest rejectedUpdateEnv exampleCfg "Lk01" "Orders" "Customers" "key"
          (rightTargets rejectedUpdateEnv "key" exampleRightRows)
          (some [("_id", .str "l1"), ("key", .str "A")])) =
      .reply "Internal Server Error" 500 ∧
    SeaTableAutoLink.OnMessage rejectedUpdateEnv exampleRegistry (exampleNode false) =
      (.ok ⟨2, 1, 1, 2, "override"⟩,
        [fetchRequest exampleCfg "Customers" "key" 500,
          fetchRequest exampleCfg "Orders" "key" 1000,
          putRequest rejectedUpdateEnv exampleCfg "Lk01" "Orders" "Customers" "key"
            (rightTargets rejectedUpdateEnv "key" exampleRightRows)
            (some [("_id", .str "l1"), ("key", .str "A")])]) ∧
    (SeaTableAutoLink.OnMessage rejectedUpdateEnv exampleRegistry (exampleNode false)).2.map
        (fun r => r.method) = ["POST", "POST", "PUT"] ∧
    (exampleEnv 500).roundTrip 0 (fetchRequest exampleCfg "Customers" "key" 500) =
      .reply "right" 500 ∧
    (exampleEnv 500).roundTrip 1 (fetchRequest exampleCfg "Orders" "key" 1000) =
      .reply "left" 500 ∧
    (exampleEnv 500).roundTrip 2
        (putRequest (exampleEnv 500) exampleCfg "Lk01" "Orders" "Customers" "key"
          (rightTargets (exampleEnv 500) "key" exampleRightRows)
          (some [("_id", .str "l1"), ("key", .str "A")])) =
      .reply "" 500 ∧
    SeaTableAutoLink.OnMessage (exampleEnv 500) exampleRegistry (exampleNode false) =
      (.ok ⟨2, 1, 1, 2, "override"⟩,
        [fetchRequest exampleCfg "Customers" "key" 500,
          fetchRequest exampleCfg "Orders" "key" 1000,
          putRequest (exampleEnv 500) exampleCfg "Lk01" "Orders" "Customers" "key"
            (rightTargets (exampleEnv 500) "key" exampleRightRows)
            (some [("_id", .str "l1"), ("key", .str "A")])]) :=
  ⟨rfl, rfl, rfl, rfl, rfl, rfl, rfl⟩

/-- What Auto Link does fail fast on.  With valid inputs, when the fetch of the
right rows fails, or the fetch of the left rows fails, or with dry-run off the
link-update call of a matched left row fails, the operation returns the error
wrapping that failure and reports no counters.  The status code of a response
is not inspected: replacing the status codes of the responses in any way
changes neither the result nor the requests sent. -/
theorem autoLink_fail_fast (env : Env) (reg : Registry) (n : SeaTableAutoLink)
    (cfg : SeaTableClient) (tableName otherTableName linkID leftKeyCol rightKeyCol : String)
    (hv : ValidInputs reg n cfg tableName otherTableName linkID leftKeyCol rightKeyCol) :
    (∀ e, (fetchRowsForKey env 0 cfg otherTableName rightKeyCol
        (clampMaxRows n.OptMaxRightRows)).1 = .error e →
      (SeaTableAutoLink.OnMessage env reg n).1 = .error (.wrapf "fetch right table rows" e)) ∧
    (∀ rightRows e,
      (fetchRowsForKey env 0 cfg otherTableName rightKeyCol
        (clampMaxRows n.OptMaxRightRows)).1 = .ok rightRows →
      (fetchRowsForKey env 1 cfg tableName leftKeyCol
        (clampMaxRows n.OptMaxLeftRows)).1 = .error e →
      (SeaTableAutoLink.OnMessage env reg n).1 = .error (.wrapf "fetch left table rows" e)) ∧
    (∀ (rightRows pre post : List Row) (row : Row) (e : Error),
      n.OptDryRun = false →
      (fetchRowsForKey env 0 cfg otherTableName rightKeyCol
        (clampMaxRows n.OptMaxRightRows)).1 = .ok rightRows →
      (fetchRowsForKey env 1 cfg tableName leftKeyCol
        (clampMaxRows n.OptMaxLeftRows)).1 = .ok (pre ++ row :: post) →
      isMatched env leftKeyCol (rightTargets env rightKeyCol rightRows) row = true →
      (∀ (j : Nat) (body : Value),
        j < (putRequests env cfg linkID tableName otherTableName leftKeyCol
          (rightTargets env rightKeyCol rightRows) pre).length →
        (doSeaTableRequest env (2 + j) "PUT" (linksUrl cfg) cfg.Token (some body)).1.err =
          none) →
      (doSeaTableRequest env
        (2 + (putRequests env cfg linkID tableName otherTableName leftKeyCol
          (rightTargets env rightKeyCol rightRows) pre).length)
        "PUT" (linksUrl cfg) cfg.Token
        (some (linkUpdateBody linkID tableName otherTableName (getStringFromRow env row "_id")
          (rightTargets env rightKeyCol rightRows
            (getStringFromRow env row leftKeyCol))))).1.err = some e →
      (SeaTableAutoLink.OnMessage env reg n).1 =
        .error (.wrapf ("update links for row " ++ getStringFromRow env row "_id") e)) ∧
    (∀ f : Nat → HttpRequest → Int → Int,
      SeaTableAutoLink.OnMessage (withStatus f env) reg n =
        SeaTableAutoLink.OnMessage env reg n) := by
  refine ⟨?_, ?_, ?_, fun f => OnMessage_withStatus f env reg n⟩
  · intro e he
    rw [OnMessage_eq_run env reg n cfg _ _ _ _ _ hv]
    unfold autoLinkRun
    simp only [he]
  · intro rightRows e hright hleft
    have hs1 := fetchRowsForKey_ok_sent env 0 cfg otherTableName rightKeyCol _ _ hright
    rw [OnMessage_eq_run env reg n cfg _ _ _ _ _ hv]
    unfold autoLinkRun
    simp only [hright, hs1, Option.toList_some, List.length_singleton, hleft]
  · intro rightRows pre post row e hdry hright hleft hm hpre herr
    obtain ⟨attempt, _, h⟩ := OnMessage_abort env reg n cfg tableName otherTableName linkID
      leftKeyCol rightKeyCol rightRows pre post row e hv hdry hright hleft hm hpre herr
    rw [h]

/-- The fail-fast behaviour on the second example: the refused link-update call
for l1 ends the operation with an error, and answering every request with
status 500 instead changes nothing. -/
theorem autoLink_fail_fast_witness :
    (SeaTableAutoLink.OnMessage refusingEnv exampleRegistry (exampleNode false)).1 =
        .error (.wrapf "update links for row l1"
          (.wrapf "http request failed" (.external "connection refused"))) ∧
      SeaTableAutoLink.OnMessage (withStatus (fun _ _ _ => 500) refusingEnv) exampleRegistry
          (exampleNode false) =
        SeaTableAutoLink.OnMessage refusingEnv exampleRegistry (exampleNode false) :=
  ⟨(autoLink_fail_fast refusingEnv exampleRegistry (exampleNode false) exampleCfg
      "Orders" "Customers" "Lk01" "key" "key" (exampleNode_valid false)).2.2.1 exampleRightRows
      [some [("_id", .str "l0"), ("key", .str "B")]]
      [some [("_id", .str "l2"), ("key", .str "C")]]
      (some [("_id", .str "l1"), ("key", .str "A")])
      (.wrapf "http request failed" (.external "connection refused")) rfl rfl rfl rfl
      (fun j body hj => by
        have hj1 : j < 1 := hj
        obtain rfl : j = 0 := by omega
        rfl)
      rfl,
    (autoLink_fail_fast refusingEnv exampleRegistry (exampleNode false) exampleCfg
      "Orders" "Customers" "Lk01" "key" "key" (exampleNode_valid false)).2.2.2
      (fun _ _ _ => 500)⟩


/-! ### Validation of the required inputs -/

theorem linkLoop_error_wrapped (env : Env) (cfg : SeaTableClient)
    (linkID tableName otherTableName leftKeyCol : String) (dryRun : Bool) (idx : KeyIndex)
    (rows : List Row) :
    ∀ (c : LinkCounters) (tr : List HttpRequest) (e : Error),
      (linkLoop env cfg linkID tableName otherTableName leftKeyCol dryRun idx rows c tr).1 =
        .error e → ∃ msg cause, e = .wrapf msg cause := by
  have hidx : ∀ k, (mapGet idx k).getD [] = (fun k => (mapGet idx k).getD []) k := fun _ => rfl
  induction rows with
  | nil => intro c tr e h; simp [linkLoop] at h
  | cons row rest ih =>
    intro c tr e h
    cases hm : isMatched env leftKeyCol (fun k => (mapGet idx k).getD []) row with
    | false =>
      rw [linkLoop_skip env cfg linkID tableName otherTableName leftKeyCol dryRun idx _ hidx
        row rest c tr hm] at h
      exact ih _ _ e h
    | true =>
      cases hd : dryRun with
      | true =>
        subst hd
        rw [linkLoop_dry env cfg linkID tableName otherTableName leftKeyCol idx _ hidx
          row rest c tr hm] at h
        exact ih _ _ e h
      | false =>
        subst hd
        cases he : (doSeaTableRequest env tr.length "PUT" (linksUrl cfg) cfg.Token
            (some (linkUpdateBody linkID tableName otherTableName (getStringFromRow env row "_id")
              ((fun k => (mapGet idx k).getD []) (getStringFromRow env row leftKeyCol))))).1.err with
        | none =>
          rw [linkLoop_put_ok env cfg linkID tableName otherTableName leftKeyCol idx _ hidx
            row rest c tr hm he] at h
          exact ih _ _ e h
        | some e1 =>
          rw [linkLoop_put_err env cfg linkID tableName otherTableName leftKeyCol idx _ hidx
            row rest c tr hm e1 he] at h
          simp only [Except.error.injEq] at h
          exact ⟨_, _, h.symm⟩

theorem autoLinkRun_error_wrapped (env : Env) (cfg : SeaTableClient)
    (tableName otherTableName linkID leftKeyCol rightKeyCol : String) (maxLeft maxRight : Int)
    (dryRun : Bool) (e : Error)
    (h : (autoLinkRun env cfg tableName otherTableName linkID leftKeyCol rightKeyCol maxLeft
      maxRight dryRun).1 = .error e) :
    ∃ msg cause, e = .wrapf msg cause := by
  unfold autoLinkRun at h
  cases hfr : (fetchRowsForKey env 0 cfg otherTableName rightKeyCol maxRight).1 with
  | error e1 =>
    simp only [hfr, Except.error.injEq] at h
    exact ⟨_, _, h.symm⟩
  | ok rightRows =>
    cases hfl : (fetchRowsForKey env
        (fetchRowsForKey env 0 cfg otherTableName rightKeyCol maxRight).2.toList.length
        cfg tableName leftKeyCol maxLeft).1 with
    | error e1 =>
      simp only [hfr, hfl, Except.error.injEq] at h
      exact ⟨_, _, h.symm⟩
    | ok leftRows =>
      simp only [hfr, hfl] at h
      split at h
      · rename_i e1 he1
        simp only [Except.error.injEq] at h
        subst h
        exact linkLoop_error_wrapped env cfg linkID tableName otherTableName leftKeyCol dryRun
          _ leftRows _ _ _ he1
      · simp at h

/-- C7: given a registered client id and inputs that are read without error,
Auto Link fails with an invalid-argument error, having sent no request, if and
only if one of table name, other table name, link id, left key column and
right key column is empty after trimming white space. -/
theorem autoLink_required (env : Env) (reg : Registry) (n : SeaTableAutoLink)
    (cid : String) (cfg : SeaTableClient) (tableName otherTableName linkID leftKeyCol
      rightKeyCol : String)
    (hcid : n.InClientID = .ok cid) (hreg : getSeaTableClient reg cid = some cfg)
    (h1 : n.InTableName = .ok tableName) (h2 : n.InOtherTableName = .ok otherTableName)
    (h3 : n.InLinkID = .ok linkID) (h4 : n.InLeftKeyColumn = .ok leftKeyCol)
    (h5 : n.InRightKeyColumn = .ok rightKeyCol) :
    ((∃ msg, (SeaTableAutoLink.OnMessage env reg n).1 =
        .error (.runtimeError "ErrInvalidArg" msg)) ∧
      (SeaTableAutoLink.OnMessage env reg n).2 = []) ↔
    (trimSpace tableName = "" ∨ trimSpace otherTableName = "" ∨ trimSpace linkID = "" ∨
      trimSpace leftKeyCol = "" ∨ trimSpace rightKeyCol = "") := by
  constructor
  · rintro ⟨⟨msg, hmsg⟩, _⟩
    by_contra hne
    simp only [not_or] at hne
    have hv : ValidInputs reg n cfg (trimSpace tableName) (trimSpace otherTableName)
        (trimSpace linkID) (trimSpace leftKeyCol) (trimSpace rightKeyCol) :=
      ⟨⟨cid, hcid, hreg⟩, ⟨_, h1, rfl, hne.1⟩, ⟨_, h2, rfl, hne.2.1⟩, ⟨_, h3, rfl, hne.2.2.1⟩,
        ⟨_, h4, rfl, hne.2.2.2.1⟩, ⟨_, h5, rfl, hne.2.2.2.2⟩⟩
    rw [OnMessage_eq_run env reg n cfg _ _ _ _ _ hv] at hmsg
    obtain ⟨m, c, hc⟩ := autoLinkRun_error_wrapped env cfg _ _ _ _ _ _ _ _ _ hmsg
    cases hc
  · intro hempty
    simp only [SeaTableAutoLink.OnMessage, hcid, hreg, h1, h2, h3, h4, h5]
    rw [if_pos hempty]
    exact ⟨⟨_, rfl⟩, rfl⟩

/-- C7, on the example with a link id of white space only: Auto Link fails with
the invalid-argument error and sends no request. -/
theorem autoLink_required_witness :
    (∃ msg, (SeaTableAutoLink.OnMessage (exampleEnv 200) exampleRegistry blankLinkNode).1 =
        .error (.runtimeError "ErrInvalidArg" msg)) ∧
      (SeaTableAutoLink.OnMessage (exampleEnv 200) exampleRegistry blankLinkNode).2 = [] :=
  (autoLink_required (exampleEnv 200) exampleRegistry blankLinkNode "st-ab12-42" exampleCfg
    " Orders" "Customers " "   " "key" "key" rfl (by decide) rfl rfl rfl rfl rfl).mpr
    (Or.inr (Or.inr (Or.inl (by decide))))


/-! ## Properties of Rows Get Many -/

theorem doSeaTableRequest_reply (env : Env) (k : Nat) (method : String) (url : Url)
    (token : String) (body : Option Value)
    (h : (doSeaTableRequest env k method url token body).1.err = none) :
    env.roundTrip k ⟨method, url, requestHeaders token body, body⟩ =
      .reply (doSeaTableRequest env k method url token body).1.body
        (doSeaTableRequest env k method url token body).1.status := by
  unfold doSeaTableRequest at h ⊢
  cases h1 : body.bind env.marshalError with
  | some e => simp [h1] at h
  | none =>
    cases h2 : env.newRequestError method url with
    | some e => simp [h1, h2] at h
    | none =>
      simp only [h1, h2] at h ⊢
      cases h3 : env.roundTrip k ⟨method, url, requestHeaders token body, body⟩ <;> simp_all

section Paging

variable (env : Env) (cfg : SeaTableClient) (tableName viewName : String) (convert : Bool)
  (pageSize maxRows : Int)

/-- The loop returns within `maxRows - fetched + 1` iterations. -/
theorem pageLoop_returns :
    ∀ (fuel : Nat) (st : PageState) (tr : List HttpRequest),
      (maxRows - st.fetched).toNat < fuel →
      (pageLoop env cfg tableName viewName convert pageSize maxRows fuel st tr).1 ≠ none := by
  intro fuel
  induction fuel with
  | zero => intro st tr h; omega
  | succ fuel ih =>
    intro st tr h
    rw [pageLoop]
    split
    · simp
    · rename_i hlt
      split
      · simp
      · simp only
        generalize (if maxRows - st.fetched < pageSize then maxRows - st.fetched
          else pageSize) = limit
        split
        · simp
        · split
          · simp
          · split
            · simp
            · rename_i parsed _ hlen
              split
              · simp
              · apply ih
                have hpos : 0 < (rowsPageOf parsed).length := Nat.pos_of_ne_zero hlen
                simp only
                omega

/-- The requests the loop sends are those paging prescribes for the pages the
environment returned, and on success the rows are the pages in order. -/
theorem pageLoop_requests :
    ∀ (fuel : Nat) (st : PageState) (tr : List HttpRequest),
      ∃ reqs : List HttpRequest,
        (pageLoop env cfg tableName viewName convert pageSize maxRows fuel st tr).2 =
          tr ++ reqs ∧
        reqs = requestsFor cfg tableName viewName convert pageSize maxRows st.offset st.fetched
          (pagesFrom env tr.length reqs) ∧
        (∀ st', (pageLoop env cfg tableName viewName convert pageSize maxRows fuel st tr).1 =
            some (.ok st') →
          st'.allRows = st.allRows ++ (pagesFrom env tr.length reqs).flatten) := by
  intro fuel
  induction fuel with
  | zero =>
    intro st tr
    exact ⟨[], by simp [pageLoop], by simp [pagesFrom, requestsFor], by simp [pageLoop]⟩
  | succ fuel ih =>
    intro st tr
    rw [pageLoop]
    split
    · refine ⟨[], by simp, by simp [pagesFrom, requestsFor], ?_⟩
      intro st' h
      simp only [Option.some.injEq, Except.ok.injEq] at h
      simp [pagesFrom, ← h]
    · split
      · exact ⟨[], by simp, by simp [pagesFrom, requestsFor], by simp⟩
      · simp only
        have hmin : (if maxRows - st.fetched < pageSize then maxRows - st.fetched else pageSize) =
            min pageSize (maxRows - st.fetched) := by
          rw [min_def]; split <;> split <;> omega
        rw [hmin]
        cases he : (doSeaTableRequest env tr.length "GET"
            ⟨rowsUrl cfg, rowsQuery tableName viewName st.offset
              (min pageSize (maxRows - st.fetched)) convert⟩ cfg.Token none).1.err with
        | some e =>
          simp only
          refine ⟨_, rfl, ?_, by simp⟩
          cases hs : (doSeaTableRequest env tr.length "GET"
              ⟨rowsUrl cfg, rowsQuery tableName viewName st.offset
                (min pageSize (maxRows - st.fetched)) convert⟩ cfg.Token none).2 with
          | none => simp [pagesFrom, requestsFor]
          | some q =>
            have hq := doSeaTableRequest_sent_eq env _ _ _ _ _ q hs
            simp [pagesFrom, requestsFor, hq, getRowsRequest]
        | none =>
          have hs := doSeaTableRequest_sent env _ _ _ _ _ he
          have hr := doSeaTableRequest_reply env _ _ _ _ _ he
          simp only [hs, Option.toList_some]
          cases hj : env.jsonUnmarshal (doSeaTableRequest env tr.length "GET"
              ⟨rowsUrl cfg, rowsQuery tableName viewName st.offset
                (min pageSize (maxRows - st.fetched)) convert⟩ cfg.Token none).1.body with
          | error e =>
            simp only
            exact ⟨_, rfl, by simp [pagesFrom, requestsFor, getRowsRequest], by simp⟩
          | ok parsed =>
            have hpage : answerPage env tr.length
                (getRowsRequest cfg tableName viewName convert st.offset
                  (min pageSize (maxRows - st.fetched))) = rowsPageOf parsed := by
              simp only [answerPage, getRowsRequest, hr, hj]
            simp only
            split
            · rename_i hz
              refine ⟨_, rfl, by simp [pagesFrom, requestsFor, getRowsRequest], ?_⟩
              intro st' h
              simp only [Option.some.injEq, Except.ok.injEq] at h
              have hnil : rowsPageOf parsed = [] := List.length_eq_zero.mp hz
              rw [← h]
              simp only [pagesFrom, List.flatten_cons, List.flatten_nil, List.append_nil]
              rw [← getRowsRequest, hpage, hnil, List.append_nil]
            · split
              · refine ⟨_, rfl, by simp [pagesFrom, requestsFor, getRowsRequest], ?_⟩
                intro st' h
                simp only [Option.some.injEq, Except.ok.injEq] at h
                rw [← h]
                simp only [pagesFrom, List.flatten_cons, List.flatten_nil, List.append_nil]
                rw [← getRowsRequest, hpage]
              · obtain ⟨reqs, h1, h2, h3⟩ := ih
                  ⟨st.allRows ++ rowsPageOf parsed,
                    (doSeaTableRequest env tr.length "GET"
                      ⟨rowsUrl cfg, rowsQuery tableName viewName st.offset
                        (min pageSize (maxRows - st.fetched)) convert⟩
                      cfg.Token none).1.status,
                    st.fetched + (rowsPageOf parsed).length,
                    wrapInt64 (st.offset + (rowsPageOf parsed).length)⟩
                  (tr ++ [getRowsRequest cfg tableName viewName convert st.offset
                    (min pageSize (maxRows - st.fetched))])
                simp only [List.length_append, List.length_singleton] at h1 h2 h3
                refine ⟨getRowsRequest cfg tableName viewName convert st.offset
                  (min pageSize (maxRows - st.fetched)) :: reqs, ?_, ?_, ?_⟩
                · rw [← getRowsRequest, h1]; simp
                · simp only [pagesFrom, requestsFor, hpage]
                  rw [← h2]
                · intro st' h
                  rw [← getRowsRequest] at h
                  rw [h3 st' h]
                  simp only [pagesFrom, List.flatten_cons, hpage, List.append_assoc]

end Paging

theorem wrapInt64_of_range (x : Int) (h1 : -9223372036854775808 ≤ x)
    (h2 : x ≤ 9223372036854775807) : wrapInt64 x = x := by
  unfold wrapInt64; omega

theorem wrapInt64_add_wrap (a b : Int) : wrapInt64 (wrapInt64 a + b) = wrapInt64 (a + b) := by
  unfold wrapInt64; omega

theorem wrapInt64_idem (a : Int) : wrapInt64 (wrapInt64 a) = wrapInt64 a := by
  unfold wrapInt64; omega

theorem rowsBefore_zero (pages : List (List Value)) : rowsBefore pages 0 = 0 := by
  simp [rowsBefore]

theorem rowsBefore_succ (page : List Value) (pages : List (List Value)) (i : Nat) :
    rowsBefore (page :: pages) (i + 1) = page.length + rowsBefore pages i := by
  simp [rowsBefore]

theorem requestsFor_get (cfg : SeaTableClient) (tableName viewName : String) (convert : Bool)
    (pageSize maxRows : Int) :
    ∀ (pages : List (List Value)) (offset fetched : Int) (i : Nat), i < pages.length →
      wrapInt64 offset = offset →
      (requestsFor cfg tableName viewName convert pageSize maxRows offset fetched pages)[i]? =
        some (getRowsRequest cfg tableName viewName convert
          (wrapInt64 (offset + rowsBefore pages i))
          (min pageSize (maxRows - (fetched + rowsBefore pages i)))) := by
  intro pages
  induction pages with
  | nil => intro offset fetched i hi; simp at hi
  | cons page pages ih =>
    intro offset fetched i hi hoff
    cases i with
    | zero => simp [requestsFor, rowsBefore_zero, hoff]
    | succ i =>
      have hi2 : i < pages.length := by simpa using hi
      simp only [requestsFor, List.getElem?_cons_succ, rowsBefore_succ]
      rw [ih _ _ i hi2 (wrapInt64_idem _), wrapInt64_add_wrap]
      congr 3 <;> omega

theorem pagesFrom_length (env : Env) (reqs : List HttpRequest) :
    ∀ k, (pagesFrom env k reqs).length = reqs.length := by
  induction reqs with
  | nil => intro k; rfl
  | cons r rs ih => intro k; simp [pagesFrom, ih]

theorem rowsGetMany_eq_run (env : Env) (reg : Registry) (n : SeaTableRowsGetMany)
    (cfg : SeaTableClient) (tableName : String) (hv : ValidPaging reg n cfg tableName) :
    SeaTableRowsGetMany.OnMessage env reg n =
      rowsGetManyRun env cfg tableName n.OptViewName n.OptStart n.OptPageSize n.OptMaxRows
        n.OptConvert := by
  obtain ⟨cid, h1, h2⟩ := hv.client
  obtain ⟨s1, t1, rfl, n1⟩ := hv.table
  simp only [SeaTableRowsGetMany.OnMessage, h1, h2, t1]
  rw [if_neg n1]

theorem specPageSize_eq (p : Int) :
    (if p ≤ 0 ∨ p > 1000 then 1000 else p) = specPageSize p := by
  unfold specPageSize
  split <;> split <;> omega

/-- What a run of Rows Get Many after validation sends and returns, in terms of
the normalised options. -/
theorem rowsGetManyRun_spec (env : Env) (cfg : SeaTableClient) (tableName viewName : String)
    (start0 pageSize0 maxRows0 : Int) (convert : Bool) :
    (rowsGetManyRun env cfg tableName viewName start0 pageSize0 maxRows0 convert).1 ≠ none ∧
    (rowsGetManyRun env cfg tableName viewName start0 pageSize0 maxRows0 convert).2 =
      requestsFor cfg tableName viewName convert (specPageSize pageSize0) (specMaxRows maxRows0)
        (specStart start0) 0
        (pagesFrom env 0
          (rowsGetManyRun env cfg tableName viewName start0 pageSize0 maxRows0 convert).2) ∧
    (∀ out, (rowsGetManyRun env cfg tableName viewName start0 pageSize0 maxRows0 convert).1 =
        some (.ok out) →
      out.OutRows = (pagesFrom env 0
        (rowsGetManyRun env cfg tableName viewName start0 pageSize0 maxRows0 convert).2).flatten ∧
      out.OutJSON = .obj [("rows", .arr out.OutRows), ("count", .int out.OutRows.length),
        ("start", .int (specStart start0))]) := by
  have hret := pageLoop_returns env cfg tableName viewName convert (specPageSize pageSize0)
    (specMaxRows maxRows0) ((specMaxRows maxRows0).toNat + 1) ⟨[], 0, 0, specStart start0⟩ []
    (by simp only; omega)
  obtain ⟨reqs, h1, h2, h3⟩ := pageLoop_requests env cfg tableName viewName convert
    (specPageSize pageSize0) (specMaxRows maxRows0) ((specMaxRows maxRows0).toNat + 1)
    ⟨[], 0, 0, specStart start0⟩ []
  simp only [List.nil_append, List.length_nil] at h1 h2 h3
  unfold rowsGetManyRun
  simp only [specPageSize_eq]
  rw [← specMaxRows, ← specStart]
  cases hout : (pageLoop env cfg tableName viewName convert (specPageSize pageSize0)
      (specMaxRows maxRows0) ((specMaxRows maxRows0).toNat + 1)
      ⟨[], 0, 0, specStart start0⟩ []).1 with
  | none => exact absurd hout hret
  | some res =>
    cases res with
    | error e =>
      simp only [h1]
      exact ⟨by simp, h2, by simp⟩
    | ok st =>
      simp only [h1]
      refine ⟨by simp, h2, ?_⟩
      intro out ho
      simp only [Option.some.injEq, Except.ok.injEq] at ho
      have hrows := h3 st hout
      rw [← ho]
      simp only [hrows, and_self]


theorem examplePaging_valid (n : SeaTableRowsGetMany) (h1 : n.InClientID = .ok "st-ab12-42")
    (h2 : n.InTableName = .ok "Orders") : ValidPaging exampleRegistry n exampleCfg "Orders" :=
  ⟨⟨_, h1, by decide⟩, ⟨_, h2, by decide, by decide⟩⟩

/-- C9: with valid inputs, Rows Get Many works on normalised numeric options
from the first request on.  The page size is the option when it lies in the
inclusive range 1 to 1000 and 1000 otherwise, the row cap is the option when
positive and 10000 otherwise, the start offset is the option when non-negative
and 0 otherwise; the run is the run on these values, and the first request
sent carries the normalised start and the limit min(page size, row cap). -/
theorem rowsGetMany_normalises (env : Env) (reg : Registry) (n : SeaTableRowsGetMany)
    (cfg : SeaTableClient) (tableName : String) (hv : ValidPaging reg n cfg tableName) :
    SeaTableRowsGetMany.OnMessage env reg n =
        rowsGetManyRun env cfg tableName n.OptViewName (specStart n.OptStart)
          (specPageSize n.OptPageSize) (specMaxRows n.OptMaxRows) n.OptConvert ∧
      (∀ r rest, (SeaTableRowsGetMany.OnMessage env reg n).2 = r :: rest →
        r = getRowsRequest cfg tableName n.OptViewName n.OptConvert (specStart n.OptStart)
          (min (specPageSize n.OptPageSize) (specMaxRows n.OptMaxRows))) ∧
      (n.OptPageSize < 1 ∨ 1000 < n.OptPageSize → specPageSize n.OptPageSize = 1000) ∧
      (1 ≤ n.OptPageSize ∧ n.OptPageSize ≤ 1000 → specPageSize n.OptPageSize = n.OptPageSize) ∧
      (n.OptMaxRows ≤ 0 → specMaxRows n.OptMaxRows = 10000) ∧
      (0 < n.OptMaxRows → specMaxRows n.OptMaxRows = n.OptMaxRows) ∧
      (n.OptStart < 0 → specStart n.OptStart = 0) ∧
      (0 ≤ n.OptStart → specStart n.OptStart = n.OptStart) := by
  refine ⟨?_, ?_, ?_, ?_, ?_, ?_, ?_, ?_⟩
  · rw [rowsGetMany_eq_run env reg n cfg tableName hv]
    have ha : (if specStart n.OptStart < 0 then 0 else specStart n.OptStart) =
        (if n.OptStart < 0 then 0 else n.OptStart) := by
      unfold specStart; split_ifs <;> omega
    have hb : (if specPageSize n.OptPageSize ≤ 0 ∨ specPageSize n.OptPageSize > 1000 then 1000
        else specPageSize n.OptPageSize) =
        (if n.OptPageSize ≤ 0 ∨ n.OptPageSize > 1000 then 1000 else n.OptPageSize) := by
      unfold specPageSize; split_ifs <;> omega
    have hc : (if specMaxRows n.OptMaxRows ≤ 0 then 10000 else specMaxRows n.OptMaxRows) =
        (if n.OptMaxRows ≤ 0 then 10000 else n.OptMaxRows) := by
      unfold specMaxRows; split_ifs <;> omega
    unfold rowsGetManyRun
    simp only [ha, hb, hc]
  · intro r rest htr
    rw [rowsGetMany_eq_run env reg n cfg tableName hv] at htr
    have h := (rowsGetManyRun_spec env cfg tableName n.OptViewName n.OptStart n.OptPageSize
      n.OptMaxRows n.OptConvert).2.1
    rw [htr] at h
    simp only [pagesFrom, requestsFor, List.cons.injEq] at h
    rw [h.1]
    simp
  · intro h; unfold specPageSize; split <;> omega
  · intro h; unfold specPageSize; split <;> omega
  · intro h; unfold specMaxRows; split <;> omega
  · intro h; unfold specMaxRows; split <;> omega
  · intro h; unfold specStart; split <;> omega
  · intro h; unfold specStart; split <;> omega

/-- C9, on options start -5, page size 1001, row cap 0: the run is the run on
start 0, page size 1000 and row cap 10000, and the request sent asks for start
0 and limit 1000. -/
theorem rowsGetMany_normalises_witness :
    SeaTableRowsGetMany.OnMessage oneRowEnv exampleRegistry rawOptionsNode =
        rowsGetManyRun oneRowEnv exampleCfg "Orders" "" 0 1000 10000 true ∧
      (SeaTableRowsGetMany.OnMessage oneRowEnv exampleRegistry rawOptionsNode).2 =
        [getRowsRequest exampleCfg "Orders" "" true 0 1000] :=
  ⟨(rowsGetMany_normalises oneRowEnv exampleRegistry rawOptionsNode exampleCfg "Orders"
    (examplePaging_valid rawOptionsNode rfl rfl)).1, rfl⟩

/-- C10, refuted as stated: with start offset 9223372036854775807, page size 1
and row cap 2, a first page of one row is followed by a second request whose
start is -9223372036854775808, whereas the start offset plus the one row
fetched so far is 9223372036854775808. -/
theorem rowsGetMany_start_counterexample :
    (SeaTableRowsGetMany.OnMessage oneRowEnv exampleRegistry lastOffsetNode).2 =
        [getRowsRequest exampleCfg "Orders" "" false 9223372036854775807 1,
          getRowsRequest exampleCfg "Orders" "" false (-9223372036854775808) 1] ∧
      pagesFrom oneRowEnv 0
          (SeaTableRowsGetMany.OnMessage oneRowEnv exampleRegistry lastOffsetNode).2 =
        [[.null], []] ∧
      ((SeaTableRowsGetMany.OnMessage oneRowEnv exampleRegistry lastOffsetNode).2.map
          (fun r => mapGet r.url.query "start")) =
        [some "9223372036854775807", some "-9223372036854775808"] ∧
      toString (lastOffsetNode.OptStart + ([.null] : List Value).length) =
        "9223372036854775808" :=
  ⟨rfl, rfl, by decide, by decide⟩

/-- C10, amended: with valid inputs and a start option that is a Go `int`, the
run returns, and for the pages the environment returns the i-th request sent
asks for limit = min(page size, row cap - rows fetched so far) and for start =
start offset + rows fetched so far in the wrapping 64-bit arithmetic of Go
`int`, which is the exact sum whenever that sum does not exceed
9223372036854775807; the rows fetched so far are the rows of the pages before
it; on success the rows output are the returned pages in request order. -/
theorem rowsGetMany_requests (env : Env) (reg : Registry) (n : SeaTableRowsGetMany)
    (cfg : SeaTableClient) (tableName : String) (hv : ValidPaging reg n cfg tableName)
    (hint : n.OptStart ≤ maxInt64) :
    (SeaTableRowsGetMany.OnMessage env reg n).1 ≠ none ∧
    (∀ i, i < (SeaTableRowsGetMany.OnMessage env reg n).2.length →
      (SeaTableRowsGetMany.OnMessage env reg n).2[i]? =
        some (getRowsRequest cfg tableName n.OptViewName n.OptConvert
          (wrapInt64 (specStart n.OptStart +
            rowsBefore (pagesFrom env 0 (SeaTableRowsGetMany.OnMessage env reg n).2) i))
          (min (specPageSize n.OptPageSize) (specMaxRows n.OptMaxRows -
            rowsBefore (pagesFrom env 0 (SeaTableRowsGetMany.OnMessage env reg n).2) i)))) ∧
    (∀ i, i < (SeaTableRowsGetMany.OnMessage env reg n).2.length →
      specStart n.OptStart +
          rowsBefore (pagesFrom env 0 (SeaTableRowsGetMany.OnMessage env reg n).2) i ≤
        maxInt64 →
      (SeaTableRowsGetMany.OnMessage env reg n).2[i]? =
        some (getRowsRequest cfg tableName n.OptViewName n.OptConvert
          (specStart n.OptStart +
            rowsBefore (pagesFrom env 0 (SeaTableRowsGetMany.OnMessage env reg n).2) i)
          (min (specPageSize n.OptPageSize) (specMaxRows n.OptMaxRows -
            rowsBefore (pagesFrom env 0 (SeaTableRowsGetMany.OnMessage env reg n).2) i)))) ∧
    (∀ out, (SeaTableRowsGetMany.OnMessage env reg n).1 = some (.ok out) →
      out.OutRows =
        (pagesFrom env 0 (SeaTableRowsGetMany.OnMessage env reg n).2).flatten) := by
  rw [rowsGetMany_eq_run env reg n cfg tableName hv]
  obtain ⟨h1, h2, h3⟩ := rowsGetManyRun_spec env cfg tableName n.OptViewName n.OptStart
    n.OptPageSize n.OptMaxRows n.OptConvert
  have hs0 : 0 ≤ specStart n.OptStart := by unfold specStart; split_ifs <;> omega
  have hs1 : specStart n.OptStart ≤ 9223372036854775807 := by
    unfold maxInt64 at hint; unfold specStart; split_ifs <;> omega
  have hget : ∀ i, i < (rowsGetManyRun env cfg tableName n.OptViewName n.OptStart
        n.OptPageSize n.OptMaxRows n.OptConvert).2.length →
      (rowsGetManyRun env cfg tableName n.OptViewName n.OptStart n.OptPageSize n.OptMaxRows
          n.OptConvert).2[i]? =
        some (getRowsRequest cfg tableName n.OptViewName n.OptConvert
          (wrapInt64 (specStart n.OptStart +
            rowsBefore (pagesFrom env 0 (rowsGetManyRun env cfg tableName n.OptViewName
              n.OptStart n.OptPageSize n.OptMaxRows n.OptConvert).2) i))
          (min (specPageSize n.OptPageSize) (specMaxRows n.OptMaxRows -
            rowsBefore (pagesFrom env 0 (rowsGetManyRun env cfg tableName n.OptViewName
              n.OptStart n.OptPageSize n.OptMaxRows n.OptConvert).2) i))) := by
    intro i hi
    have hlen : i < (pagesFrom env 0 (rowsGetManyRun env cfg tableName n.OptViewName
        n.OptStart n.OptPageSize n.OptMaxRows n.OptConvert).2).length := by
      rw [pagesFrom_length]; exact hi
    have hg := requestsFor_get cfg tableName n.OptViewName n.OptConvert
      (specPageSize n.OptPageSize) (specMaxRows n.OptMaxRows) _ (specStart n.OptStart) 0 i hlen
      (wrapInt64_of_range _ (by omega) hs1)
    rw [← h2] at hg
    rw [hg]
    simp
  refine ⟨h1, hget, ?_, fun out ho => (h3 out ho).1⟩
  intro i hi hle
  rw [hget i hi, wrapInt64_of_range _ _ (by unfold maxInt64 at hle; exact hle)]
  have hnn : 0 ≤ rowsBefore (pagesFrom env 0 (rowsGetManyRun env cfg tableName n.OptViewName
      n.OptStart n.OptPageSize n.OptMaxRows n.OptConvert).2) i := by
    unfold rowsBefore; exact Int.natCast_nonneg _
  omega

set_option maxRecDepth 100000 in
/-- C10 as amended, on pages of 1000, 1000 and 400 rows from start offset 0 with
page size 1000 and row cap 10000: the three requests ask for start 0, 1000 and
2000, each with limit 1000. -/
theorem rowsGetMany_requests_witness :
    (SeaTableRowsGetMany.OnMessage pagingEnv exampleRegistry pagingNode).2[0]? =
        some (getRowsRequest exampleCfg "Orders" "" true 0 1000) ∧
      (SeaTableRowsGetMany.OnMessage pagingEnv exampleRegistry pagingNode).2[1]? =
        some (getRowsRequest exampleCfg "Orders" "" true 1000 1000) ∧
      (SeaTableRowsGetMany.OnMessage pagingEnv exampleRegistry pagingNode).2[2]? =
        some (getRowsRequest exampleCfg "Orders" "" true 2000 1000) ∧
      (SeaTableRowsGetMany.OnMessage pagingEnv exampleRegistry pagingNode).2.length = 3 :=
  ⟨(rowsGetMany_requests pagingEnv exampleRegistry pagingNode exampleCfg "Orders"
      (examplePaging_valid pagingNode rfl rfl) (by decide)).2.2.1 0 (by decide) (by decide),
    (rowsGetMany_requests pagingEnv exampleRegistry pagingNode exampleCfg "Orders"
      (examplePaging_valid pagingNode rfl rfl) (by decide)).2.2.1 1 (by decide) (by decide),
    (rowsGetMany_requests pagingEnv exampleRegistry pagingNode exampleCfg "Orders"
      (examplePaging_valid pagingNode rfl rfl) (by decide)).2.2.1 2 (by decide) (by decide),
    by decide⟩

/-! ### When paging goes on and when it stops -/

theorem doSeaTableRequest_unsent (env : Env) (k : Nat) (method : String) (url : Url)
    (token : String)
    (h : (doSeaTableRequest env k method url token none).2 = none) :
    ∃ e, env.newRequestError method url = some e ∧
      (doSeaTableRequest env k method url token none).1.err =
        some (.wrapf "create request" e) := by
  unfold doSeaTableRequest at h ⊢
  simp only [Option.bind_none] at h ⊢
  cases h2 : env.newRequestError method url with
  | some e => exact ⟨e, rfl, by simp⟩
  | none =>
    simp only [h2] at h
    cases h3 : env.roundTrip k ⟨method, url, requestHeaders token none, none⟩ <;> simp_all

theorem answerPage_of_failed (env : Env) (k : Nat) (method : String) (url : Url)
    (token : String) (body : Option Value) (e : Error) (q : HttpRequest)
    (he : (doSeaTableRequest env k method url token body).1.err = some e)
    (hs : (doSeaTableRequest env k method url token body).2 = some q) :
    answerPage env k q = [] := by
  have hq := doSeaTableRequest_sent_eq env k method url token body q hs
  unfold doSeaTableRequest at he
  cases h1 : body.bind env.marshalError with
  | some e1 =>
    unfold doSeaTableRequest at hs
    simp [h1] at hs
  | none =>
    cases h2 : env.newRequestError method url with
    | some e1 =>
      unfold doSeaTableRequest at hs
      simp [h1, h2] at hs
    | none =>
      simp only [h1, h2] at he
      rw [hq]
      cases h3 : env.roundTrip k ⟨method, url, requestHeaders token body, body⟩ with
      | doFailed e1 => simp [answerPage, h3]
      | readFailed st e1 => simp [answerPage, h3]
      | reply b st => simp [h3] at he

theorem continuesAt_succ (pageSize maxRows fetched : Int) (page : List Value)
    (pages : List (List Value)) (i : Nat) :
    continuesAt pageSize maxRows fetched (page :: pages) (i + 1) ↔
      continuesAt pageSize maxRows (fetched + page.length) pages i := by
  unfold continuesAt
  have h1 : rowsBefore (page :: pages) (i + 1 + 1) = page.length + rowsBefore pages (i + 1) :=
    rowsBefore_succ page pages (i + 1)
  rw [h1, rowsBefore_succ]
  simp only [List.getD_cons_succ, add_assoc]

theorem continuesAt_zero (pageSize maxRows fetched : Int) (page : List Value)
    (pages : List (List Value)) :
    continuesAt pageSize maxRows fetched (page :: pages) 0 ↔
      (page.length ≠ 0 ∧ min pageSize (maxRows - fetched) ≤ (page.length : Int) ∧
        fetched + page.length < maxRows) := by
  unfold continuesAt
  have h1 : rowsBefore (page :: pages) (0 + 1) = page.length + rowsBefore pages 0 :=
    rowsBefore_succ page pages 0
  simp only [List.getD_cons_zero, rowsBefore_zero, add_zero, h1]


section PagingStops

variable (env : Env) (cfg : SeaTableClient) (tableName viewName : String) (convert : Bool)
  (pageSize maxRows : Int)

/-- The loop sends a further request after a page exactly when paging goes on
after it, unless the request cannot be created. -/
theorem pageLoop_continues :
    ∀ (fuel : Nat) (st : PageState) (tr : List HttpRequest),
      (maxRows - st.fetched).toNat < fuel →
      ∃ reqs : List HttpRequest,
        (pageLoop env cfg tableName viewName convert pageSize maxRows fuel st tr).2 =
          tr ++ reqs ∧
        (reqs ≠ [] → st.fetched < maxRows ∧ env.urlParseError (rowsUrl cfg) = none) ∧
        (reqs = [] → st.fetched < maxRows → env.urlParseError (rowsUrl cfg) = none →
          ∃ e u, env.newRequestError "GET" u = some e ∧
            (pageLoop env cfg tableName viewName convert pageSize maxRows fuel st tr).1 =
              some (.error (.wrapf "create request" e))) ∧
        (∀ i, i + 1 < reqs.length →
          continuesAt pageSize maxRows st.fetched (pagesFrom env tr.length reqs) i) ∧
        (∀ i, i + 1 = reqs.length →
          continuesAt pageSize maxRows st.fetched (pagesFrom env tr.length reqs) i →
          ∃ e u, env.newRequestError "GET" u = some e ∧
            (pageLoop env cfg tableName viewName convert pageSize maxRows fuel st tr).1 =
              some (.error (.wrapf "create request" e))) := by
  intro fuel
  induction fuel with
  | zero => intro st tr h; omega
  | succ fuel ih =>
    intro st tr hfuel
    rw [pageLoop]
    split
    · rename_i hge
      refine ⟨[], by simp, by simp, ?_, by simp, by simp⟩
      intro _ hlt; omega
    · rename_i hlt
      have hlt2 : st.fetched < maxRows := by omega
      split
      · rename_i e hurl
        refine ⟨[], by simp, by simp, ?_, by simp, by simp⟩
        intro _ _ hnone; rw [hurl] at hnone; cases hnone
      · rename_i hurl
        simp only
        have hmin : (if maxRows - st.fetched < pageSize then maxRows - st.fetched else pageSize) =
            min pageSize (maxRows - st.fetched) := by
          rw [min_def]; split <;> split <;> omega
        rw [hmin]
        cases he : (doSeaTableRequest env tr.length "GET"
            ⟨rowsUrl cfg, rowsQuery tableName viewName st.offset
              (min pageSize (maxRows - st.fetched)) convert⟩ cfg.Token none).1.err with
        | some e =>
          simp only
          cases hs : (doSeaTableRequest env tr.length "GET"
              ⟨rowsUrl cfg, rowsQuery tableName viewName st.offset
                (min pageSize (maxRows - st.fetched)) convert⟩ cfg.Token none).2 with
          | none =>
            obtain ⟨e1, hn, he1⟩ := doSeaTableRequest_unsent env _ _ _ _ hs
            rw [he] at he1
            simp only [Option.some.injEq] at he1
            refine ⟨[], by simp, by simp, ?_, by simp, by simp⟩
            intro _ _ _
            exact ⟨e1, _, hn, by rw [he1]⟩
          | some q =>
            have hpg := answerPage_of_failed env _ _ _ _ _ e q he hs
            refine ⟨[q], by simp, fun _ => ⟨hlt2, hurl⟩, by simp, by simp, ?_⟩
            intro i hi hc
            have hi0 : i = 0 := by simpa using hi
            subst hi0
            simp only [pagesFrom, continuesAt_zero, hpg, List.length_nil, ne_eq,
              not_true_eq_false, false_and] at hc
        | none =>
          have hs := doSeaTableRequest_sent env _ _ _ _ _ he
          have hr := doSeaTableRequest_reply env _ _ _ _ _ he
          simp only [hs, Option.toList_some]
          cases hj : env.jsonUnmarshal (doSeaTableRequest env tr.length "GET"
              ⟨rowsUrl cfg, rowsQuery tableName viewName st.offset
                (min pageSize (maxRows - st.fetched)) convert⟩ cfg.Token none).1.body with
          | error e =>
            have hpage : answerPage env tr.length
                ⟨"GET", ⟨rowsUrl cfg, rowsQuery tableName viewName st.offset
                  (min pageSize (maxRows - st.fetched)) convert⟩,
                  requestHeaders cfg.Token none, none⟩ = [] := by
              simp only [answerPage, hr, hj]
            simp only
            refine ⟨_, rfl, fun _ => ⟨hlt2, hurl⟩, by simp, by simp, ?_⟩
            intro i hi hc
            have hi0 : i = 0 := by simpa using hi
            subst hi0
            simp only [pagesFrom, continuesAt_zero, hpage, List.length_nil, ne_eq,
              not_true_eq_false, false_and] at hc
          | ok parsed =>
            have hpage : answerPage env tr.length
                ⟨"GET", ⟨rowsUrl cfg, rowsQuery tableName viewName st.offset
                  (min pageSize (maxRows - st.fetched)) convert⟩,
                  requestHeaders cfg.Token none, none⟩ = rowsPageOf parsed := by
              simp only [answerPage, hr, hj]
            simp only
            split
            · rename_i hz
              refine ⟨_, rfl, fun _ => ⟨hlt2, hurl⟩, by simp, by simp, ?_⟩
              intro i hi hc
              have hi0 : i = 0 := by simpa using hi
              subst hi0
              simp only [pagesFrom, continuesAt_zero, hpage] at hc
              exact absurd hz hc.1
            · rename_i hnz
              split
              · rename_i hshort
                refine ⟨_, rfl, fun _ => ⟨hlt2, hurl⟩, by simp, by simp, ?_⟩
                intro i hi hc
                have hi0 : i = 0 := by simpa using hi
                subst hi0
                simp only [pagesFrom, continuesAt_zero, hpage] at hc
                omega
              · rename_i hfull
                have hpos : 0 < (rowsPageOf parsed).length := Nat.pos_of_ne_zero hnz
                obtain ⟨reqs, h1, h2, h3, h4, h5⟩ := ih
                  ⟨st.allRows ++ rowsPageOf parsed,
                    (doSeaTableRequest env tr.length "GET"
                      ⟨rowsUrl cfg, rowsQuery tableName viewName st.offset
                        (min pageSize (maxRows - st.fetched)) convert⟩
                      cfg.Token none).1.status,
                    st.fetched + (rowsPageOf parsed).length,
                    wrapInt64 (st.offset + (rowsPageOf parsed).length)⟩
                  (tr ++ [⟨"GET", ⟨rowsUrl cfg, rowsQuery tableName viewName st.offset
                    (min pageSize (maxRows - st.fetched)) convert⟩,
                    requestHeaders cfg.Token none, none⟩])
                  (by simp only; omega)
                simp only [List.length_append, List.length_singleton] at h1 h4 h5
                refine ⟨(⟨"GET", ⟨rowsUrl cfg, rowsQuery tableName viewName st.offset
                    (min pageSize (maxRows - st.fetched)) convert⟩,
                    requestHeaders cfg.Token none, none⟩ : HttpRequest) :: reqs, ?_,
                  fun _ => ⟨hlt2, hurl⟩, by simp, ?_, ?_⟩
                · rw [h1]; simp
                · intro i hi
                  cases i with
                  | zero =>
                    have hne : reqs ≠ [] := by
                      intro hnil; rw [hnil] at hi; simp at hi
                    have hlt3 := (h2 hne).1
                    simp only at hlt3
                    simp only [pagesFrom, continuesAt_zero, hpage]
                    exact ⟨hnz, by omega, hlt3⟩
                  | succ i =>
                    simp only [pagesFrom, continuesAt_succ, hpage]
                    exact h4 i (by simpa using hi)
                · intro i hi hc
                  cases i with
                  | zero =>
                    have hnil : reqs = [] := by
                      cases reqs with
                      | nil => rfl
                      | cons r rs => simp at hi
                    simp only [pagesFrom, continuesAt_zero, hpage] at hc
                    exact h3 hnil hc.2.2 hurl
                  | succ i =>
                    simp only [pagesFrom, continuesAt_succ, hpage] at hc
                    exact h5 i (by simpa using hi) hc

end PagingStops

theorem doSeaTableRequest_of_reply (env : Env) (k : Nat) (method : String) (url : Url)
    (token : String) (b : String) (status : Int)
    (hnew : env.newRequestError method url = none)
    (hr : env.roundTrip k ⟨method, url, requestHeaders token none, none⟩ = .reply b status) :
    doSeaTableRequest env k method url token none =
      (⟨b, status, none⟩, some ⟨method, url, requestHeaders token none, none⟩) := by
  unfold doSeaTableRequest
  simp only [hnew, hr]
  rfl

section PagingScenario

variable (env : Env) (cfg : SeaTableClient) (tableName viewName : String) (convert : Bool)
  (pageSize maxRows : Int)

/-- One iteration of the loop when the request can be built and is answered
with a page. -/
theorem pageLoop_answered (hurl : env.urlParseError (rowsUrl cfg) = none)
    (hnew : ∀ u, env.newRequestError "GET" u = none) (fuel : Nat) (st : PageState)
    (tr : List HttpRequest) (page : List Value) (hlt : st.fetched < maxRows)
    (hans : Answers env tr.length page) :
    ∃ status : Int,
      pageLoop env cfg tableName viewName convert pageSize maxRows (fuel + 1) st tr =
        if page.length = 0 then
          (some (.ok { st with statusCode := status }),
            tr ++ [getRowsRequest cfg tableName viewName convert st.offset
              (min pageSize (maxRows - st.fetched))])
        else if (page.length : Int) < min pageSize (maxRows - st.fetched) then
          (some (.ok ⟨st.allRows ++ page, status, st.fetched + page.length,
              wrapInt64 (st.offset + page.length)⟩),
            tr ++ [getRowsRequest cfg tableName viewName convert st.offset
              (min pageSize (maxRows - st.fetched))])
        else
          pageLoop env cfg tableName viewName convert pageSize maxRows fuel
            ⟨st.allRows ++ page, status, st.fetched + page.length,
              wrapInt64 (st.offset + page.length)⟩
            (tr ++ [getRowsRequest cfg tableName viewName convert st.offset
              (min pageSize (maxRows - st.fetched))]) := by
  obtain ⟨b, status, parsed, hr, hj, hp⟩ := hans
    (getRowsRequest cfg tableName viewName convert st.offset
      (min pageSize (maxRows - st.fetched)))
  have hd := doSeaTableRequest_of_reply env tr.length "GET"
    ⟨rowsUrl cfg, rowsQuery tableName viewName st.offset
      (min pageSize (maxRows - st.fetched)) convert⟩ cfg.Token b status (hnew _) hr
  have hmin : (if maxRows - st.fetched < pageSize then maxRows - st.fetched else pageSize) =
      min pageSize (maxRows - st.fetched) := by
    rw [min_def]; split <;> split <;> omega
  refine ⟨status, ?_⟩
  rw [pageLoop, if_neg (by omega)]
  simp only [hurl, hmin, hd, hj, hp, Option.toList_some, getRowsRequest]

/-- Full pages followed by a short or empty page: the loop returns the rows of all
of them and sends one request per page. -/
theorem pageLoop_scenario (hurl : env.urlParseError (rowsUrl cfg) = none)
    (hnew : ∀ u, env.newRequestError "GET" u = none) (last : List Value) :
    ∀ (fulls : List (List Value)) (fuel : Nat) (st : PageState) (tr : List HttpRequest),
      FullPages env pageSize maxRows tr.length st.fetched fulls →
      Answers env (tr.length + fulls.length) last →
      (last.length : Int) <
        min pageSize (maxRows - (st.fetched + rowsBefore fulls fulls.length)) →
      fulls.length < fuel →
      ∃ st', (pageLoop env cfg tableName viewName convert pageSize maxRows fuel st tr).1 =
          some (.ok st') ∧
        st'.allRows = st.allRows ++ fulls.flatten ++ last ∧
        (pageLoop env cfg tableName viewName convert pageSize maxRows fuel st tr).2.length =
          tr.length + fulls.length + 1 := by
  intro fulls
  induction fulls with
  | nil =>
    intro fuel st tr _ hans hshort hfuel
    simp only [List.length_nil, rowsBefore_zero, add_zero] at hans hshort
    obtain ⟨fuel, rfl⟩ : ∃ f, fuel = f + 1 := ⟨fuel - 1, by
      simp only [List.length_nil] at hfuel; omega⟩
    have hnn : (0 : Int) ≤ last.length := Int.natCast_nonneg _
    have hlt : st.fetched < maxRows := by
      have := min_le_right pageSize (maxRows - st.fetched)
      omega
    obtain ⟨status, hstep⟩ := pageLoop_answered env cfg tableName viewName convert pageSize
      maxRows hurl hnew fuel st tr last hlt hans
    rw [hstep]
    by_cases hz : last.length = 0
    · rw [if_pos hz]
      have hnil : last = [] := List.length_eq_zero.mp hz
      exact ⟨_, rfl, by simp [hnil], by simp⟩
    · rw [if_neg hz, if_pos hshort]
      exact ⟨_, rfl, by simp, by simp⟩
  | cons page fulls ih =>
    intro fuel st tr hfull hans hshort hfuel
    obtain ⟨hap, hnz, hge, hlt2, hrest⟩ := hfull
    obtain ⟨fuel, rfl⟩ : ∃ f, fuel = f + 1 := ⟨fuel - 1, by
      simp only [List.length_cons] at hfuel; omega⟩
    have hnn : (0 : Int) ≤ page.length := Int.natCast_nonneg _
    have hlt : st.fetched < maxRows := by omega
    obtain ⟨status, hstep⟩ := pageLoop_answered env cfg tableName viewName convert pageSize
      maxRows hurl hnew fuel st tr page hlt hap
    rw [hstep, if_neg hnz, if_neg (by omega)]
    have hlen : (tr ++ [getRowsRequest cfg tableName viewName convert st.offset
        (min pageSize (maxRows - st.fetched))]).length = tr.length + 1 := by simp
    obtain ⟨st', h1, h2, h3⟩ := ih fuel
      ⟨st.allRows ++ page, status, st.fetched + page.length,
        wrapInt64 (st.offset + page.length)⟩
      (tr ++ [getRowsRequest cfg tableName viewName convert st.offset
        (min pageSize (maxRows - st.fetched))])
      (by rw [hlen]; exact hrest)
      (by
        rw [hlen]
        have : tr.length + 1 + fulls.length = tr.length + (page :: fulls).length := by
          simp only [List.length_cons]; omega
        rw [this]; exact hans)
      (by
        have hrb : rowsBefore (page :: fulls) (page :: fulls).length =
            page.length + rowsBefore fulls fulls.length := by
          simp only [List.length_cons, rowsBefore_succ]
        rw [hrb] at hshort
        simp only
        rw [add_assoc]; exact hshort)
      (by simp only [List.length_cons] at hfuel; omega)
    refine ⟨st', h1, ?_, ?_⟩
    · rw [h2]; simp
    · rw [h3, hlen]; simp only [List.length_cons]; omega

end PagingScenario

/-! ### Rows Get Many: continuation, single page, reported start -/

theorem FullPages_length (env : Env) (pageSize maxRows : Int) :
    ∀ (fulls : List (List Value)) (i : Nat) (fetched : Int),
      FullPages env pageSize maxRows i fetched fulls →
      (fulls.length : Int) ≤ rowsBefore fulls fulls.length := by
  intro fulls
  induction fulls with
  | nil => intro i fetched _; simp [rowsBefore_zero]
  | cons page fulls ih =>
    intro i fetched h
    obtain ⟨_, hnz, _, _, hrest⟩ := h
    have h1 := ih _ _ hrest
    have hpos : 0 < page.length := Nat.pos_of_ne_zero hnz
    simp only [List.length_cons, rowsBefore_succ, Nat.cast_add, Nat.cast_one]
    omega

theorem rowsBefore_one (pages : List (List Value)) :
    rowsBefore pages 1 = ((pages.getD 0 []).length : Int) := by
  cases pages with
  | nil => simp [rowsBefore]
  | cons page pages => simp [rowsBefore]

/-- The facts about continuation for a run after validation. -/
theorem rowsGetManyRun_continues (env : Env) (cfg : SeaTableClient) (tableName viewName : String)
    (start0 pageSize0 maxRows0 : Int) (convert : Bool) :
    ((rowsGetManyRun env cfg tableName viewName start0 pageSize0 maxRows0 convert).2 = [] →
      env.urlParseError (rowsUrl cfg) = none →
      ∃ e u, env.newRequestError "GET" u = some e ∧
        (rowsGetManyRun env cfg tableName viewName start0 pageSize0 maxRows0 convert).1 =
          some (.error (.wrapf "create request" e))) ∧
    (∀ i, i + 1 <
        (rowsGetManyRun env cfg tableName viewName start0 pageSize0 maxRows0 convert).2.length →
      continuesAt (specPageSize pageSize0) (specMaxRows maxRows0) 0
        (pagesFrom env 0
          (rowsGetManyRun env cfg tableName viewName start0 pageSize0 maxRows0 convert).2) i) ∧
    (∀ i, i + 1 =
        (rowsGetManyRun env cfg tableName viewName start0 pageSize0 maxRows0 convert).2.length →
      continuesAt (specPageSize pageSize0) (specMaxRows maxRows0) 0
        (pagesFrom env 0
          (rowsGetManyRun env cfg tableName viewName start0 pageSize0 maxRows0 convert).2) i →
      ∃ e u, env.newRequestError "GET" u = some e ∧
        (rowsGetManyRun env cfg tableName viewName start0 pageSize0 maxRows0 convert).1 =
          some (.error (.wrapf "create request" e))) := by
  have hm : 0 < specMaxRows maxRows0 := by unfold specMaxRows; split_ifs <;> omega
  obtain ⟨reqs, h1, _, h3, h4, h5⟩ := pageLoop_continues env cfg tableName viewName convert
    (specPageSize pageSize0) (specMaxRows maxRows0) ((specMaxRows maxRows0).toNat + 1)
    ⟨[], 0, 0, specStart start0⟩ [] (by simp only; omega)
  simp only [List.nil_append, List.length_nil] at h1 h3 h4 h5
  have hrun : ∀ e, (pageLoop env cfg tableName viewName convert (specPageSize pageSize0)
        (specMaxRows maxRows0) ((specMaxRows maxRows0).toNat + 1)
        ⟨[], 0, 0, specStart start0⟩ []).1 = some (.error e) →
      (rowsGetManyRun env cfg tableName viewName start0 pageSize0 maxRows0 convert).1 =
        some (.error e) := by
    intro e he
    unfold rowsGetManyRun
    simp only [specPageSize_eq]
    rw [← specMaxRows, ← specStart]
    simp only [he]
  have htr : (rowsGetManyRun env cfg tableName viewName start0 pageSize0 maxRows0 convert).2 =
      reqs := by
    unfold rowsGetManyRun
    simp only [specPageSize_eq]
    rw [← specMaxRows, ← specStart]
    rw [← h1]
    split <;> rfl
  rw [htr]
  refine ⟨?_, h4, ?_⟩
  · intro hnil hurl
    obtain ⟨e, u, hn, he⟩ := h3 hnil hm hurl
    exact ⟨e, u, hn, hrun _ he⟩
  · intro i hi hc
    obtain ⟨e, u, hn, he⟩ := h5 i hi hc
    exact ⟨e, u, hn, hrun _ he⟩

/-- The scenario of full pages followed by a short or empty page, for a run after
validation. -/
theorem rowsGetManyRun_scenario (env : Env) (cfg : SeaTableClient) (tableName viewName : String)
    (start0 pageSize0 maxRows0 : Int) (convert : Bool)
    (hurl : env.urlParseError (rowsUrl cfg) = none)
    (hnew : ∀ u, env.newRequestError "GET" u = none)
    (fulls : List (List Value)) (last : List Value)
    (hfull : FullPages env (specPageSize pageSize0) (specMaxRows maxRows0) 0 0 fulls)
    (hans : Answers env fulls.length last)
    (hshort : (last.length : Int) <
      min (specPageSize pageSize0) (specMaxRows maxRows0 - rowsBefore fulls fulls.length)) :
    ∃ out, (rowsGetManyRun env cfg tableName viewName start0 pageSize0 maxRows0 convert).1 =
        some (.ok out) ∧
      out.OutRows = fulls.flatten ++ last ∧
      (rowsGetManyRun env cfg tableName viewName start0 pageSize0 maxRows0 convert).2.length =
        fulls.length + 1 := by
  have hlen := FullPages_length env _ _ fulls 0 0 hfull
  have hnn : (0 : Int) ≤ last.length := Int.natCast_nonneg _
  have hmr := min_le_right (specPageSize pageSize0)
    (specMaxRows maxRows0 - rowsBefore fulls fulls.length)
  obtain ⟨st', h1, h2, h3⟩ := pageLoop_scenario env cfg tableName viewName convert
    (specPageSize pageSize0) (specMaxRows maxRows0) hurl hnew last fulls
    ((specMaxRows maxRows0).toNat + 1) ⟨[], 0, 0, specStart start0⟩ []
    (by simpa using hfull) (by simpa using hans) (by simpa using hshort) (by omega)
  simp only [List.nil_append, List.length_nil, zero_add] at h2 h3
  unfold rowsGetManyRun
  simp only [specPageSize_eq]
  rw [← specMaxRows, ← specStart]
  simp only [h1]
  exact ⟨_, rfl, h2, h3⟩


/-- C11: with valid inputs, a further request is sent after a page only if that
page was non-empty, had at least as many rows as the limit requested for it
and left the accumulated count below the row cap; conversely after such a page
a further request is sent, unless it cannot be created, so that when requests
can always be created the two are equivalent.  Hence, for full pages followed
by a short or empty page, the result is the rows of all these pages in order
and the number of requests is the number of pages. -/
theorem rowsGetMany_continuation (env : Env) (reg : Registry) (n : SeaTableRowsGetMany)
    (cfg : SeaTableClient) (tableName : String) (hv : ValidPaging reg n cfg tableName) :
    (∀ i, i + 1 < (SeaTableRowsGetMany.OnMessage env reg n).2.length →
      continuesAt (specPageSize n.OptPageSize) (specMaxRows n.OptMaxRows) 0
        (pagesFrom env 0 (SeaTableRowsGetMany.OnMessage env reg n).2) i) ∧
    (∀ i, i + 1 = (SeaTableRowsGetMany.OnMessage env reg n).2.length →
      continuesAt (specPageSize n.OptPageSize) (specMaxRows n.OptMaxRows) 0
        (pagesFrom env 0 (SeaTableRowsGetMany.OnMessage env reg n).2) i →
      ∃ e u, env.newRequestError "GET" u = some e ∧
        (SeaTableRowsGetMany.OnMessage env reg n).1 =
          some (.error (.wrapf "create request" e))) ∧
    ((∀ u, env.newRequestError "GET" u = none) →
      ∀ i, i < (SeaTableRowsGetMany.OnMessage env reg n).2.length →
        (i + 1 < (SeaTableRowsGetMany.OnMessage env reg n).2.length ↔
          continuesAt (specPageSize n.OptPageSize) (specMaxRows n.OptMaxRows) 0
            (pagesFrom env 0 (SeaTableRowsGetMany.OnMessage env reg n).2) i)) ∧
    (env.urlParseError (rowsUrl cfg) = none → (∀ u, env.newRequestError "GET" u = none) →
      ∀ (fulls : List (List Value)) (last : List Value),
        FullPages env (specPageSize n.OptPageSize) (specMaxRows n.OptMaxRows) 0 0 fulls →
        Answers env fulls.length last →
        (last.length : Int) < min (specPageSize n.OptPageSize)
          (specMaxRows n.OptMaxRows - rowsBefore fulls fulls.length) →
        ∃ out, (SeaTableRowsGetMany.OnMessage env reg n).1 = some (.ok out) ∧
          out.OutRows = fulls.flatten ++ last ∧
          (SeaTableRowsGetMany.OnMessage env reg n).2.length = fulls.length + 1) := by
  rw [rowsGetMany_eq_run env reg n cfg tableName hv]
  obtain ⟨_, h2, h3⟩ := rowsGetManyRun_continues env cfg tableName n.OptViewName n.OptStart
    n.OptPageSize n.OptMaxRows n.OptConvert
  refine ⟨h2, h3, ?_, ?_⟩
  · intro hnew i hi
    constructor
    · exact h2 i
    · intro hc
      by_contra hlt
      have heq : i + 1 = (rowsGetManyRun env cfg tableName n.OptViewName n.OptStart
          n.OptPageSize n.OptMaxRows n.OptConvert).2.length := by omega
      obtain ⟨e, u, hn, _⟩ := h3 i heq hc
      rw [hnew u] at hn
      cases hn
  · intro hurl hnew fulls last hfull hans hshort
    exact rowsGetManyRun_scenario env cfg tableName n.OptViewName n.OptStart n.OptPageSize
      n.OptMaxRows n.OptConvert hurl hnew fulls last hfull hans hshort

set_option maxRecDepth 100000 in
/-- C11, on the examples of the specification: pages of 1000, 1000 and 400 rows
with page size 1000 and row cap 10000 give 2400 rows in 3 requests, and an
empty first page gives no rows in 1 request. -/
theorem rowsGetMany_continuation_witness :
    (∃ out, (SeaTableRowsGetMany.OnMessage pagingEnv exampleRegistry pagingNode).1 =
        some (.ok out) ∧
      out.OutRows = [List.replicate 1000 Value.null, List.replicate 1000 Value.null].flatten ++
        List.replicate 400 Value.null ∧
      (SeaTableRowsGetMany.OnMessage pagingEnv exampleRegistry pagingNode).2.length = 2 + 1) ∧
    (∃ out, (SeaTableRowsGetMany.OnMessage noRowsEnv exampleRegistry pagingNode).1 =
        some (.ok out) ∧
      out.OutRows = ([] : List (List Value)).flatten ++ [] ∧
      (SeaTableRowsGetMany.OnMessage noRowsEnv exampleRegistry pagingNode).2.length = 0 + 1) :=
  ⟨(rowsGetMany_continuation pagingEnv exampleRegistry pagingNode exampleCfg "Orders"
      (examplePaging_valid pagingNode rfl rfl)).2.2.2 rfl (fun _ => rfl)
      [List.replicate 1000 Value.null, List.replicate 1000 Value.null]
      (List.replicate 400 Value.null)
      ⟨fun _ => ⟨"full", 200, pageBody 1000, rfl, rfl, rfl⟩, by decide, by decide, by decide,
        fun _ => ⟨"full", 200, pageBody 1000, rfl, rfl, rfl⟩, by decide, by decide, by decide,
        trivial⟩
      (fun _ => ⟨"short", 200, pageBody 400, rfl, rfl, rfl⟩)
      (by decide),
    (rowsGetMany_continuation noRowsEnv exampleRegistry pagingNode exampleCfg "Orders"
      (examplePaging_valid pagingNode rfl rfl)).2.2.2 rfl (fun _ => rfl) [] []
      trivial (fun _ => ⟨"none", 200, pageBody 0, rfl, rfl, rfl⟩)
      (by decide)⟩

/-- C12: with valid inputs and a normalised row cap not above the normalised page
size, at most one request is sent, and exactly one request is sent when the
request can be built, whatever the first page returns.  That request is a GET
of the rows URL whose query parameters are, in this order, `table_name`,
`view_name` when the view name is not blank, `start` = the normalised start
offset, `limit` = the normalised row cap, and `convert_keys` when conversion
is on; in particular its `limit` parameter is the row cap, not the page
size. -/
theorem rowsGetMany_single_page (env : Env) (reg : Registry) (n : SeaTableRowsGetMany)
    (cfg : SeaTableClient) (tableName : String) (hv : ValidPaging reg n cfg tableName)
    (hle : specMaxRows n.OptMaxRows ≤ specPageSize n.OptPageSize) :
    (SeaTableRowsGetMany.OnMessage env reg n).2.length ≤ 1 ∧
    (∀ r rest, (SeaTableRowsGetMany.OnMessage env reg n).2 = r :: rest →
      r = getRowsRequest cfg tableName n.OptViewName n.OptConvert (specStart n.OptStart)
        (specMaxRows n.OptMaxRows) ∧
      r.method = "GET" ∧
      r.url.raw = cfg.Server ++ "/api-gateway/api/v2/dtables/" ++ cfg.BaseUUID ++ "/rows/" ∧
      r.url.query =
        [("table_name", tableName)] ++
        (if trimSpace n.OptViewName ≠ "" then [("view_name", n.OptViewName)] else []) ++
        [("start", toString (specStart n.OptStart)),
          ("limit", toString (specMaxRows n.OptMaxRows))] ++
        (if n.OptConvert then [("convert_keys", "true")] else []) ∧
      mapGet r.url.query "limit" = some (toString (specMaxRows n.OptMaxRows)) ∧
      mapGet r.url.query "start" = some (toString (specStart n.OptStart)) ∧
      r.body = none) ∧
    (env.urlParseError (rowsUrl cfg) = none → (∀ u, env.newRequestError "GET" u = none) →
      (SeaTableRowsGetMany.OnMessage env reg n).2.length = 1) := by
  rw [rowsGetMany_eq_run env reg n cfg tableName hv]
  obtain ⟨h1, h2, _⟩ := rowsGetManyRun_continues env cfg tableName n.OptViewName n.OptStart
    n.OptPageSize n.OptMaxRows n.OptConvert
  have hle1 : (rowsGetManyRun env cfg tableName n.OptViewName n.OptStart n.OptPageSize
      n.OptMaxRows n.OptConvert).2.length ≤ 1 := by
    by_contra hgt
    have hc := h2 0 (by omega)
    unfold continuesAt at hc
    rw [rowsBefore_one, rowsBefore_zero] at hc
    have hmin : min (specPageSize n.OptPageSize) (specMaxRows n.OptMaxRows - (0 + 0)) =
        specMaxRows n.OptMaxRows := by
      rw [min_def]; split_ifs <;> omega
    rw [hmin] at hc
    omega
  refine ⟨hle1, ?_, ?_⟩
  · intro r rest htr
    have h := (rowsGetManyRun_spec env cfg tableName n.OptViewName n.OptStart n.OptPageSize
      n.OptMaxRows n.OptConvert).2.1
    rw [htr] at h
    simp only [pagesFrom, requestsFor, List.cons.injEq] at h
    have hmin : min (specPageSize n.OptPageSize) (specMaxRows n.OptMaxRows - 0) =
        specMaxRows n.OptMaxRows := by
      rw [min_def]; split_ifs <;> omega
    have hr : r = getRowsRequest cfg tableName n.OptViewName n.OptConvert
        (specStart n.OptStart) (specMaxRows n.OptMaxRows) := by
      rw [h.1, hmin]
    refine ⟨hr, ?_, ?_, ?_, ?_, ?_, ?_⟩
    · rw [hr]; rfl
    · rw [hr]; rfl
    · rw [hr]; rfl
    · rw [hr]
      by_cases hview : trimSpace n.OptViewName ≠ "" <;>
        simp [getRowsRequest, rowsQuery, mapGet, hview]
    · rw [hr]
      by_cases hview : trimSpace n.OptViewName ≠ "" <;>
        simp [getRowsRequest, rowsQuery, mapGet, hview]
    · rw [hr]; rfl
  · intro hurl hnew
    have hne : (rowsGetManyRun env cfg tableName n.OptViewName n.OptStart n.OptPageSize
        n.OptMaxRows n.OptConvert).2 ≠ [] := by
      intro hnil
      obtain ⟨e, u, hn, _⟩ := h1 hnil hurl
      rw [hnew u] at hn
      cases hn
    have hpos := List.length_pos.mpr hne
    omega

set_option maxRecDepth 100000 in
/-- C12, on row cap 500 and page size 1000, with a first page of 1000 rows: one
request is sent, and it is the GET of the rows URL with start 0 and limit
500. -/
theorem rowsGetMany_single_page_witness :
    (SeaTableRowsGetMany.OnMessage pagingEnv exampleRegistry cappedNode).2.length = 1 ∧
    (SeaTableRowsGetMany.OnMessage pagingEnv exampleRegistry cappedNode).2 =
      [⟨"GET", ⟨"https://cloud.example/api-gateway/api/v2/dtables/ab-12/rows/",
          [("table_name", "Orders"), ("start", "0"), ("limit", "500"),
            ("convert_keys", "true")]⟩,
        [("Authorization", "Bearer secret"), ("Accept", "application/json")], none⟩] ∧
    mapGet [("table_name", "Orders"), ("start", "0"), ("limit", "500"),
      ("convert_keys", "true")] "limit" = some "500" :=
  ⟨(rowsGetMany_single_page pagingEnv exampleRegistry cappedNode exampleCfg "Orders"
      (examplePaging_valid cappedNode rfl rfl) (by decide)).2.2 rfl (fun _ => rfl), rfl,
    ((rowsGetMany_single_page pagingEnv exampleRegistry cappedNode exampleCfg "Orders"
      (examplePaging_valid cappedNode rfl rfl) (by decide)).2.1
      ⟨"GET", ⟨"https://cloud.example/api-gateway/api/v2/dtables/ab-12/rows/",
          [("table_name", "Orders"), ("start", "0"), ("limit", "500"),
            ("convert_keys", "true")]⟩,
        [("Authorization", "Bearer secret"), ("Accept", "application/json")], none⟩ []
      rfl).2.2.2.2.1⟩

/-- C13, refuted as stated: a caller-supplied start offset of -5 is reported as
start 0 in the JSON result. -/
theorem rowsGetMany_start_reported_counterexample :
    rawOptionsNode.OptStart = -5 ∧
      (SeaTableRowsGetMany.OnMessage oneRowEnv exampleRegistry rawOptionsNode).1 =
        some (.ok ⟨200, [.null],
          .obj [("rows", .arr [.null]), ("count", .int 1), ("start", .int 0)]⟩) :=
  ⟨rfl, rfl⟩

/-- C13, amended: with valid inputs, on success the JSON result of Rows Get Many
reports the row sequence, count = the number of rows in it and start = the
normalised start offset, which is the start offset supplied by the caller
whenever that is not negative and 0 otherwise. -/
theorem rowsGetMany_summary (env : Env) (reg : Registry) (n : SeaTableRowsGetMany)
    (cfg : SeaTableClient) (tableName : String) (hv : ValidPaging reg n cfg tableName)
    (out : RowsGetManyOutputs)
    (hout : (SeaTableRowsGetMany.OnMessage env reg n).1 = some (.ok out)) :
    out.OutJSON = .obj [("rows", .arr out.OutRows), ("count", .int out.OutRows.length),
        ("start", .int (specStart n.OptStart))] ∧
      (0 ≤ n.OptStart → specStart n.OptStart = n.OptStart) ∧
      (n.OptStart < 0 → specStart n.OptStart = 0) := by
  rw [rowsGetMany_eq_run env reg n cfg tableName hv] at hout
  have h := ((rowsGetManyRun_spec env cfg tableName n.OptViewName n.OptStart n.OptPageSize
    n.OptMaxRows n.OptConvert).2.2 out hout).2
  refine ⟨h, ?_, ?_⟩
  · intro h0; unfold specStart; rw [if_neg (by omega)]
  · intro h0; unfold specStart; rw [if_pos h0]

/-- C13 as amended, on a page of one row from start offset 0: the run succeeds and
its JSON result reports the row, count 1 and start 0. -/
theorem rowsGetMany_summary_witness :
    (SeaTableRowsGetMany.OnMessage oneRowEnv exampleRegistry pagingNode).1 =
        some (.ok ⟨200, [.null],
          .obj [("rows", .arr [.null]), ("count", .int 1), ("start", .int 0)]⟩) ∧
      (⟨200, [.null], .obj [("rows", .arr [.null]), ("count", .int 1), ("start", .int 0)]⟩ :
          RowsGetManyOutputs).OutJSON =
        .obj [("rows", .arr [.null]), ("count", .int ([Value.null].length)),
          ("start", .int (specStart pagingNode.OptStart))] :=
  ⟨rfl, (rowsGetMany_summary oneRowEnv exampleRegistry pagingNode exampleCfg "Orders"
    (examplePaging_valid pagingNode rfl rfl)
    ⟨200, [.null], .obj [("rows", .arr [.null]), ("count", .int 1), ("start", .int 0)]⟩
    rfl).1⟩

/-! ## Properties of Search -/

theorem searchCondition_spec (h : Host) (caseSensitive : Bool) (mode col keyword : String)
    (hmode : mode ∈ supportedModes) :
    specCondition h caseSensitive mode col keyword =
      some ((searchCondition h caseSensitive mode col keyword).1,
        match (searchCondition h caseSensitive mode col keyword).2 with
        | .str s => s
        | _ => "") ∧
    ∃ s, (searchCondition h caseSensitive mode col keyword).2 = .str s := by
  simp only [supportedModes, List.mem_cons, List.mem_singleton, List.not_mem_nil, or_false] at hmode
  have e1 : ∀ c : String, "LOWER(" ++ c ++ ")" ++ " LIKE ?" = "LOWER(" ++ c ++ ") LIKE ?" := by
    intro c
    simp only [String.append_assoc]
    rfl
  have e2 : ∀ c : String, "LOWER(" ++ c ++ ")" ++ " = ?" = "LOWER(" ++ c ++ ") = ?" := by
    intro c
    simp only [String.append_assoc]
    rfl
  rcases hmode with rfl | rfl | rfl | rfl <;> cases caseSensitive <;>
    exact ⟨by simp [specCondition, searchCondition, e1, e2], by simp [searchCondition]⟩


theorem searchBody_spec (h : Host) (tableName : String) (cols : List String)
    (keyword mode : String) (caseSensitive : Bool) (maxRows : Int) (convert : Bool)
    (hmode : mode ∈ supportedModes) :
    ∃ pairs : List (String × String),
      cols.map (fun col => specCondition h caseSensitive mode col keyword) = pairs.map some ∧
      searchBody h tableName cols keyword mode caseSensitive maxRows convert =
        .obj [("sql", .str ("SELECT * FROM " ++ tableName ++ " WHERE " ++
            String.intercalate " OR " (pairs.map Prod.fst) ++ " LIMIT " ++ toString maxRows)),
          ("params", .arr (pairs.map (fun p => Value.str p.2))),
          ("convert_keys", .bool convert)] := by
  refine ⟨cols.map (fun col => ((searchCondition h caseSensitive mode col keyword).1,
    match (searchCondition h caseSensitive mode col keyword).2 with
    | .str s => s
    | _ => "")), ?_, ?_⟩
  · rw [List.map_map]
    apply List.map_congr_left
    intro col _
    exact (searchCondition_spec h caseSensitive mode col keyword hmode).1
  · have hp : cols.map (fun col => (searchCondition h caseSensitive mode col keyword).2) =
        (cols.map (fun col => ((searchCondition h caseSensitive mode col keyword).1,
          match (searchCondition h caseSensitive mode col keyword).2 with
          | .str s => s
          | _ => ""))).map (fun p => Value.str p.2) := by
      rw [List.map_map]
      apply List.map_congr_left
      intro col _
      obtain ⟨s, hs⟩ := (searchCondition_spec h caseSensitive mode col keyword hmode).2
      simp only [Function.comp, hs]
    have hc : cols.map (fun col => (searchCondition h caseSensitive mode col keyword).1) =
        (cols.map (fun col => ((searchCondition h caseSensitive mode col keyword).1,
          match (searchCondition h caseSensitive mode col keyword).2 with
          | .str s => s
          | _ => ""))).map Prod.fst := by
      rw [List.map_map]
      rfl
    unfold searchBody
    simp only [hp, hc]

/-- Claim C14.  For a registered client, a table name, a column list with at
least one column and a keyword that is not blank, and a supported match mode
(contains when the option is empty), the Search node posts to the SQL endpoint
a body built from one condition and one parameter per column, in column order:
the condition and the parameter of each column are the ones the specification
gives (`LOWER(col) = ?` with the lower-cased keyword for equals,
`LOWER(col) LIKE ?` with the lower-cased keyword followed by `%`, preceded by
`%`, or enclosed in `%` for startsWith, endsWith and contains, and the bare
column and the unchanged keyword when the search is case-sensitive), the
conditions are joined with `" OR "` in the WHERE clause and the parameters
form the `params` array. -/
theorem search_conditions (env : Env) (h : Host) (reg : Registry) (n : SeaTableSearch)
    (id : String) (cfg : SeaTableClient) (table columns keyword : String)
    (hid : n.InClientID = .ok id) (hreg : getSeaTableClient reg id = some cfg)
    (ht : n.InTableName = .ok table) (htn : trimSpace table ≠ "")
    (hc : n.InColumns = .ok columns) (hcn : splitColumns columns ≠ [])
    (hk : n.InKeyword = .ok keyword) (hkn : trimSpace keyword ≠ "")
    (hmode : effectiveMode n ∈ supportedModes) :
    ∃ pairs : List (String × String),
      (splitColumns columns).map (fun col =>
        specCondition h n.OptCaseSensitive (effectiveMode n) col (trimSpace keyword)) =
          pairs.map some ∧
      SeaTableSearch.OnMessage env h reg n =
        passThrough env "POST" (sqlUrl cfg) cfg.Token
          (some (.obj [("sql", .str ("SELECT * FROM " ++ trimSpace table ++ " WHERE " ++
              String.intercalate " OR " (pairs.map Prod.fst) ++ " LIMIT " ++
              toString (effectiveMaxRows n))),
            ("params", .arr (pairs.map (fun p => Value.str p.2))),
            ("convert_keys", .bool n.OptConvert)])) searchExtra := by
  obtain ⟨pairs, h1, h2⟩ := searchBody_spec h (trimSpace table) (splitColumns columns)
    (trimSpace keyword) (effectiveMode n) n.OptCaseSensitive (effectiveMaxRows n) n.OptConvert
    hmode
  refine ⟨pairs, h1, ?_⟩
  have hlen : ¬ (splitColumns columns).length = 0 := by
    intro h0
    exact hcn (List.length_eq_zero.mp h0)
  unfold SeaTableSearch.OnMessage
  simp only [hid, hreg, ht, hc, hk, if_neg htn, if_neg hkn, if_neg hlen]
  rw [← h2]
  rfl

/-- The witness of C14: keyword foo, columns Name, mode contains,
case-insensitive: the condition is `LOWER(Name) LIKE ?` and the parameter
`%foo%`. -/
theorem search_conditions_witness :
    (∃ pairs : List (String × String),
      [some ("LOWER(Name) LIKE ?", "%foo%")] = pairs.map some ∧
      SeaTableSearch.OnMessage (exampleEnv 200) exampleHost exampleRegistry
          (searchNode "contains" false) =
        passThrough (exampleEnv 200) "POST" (sqlUrl exampleCfg) exampleCfg.Token
          (some (.obj [("sql", .str ("SELECT * FROM " ++ trimSpace "People" ++ " WHERE " ++
              String.intercalate " OR " (pairs.map Prod.fst) ++ " LIMIT " ++
              toString (effectiveMaxRows (searchNode "contains" false)))),
            ("params", .arr (pairs.map (fun p => Value.str p.2))),
            ("convert_keys", .bool true)])) searchExtra) ∧
    (SeaTableSearch.OnMessage (exampleEnv 200) exampleHost exampleRegistry
        (searchNode "contains" false)).trace.map (fun r => r.body) =
      [some (.obj [("sql", .str "SELECT * FROM People WHERE LOWER(Name) LIKE ? LIMIT 100"),
        ("params", .arr [.str "%foo%"]), ("convert_keys", .bool true)])] :=
  ⟨search_conditions (exampleEnv 200) exampleHost exampleRegistry (searchNode "contains" false)
    "st-ab12-42" exampleCfg "People" "Name" "foo" rfl (by decide) rfl (by decide) rfl
    (by decide) rfl (by decide) (by decide), rfl⟩


/-! ### The match mode is not validated -/

theorem searchCondition_default (h : Host) (caseSensitive : Bool) (mode col keyword : String)
    (h1 : mode ≠ "equals") (h2 : mode ≠ "startsWith") (h3 : mode ≠ "endsWith") :
    searchCondition h caseSensitive mode col keyword =
      searchCondition h caseSensitive "contains" col keyword := by
  unfold searchCondition
  simp only [if_neg h1, if_neg h2, if_neg h3]
  rfl

/-- Counterexample to C17.  The match mode `regex` is none of contains, equals,
startsWith, endsWith, and yet the Search node returns no error and sends its
request, with the condition and the parameter of the mode contains. -/
theorem search_mode_counterexample :
    "regex" ∉ supportedModes ∧
    (SeaTableSearch.OnMessage (exampleEnv 200) exampleHost exampleRegistry
      (searchNode "regex" false)).err = none ∧
    (SeaTableSearch.OnMessage (exampleEnv 200) exampleHost exampleRegistry
        (searchNode "regex" false)).trace.map (fun r => r.body) =
      [some (.obj [("sql", .str "SELECT * FROM People WHERE LOWER(Name) LIKE ? LIMIT 100"),
        ("params", .arr [.str "%foo%"]), ("convert_keys", .bool true)])] :=
  ⟨by decide, rfl, rfl⟩

/-- Claim C17, amended.  The Search node does not validate its match mode: a
mode that is none of equals, startsWith and endsWith, supported or not, is
handled exactly as the mode contains, so the node returns the same error or
outputs and sends the same requests as with contains. -/
theorem search_mode_default (env : Env) (h : Host) (reg : Registry) (n : SeaTableSearch)
    (hmode : n.OptMatchMode ∉ ["equals", "startsWith", "endsWith"]) :
    SeaTableSearch.OnMessage env h reg n =
      SeaTableSearch.OnMessage env h reg (withMatchMode n "contains") := by
  simp only [List.mem_cons, List.mem_singleton, List.not_mem_nil, or_false, not_or] at hmode
  obtain ⟨h1, h2, h3⟩ := hmode
  have hbody : ∀ (t : String) (cols : List String) (k : String) (m : Int),
      searchBody h t cols k (if n.OptMatchMode = "" then "contains" else n.OptMatchMode)
          n.OptCaseSensitive m n.OptConvert =
        searchBody h t cols k "contains" n.OptCaseSensitive m n.OptConvert := by
    intro t cols k m
    unfold searchBody
    by_cases h0 : n.OptMatchMode = ""
    · rw [if_pos h0]
    · rw [if_neg h0]
      simp only [searchCondition_default h n.OptCaseSensitive n.OptMatchMode _ k h1 h2 h3]
  unfold SeaTableSearch.OnMessage withMatchMode
  simp only [hbody]
  rfl

/-- The amended C17 at the mode `regex`. -/
theorem search_mode_default_witness :
    SeaTableSearch.OnMessage (exampleEnv 200) exampleHost exampleRegistry
        (searchNode "regex" false) =
      SeaTableSearch.OnMessage (exampleEnv 200) exampleHost exampleRegistry
        (withMatchMode (searchNode "regex" false) "contains") :=
  search_mode_default (exampleEnv 200) exampleHost exampleRegistry (searchNode "regex" false)
    (by decide)


/-! ## Properties of Link -/

theorem splitComma_ne_nil (cs : List Char) : splitComma cs ≠ [] := by
  cases cs with
  | nil => simp [splitComma]
  | cons c cs =>
    unfold splitComma
    cases splitComma cs with
    | nil => simp
    | cons part parts =>
      by_cases hc : c = ','
      · simp [hc]
      · simp [hc]

theorem intercalate_cons_cons (sep : List Char) (c : Char) (p : List Char)
    (ps : List (List Char)) :
    List.intercalate sep ((c :: p) :: ps) = c :: List.intercalate sep (p :: ps) := by
  cases ps <;> simp [List.intercalate, List.intersperse]

theorem splitComma_join (cs : List Char) : List.intercalate [','] (splitComma cs) = cs := by
  induction cs with
  | nil => simp [splitComma, List.intercalate, List.intersperse]
  | cons c cs ih =>
    unfold splitComma
    cases hs : splitComma cs with
    | nil => exact absurd hs (splitComma_ne_nil cs)
    | cons part parts =>
      rw [hs] at ih
      by_cases hc : c = ','
      · simp only [hc, if_true]
        have : List.intercalate [','] ([] :: part :: parts) =
            ',' :: List.intercalate [','] (part :: parts) := by
          simp [List.intercalate, List.intersperse]
        rw [this, ih]
      · simp only [hc, if_false]
        rw [intercalate_cons_cons, ih]

theorem splitComma_no_comma (cs : List Char) : ∀ p ∈ splitComma cs, ',' ∉ p := by
  induction cs with
  | nil => simp [splitComma]
  | cons c cs ih =>
    unfold splitComma
    cases hs : splitComma cs with
    | nil => simp
    | cons part parts =>
      rw [hs] at ih
      by_cases hc : c = ','
      · simp only [hc, if_true]
        intro p hp
        rcases List.mem_cons.mp hp with rfl | hp
        · simp
        · exact ih p hp
      · simp only [hc, if_false]
        intro p hp
        rcases List.mem_cons.mp hp with rfl | hp
        · intro hmem
          rcases List.mem_cons.mp hmem with heq | hmem
          · exact hc heq.symm
          · exact ih part (List.mem_cons_self _ _) hmem
        · exact ih p (List.mem_cons_of_mem _ hp)

/-- Claim C15.  The function `parseRowIDs` returns the empty list, without
error, for the empty string.  For any other input that, once trimmed, does not
start with `[`, it returns without error the parts of the trimmed input
between its commas (the parts contain no comma and, joined with commas, give
the trimmed input back), each trimmed of surrounding white space, the empty
ones dropped, in their original order.  For an input that starts with `[` it
returns the list of strings the text decodes to as a JSON array of strings,
and the decoder's error when it does not decode. -/
theorem parseRowIDs_spec (h : Host) (s : String) :
    (s = "" → parseRowIDs h s = .ok (some [])) ∧
    (s ≠ "" → (trimSpace s).toList.head? ≠ some '[' →
      ∃ (parts : List (List Char)) (ids : Option (List String)),
        List.intercalate [','] parts = (trimSpace s).toList ∧
        (∀ p ∈ parts, ',' ∉ p) ∧
        parseRowIDs h s = .ok ids ∧
        ids.getD [] = ((parts.map String.mk).map trimSpace).filter (fun v => v ≠ "")) ∧
    (s ≠ "" → (trimSpace s).toList.head? = some '[' →
      (∀ ids, h.jsonUnmarshalStrings (trimSpace s) = .ok ids →
        parseRowIDs h s = .ok (some ids)) ∧
      (∀ e, h.jsonUnmarshalStrings (trimSpace s) = .error e →
        parseRowIDs h s = .error e)) := by
  refine ⟨?_, ?_, ?_⟩
  · intro h0
    unfold parseRowIDs
    rw [if_pos h0]
  · intro h0 hb
    refine ⟨splitComma (trimSpace s).toList,
      if trimmedParts (trimSpace s) = [] then none else some (trimmedParts (trimSpace s)),
      splitComma_join _, splitComma_no_comma _, ?_, ?_⟩
    · unfold parseRowIDs
      rw [if_neg h0]
      simp only [hb, if_false]
    · by_cases he : trimmedParts (trimSpace s) = []
      · rw [if_pos he]
        simp only [Option.getD_none]
        rw [← he]
        rfl
      · rw [if_neg he]
        rfl
  · intro h0 hb
    refine ⟨?_, ?_⟩
    · intro ids hd
      unfold parseRowIDs
      rw [if_neg h0]
      simp only [hb, if_true, hd]
    · intro e hd
      unfold parseRowIDs
      rw [if_neg h0]
      simp only [hb, if_true, hd]

/-- The witnesses of C15: the empty string gives the empty list, `a, b ,c` gives
a, b, c and the JSON array of a and b gives a, b. -/
theorem parseRowIDs_spec_witness :
    parseRowIDs exampleHost "" = .ok (some []) ∧
    parseRowIDs exampleHost "a, b ,c" = .ok (some ["a", "b", "c"]) ∧
    (∃ (parts : List (List Char)) (ids : Option (List String)),
      List.intercalate [','] parts = (trimSpace "a, b ,c").toList ∧
      (∀ p ∈ parts, ',' ∉ p) ∧
      parseRowIDs exampleHost "a, b ,c" = .ok ids ∧
      ids.getD [] = ((parts.map String.mk).map trimSpace).filter (fun v => v ≠ "")) ∧
    parseRowIDs exampleHost "[\"a\",\"b\"]" = .ok (some ["a", "b"]) :=
  ⟨(parseRowIDs_spec exampleHost "").1 rfl, rfl,
    (parseRowIDs_spec exampleHost "a, b ,c").2.1 (by decide) (by decide),
    ((parseRowIDs_spec exampleHost "[\"a\",\"b\"]").2.2 (by decide) (by decide)).1
      ["a", "b"] rfl⟩


/-! ## Properties shared by the nodes -/

/-- Claim C16.  For a client id that is not in the registry, each of the twelve
nodes other than Connect (Auto Link, Rows Get Many, Rows, Search, Link, SQL
Query, Get Row, Get Metadata, List Columns, List Views, Upload Attachment and
Download File) returns the error `ErrInvalidArg` with the text of
`unknownClient`, sets no output and sends no request, whatever its other
variables yield. -/
theorem unknown_client_rejected (env : Env) (h : Host) (reg : Registry) (id : String)
    (hid : getSeaTableClient reg id = none) :
    (∀ n : SeaTableAutoLink, n.InClientID = .ok id →
      SeaTableAutoLink.OnMessage env reg n =
        (.error (.runtimeError "ErrInvalidArg" "Unknown Client ID – run SeaTable.Connect first"),
          [])) ∧
    (∀ n : SeaTableRowsGetMany, n.InClientID = .ok id →
      SeaTableRowsGetMany.OnMessage env reg n =
        (some (.error
          (.runtimeError "ErrInvalidArg" "Unknown Client ID – run SeaTable.Connect first")),
          [])) ∧
    (∀ n : SeaTableRows, n.InClientID = .ok id →
      SeaTableRows.OnMessage env reg n = failed unknownClient) ∧
    (∀ n : SeaTableSearch, n.InClientID = .ok id →
      SeaTableSearch.OnMessage env h reg n = failed unknownClient) ∧
    (∀ n : SeaTableLink, n.InClientID = .ok id →
      SeaTableLink.OnMessage env h reg n = failed unknownClient) ∧
    (∀ n : SeaTableSQLQuery, n.InClientID = .ok id →
      SeaTableSQLQuery.OnMessage env reg n = failed unknownClient) ∧
    (∀ n : SeaTableGetRow, n.InClientID = .ok id →
      SeaTableGetRow.OnMessage env reg n = failed unknownClient) ∧
    (∀ n : SeaTableGetMetadata, n.InClientID = .ok id →
      SeaTableGetMetadata.OnMessage env reg n = failed unknownClient) ∧
    (∀ n : SeaTableListColumns, n.InClientID = .ok id →
      SeaTableListColumns.OnMessage env reg n = failed unknownClient) ∧
    (∀ n : SeaTableListViews, n.InClientID = .ok id →
      SeaTableListViews.OnMessage env reg n = failed unknownClient) ∧
    (∀ n : SeaTableUploadAttachment, n.InClientID = .ok id →
      SeaTableUploadAttachment.OnMessage env h reg n = failed unknownClient) ∧
    (∀ n : SeaTableDownloadFile, n.InClientID = .ok id →
      SeaTableDownloadFile.OnMessage env h reg n = failed unknownClient) := by
  refine ⟨?_, ?_, ?_, ?_, ?_, ?_, ?_, ?_, ?_, ?_, ?_, ?_⟩
  · intro n hn
    unfold SeaTableAutoLink.OnMessage
    simp only [hn, hid]
  · intro n hn
    unfold SeaTableRowsGetMany.OnMessage
    simp only [hn, hid]
  · intro n hn
    unfold SeaTableRows.OnMessage
    simp only [hn, hid]
  · intro n hn
    unfold SeaTableSearch.OnMessage
    simp only [hn, hid]
  · intro n hn
    unfold SeaTableLink.OnMessage
    simp only [hn, hid]
  · intro n hn
    unfold SeaTableSQLQuery.OnMessage
    simp only [hn, hid]
  · intro n hn
    unfold SeaTableGetRow.OnMessage
    simp only [hn, hid]
  · intro n hn
    unfold SeaTableGetMetadata.OnMessage
    simp only [hn, hid]
  · intro n hn
    unfold SeaTableListColumns.OnMessage
    simp only [hn, hid]
  · intro n hn
    unfold SeaTableListViews.OnMessage
    simp only [hn, hid]
  · intro n hn
    unfold SeaTableUploadAttachment.OnMessage
    simp only [hn, hid]
  · intro n hn
    unfold SeaTableDownloadFile.OnMessage
    simp only [hn, hid]

/-- C16 on the empty registry: the example nodes of all twelve kinds are
rejected. -/
theorem unknown_client_rejected_witness :
    getSeaTableClient emptyRegistry "st-ab12-42" = none ∧
    SeaTableAutoLink.OnMessage (exampleEnv 200) emptyRegistry (exampleNode false) =
      (.error (.runtimeError "ErrInvalidArg" "Unknown Client ID – run SeaTable.Connect first"),
        []) ∧
    SeaTableRows.OnMessage (exampleEnv 200) emptyRegistry (rowsNode "list") =
      failed unknownClient ∧
    SeaTableDownloadFile.OnMessage (exampleEnv 200) exampleHost emptyRegistry
      (downloadNode "") = failed unknownClient :=
  ⟨rfl,
    (unknown_client_rejected (exampleEnv 200) exampleHost emptyRegistry "st-ab12-42" rfl).1
      (exampleNode false) rfl,
    (unknown_client_rejected (exampleEnv 200) exampleHost emptyRegistry "st-ab12-42"
      rfl).2.2.1 (rowsNode "list") rfl,
    (unknown_client_rejected (exampleEnv 200) exampleHost emptyRegistry "st-ab12-42"
      rfl).2.2.2.2.2.2.2.2.2.2.2 (downloadNode "") rfl⟩


/-! ### The operations of Link -/

theorem passThrough_trace (env : Env) (method : String) (url : Url) (token : String)
    (body : Option Value) (extra : Value → List (String × Value))
    (hc : CanSend env method url body) :
    (passThrough env method url token body extra).trace = [requestOf method url token body] := by
  unfold passThrough doSeaTableRequest requestOf
  simp only [hc.1, hc.2]
  cases env.roundTrip 0 ⟨method, url, requestHeaders token body, body⟩ <;> rfl

theorem link_eq_switch (env : Env) (h : Host) (reg : Registry) (n : SeaTableLink)
    (id : String) (cfg : SeaTableClient) (op linkID table other rowID : String)
    (hid : n.InClientID = .ok id) (hreg : getSeaTableClient reg id = some cfg)
    (hop : n.InOperation = .ok op) (hl : n.InLinkID = .ok linkID)
    (ht : n.InTableName = .ok table) (ho : n.InOtherTableName = .ok other)
    (hr : n.InRowID = .ok rowID)
    (hln : trimSpace linkID ≠ "") (htn : trimSpace table ≠ "")
    (hon : trimSpace other ≠ "") (hrn : trimSpace rowID ≠ "") :
    SeaTableLink.OnMessage env h reg n =
      linkSwitch env h cfg n (h.toLower (trimSpace op)) (trimSpace linkID) (trimSpace table)
        (trimSpace other) (trimSpace rowID) := by
  unfold SeaTableLink.OnMessage
  simp only [hid, hreg, hop, hl, ht, ho, hr]
  rw [if_neg]
  simp only [not_or]
  exact ⟨hln, htn, hon, hrn⟩


/-- Claim C18.  For a registered client and a link id, table, other table and
row id that are not blank, the Link node acts on the operation trimmed and
lower-cased.  For add, with an other row id that is not blank, it calls the
links endpoint with POST and the payload `link_id`, `table_name`,
`other_table_name`, `table_row_id`, `other_table_row_id`; for remove, the same
with DELETE; for update, with a list of other row ids that is not blank and
parses, with PUT and the payload `link_id`, `table_name`, `other_table_name`,
`row_id`, `other_rows_ids` (the parsed list).  In each case the request sent,
when it can be built, is that one request.  For every other operation the node
returns `ErrInvalidArg`, sets no output and sends no request. -/
theorem link_operations (env : Env) (h : Host) (reg : Registry) (n : SeaTableLink)
    (id : String) (cfg : SeaTableClient) (op linkID table other rowID : String)
    (hid : n.InClientID = .ok id) (hreg : getSeaTableClient reg id = some cfg)
    (hop : n.InOperation = .ok op) (hl : n.InLinkID = .ok linkID)
    (ht : n.InTableName = .ok table) (ho : n.InOtherTableName = .ok other)
    (hr : n.InRowID = .ok rowID)
    (hln : trimSpace linkID ≠ "") (htn : trimSpace table ≠ "")
    (hon : trimSpace other ≠ "") (hrn : trimSpace rowID ≠ "") :
    (h.toLower (trimSpace op) = "add" → trimSpace n.OptOtherRowID ≠ "" →
      ∃ payload : Value,
        payload = .obj [("link_id", .str (trimSpace linkID)),
          ("table_name", .str (trimSpace table)),
          ("other_table_name", .str (trimSpace other)),
          ("table_row_id", .str (trimSpace rowID)),
          ("other_table_row_id", .str (trimSpace n.OptOtherRowID))] ∧
        SeaTableLink.OnMessage env h reg n =
          passThrough env "POST" (linksUrl cfg) cfg.Token (some payload) noExtra ∧
        (CanSend env "POST" (linksUrl cfg) (some payload) →
          (SeaTableLink.OnMessage env h reg n).trace =
            [requestOf "POST" (linksUrl cfg) cfg.Token (some payload)])) ∧
    (h.toLower (trimSpace op) = "remove" → trimSpace n.OptOtherRowID ≠ "" →
      ∃ payload : Value,
        payload = .obj [("link_id", .str (trimSpace linkID)),
          ("table_name", .str (trimSpace table)),
          ("other_table_name", .str (trimSpace other)),
          ("table_row_id", .str (trimSpace rowID)),
          ("other_table_row_id", .str (trimSpace n.OptOtherRowID))] ∧
        SeaTableLink.OnMessage env h reg n =
          passThrough env "DELETE" (linksUrl cfg) cfg.Token (some payload) noExtra ∧
        (CanSend env "DELETE" (linksUrl cfg) (some payload) →
          (SeaTableLink.OnMessage env h reg n).trace =
            [requestOf "DELETE" (linksUrl cfg) cfg.Token (some payload)])) ∧
    (h.toLower (trimSpace op) = "update" → trimSpace n.OptOtherRowIDs ≠ "" →
      ∀ ids, parseRowIDs h (trimSpace n.OptOtherRowIDs) = .ok ids →
      ∃ payload : Value,
        payload = .obj [("link_id", .str (trimSpace linkID)),
          ("table_name", .str (trimSpace table)),
          ("other_table_name", .str (trimSpace other)),
          ("row_id", .str (trimSpace rowID)),
          ("other_rows_ids", stringsValue ids)] ∧
        SeaTableLink.OnMessage env h reg n =
          passThrough env "PUT" (linksUrl cfg) cfg.Token (some payload) noExtra ∧
        (CanSend env "PUT" (linksUrl cfg) (some payload) →
          (SeaTableLink.OnMessage env h reg n).trace =
            [requestOf "PUT" (linksUrl cfg) cfg.Token (some payload)])) ∧
    (h.toLower (trimSpace op) ∉ ["add", "remove", "update"] →
      SeaTableLink.OnMessage env h reg n =
        ⟨some (.runtimeError "ErrInvalidArg" "Operation must be add, update or remove"),
          [], []⟩) := by
  have hsw := link_eq_switch env h reg n id cfg op linkID table other rowID hid hreg hop hl ht ho
    hr hln htn hon hrn
  refine ⟨?_, ?_, ?_, ?_⟩
  · intro hadd hother
    have hcall : SeaTableLink.OnMessage env h reg n =
        passThrough env "POST" (linksUrl cfg) cfg.Token
          (some (linkRowPayload (trimSpace linkID) (trimSpace table) (trimSpace other)
            (trimSpace rowID) (trimSpace n.OptOtherRowID))) noExtra := by
      rw [hsw, hadd]
      unfold linkSwitch
      simp only [if_true, if_neg hother]
    refine ⟨_, rfl, hcall, ?_⟩
    intro hc
    rw [hcall]
    exact passThrough_trace env _ _ _ _ _ hc
  · intro hrem hother
    have hcall : SeaTableLink.OnMessage env h reg n =
        passThrough env "DELETE" (linksUrl cfg) cfg.Token
          (some (linkRowPayload (trimSpace linkID) (trimSpace table) (trimSpace other)
            (trimSpace rowID) (trimSpace n.OptOtherRowID))) noExtra := by
      rw [hsw, hrem]
      unfold linkSwitch
      rw [if_neg (by decide), if_pos rfl]
      simp only [if_neg hother]
    refine ⟨_, rfl, hcall, ?_⟩
    intro hc
    rw [hcall]
    exact passThrough_trace env _ _ _ _ _ hc
  · intro hupd hraw ids hids
    have hcall : SeaTableLink.OnMessage env h reg n =
        passThrough env "PUT" (linksUrl cfg) cfg.Token
          (some (linkUpdatePayload (trimSpace linkID) (trimSpace table) (trimSpace other)
            (trimSpace rowID) ids)) noExtra := by
      rw [hsw, hupd]
      unfold linkSwitch
      rw [if_neg (by decide), if_neg (by decide), if_pos rfl]
      simp only [if_neg hraw, hids]
    refine ⟨_, rfl, hcall, ?_⟩
    intro hc
    rw [hcall]
    exact passThrough_trace env _ _ _ _ _ hc
  · intro hnot
    simp only [List.mem_cons, List.mem_singleton, List.not_mem_nil, or_false, not_or] at hnot
    obtain ⟨h1, h2, h3⟩ := hnot
    rw [hsw]
    unfold linkSwitch
    rw [if_neg h1, if_neg h2, if_neg h3]
    rfl


/-- C18 on the example: the operation ` Add` posts the five fields, the
operation `update` puts the parsed ids r0 and r1, and the operation `merge` is
rejected. -/
theorem link_operations_witness :
    (∃ payload : Value,
      payload = .obj [("link_id", .str "Lk01"), ("table_name", .str "Orders"),
        ("other_table_name", .str "Customers"), ("table_row_id", .str "l0"),
        ("other_table_row_id", .str "r0")] ∧
      SeaTableLink.OnMessage (exampleEnv 200) exampleHost exampleRegistry (linkNode " Add") =
        passThrough (exampleEnv 200) "POST" (linksUrl exampleCfg) exampleCfg.Token
          (some payload) noExtra ∧
      (CanSend (exampleEnv 200) "POST" (linksUrl exampleCfg) (some payload) →
        (SeaTableLink.OnMessage (exampleEnv 200) exampleHost exampleRegistry
          (linkNode " Add")).trace =
          [requestOf "POST" (linksUrl exampleCfg) exampleCfg.Token (some payload)])) ∧
    (∃ payload : Value,
      payload = .obj [("link_id", .str "Lk01"), ("table_name", .str "Orders"),
        ("other_table_name", .str "Customers"), ("row_id", .str "l0"),
        ("other_rows_ids", .arr [.str "r0", .str "r1"])] ∧
      SeaTableLink.OnMessage (exampleEnv 200) exampleHost exampleRegistry (linkNode "update") =
        passThrough (exampleEnv 200) "PUT" (linksUrl exampleCfg) exampleCfg.Token
          (some payload) noExtra ∧
      (CanSend (exampleEnv 200) "PUT" (linksUrl exampleCfg) (some payload) →
        (SeaTableLink.OnMessage (exampleEnv 200) exampleHost exampleRegistry
          (linkNode "update")).trace =
          [requestOf "PUT" (linksUrl exampleCfg) exampleCfg.Token (some payload)])) ∧
    SeaTableLink.OnMessage (exampleEnv 200) exampleHost exampleRegistry (linkNode "merge") =
      ⟨some (.runtimeError "ErrInvalidArg" "Operation must be add, update or remove"),
        [], []⟩ :=
  ⟨(link_operations (exampleEnv 200) exampleHost exampleRegistry (linkNode " Add")
      "st-ab12-42" exampleCfg " Add" " Lk01" "Orders" "Customers" "l0 " rfl (by decide) rfl rfl
      rfl rfl rfl (by decide) (by decide) (by decide) (by decide)).1 (by decide) (by decide),
    (link_operations (exampleEnv 200) exampleHost exampleRegistry (linkNode "update")
      "st-ab12-42" exampleCfg "update" " Lk01" "Orders" "Customers" "l0 " rfl (by decide) rfl rfl
      rfl rfl rfl (by decide) (by decide) (by decide) (by decide)).2.2.1 (by decide) (by decide)
      (some ["r0", "r1"]) rfl,
    (link_operations (exampleEnv 200) exampleHost exampleRegistry (linkNode "merge")
      "st-ab12-42" exampleCfg "merge" " Lk01" "Orders" "Customers" "l0 " rfl (by decide) rfl rfl
      rfl rfl rfl (by decide) (by decide) (by decide) (by decide)).2.2.2 (by decide)⟩


/-! ### Responses are passed through -/

theorem doSeaTableRequest_replied (env : Env) (k : Nat) (method : String) (url : Url)
    (token : String) (body : Option Value) (req : HttpRequest) (b : String) (status : Int)
    (hs : (doSeaTableRequest env k method url token body).2 = some req)
    (hr : env.roundTrip k req = .reply b status) :
    (doSeaTableRequest env k method url token body).1 = ⟨b, status, none⟩ := by
  have hreq := doSeaTableRequest_sent_eq env k method url token body req hs
  subst hreq
  unfold doSeaTableRequest at hs ⊢
  cases h1 : body.bind env.marshalError with
  | some e => simp [h1] at hs
  | none =>
    cases h2 : env.newRequestError method url with
    | some e => simp [h1, h2] at hs
    | none => simp only [h1, h2, hr]

theorem failed_passes (env : Env) (e : Error) : PassesThrough env (failed e) := by
  intro req body status htr _
  simp [failed] at htr

theorem passThrough_passes (env : Env) (method : String) (url : Url) (token : String)
    (body : Option Value) (extra : Value → List (String × Value))
    (hx : ∀ v, "statusCode" ∉ outputNames (extra v) ∧ "body" ∉ outputNames (extra v)) :
    PassesThrough env (passThrough env method url token body extra) := by
  intro req b status htr hrt
  have hs : (doSeaTableRequest env 0 method url token body).2 = some req := by
    unfold passThrough at htr
    cases hopt : (doSeaTableRequest env 0 method url token body).2 with
    | none =>
      cases herr : (doSeaTableRequest env 0 method url token body).1.err <;>
        simp [herr, hopt] at htr
    | some r =>
      cases herr : (doSeaTableRequest env 0 method url token body).1.err <;>
        simp [herr, hopt] at htr <;> rw [htr]
  have hres := doSeaTableRequest_replied env 0 method url token body req b status hs hrt
  unfold passThrough
  simp only [hres]
  refine ⟨trivial, _, rfl, ?_, ?_⟩
  · cases env.jsonUnmarshal b with
    | error e => simpa [outputNames, parsedOrNil] using (hx .null).1
    | ok v => simpa [outputNames, parsedOrNil] using (hx v).1
  · cases env.jsonUnmarshal b with
    | error e => simpa [outputNames, parsedOrNil] using (hx .null).2
    | ok v => simpa [outputNames, parsedOrNil] using (hx v).2


theorem noExtra_names (v : Value) :
    "statusCode" ∉ outputNames (noExtra v) ∧ "body" ∉ outputNames (noExtra v) := by
  simp [noExtra, outputNames]

theorem searchExtra_names (v : Value) :
    "statusCode" ∉ outputNames (searchExtra v) ∧ "body" ∉ outputNames (searchExtra v) := by
  simp [searchExtra, outputNames]

theorem getRowExtra_names (v : Value) :
    "statusCode" ∉ outputNames (getRowExtra v) ∧ "body" ∉ outputNames (getRowExtra v) := by
  unfold getRowExtra
  split
  · split <;> simp [outputNames]
  · simp [outputNames]

theorem metadataExtra_names (v : Value) :
    "statusCode" ∉ outputNames (metadataExtra v) ∧ "body" ∉ outputNames (metadataExtra v) := by
  unfold metadataExtra
  split <;> simp [outputNames]

theorem listExtra_names (key : String) (h1 : key ≠ "statusCode") (h2 : key ≠ "body")
    (v : Value) :
    "statusCode" ∉ outputNames (listExtra key v) ∧ "body" ∉ outputNames (listExtra key v) := by
  simp [listExtra, outputNames, Ne.symm h1, Ne.symm h2]

theorem rows_passes (env : Env) (reg : Registry) (n : SeaTableRows) :
    PassesThrough env (SeaTableRows.OnMessage env reg n) := by
  unfold SeaTableRows.OnMessage
  repeat' first
    | exact failed_passes env _
    | exact passThrough_passes env _ _ _ _ _ noExtra_names
    | split
    | dsimp only
    | unfold rowsSwitch

theorem search_passes (env : Env) (h : Host) (reg : Registry) (n : SeaTableSearch) :
    PassesThrough env (SeaTableSearch.OnMessage env h reg n) := by
  unfold SeaTableSearch.OnMessage
  repeat' first
    | exact failed_passes env _
    | exact passThrough_passes env _ _ _ _ _ searchExtra_names
    | split
    | dsimp only

theorem link_passes (env : Env) (h : Host) (reg : Registry) (n : SeaTableLink) :
    PassesThrough env (SeaTableLink.OnMessage env h reg n) := by
  unfold SeaTableLink.OnMessage
  repeat' first
    | exact failed_passes env _
    | exact passThrough_passes env _ _ _ _ _ noExtra_names
    | split
    | dsimp only
    | unfold linkSwitch

theorem sqlQuery_passes (env : Env) (reg : Registry) (n : SeaTableSQLQuery) :
    PassesThrough env (SeaTableSQLQuery.OnMessage env reg n) := by
  unfold SeaTableSQLQuery.OnMessage
  repeat' first
    | exact failed_passes env _
    | exact passThrough_passes env _ _ _ _ _ noExtra_names
    | split

theorem getRow_passes (env : Env) (reg : Registry) (n : SeaTableGetRow) :
    PassesThrough env (SeaTableGetRow.OnMessage env reg n) := by
  unfold SeaTableGetRow.OnMessage
  repeat' first
    | exact failed_passes env _
    | exact passThrough_passes env _ _ _ _ _ getRowExtra_names
    | split
    | dsimp only

theorem getMetadata_passes (env : Env) (reg : Registry) (n : SeaTableGetMetadata) :
    PassesThrough env (SeaTableGetMetadata.OnMessage env reg n) := by
  unfold SeaTableGetMetadata.OnMessage
  repeat' first
    | exact failed_passes env _
    | exact passThrough_passes env _ _ _ _ _ metadataExtra_names
    | split

theorem listColumns_passes (env : Env) (reg : Registry) (n : SeaTableListColumns) :
    PassesThrough env (SeaTableListColumns.OnMessage env reg n) := by
  unfold SeaTableListColumns.OnMessage
  repeat' first
    | exact failed_passes env _
    | exact passThrough_passes env _ _ _ _ _ (listExtra_names "columns" (by decide) (by decide))
    | split
    | dsimp only

theorem listViews_passes (env : Env) (reg : Registry) (n : SeaTableListViews) :
    PassesThrough env (SeaTableListViews.OnMessage env reg n) := by
  unfold SeaTableListViews.OnMessage
  repeat' first
    | exact failed_passes env _
    | exact passThrough_passes env _ _ _ _ _ (listExtra_names "views" (by decide) (by decide))
    | split
    | dsimp only

theorem passThrough_delivers (env : Env) (method : String) (url : Url) (token : String)
    (body : Option Value) (extra : Value → List (String × Value))
    (hx : ∀ v, "statusCode" ∉ outputNames (extra v) ∧ "body" ∉ outputNames (extra v)) :
    Delivers env (passThrough env method url token body extra) method url token body := by
  intro hc
  have htr := passThrough_trace env method url token body extra hc
  exact ⟨htr, fun b status hr =>
    passThrough_passes env method url token body extra hx _ b status htr hr⟩

theorem rows_calls (env : Env) (reg : Registry) (n : SeaTableRows) (id : String)
    (cfg : SeaTableClient) (table : String)
    (hid : n.InClientID = .ok id) (hreg : getSeaTableClient reg id = some cfg)
    (ht : n.InTableName = .ok table) (htn : trimSpace table ≠ "") :
    SeaTableRows.OnMessage env reg n =
      rowsSwitch env cfg n (trimSpace table) (if n.OptAction = "" then "list" else n.OptAction) := by
  unfold SeaTableRows.OnMessage
  simp only [hid, hreg, ht, if_neg htn]

theorem rows_delivers (env : Env) (reg : Registry) (n : SeaTableRows) (id : String)
    (cfg : SeaTableClient) (table : String)
    (hid : n.InClientID = .ok id) (hreg : getSeaTableClient reg id = some cfg)
    (ht : n.InTableName = .ok table) (htn : trimSpace table ≠ "") :
    ((n.OptAction = "" ∨ n.OptAction = "list") → env.urlParseError (rowsUrl cfg) = none →
      Delivers env (SeaTableRows.OnMessage env reg n) "GET"
        ⟨rowsUrl cfg, listQuery n (trimSpace table)⟩ cfg.Token none) ∧
    (n.OptAction = "append" → ∀ rowData, readRowData n = some rowData →
      Delivers env (SeaTableRows.OnMessage env reg n) "POST" ⟨rowsUrl cfg, []⟩ cfg.Token
        (some (.obj [("table_name", .str (trimSpace table)), ("row", rowData)]))) ∧
    (n.OptAction = "update" → ∀ rowID rowData, readRowID n = some rowID →
      readRowData n = some rowData →
      Delivers env (SeaTableRows.OnMessage env reg n) "PUT" ⟨rowsUrl cfg, []⟩ cfg.Token
        (some (.obj [("table_name", .str (trimSpace table)), ("row_id", .str rowID),
          ("row", rowData)]))) ∧
    (n.OptAction = "delete" → ∀ rowID, readRowID n = some rowID →
      Delivers env (SeaTableRows.OnMessage env reg n) "DELETE" ⟨rowsUrl cfg, []⟩ cfg.Token
        (some (.obj [("table_name", .str (trimSpace table)), ("row_id", .str rowID)]))) := by
  rw [rows_calls env reg n id cfg table hid hreg ht htn]
  refine ⟨?_, ?_, ?_, ?_⟩
  · intro hact hurl
    have ha : (if n.OptAction = "" then "list" else n.OptAction) = "list" := by
      rcases hact with h0 | h1
      · rw [if_pos h0]
      · rw [h1]; rfl
    rw [ha]
    unfold rowsSwitch
    simp only [if_true, hurl]
    exact passThrough_delivers env _ _ _ _ _ noExtra_names
  · intro hact rowData hd
    rw [hact]
    unfold rowsSwitch
    rw [if_neg (by decide)]
    simp only [if_neg (show ¬ ("append" : String) = "list" by decide), if_true, hd]
    exact passThrough_delivers env _ _ _ _ _ noExtra_names
  · intro hact rowID rowData hr hd
    rw [hact]
    unfold rowsSwitch
    rw [if_neg (by decide)]
    simp only [if_neg (show ¬ ("update" : String) = "list" by decide),
      if_neg (show ¬ ("update" : String) = "append" by decide), if_true, hr, hd]
    exact passThrough_delivers env _ _ _ _ _ noExtra_names
  · intro hact rowID hr
    rw [hact]
    unfold rowsSwitch
    rw [if_neg (by decide)]
    simp only [if_neg (show ¬ ("delete" : String) = "list" by decide),
      if_neg (show ¬ ("delete" : String) = "append" by decide),
      if_neg (show ¬ ("delete" : String) = "update" by decide), if_true, hr]
    exact passThrough_delivers env _ _ _ _ _ noExtra_names

theorem link_delivers (env : Env) (h : Host) (reg : Registry) (n : SeaTableLink)
    (id : String) (cfg : SeaTableClient) (op linkID table other rowID : String)
    (hid : n.InClientID = .ok id) (hreg : getSeaTableClient reg id = some cfg)
    (hop : n.InOperation = .ok op) (hl : n.InLinkID = .ok linkID)
    (ht : n.InTableName = .ok table) (ho : n.InOtherTableName = .ok other)
    (hr : n.InRowID = .ok rowID)
    (hln : trimSpace linkID ≠ "") (htn : trimSpace table ≠ "")
    (hon : trimSpace other ≠ "") (hrn : trimSpace rowID ≠ "") :
    (h.toLower (trimSpace op) = "add" → trimSpace n.OptOtherRowID ≠ "" →
      Delivers env (SeaTableLink.OnMessage env h reg n) "POST" (linksUrl cfg) cfg.Token
        (some (linkRowPayload (trimSpace linkID) (trimSpace table) (trimSpace other)
          (trimSpace rowID) (trimSpace n.OptOtherRowID)))) ∧
    (h.toLower (trimSpace op) = "remove" → trimSpace n.OptOtherRowID ≠ "" →
      Delivers env (SeaTableLink.OnMessage env h reg n) "DELETE" (linksUrl cfg) cfg.Token
        (some (linkRowPayload (trimSpace linkID) (trimSpace table) (trimSpace other)
          (trimSpace rowID) (trimSpace n.OptOtherRowID)))) ∧
    (h.toLower (trimSpace op) = "update" → trimSpace n.OptOtherRowIDs ≠ "" →
      ∀ ids, parseRowIDs h (trimSpace n.OptOtherRowIDs) = .ok ids →
      Delivers env (SeaTableLink.OnMessage env h reg n) "PUT" (linksUrl cfg) cfg.Token
        (some (linkUpdatePayload (trimSpace linkID) (trimSpace table) (trimSpace other)
          (trimSpace rowID) ids))) := by
  rw [link_eq_switch env h reg n id cfg op linkID table other rowID hid hreg hop hl ht ho hr
    hln htn hon hrn]
  refine ⟨?_, ?_, ?_⟩
  · intro hadd hother
    rw [hadd]
    unfold linkSwitch
    simp only [if_true, if_neg hother]
    exact passThrough_delivers env _ _ _ _ _ noExtra_names
  · intro hrem hother
    rw [hrem]
    unfold linkSwitch
    rw [if_neg (by decide), if_pos rfl]
    simp only [if_neg hother]
    exact passThrough_delivers env _ _ _ _ _ noExtra_names
  · intro hupd hraw ids hids
    rw [hupd]
    unfold linkSwitch
    rw [if_neg (by decide), if_neg (by decide), if_pos rfl]
    simp only [if_neg hraw, hids]
    exact passThrough_delivers env _ _ _ _ _ noExtra_names

theorem sqlQuery_delivers (env : Env) (reg : Registry) (n : SeaTableSQLQuery) (id : String)
    (cfg : SeaTableClient) (sql : String)
    (hid : n.InClientID = .ok id) (hreg : getSeaTableClient reg id = some cfg)
    (hs : n.InSQL = .ok sql) (hsn : trimSpace sql ≠ "") :
    Delivers env (SeaTableSQLQuery.OnMessage env reg n) "POST" (sqlUrl cfg) cfg.Token
      (some (sqlQueryBody sql (sqlParams n) n.OptConvert)) := by
  unfold SeaTableSQLQuery.OnMessage
  simp only [hid, hreg, hs, if_neg hsn]
  exact passThrough_delivers env _ _ _ _ _ noExtra_names

theorem search_delivers (env : Env) (h : Host) (reg : Registry) (n : SeaTableSearch)
    (id : String) (cfg : SeaTableClient) (table columns keyword : String)
    (hid : n.InClientID = .ok id) (hreg : getSeaTableClient reg id = some cfg)
    (ht : n.InTableName = .ok table) (htn : trimSpace table ≠ "")
    (hc : n.InColumns = .ok columns) (hcn : splitColumns columns ≠ [])
    (hk : n.InKeyword = .ok keyword) (hkn : trimSpace keyword ≠ "") :
    Delivers env (SeaTableSearch.OnMessage env h reg n) "POST" (sqlUrl cfg) cfg.Token
      (some (searchBody h (trimSpace table) (splitColumns columns) (trimSpace keyword)
        (effectiveMode n) n.OptCaseSensitive (effectiveMaxRows n) n.OptConvert)) := by
  have hlen : ¬ (splitColumns columns).length = 0 := fun h0 => hcn (List.length_eq_zero.mp h0)
  unfold SeaTableSearch.OnMessage
  simp only [hid, hreg, ht, hc, hk, if_neg htn, if_neg hkn, if_neg hlen]
  exact passThrough_delivers env _ _ _ _ _ searchExtra_names

theorem getRow_delivers (env : Env) (reg : Registry) (n : SeaTableGetRow) (id : String)
    (cfg : SeaTableClient) (table rowID : String)
    (hid : n.InClientID = .ok id) (hreg : getSeaTableClient reg id = some cfg)
    (ht : n.InTableName = .ok table) (htn : trimSpace table ≠ "")
    (hr : n.InRowID = .ok rowID) (hrn : trimSpace rowID ≠ "")
    (hurl : env.urlParseError (rowsUrl cfg ++ trimSpace rowID ++ "/") = none) :
    Delivers env (SeaTableGetRow.OnMessage env reg n) "GET"
      ⟨rowsUrl cfg ++ trimSpace rowID ++ "/",
        [("table_name", trimSpace table)] ++
        (if trimSpace n.OptViewName ≠ "" then [("view_name", n.OptViewName)] else []) ++
        (if n.OptConvert then [("convert_keys", "true")] else [])⟩ cfg.Token none := by
  unfold SeaTableGetRow.OnMessage
  simp only [hid, hreg, ht, hr, if_neg htn, if_neg hrn, hurl]
  exact passThrough_delivers env _ _ _ _ _ getRowExtra_names

theorem getMetadata_delivers (env : Env) (reg : Registry) (n : SeaTableGetMetadata)
    (id : String) (cfg : SeaTableClient)
    (hid : n.InClientID = .ok id) (hreg : getSeaTableClient reg id = some cfg) :
    Delivers env (SeaTableGetMetadata.OnMessage env reg n) "GET"
      ⟨cfg.Server ++ "/api-gateway/api/v2/dtables/" ++ cfg.BaseUUID ++ "/metadata/", []⟩
      cfg.Token none := by
  unfold SeaTableGetMetadata.OnMessage
  simp only [hid, hreg]
  exact passThrough_delivers env _ _ _ _ _ metadataExtra_names

theorem listColumns_delivers (env : Env) (reg : Registry) (n : SeaTableListColumns)
    (id : String) (cfg : SeaTableClient) (table : String)
    (hid : n.InClientID = .ok id) (hreg : getSeaTableClient reg id = some cfg)
    (ht : n.InTableName = .ok table) (htn : trimSpace table ≠ "")
    (hurl : env.urlParseError
      (cfg.Server ++ "/api-gateway/api/v2/dtables/" ++ cfg.BaseUUID ++ "/columns/") = none) :
    Delivers env (SeaTableListColumns.OnMessage env reg n) "GET"
      ⟨cfg.Server ++ "/api-gateway/api/v2/dtables/" ++ cfg.BaseUUID ++ "/columns/",
        [("table_name", trimSpace table)] ++
        (if trimSpace n.OptViewName ≠ "" then [("view_name", n.OptViewName)] else [])⟩
      cfg.Token none := by
  unfold SeaTableListColumns.OnMessage
  simp only [hid, hreg, ht, if_neg htn, hurl]
  exact passThrough_delivers env _ _ _ _ _ (listExtra_names "columns" (by decide) (by decide))

theorem listViews_delivers (env : Env) (reg : Registry) (n : SeaTableListViews)
    (id : String) (cfg : SeaTableClient) (table : String)
    (hid : n.InClientID = .ok id) (hreg : getSeaTableClient reg id = some cfg)
    (ht : n.InTableName = .ok table) (htn : trimSpace table ≠ "")
    (hurl : env.urlParseError
      (cfg.Server ++ "/api-gateway/api/v2/dtables/" ++ cfg.BaseUUID ++ "/views/") = none) :
    Delivers env (SeaTableListViews.OnMessage env reg n) "GET"
      ⟨cfg.Server ++ "/api-gateway/api/v2/dtables/" ++ cfg.BaseUUID ++ "/views/",
        [("table_name", trimSpace table)]⟩ cfg.Token none := by
  unfold SeaTableListViews.OnMessage
  simp only [hid, hreg, ht, if_neg htn, hurl]
  exact passThrough_delivers env _ _ _ _ _ (listExtra_names "views" (by decide) (by decide))

/-- Claim C19.  Each of the pass-through nodes (Rows, Link, SQL Query, Search,
Get Row, Get Metadata, List Columns, List Views) passes its response through.
Whenever such a node has sent its request and the request was answered,
without a transport error, with some body and some status code (2xx or not,
valid JSON or not), the node returns no error and sets `statusCode` to that
status code and `body` to that body text, and no other output replaces them.
And each node does send and succeed: for a registered client and valid inputs,
on each of its actions or operations, the node sends exactly the one request
of that action when it can be built, and when that request is answered with a
body and a status code the node returns no error and outputs that status code
and that body. -/
theorem responses_pass_through (env : Env) (h : Host) (reg : Registry) (id : String)
    (cfg : SeaTableClient) (hreg : getSeaTableClient reg id = some cfg) :
    ((∀ n : SeaTableRows, PassesThrough env (SeaTableRows.OnMessage env reg n)) ∧
      (∀ n : SeaTableLink, PassesThrough env (SeaTableLink.OnMessage env h reg n)) ∧
      (∀ n : SeaTableSQLQuery, PassesThrough env (SeaTableSQLQuery.OnMessage env reg n)) ∧
      (∀ n : SeaTableSearch, PassesThrough env (SeaTableSearch.OnMessage env h reg n)) ∧
      (∀ n : SeaTableGetRow, PassesThrough env (SeaTableGetRow.OnMessage env reg n)) ∧
      (∀ n : SeaTableGetMetadata, PassesThrough env (SeaTableGetMetadata.OnMessage env reg n)) ∧
      (∀ n : SeaTableListColumns, PassesThrough env (SeaTableListColumns.OnMessage env reg n)) ∧
      (∀ n : SeaTableListViews, PassesThrough env (SeaTableListViews.OnMessage env reg n))) ∧
    (∀ (n : SeaTableRows) (table : String), n.InClientID = .ok id →
      n.InTableName = .ok table → trimSpace table ≠ "" →
      ((n.OptAction = "" ∨ n.OptAction = "list") → env.urlParseError (rowsUrl cfg) = none →
        Delivers env (SeaTableRows.OnMessage env reg n) "GET"
          ⟨rowsUrl cfg, listQuery n (trimSpace table)⟩ cfg.Token none) ∧
      (n.OptAction = "append" → ∀ rowData, readRowData n = some rowData →
        Delivers env (SeaTableRows.OnMessage env reg n) "POST" ⟨rowsUrl cfg, []⟩ cfg.Token
          (some (.obj [("table_name", .str (trimSpace table)), ("row", rowData)]))) ∧
      (n.OptAction = "update" → ∀ rowID rowData, readRowID n = some rowID →
        readRowData n = some rowData →
        Delivers env (SeaTableRows.OnMessage env reg n) "PUT" ⟨rowsUrl cfg, []⟩ cfg.Token
          (some (.obj [("table_name", .str (trimSpace table)), ("row_id", .str rowID),
            ("row", rowData)]))) ∧
      (n.OptAction = "delete" → ∀ rowID, readRowID n = some rowID →
        Delivers env (SeaTableRows.OnMessage env reg n) "DELETE" ⟨rowsUrl cfg, []⟩ cfg.Token
          (some (.obj [("table_name", .str (trimSpace table)), ("row_id", .str rowID)])))) ∧
    (∀ (n : SeaTableLink) (op linkID table other rowID : String), n.InClientID = .ok id →
      n.InOperation = .ok op → n.InLinkID = .ok linkID → n.InTableName = .ok table →
      n.InOtherTableName = .ok other → n.InRowID = .ok rowID →
      trimSpace linkID ≠ "" → trimSpace table ≠ "" → trimSpace other ≠ "" →
      trimSpace rowID ≠ "" →
      (h.toLower (trimSpace op) = "add" → trimSpace n.OptOtherRowID ≠ "" →
        Delivers env (SeaTableLink.OnMessage env h reg n) "POST" (linksUrl cfg) cfg.Token
          (some (linkRowPayload (trimSpace linkID) (trimSpace table) (trimSpace other)
            (trimSpace rowID) (trimSpace n.OptOtherRowID)))) ∧
      (h.toLower (trimSpace op) = "remove" → trimSpace n.OptOtherRowID ≠ "" →
        Delivers env (SeaTableLink.OnMessage env h reg n) "DELETE" (linksUrl cfg) cfg.Token
          (some (linkRowPayload (trimSpace linkID) (trimSpace table) (trimSpace other)
            (trimSpace rowID) (trimSpace n.OptOtherRowID)))) ∧
      (h.toLower (trimSpace op) = "update" → trimSpace n.OptOtherRowIDs ≠ "" →
        ∀ ids, parseRowIDs h (trimSpace n.OptOtherRowIDs) = .ok ids →
        Delivers env (SeaTableLink.OnMessage env h reg n) "PUT" (linksUrl cfg) cfg.Token
          (some (linkUpdatePayload (trimSpace linkID) (trimSpace table) (trimSpace other)
            (trimSpace rowID) ids)))) ∧
    (∀ (n : SeaTableSQLQuery) (sql : String), n.InClientID = .ok id → n.InSQL = .ok sql →
      trimSpace sql ≠ "" →
      Delivers env (SeaTableSQLQuery.OnMessage env reg n) "POST" (sqlUrl cfg) cfg.Token
        (some (sqlQueryBody sql (sqlParams n) n.OptConvert))) ∧
    (∀ (n : SeaTableSearch) (table columns keyword : String), n.InClientID = .ok id →
      n.InTableName = .ok table → trimSpace table ≠ "" →
      n.InColumns = .ok columns → splitColumns columns ≠ [] →
      n.InKeyword = .ok keyword → trimSpace keyword ≠ "" →
      Delivers env (SeaTableSearch.OnMessage env h reg n) "POST" (sqlUrl cfg) cfg.Token
        (some (searchBody h (trimSpace table) (splitColumns columns) (trimSpace keyword)
          (effectiveMode n) n.OptCaseSensitive (effectiveMaxRows n) n.OptConvert))) ∧
    (∀ (n : SeaTableGetRow) (table rowID : String), n.InClientID = .ok id →
      n.InTableName = .ok table → trimSpace table ≠ "" →
      n.InRowID = .ok rowID → trimSpace rowID ≠ "" →
      env.urlParseError (rowsUrl cfg ++ trimSpace rowID ++ "/") = none →
      Delivers env (SeaTableGetRow.OnMessage env reg n) "GET"
        ⟨rowsUrl cfg ++ trimSpace rowID ++ "/",
          [("table_name", trimSpace table)] ++
          (if trimSpace n.OptViewName ≠ "" then [("view_name", n.OptViewName)] else []) ++
          (if n.OptConvert then [("convert_keys", "true")] else [])⟩ cfg.Token none) ∧
    (∀ n : SeaTableGetMetadata, n.InClientID = .ok id →
      Delivers env (SeaTableGetMetadata.OnMessage env reg n) "GET"
        ⟨cfg.Server ++ "/api-gateway/api/v2/dtables/" ++ cfg.BaseUUID ++ "/metadata/", []⟩
        cfg.Token none) ∧
    (∀ (n : SeaTableListColumns) (table : String), n.InClientID = .ok id →
      n.InTableName = .ok table → trimSpace table ≠ "" →
      env.urlParseError
        (cfg.Server ++ "/api-gateway/api/v2/dtables/" ++ cfg.BaseUUID ++ "/columns/") = none →
      Delivers env (SeaTableListColumns.OnMessage env reg n) "GET"
        ⟨cfg.Server ++ "/api-gateway/api/v2/dtables/" ++ cfg.BaseUUID ++ "/columns/",
          [("table_name", trimSpace table)] ++
          (if trimSpace n.OptViewName ≠ "" then [("view_name", n.OptViewName)] else [])⟩
        cfg.Token none) ∧
    (∀ (n : SeaTableListViews) (table : String), n.InClientID = .ok id →
      n.InTableName = .ok table → trimSpace table ≠ "" →
      env.urlParseError
        (cfg.Server ++ "/api-gateway/api/v2/dtables/" ++ cfg.BaseUUID ++ "/views/") = none →
      Delivers env (SeaTableListViews.OnMessage env reg n) "GET"
        ⟨cfg.Server ++ "/api-gateway/api/v2/dtables/" ++ cfg.BaseUUID ++ "/views/",
          [("table_name", trimSpace table)]⟩ cfg.Token none) :=
  ⟨⟨rows_passes env reg, link_passes env h reg, sqlQuery_passes env reg,
      search_passes env h reg, getRow_passes env reg, getMetadata_passes env reg,
      listColumns_passes env reg, listViews_passes env reg⟩,
    fun n table hid ht htn => rows_delivers env reg n id cfg table hid hreg ht htn,
    fun n op linkID table other rowID hid hop hl ht ho hr hln htn hon hrn =>
      link_delivers env h reg n id cfg op linkID table other rowID hid hreg hop hl ht ho hr
        hln htn hon hrn,
    fun n sql hid hs hsn => sqlQuery_delivers env reg n id cfg sql hid hreg hs hsn,
    fun n table columns keyword hid ht htn hc hcn hk hkn =>
      search_delivers env h reg n id cfg table columns keyword hid hreg ht htn hc hcn hk hkn,
    fun n table rowID hid ht htn hr hrn hurl =>
      getRow_delivers env reg n id cfg table rowID hid hreg ht htn hr hrn hurl,
    fun n hid => getMetadata_delivers env reg n id cfg hid hreg,
    fun n table hid ht htn hurl => listColumns_delivers env reg n id cfg table hid hreg ht htn hurl,
    fun n table hid ht htn hurl => listViews_delivers env reg n id cfg table hid hreg ht htn hurl⟩

/-- C19 on the examples: each of the eight nodes, run on valid inputs against a
server that answers with status 500 and a body that is not JSON, sends its one
request, returns no error and outputs that status code and that body. -/
theorem responses_pass_through_witness :
    (((SeaTableRows.OnMessage (exampleEnv 500) exampleRegistry (rowsNode "list")).trace.map
        (fun r => r.method) = ["GET"]) ∧
      (SeaTableRows.OnMessage (exampleEnv 500) exampleRegistry (rowsNode "list")).err = none ∧
      ∃ rest,
        (SeaTableRows.OnMessage (exampleEnv 500) exampleRegistry (rowsNode "list")).writes =
          ("statusCode", .int 500) :: ("body", .str "right") :: rest ∧
        "statusCode" ∉ outputNames rest ∧ "body" ∉ outputNames rest) ∧
    (((SeaTableLink.OnMessage (exampleEnv 500) exampleHost exampleRegistry
        (linkNode " Add")).trace.map
        (fun r => r.method) = ["POST"]) ∧
      (SeaTableLink.OnMessage (exampleEnv 500) exampleHost exampleRegistry
        (linkNode " Add")).err = none ∧
      ∃ rest,
        (SeaTableLink.OnMessage (exampleEnv 500) exampleHost exampleRegistry
        (linkNode " Add")).writes =
          ("statusCode", .int 500) :: ("body", .str "right") :: rest ∧
        "statusCode" ∉ outputNames rest ∧ "body" ∉ outputNames rest) ∧
    (((SeaTableSQLQuery.OnMessage (exampleEnv 500) exampleRegistry sqlNode).trace.map
        (fun r => r.method) = ["POST"]) ∧
      (SeaTableSQLQuery.OnMessage (exampleEnv 500) exampleRegistry sqlNode).err = none ∧
      ∃ rest,
        (SeaTableSQLQuery.OnMessage (exampleEnv 500) exampleRegistry sqlNode).writes =
          ("statusCode", .int 500) :: ("body", .str "right") :: rest ∧
        "statusCode" ∉ outputNames rest ∧ "body" ∉ outputNames rest) ∧
    (((SeaTableSearch.OnMessage (exampleEnv 500) exampleHost exampleRegistry
        (searchNode "contains" false)).trace.map
        (fun r => r.method) = ["POST"]) ∧
      (SeaTableSearch.OnMessage (exampleEnv 500) exampleHost exampleRegistry
        (searchNode "contains" false)).err = none ∧
      ∃ rest,
        (SeaTableSearch.OnMessage (exampleEnv 500) exampleHost exampleRegistry
        (searchNode "contains" false)).writes =
          ("statusCode", .int 500) :: ("body", .str "right") :: rest ∧
        "statusCode" ∉ outputNames rest ∧ "body" ∉ outputNames rest) ∧
    (((SeaTableGetRow.OnMessage (exampleEnv 500) exampleRegistry getRowNode).trace.map
        (fun r => r.method) = ["GET"]) ∧
      (SeaTableGetRow.OnMessage (exampleEnv 500) exampleRegistry getRowNode).err = none ∧
      ∃ rest,
        (SeaTableGetRow.OnMessage (exampleEnv 500) exampleRegistry getRowNode).writes =
          ("statusCode", .int 500) :: ("body", .str "right") :: rest ∧
        "statusCode" ∉ outputNames rest ∧ "body" ∉ outputNames rest) ∧
    (((SeaTableGetMetadata.OnMessage (exampleEnv 500) exampleRegistry metadataNode).trace.map
        (fun r => r.method) = ["GET"]) ∧
      (SeaTableGetMetadata.OnMessage (exampleEnv 500) exampleRegistry metadataNode).err = none ∧
      ∃ rest,
        (SeaTableGetMetadata.OnMessage (exampleEnv 500) exampleRegistry metadataNode).writes =
          ("statusCode", .int 500) :: ("body", .str "right") :: rest ∧
        "statusCode" ∉ outputNames rest ∧ "body" ∉ outputNames rest) ∧
    (((SeaTableListColumns.OnMessage (exampleEnv 500) exampleRegistry listColumnsNode).trace.map
        (fun r => r.method) = ["GET"]) ∧
      (SeaTableListColumns.OnMessage (exampleEnv 500) exampleRegistry listColumnsNode).err = none ∧
      ∃ rest,
        (SeaTableListColumns.OnMessage (exampleEnv 500) exampleRegistry listColumnsNode).writes =
          ("statusCode", .int 500) :: ("body", .str "right") :: rest ∧
        "statusCode" ∉ outputNames rest ∧ "body" ∉ outputNames rest) ∧
    (((SeaTableListViews.OnMessage (exampleEnv 500) exampleRegistry listViewsNode).trace.map
        (fun r => r.method) = ["GET"]) ∧
      (SeaTableListViews.OnMessage (exampleEnv 500) exampleRegistry listViewsNode).err = none ∧
      ∃ rest,
        (SeaTableListViews.OnMessage (exampleEnv 500) exampleRegistry listViewsNode).writes =
          ("statusCode", .int 500) :: ("body", .str "right") :: rest ∧
        "statusCode" ∉ outputNames rest ∧ "body" ∉ outputNames rest) :=
  ⟨⟨rfl, (((responses_pass_through (exampleEnv 500) exampleHost exampleRegistry "st-ab12-42"
      exampleCfg (by decide)).2.1 (rowsNode "list") "Orders" rfl rfl (by decide)).1 (Or.inr rfl) rfl
      ⟨rfl, rfl⟩).2 "right" 500 rfl⟩,
    ⟨rfl, (((responses_pass_through (exampleEnv 500) exampleHost exampleRegistry "st-ab12-42"
      exampleCfg (by decide)).2.2.1 (linkNode " Add") " Add" " Lk01" "Orders" "Customers" "l0 " rfl rfl rfl
        rfl rfl rfl
        (by decide) (by decide) (by decide) (by decide)).1 (by decide) (by decide)
      ⟨rfl, rfl⟩).2 "right" 500 rfl⟩,
    ⟨rfl, (((responses_pass_through (exampleEnv 500) exampleHost exampleRegistry "st-ab12-42"
      exampleCfg (by decide)).2.2.2.1 sqlNode "SELECT 1" rfl rfl (by decide))
      ⟨rfl, rfl⟩).2 "right" 500 rfl⟩,
    ⟨rfl, (((responses_pass_through (exampleEnv 500) exampleHost exampleRegistry "st-ab12-42"
      exampleCfg (by decide)).2.2.2.2.1 (searchNode "contains" false) "People" "Name" "foo" rfl rfl
        (by decide) rfl
        (by decide) rfl (by decide))
      ⟨rfl, rfl⟩).2 "right" 500 rfl⟩,
    ⟨rfl, (((responses_pass_through (exampleEnv 500) exampleHost exampleRegistry "st-ab12-42"
      exampleCfg (by decide)).2.2.2.2.2.1 getRowNode "Orders" "l0" rfl rfl (by decide) rfl
        (by decide) rfl)
      ⟨rfl, rfl⟩).2 "right" 500 rfl⟩,
    ⟨rfl, (((responses_pass_through (exampleEnv 500) exampleHost exampleRegistry "st-ab12-42"
      exampleCfg (by decide)).2.2.2.2.2.2.1 metadataNode rfl)
      ⟨rfl, rfl⟩).2 "right" 500 rfl⟩,
    ⟨rfl, (((responses_pass_through (exampleEnv 500) exampleHost exampleRegistry "st-ab12-42"
      exampleCfg (by decide)).2.2.2.2.2.2.2.1 listColumnsNode "Orders" rfl rfl (by decide) rfl)
      ⟨rfl, rfl⟩).2 "right" 500 rfl⟩,
    ⟨rfl, (((responses_pass_through (exampleEnv 500) exampleHost exampleRegistry "st-ab12-42"
      exampleCfg (by decide)).2.2.2.2.2.2.2.2 listViewsNode "Orders" rfl rfl (by decide) rfl)
      ⟨rfl, rfl⟩).2 "right" 500 rfl⟩⟩


/-! ### The outputs each node sets -/

theorem failed_sets (env : Env) (e : Error) : SetsResponse env (failed e) := by
  intro herr
  simp [failed] at herr

theorem passThrough_sets (env : Env) (method : String) (url : Url) (token : String)
    (body : Option Value) (extra : Value → List (String × Value))
    (hx : ∀ v, "json" ∉ outputNames (extra v)) :
    SetsResponse env (passThrough env method url token body extra) := by
  intro herr
  have hnone : (doSeaTableRequest env 0 method url token body).1.err = none := by
    unfold passThrough at herr
    cases hcase : (doSeaTableRequest env 0 method url token body).1.err with
    | none => rfl
    | some e => simp [hcase] at herr
  have hsent := doSeaTableRequest_sent env 0 method url token body hnone
  have hrep := doSeaTableRequest_reply env 0 method url token body hnone
  refine ⟨⟨method, url, requestHeaders token body, body⟩,
    (doSeaTableRequest env 0 method url token body).1.body,
    (doSeaTableRequest env 0 method url token body).1.status,
    (match env.jsonUnmarshal (doSeaTableRequest env 0 method url token body).1.body with
      | .ok parsed => [("json", parsed)]
      | .error _ => []) ++
      extra (parsedOrNil
        (env.jsonUnmarshal (doSeaTableRequest env 0 method url token body).1.body)),
    ?_, hrep, ?_, ?_⟩
  · unfold passThrough
    simp only [hnone, hsent]
    rfl
  · unfold passThrough
    simp only [hnone]
    rfl
  · cases hj : env.jsonUnmarshal (doSeaTableRequest env 0 method url token body).1.body with
    | error e =>
      simp only [List.nil_append]
      exact hx _
    | ok parsed =>
      exact ⟨_, rfl, hx _⟩


theorem noExtra_json (v : Value) : "json" ∉ outputNames (noExtra v) := by
  simp [noExtra, outputNames]

theorem searchExtra_json (v : Value) : "json" ∉ outputNames (searchExtra v) := by
  simp [searchExtra, outputNames]

theorem getRowExtra_json (v : Value) : "json" ∉ outputNames (getRowExtra v) := by
  unfold getRowExtra
  split
  · split <;> simp [outputNames]
  · simp [outputNames]

theorem metadataExtra_json (v : Value) : "json" ∉ outputNames (metadataExtra v) := by
  unfold metadataExtra
  split <;> simp [outputNames]

theorem listExtra_json (key : String) (h1 : key ≠ "json") (v : Value) :
    "json" ∉ outputNames (listExtra key v) := by
  simp [listExtra, outputNames, Ne.symm h1]

theorem rows_sets (env : Env) (reg : Registry) (n : SeaTableRows) :
    SetsResponse env (SeaTableRows.OnMessage env reg n) := by
  unfold SeaTableRows.OnMessage
  repeat' first
    | exact failed_sets env _
    | exact passThrough_sets env _ _ _ _ _ noExtra_json
    | split
    | dsimp only
    | unfold rowsSwitch

theorem search_sets (env : Env) (h : Host) (reg : Registry) (n : SeaTableSearch) :
    SetsResponse env (SeaTableSearch.OnMessage env h reg n) := by
  unfold SeaTableSearch.OnMessage
  repeat' first
    | exact failed_sets env _
    | exact passThrough_sets env _ _ _ _ _ searchExtra_json
    | split
    | dsimp only

theorem link_sets (env : Env) (h : Host) (reg : Registry) (n : SeaTableLink) :
    SetsResponse env (SeaTableLink.OnMessage env h reg n) := by
  unfold SeaTableLink.OnMessage
  repeat' first
    | exact failed_sets env _
    | exact passThrough_sets env _ _ _ _ _ noExtra_json
    | split
    | dsimp only
    | unfold linkSwitch

theorem sqlQuery_sets (env : Env) (reg : Registry) (n : SeaTableSQLQuery) :
    SetsResponse env (SeaTableSQLQuery.OnMessage env reg n) := by
  unfold SeaTableSQLQuery.OnMessage
  repeat' first
    | exact failed_sets env _
    | exact passThrough_sets env _ _ _ _ _ noExtra_json
    | split

theorem getRow_sets (env : Env) (reg : Registry) (n : SeaTableGetRow) :
    SetsResponse env (SeaTableGetRow.OnMessage env reg n) := by
  unfold SeaTableGetRow.OnMessage
  repeat' first
    | exact failed_sets env _
    | exact passThrough_sets env _ _ _ _ _ getRowExtra_json
    | split
    | dsimp only

theorem getMetadata_sets (env : Env) (reg : Registry) (n : SeaTableGetMetadata) :
    SetsResponse env (SeaTableGetMetadata.OnMessage env reg n) := by
  unfold SeaTableGetMetadata.OnMessage
  repeat' first
    | exact failed_sets env _
    | exact passThrough_sets env _ _ _ _ _ metadataExtra_json
    | split

theorem listColumns_sets (env : Env) (reg : Registry) (n : SeaTableListColumns) :
    SetsResponse env (SeaTableListColumns.OnMessage env reg n) := by
  unfold SeaTableListColumns.OnMessage
  repeat' first
    | exact failed_sets env _
    | exact passThrough_sets env _ _ _ _ _ (listExtra_json "columns" (by decide))
    | split
    | dsimp only

theorem listViews_sets (env : Env) (reg : Registry) (n : SeaTableListViews) :
    SetsResponse env (SeaTableListViews.OnMessage env reg n) := by
  unfold SeaTableListViews.OnMessage
  repeat' first
    | exact failed_sets env _
    | exact passThrough_sets env _ _ _ _ _ (listExtra_json "views" (by decide))
    | split
    | dsimp only

theorem upload_outputs (env : Env) (h : Host) (reg : Registry)
    (n : SeaTableUploadAttachment) :
    (SeaTableUploadAttachment.OnMessage env h reg n).err ≠ none ∨
    outputNames (SeaTableUploadAttachment.OnMessage env h reg n).writes =
      ["attachment", "relativePath"] := by
  unfold SeaTableUploadAttachment.OnMessage
  repeat' first
    | split
    | dsimp only
    | exact Or.inr rfl
    | exact Or.inl (fun hn => Option.noConfusion hn)

theorem download_outputs (env : Env) (h : Host) (reg : Registry) (n : SeaTableDownloadFile) :
    (SeaTableDownloadFile.OnMessage env h reg n).err ≠ none ∨
    ∃ (url path : String) (size : Int),
      (SeaTableDownloadFile.OnMessage env h reg n).writes =
        [("downloadUrl", .str url), ("savedPath", .str path), ("fileSize", .int size),
          ("statusCode", .int 200)] := by
  unfold SeaTableDownloadFile.OnMessage
  repeat' first
    | split
    | dsimp only
    | exact Or.inr ⟨_, _, _, rfl⟩
    | exact Or.inl (fun hn => Option.noConfusion hn)

/-- Counterexample to C20.  A successful Auto Link sets none of `statusCode`,
`body` and `json`; a successful Rows Get Many sets no `body`; a successful
Upload Attachment sets only `attachment` and
`relativePath`; a successful Download File, whose HTTP call was answered with
status 204, sets no `body` and no `json` and reports the status code 200; and
a successful Rows whose response body is not JSON sets no `json`. -/
theorem outputs_counterexample :
    (∃ o, (SeaTableAutoLink.OnMessage (exampleEnv 200) exampleRegistry (exampleNode false)).1 =
        .ok o ∧
      "statusCode" ∉ outputNames o.writes ∧ "body" ∉ outputNames o.writes ∧
      "json" ∉ outputNames o.writes) ∧
    (∃ o, (SeaTableRowsGetMany.OnMessage noRowsEnv exampleRegistry cappedNode).1 =
        some (.ok o) ∧
      "body" ∉ outputNames o.writes) ∧
    ((SeaTableUploadAttachment.OnMessage transferEnv transferHost exampleRegistry
        uploadNode).err = none ∧
      (SeaTableUploadAttachment.OnMessage transferEnv transferHost exampleRegistry
        uploadNode).writes =
        [("attachment", .obj [("name", .str "report.pdf")]),
          ("relativePath", .str "files/report.pdf")]) ∧
    ((SeaTableDownloadFile.OnMessage transferEnv transferHost exampleRegistry
        (downloadNode "")).err = none ∧
      (SeaTableDownloadFile.OnMessage transferEnv transferHost exampleRegistry
        (downloadNode "")).writes =
        [("downloadUrl", .str "https://files.example/report.pdf"), ("savedPath", .str ""),
          ("fileSize", .int 0), ("statusCode", .int 200)] ∧
      (SeaTableDownloadFile.OnMessage transferEnv transferHost exampleRegistry
        (downloadNode "")).trace.map (fun r => transferEnv.roundTrip 0 r) =
        [.reply "link" 204]) ∧
    ((SeaTableRows.OnMessage (exampleEnv 200) exampleRegistry (rowsNode "list")).err = none ∧
      (SeaTableRows.OnMessage (exampleEnv 200) exampleRegistry (rowsNode "list")).writes =
        [("statusCode", .int 200), ("body", .str "right")]) :=
  ⟨⟨_, rfl, by decide, by decide, by decide⟩, ⟨_, rfl, by decide⟩, ⟨rfl, rfl⟩, ⟨rfl, rfl, rfl⟩,
    ⟨rfl, rfl⟩⟩

/-- Claim C20, amended.  The outputs depend on the node.  Each pass-through
node (Rows, Link, SQL Query, Search, Get Row, Get Metadata, List Columns, List
Views) sets, on every successful run, `statusCode` and `body` to the status
code and the body text of its HTTP call, and `json` to the decoded body when
the body is valid JSON and not at all otherwise.  A successful Rows Get Many
sets `statusCode`, `rows` and `json` and no `body`.  A successful Auto Link
sets only its four counters and `mode`.  A successful Upload Attachment sets
only `attachment` and `relativePath`.  A successful Download File sets
`downloadUrl`, `savedPath`, `fileSize` and a `statusCode` that is always
200. -/
theorem outputs_by_node (env : Env) (h : Host) (reg : Registry) :
    ((∀ n : SeaTableRows, SetsResponse env (SeaTableRows.OnMessage env reg n)) ∧
      (∀ n : SeaTableLink, SetsResponse env (SeaTableLink.OnMessage env h reg n)) ∧
      (∀ n : SeaTableSQLQuery, SetsResponse env (SeaTableSQLQuery.OnMessage env reg n)) ∧
      (∀ n : SeaTableSearch, SetsResponse env (SeaTableSearch.OnMessage env h reg n)) ∧
      (∀ n : SeaTableGetRow, SetsResponse env (SeaTableGetRow.OnMessage env reg n)) ∧
      (∀ n : SeaTableGetMetadata, SetsResponse env (SeaTableGetMetadata.OnMessage env reg n)) ∧
      (∀ n : SeaTableListColumns, SetsResponse env (SeaTableListColumns.OnMessage env reg n)) ∧
      (∀ n : SeaTableListViews, SetsResponse env (SeaTableListViews.OnMessage env reg n))) ∧
    (∀ (n : SeaTableRowsGetMany) (o : RowsGetManyOutputs),
      (SeaTableRowsGetMany.OnMessage env reg n).1 = some (.ok o) →
        outputNames o.writes = ["statusCode", "rows", "json"]) ∧
    (∀ (n : SeaTableAutoLink) (o : AutoLinkOutputs),
      (SeaTableAutoLink.OnMessage env reg n).1 = .ok o →
        outputNames o.writes =
          ["processedLeftRows", "matchedLeftRows", "skippedRows", "createdLinks", "mode"]) ∧
    (∀ n : SeaTableUploadAttachment,
      (SeaTableUploadAttachment.OnMessage env h reg n).err = none →
        outputNames (SeaTableUploadAttachment.OnMessage env h reg n).writes =
          ["attachment", "relativePath"]) ∧
    (∀ n : SeaTableDownloadFile,
      (SeaTableDownloadFile.OnMessage env h reg n).err = none →
        ∃ (url path : String) (size : Int),
          (SeaTableDownloadFile.OnMessage env h reg n).writes =
            [("downloadUrl", .str url), ("savedPath", .str path), ("fileSize", .int size),
              ("statusCode", .int 200)]) := by
  refine ⟨⟨rows_sets env reg, link_sets env h reg, sqlQuery_sets env reg, search_sets env h reg,
    getRow_sets env reg, getMetadata_sets env reg, listColumns_sets env reg,
    listViews_sets env reg⟩, ?_, ?_, ?_, ?_⟩
  · intro n o _
    rfl
  · intro n o _
    rfl
  · intro n herr
    rcases upload_outputs env h reg n with hne | hnames
    · exact absurd herr hne
    · exact hnames
  · intro n herr
    rcases download_outputs env h reg n with hne | hw
    · exact absurd herr hne
    · exact hw

/-- The amended C20 on the examples: the Rows node answered with status 200 and
a body that is not JSON, and the Download File node answered with status
204. -/
theorem outputs_by_node_witness :
    (∃ (req : HttpRequest) (body : String) (status : Int) (rest : List (String × Value)),
      (SeaTableRows.OnMessage (exampleEnv 200) exampleRegistry (rowsNode "list")).trace =
        [req] ∧
      (exampleEnv 200).roundTrip 0 req = .reply body status ∧
      (SeaTableRows.OnMessage (exampleEnv 200) exampleRegistry (rowsNode "list")).writes =
        ("statusCode", .int status) :: ("body", .str body) :: rest ∧
      match (exampleEnv 200).jsonUnmarshal body with
      | .ok parsed => ∃ rest2, rest = ("json", parsed) :: rest2 ∧ "json" ∉ outputNames rest2
      | .error _ => "json" ∉ outputNames rest) ∧
    (∃ (url path : String) (size : Int),
      (SeaTableDownloadFile.OnMessage transferEnv transferHost exampleRegistry
        (downloadNode "")).writes =
        [("downloadUrl", .str url), ("savedPath", .str path), ("fileSize", .int size),
          ("statusCode", .int 200)]) :=
  ⟨(outputs_by_node (exampleEnv 200) exampleHost exampleRegistry).1.1 (rowsNode "list") rfl,
    (outputs_by_node transferEnv transferHost exampleRegistry).2.2.2.2 (downloadNode "") rfl⟩


/-! ## Properties of the upload and download helpers -/

theorem doSeaTableRequest_answered (env : Env) (k : Nat) (method : String) (url : Url)
    (token : String) (body : Option Value) (b : String) (status : Int)
    (hc : CanSend env method url body)
    (hr : env.roundTrip k (requestOf method url token body) = .reply b status) :
    doSeaTableRequest env k method url token body =
      (⟨b, status, none⟩, some (requestOf method url token body)) := by
  unfold requestOf at hr
  unfold doSeaTableRequest requestOf
  simp only [hc.1, hc.2, hr]

theorem getUploadLink_status (env : Env) (h : Host) (cfg : SeaTableClient) (body : String)
    (status : Int) (hs : status ≥ 300)
    (hc : CanSend env "GET" ⟨cfg.Server ++ "/api/v2.1/dtable/app-upload-link/", []⟩ none)
    (hr : env.roundTrip 0 (requestOf "GET"
      ⟨cfg.Server ++ "/api/v2.1/dtable/app-upload-link/", []⟩ cfg.Token none) =
        .reply body status) :
    getUploadLink env h cfg =
      (.error (.errorf ("get upload link failed: status=" ++ toString status ++ " body=" ++
        body)),
        [requestOf "GET" ⟨cfg.Server ++ "/api/v2.1/dtable/app-upload-link/", []⟩ cfg.Token
          none]) := by
  unfold getUploadLink
  simp only [doSeaTableRequest_answered env 0 _ _ _ _ body status hc hr, if_pos hs]
  rfl

theorem getDownloadLink_status (env : Env) (cfg : SeaTableClient) (filePath body : String)
    (status : Int) (hs : status ≥ 300)
    (hc : CanSend env "GET"
      ⟨cfg.Server ++ "/api/v2.1/dtable/app-download-link/?path=" ++ filePath, []⟩ none)
    (hr : env.roundTrip 0 (requestOf "GET"
      ⟨cfg.Server ++ "/api/v2.1/dtable/app-download-link/?path=" ++ filePath, []⟩ cfg.Token
        none) = .reply body status) :
    getDownloadLink env cfg filePath =
      (.error (.errorf ("get download link failed: status=" ++ toString status ++ " body=" ++
        body)),
        [requestOf "GET"
          ⟨cfg.Server ++ "/api/v2.1/dtable/app-download-link/?path=" ++ filePath, []⟩ cfg.Token
          none]) := by
  unfold getDownloadLink
  simp only [doSeaTableRequest_answered env 0 _ _ _ _ body status hc hr, if_pos hs]
  rfl

theorem uploadFileWithLink_status (env : Env) (h : Host) (k : Nat) (cfg : SeaTableClient)
    (link : UploadLinkResponse) (filePath fileName kind contentType body : String)
    (status : Int) (hs : status ≥ 300)
    (hopen : h.openError filePath = none)
    (hform : h.writeForm filePath (if fileName = "" then h.filepathBase filePath else fileName)
      link.ParentPath = .ok contentType)
    (hnew : env.newRequestError "POST"
      ⟨cfg.Server ++ "/seafhttp/upload-api/" ++ link.UploadLink ++ "?ret-json=1", []⟩ = none)
    (hr : env.roundTrip k ⟨"POST",
      ⟨cfg.Server ++ "/seafhttp/upload-api/" ++ link.UploadLink ++ "?ret-json=1", []⟩,
      [("Content-Type", contentType)],
      some (.obj [("file", .str (if fileName = "" then h.filepathBase filePath else fileName)),
        ("parent_dir", .str link.ParentPath)])⟩ = .reply body status) :
    uploadFileWithLink env h k cfg link filePath fileName kind =
      (.error (.errorf ("upload failed: status=" ++ toString status ++ " body=" ++ body)),
        [⟨"POST",
          ⟨cfg.Server ++ "/seafhttp/upload-api/" ++ link.UploadLink ++ "?ret-json=1", []⟩,
          [("Content-Type", contentType)],
          some (.obj [("file",
              .str (if fileName = "" then h.filepathBase filePath else fileName)),
            ("parent_dir", .str link.ParentPath)])⟩]) := by
  unfold uploadFileWithLink
  simp only [hopen, hform, hnew, hr, if_pos hs]

theorem downloadAndSaveFile_status (env : Env) (h : Host) (k : Nat)
    (downloadURL savePath body : String) (status : Int) (hs : status ≥ 300)
    (hdir : (if h.filepathDir savePath ≠ "" ∧ h.filepathDir savePath ≠ "." then
      h.mkdirAllError (h.filepathDir savePath) else none) = none)
    (hnew : env.newRequestError "GET" ⟨downloadURL, []⟩ = none)
    (hr : env.roundTrip k ⟨"GET", ⟨downloadURL, []⟩, [], none⟩ = .reply body status) :
    downloadAndSaveFile env h k downloadURL savePath =
      (.error (.errorf ("download failed with status: " ++ toString status)),
        [⟨"GET", ⟨downloadURL, []⟩, [], none⟩]) := by
  unfold downloadAndSaveFile
  simp only [hdir, hnew, hr, if_pos hs]


theorem upload_stops (env : Env) (h : Host) (reg : Registry) (n : SeaTableUploadAttachment)
    (id : String) (cfg : SeaTableClient) (filePath : String)
    (hid : n.InClientID = .ok id) (hreg : getSeaTableClient reg id = some cfg)
    (hf : n.InFilePath = .ok filePath) (hfn : trimSpace filePath ≠ "") :
    (∀ e, (getUploadLink env h cfg).1 = .error e →
      SeaTableUploadAttachment.OnMessage env h reg n =
        ⟨some e, [], (getUploadLink env h cfg).2⟩) ∧
    (∀ link e, (getUploadLink env h cfg).1 = .ok link →
      (uploadFileWithLink env h (getUploadLink env h cfg).2.length cfg link filePath
        n.OptFileName (if n.OptKind = "" then "file" else n.OptKind)).1 = .error e →
      SeaTableUploadAttachment.OnMessage env h reg n =
        ⟨some e, [], (getUploadLink env h cfg).2 ++
          (uploadFileWithLink env h (getUploadLink env h cfg).2.length cfg link filePath
            n.OptFileName (if n.OptKind = "" then "file" else n.OptKind)).2⟩) := by
  refine ⟨?_, ?_⟩
  · intro e he
    unfold SeaTableUploadAttachment.OnMessage
    simp only [hid, hreg, hf, if_neg hfn, he]
  · intro link e hl hu
    unfold SeaTableUploadAttachment.OnMessage
    simp only [hid, hreg, hf, if_neg hfn, hl, hu]

theorem download_stops (env : Env) (h : Host) (reg : Registry) (n : SeaTableDownloadFile)
    (id : String) (cfg : SeaTableClient) (filePath : String)
    (hid : n.InClientID = .ok id) (hreg : getSeaTableClient reg id = some cfg)
    (hf : n.InFilePath = .ok filePath) (hfn : trimSpace filePath ≠ "") :
    (∀ e, (getDownloadLink env cfg (trimSpace filePath)).1 = .error e →
      SeaTableDownloadFile.OnMessage env h reg n =
        ⟨some e, [], (getDownloadLink env cfg (trimSpace filePath)).2⟩) ∧
    (∀ url e, (getDownloadLink env cfg (trimSpace filePath)).1 = .ok url →
      trimSpace n.OptSavePath ≠ "" →
      (downloadAndSaveFile env h (getDownloadLink env cfg (trimSpace filePath)).2.length url
        (trimSpace n.OptSavePath)).1 = .error e →
      SeaTableDownloadFile.OnMessage env h reg n =
        ⟨some e, [("downloadUrl", .str url)],
          (getDownloadLink env cfg (trimSpace filePath)).2 ++
            (downloadAndSaveFile env h (getDownloadLink env cfg (trimSpace filePath)).2.length
              url (trimSpace n.OptSavePath)).2⟩) := by
  refine ⟨?_, ?_⟩
  · intro e he
    unfold SeaTableDownloadFile.OnMessage
    simp only [hid, hreg, hf, if_neg hfn, he]
  · intro url e hl hs hd
    unfold SeaTableDownloadFile.OnMessage
    simp only [hid, hreg, hf, if_neg hfn, hl, hd]
    rw [if_pos hs]


/-- Counterexample to C21.  The transfer of a download is answered with status
500 and the body `oops`, and the error returned carries the status code but
not the body; and a download link call answered with status 101, which is not
a 2xx status, is not converted into an error: the node succeeds. -/
theorem remote_errors_counterexample :
    ((SeaTableDownloadFile.OnMessage failingDownloadEnv exampleHost exampleRegistry
        (downloadNode "out.pdf")).err = some (.errorf "download failed with status: 500") ∧
      (SeaTableDownloadFile.OnMessage failingDownloadEnv exampleHost exampleRegistry
        (downloadNode "out.pdf")).trace.length = 2 ∧
      ∀ req, failingDownloadEnv.roundTrip 1 req = .reply "oops" 500) ∧
    ((SeaTableDownloadFile.OnMessage switchingEnv exampleHost exampleRegistry
        (downloadNode "")).err = none ∧
      ∀ k req, switchingEnv.roundTrip k req = .reply "link" 101) :=
  ⟨⟨rfl, rfl, fun _ => rfl⟩, rfl, fun _ _ => rfl⟩

/-- Claim C21, amended.  A response with a status code of 300 or more to one of
the four helper calls is converted into an error: `getUploadLink`,
`getDownloadLink` and the upload transfer return an error that carries the
status code and the response body, the download transfer an error that carries
the status code only.  Nothing is sent after the failed call, and the node
returns that error: Upload Attachment sets no output, and Download File sets
no output when the link call failed and only `downloadUrl` when the transfer
failed. -/
theorem remote_errors (env : Env) (h : Host) (cfg : SeaTableClient) (k : Nat) (body : String)
    (status : Int) (hs : status ≥ 300) :
    (CanSend env "GET" ⟨cfg.Server ++ "/api/v2.1/dtable/app-upload-link/", []⟩ none →
      env.roundTrip 0 (requestOf "GET"
        ⟨cfg.Server ++ "/api/v2.1/dtable/app-upload-link/", []⟩ cfg.Token none) =
          .reply body status →
      getUploadLink env h cfg =
        (.error (.errorf ("get upload link failed: status=" ++ toString status ++ " body=" ++
          body)),
          [requestOf "GET" ⟨cfg.Server ++ "/api/v2.1/dtable/app-upload-link/", []⟩ cfg.Token
            none])) ∧
    (∀ filePath : String,
      CanSend env "GET"
        ⟨cfg.Server ++ "/api/v2.1/dtable/app-download-link/?path=" ++ filePath, []⟩ none →
      env.roundTrip 0 (requestOf "GET"
        ⟨cfg.Server ++ "/api/v2.1/dtable/app-download-link/?path=" ++ filePath, []⟩ cfg.Token
          none) = .reply body status →
      getDownloadLink env cfg filePath =
        (.error (.errorf ("get download link failed: status=" ++ toString status ++
          " body=" ++ body)),
          [requestOf "GET"
            ⟨cfg.Server ++ "/api/v2.1/dtable/app-download-link/?path=" ++ filePath, []⟩
            cfg.Token none])) ∧
    (∀ (link : UploadLinkResponse) (filePath fileName kind contentType : String),
      h.openError filePath = none →
      h.writeForm filePath (if fileName = "" then h.filepathBase filePath else fileName)
        link.ParentPath = .ok contentType →
      env.newRequestError "POST"
        ⟨cfg.Server ++ "/seafhttp/upload-api/" ++ link.UploadLink ++ "?ret-json=1", []⟩ = none →
      env.roundTrip k ⟨"POST",
        ⟨cfg.Server ++ "/seafhttp/upload-api/" ++ link.UploadLink ++ "?ret-json=1", []⟩,
        [("Content-Type", contentType)],
        some (.obj [("file",
            .str (if fileName = "" then h.filepathBase filePath else fileName)),
          ("parent_dir", .str link.ParentPath)])⟩ = .reply body status →
      uploadFileWithLink env h k cfg link filePath fileName kind =
        (.error (.errorf ("upload failed: status=" ++ toString status ++ " body=" ++ body)),
          [⟨"POST",
            ⟨cfg.Server ++ "/seafhttp/upload-api/" ++ link.UploadLink ++ "?ret-json=1", []⟩,
            [("Content-Type", contentType)],
            some (.obj [("file",
                .str (if fileName = "" then h.filepathBase filePath else fileName)),
              ("parent_dir", .str link.ParentPath)])⟩])) ∧
    (∀ downloadURL savePath : String,
      (if h.filepathDir savePath ≠ "" ∧ h.filepathDir savePath ≠ "." then
        h.mkdirAllError (h.filepathDir savePath) else none) = none →
      env.newRequestError "GET" ⟨downloadURL, []⟩ = none →
      env.roundTrip k ⟨"GET", ⟨downloadURL, []⟩, [], none⟩ = .reply body status →
      downloadAndSaveFile env h k downloadURL savePath =
        (.error (.errorf ("download failed with status: " ++ toString status)),
          [⟨"GET", ⟨downloadURL, []⟩, [], none⟩])) ∧
    (∀ (reg : Registry) (n : SeaTableUploadAttachment) (id filePath : String),
      n.InClientID = .ok id → getSeaTableClient reg id = some cfg →
      n.InFilePath = .ok filePath → trimSpace filePath ≠ "" →
      (∀ e, (getUploadLink env h cfg).1 = .error e →
        SeaTableUploadAttachment.OnMessage env h reg n =
          ⟨some e, [], (getUploadLink env h cfg).2⟩) ∧
      (∀ link e, (getUploadLink env h cfg).1 = .ok link →
        (uploadFileWithLink env h (getUploadLink env h cfg).2.length cfg link filePath
          n.OptFileName (if n.OptKind = "" then "file" else n.OptKind)).1 = .error e →
        SeaTableUploadAttachment.OnMessage env h reg n =
          ⟨some e, [], (getUploadLink env h cfg).2 ++
            (uploadFileWithLink env h (getUploadLink env h cfg).2.length cfg link filePath
              n.OptFileName (if n.OptKind = "" then "file" else n.OptKind)).2⟩)) ∧
    (∀ (reg : Registry) (n : SeaTableDownloadFile) (id filePath : String),
      n.InClientID = .ok id → getSeaTableClient reg id = some cfg →
      n.InFilePath = .ok filePath → trimSpace filePath ≠ "" →
      (∀ e, (getDownloadLink env cfg (trimSpace filePath)).1 = .error e →
        SeaTableDownloadFile.OnMessage env h reg n =
          ⟨some e, [], (getDownloadLink env cfg (trimSpace filePath)).2⟩) ∧
      (∀ url e, (getDownloadLink env cfg (trimSpace filePath)).1 = .ok url →
        trimSpace n.OptSavePath ≠ "" →
        (downloadAndSaveFile env h (getDownloadLink env cfg (trimSpace filePath)).2.length url
          (trimSpace n.OptSavePath)).1 = .error e →
        SeaTableDownloadFile.OnMessage env h reg n =
          ⟨some e, [("downloadUrl", .str url)],
            (getDownloadLink env cfg (trimSpace filePath)).2 ++
              (downloadAndSaveFile env h
                (getDownloadLink env cfg (trimSpace filePath)).2.length url
                (trimSpace n.OptSavePath)).2⟩)) :=
  ⟨getUploadLink_status env h cfg body status hs,
    fun filePath => getDownloadLink_status env cfg filePath body status hs,
    fun link filePath fileName kind contentType =>
      uploadFileWithLink_status env h k cfg link filePath fileName kind contentType body status
        hs,
    fun downloadURL savePath =>
      downloadAndSaveFile_status env h k downloadURL savePath body status hs,
    fun reg n id filePath hid hreg hf hfn => upload_stops env h reg n id cfg filePath hid hreg hf hfn,
    fun reg n id filePath hid hreg hf hfn =>
      download_stops env h reg n id cfg filePath hid hreg hf hfn⟩

/-- The amended C21 on the examples: an upload link call answered with status
404 and the body `right`, and a download transfer answered with status 500. -/
theorem remote_errors_witness :
    getUploadLink (exampleEnv 404) exampleHost exampleCfg =
      (.error (.errorf ("get upload link failed: status=" ++ toString (404 : Int) ++ " body=" ++
        "right")),
        [requestOf "GET" ⟨exampleCfg.Server ++ "/api/v2.1/dtable/app-upload-link/", []⟩
          exampleCfg.Token none]) ∧
    downloadAndSaveFile failingDownloadEnv exampleHost 1 "https://files.example/report.pdf"
        "out.pdf" =
      (.error (.errorf ("download failed with status: " ++ toString (500 : Int))),
        [⟨"GET", ⟨"https://files.example/report.pdf", []⟩, [], none⟩]) :=
  ⟨(remote_errors (exampleEnv 404) exampleHost exampleCfg 0 "right" 404 (by decide)).1
      ⟨rfl, rfl⟩ rfl,
    (remote_errors failingDownloadEnv exampleHost exampleCfg 1 "oops" 500
      (by decide)).2.2.2.1 "https://files.example/report.pdf" "out.pdf" rfl rfl rfl⟩


/-! ## Properties of Connect -/

theorem trimRight_spec (p : Char → Bool) (l : List Char) :
    (∃ suffix, l = (l.reverse.dropWhile p).reverse ++ suffix ∧ ∀ c ∈ suffix, p c = true) ∧
    ∀ c, (l.reverse.dropWhile p).reverse.getLast? = some c → p c = false := by
  refine ⟨⟨(l.reverse.takeWhile p).reverse, ?_, ?_⟩, ?_⟩
  · rw [← List.reverse_append, List.takeWhile_append_dropWhile, List.reverse_reverse]
  · intro c hc
    exact List.mem_takeWhile_imp (List.mem_reverse.mp hc)
  · intro c hc
    rw [List.getLast?_reverse] at hc
    have := List.head?_dropWhile_not p l.reverse
    rw [hc] at this
    simpa using this


theorem trimTrailingSlash_spec (s : String) :
    (∃ k, (trimSpace s).toList = (trimTrailingSlash s).toList ++ List.replicate k '/') ∧
    (trimTrailingSlash s).toList.getLast? ≠ some '/' := by
  obtain ⟨⟨suffix, h1, h2⟩, h3⟩ := trimRight_spec (fun c => decide (c = '/')) (trimSpace s).toList
  refine ⟨⟨suffix.length, ?_⟩, ?_⟩
  · have hs : suffix = List.replicate suffix.length '/' := by
      apply List.eq_replicate_of_mem
      intro c hc
      simpa using h2 c hc
    rw [← hs]
    exact h1
  · intro hlast
    have := h3 '/' hlast
    simp at this

theorem connect_accepts (reg : Registry) (now : Int) (n : SeaTableConnect) (s id : String)
    (hs : n.InServer = .ok s) (hok : (SeaTableConnect.OnMessage reg now n).1 = .ok id) :
    trimTrailingSlash s ≠ "" ∧
    ∃ base token,
      getSeaTableClient (SeaTableConnect.OnMessage reg now n).2 id =
        some ⟨trimTrailingSlash s, base, token⟩ := by
  unfold SeaTableConnect.OnMessage at hok ⊢
  simp only [hs] at hok ⊢
  cases hb : n.InBaseUUID with
  | error e => simp [hb] at hok
  | ok b =>
    simp only [hb] at hok ⊢
    by_cases h1 : trimTrailingSlash s = ""
    · simp [h1] at hok
    · simp only [if_neg h1] at hok ⊢
      refine ⟨h1, ?_⟩
      by_cases h2 : trimSpace b = ""
      · simp [h2] at hok
      · simp only [if_neg h2] at hok ⊢
        cases ht : n.OptBaseToken with
        | error e => simp [ht] at hok
        | ok item =>
          cases item with
          | none => simp [ht] at hok
          | some fields =>
            simp only [ht] at hok ⊢
            cases hv : mapGet fields "value" with
            | none => simp [hv] at hok
            | some v =>
              cases v with
              | str token =>
                simp only [hv] at hok ⊢
                by_cases h3 : trimSpace token = ""
                · simp [h3] at hok
                · simp only [if_neg h3] at hok ⊢
                  cases hset : n.OutClientID
                      (registerSeaTableClient reg ⟨trimTrailingSlash s, trimSpace b, token⟩
                        now).1 with
                  | some e => simp [hset] at hok
                  | none =>
                    simp only [hset, Except.ok.injEq] at hok ⊢
                    refine ⟨trimSpace b, token, ?_⟩
                    rw [← hok]
                    simp [getSeaTableClient, registerSeaTableClient, mapGet_mapSet_same]
              | null => simp [hv] at hok
              | bool _ => simp [hv] at hok
              | float64 _ => simp [hv] at hok
              | int _ => simp [hv] at hok
              | arr _ => simp [hv] at hok
              | obj _ => simp [hv] at hok

theorem connect_rejects (reg : Registry) (now : Int) (n : SeaTableConnect) (s : String)
    (hs : n.InServer = .ok s) (hempty : trimTrailingSlash s = "") :
    (SeaTableConnect.OnMessage reg now n).2 = reg ∧
    ∃ e, (SeaTableConnect.OnMessage reg now n).1 = .error e ∧
      ∀ b, n.InBaseUUID = .ok b → e = .runtimeError "ErrInvalidArg" "Server URL is required" := by
  unfold SeaTableConnect.OnMessage
  simp only [hs]
  cases hb : n.InBaseUUID with
  | error e => exact ⟨rfl, e, rfl, by intro b hb2; cases hb2⟩
  | ok b =>
    simp only [hempty, if_true]
    exact ⟨trivial, _, rfl, fun _ _ => rfl⟩


/-- Claim C22.  When Connect, reading the server URL `s`, succeeds with a client
id, the config registered under that id has as server the text `s` with
surrounding white space and then all trailing `/` removed: the trimmed input
is that server followed by some number of `/`, and the server is not empty and
does not end with `/`.  When nothing is left of `s` after this trimming,
Connect registers nothing and returns an error, which is `ErrInvalidArg`
whenever the base UUID could be read. -/
theorem connect_server (reg : Registry) (now : Int) (n : SeaTableConnect) (s : String)
    (hs : n.InServer = .ok s) :
    (∀ id, (SeaTableConnect.OnMessage reg now n).1 = .ok id →
      ∃ cfg, getSeaTableClient (SeaTableConnect.OnMessage reg now n).2 id = some cfg ∧
        cfg.Server = trimTrailingSlash s ∧
        (∃ k, (trimSpace s).toList = cfg.Server.toList ++ List.replicate k '/') ∧
        cfg.Server ≠ "" ∧ cfg.Server.toList.getLast? ≠ some '/') ∧
    (trimTrailingSlash s = "" →
      (SeaTableConnect.OnMessage reg now n).2 = reg ∧
      ∃ e, (SeaTableConnect.OnMessage reg now n).1 = .error e ∧
        ∀ b, n.InBaseUUID = .ok b →
          e = .runtimeError "ErrInvalidArg" "Server URL is required") := by
  refine ⟨?_, connect_rejects reg now n s hs⟩
  intro id hok
  obtain ⟨hne, base, token, hget⟩ := connect_accepts reg now n s id hs hok
  exact ⟨_, hget, rfl, (trimTrailingSlash_spec s).1, hne, (trimTrailingSlash_spec s).2⟩

/-- C22 on the examples: the server ` https://cloud.example// ` is stored as
`https://cloud.example`, and the server `///` is rejected with nothing
registered. -/
theorem connect_server_witness :
    (SeaTableConnect.OnMessage emptyRegistry 42 (connectNode " https://cloud.example// ")).1 =
      .ok "st-ab12-42" ∧
    (∃ cfg, getSeaTableClient
        (SeaTableConnect.OnMessage emptyRegistry 42 (connectNode " https://cloud.example// ")).2
        "st-ab12-42" = some cfg ∧
      cfg.Server = trimTrailingSlash " https://cloud.example// " ∧
      (∃ k, (trimSpace " https://cloud.example// ").toList =
        cfg.Server.toList ++ List.replicate k '/') ∧
      cfg.Server ≠ "" ∧ cfg.Server.toList.getLast? ≠ some '/') ∧
    trimTrailingSlash " https://cloud.example// " = "https://cloud.example" ∧
    ((SeaTableConnect.OnMessage emptyRegistry 42 (connectNode "///")).2 = emptyRegistry ∧
      ∃ e, (SeaTableConnect.OnMessage emptyRegistry 42 (connectNode "///")).1 = .error e ∧
        ∀ b, (connectNode "///").InBaseUUID = .ok b →
          e = .runtimeError "ErrInvalidArg" "Server URL is required") :=
  ⟨rfl,
    (connect_server emptyRegistry 42 (connectNode " https://cloud.example// ")
      " https://cloud.example// " rfl).1 "st-ab12-42" rfl,
    by decide,
    (connect_server emptyRegistry 42 (connectNode "///") "///" rfl).2 (by decide)⟩


/-! ## Client ids are told apart -/

theorem digitChar_value (d : Nat) (hd : d < 10) :
    (Nat.digitChar d).toNat - 48 = d ∧ Nat.digitChar d ≠ '-' := by
  interval_cases d <;> exact ⟨rfl, by decide⟩

theorem toDigitsCore_value (fuel : Nat) :
    ∀ (n : Nat) (ds : List Char), n < fuel →
      ∃ pre : List Char, Nat.toDigitsCore 10 fuel n ds = pre ++ ds ∧ pre ≠ [] ∧
        (∀ c ∈ pre, c ≠ '-') ∧
        pre.foldl (fun acc c => acc * 10 + (c.toNat - 48)) 0 = n := by
  induction fuel with
  | zero => intro n ds h; omega
  | succ fuel ih =>
    intro n ds h
    have hd := digitChar_value (n % 10) (Nat.mod_lt n (by decide))
    unfold Nat.toDigitsCore
    by_cases h0 : n / 10 = 0
    · simp only [h0, if_true]
      refine ⟨[Nat.digitChar (n % 10)], rfl, by simp, ?_, ?_⟩
      · intro c hc
        rw [List.mem_singleton.mp hc]
        exact hd.2
      · simp only [List.foldl_cons, List.foldl_nil, Nat.zero_mul, Nat.zero_add, hd.1]
        omega
    · simp only [h0, if_false]
      obtain ⟨pre, h1, _, h3, h4⟩ := ih (n / 10) (Nat.digitChar (n % 10) :: ds) (by omega)
      refine ⟨pre ++ [Nat.digitChar (n % 10)], ?_, by simp, ?_, ?_⟩
      · rw [h1]; simp
      · intro c hc
        rcases List.mem_append.mp hc with hc | hc
        · exact h3 c hc
        · rw [List.mem_singleton.mp hc]
          exact hd.2
      · rw [List.foldl_append, h4]
        simp only [List.foldl_cons, List.foldl_nil, hd.1]
        omega

theorem natRepr_digits (n : Nat) :
    (Nat.repr n).toList ≠ [] ∧ (∀ c ∈ (Nat.repr n).toList, c ≠ '-') ∧
    (Nat.repr n).toList.foldl (fun acc c => acc * 10 + (c.toNat - 48)) 0 = n := by
  obtain ⟨pre, h1, h2, h3, h4⟩ := toDigitsCore_value (n + 1) n [] (by omega)
  have hrepr : (Nat.repr n).toList = pre := by
    simp only [Nat.repr, Nat.toDigits, List.asString, h1, List.append_nil, String.toList]
  rw [hrepr]
  exact ⟨h2, h3, h4⟩

theorem natRepr_injective (m n : Nat) (h : Nat.repr m = Nat.repr n) : m = n := by
  rw [← (natRepr_digits m).2.2, ← (natRepr_digits n).2.2, h]

theorem intToString_injective (a b : Int) (h : toString a = toString b) : a = b := by
  have hdash : ∀ (m k : Nat), Nat.repr m ≠ "-" ++ Nat.repr k := by
    intro m k heq
    have hm := natRepr_digits m
    have hmem : '-' ∈ (Nat.repr m).toList := by
      rw [heq]
      simp
    exact hm.2.1 '-' hmem rfl
  cases a with
  | ofNat m =>
    cases b with
    | ofNat k =>
      have : Nat.repr m = Nat.repr k := h
      rw [natRepr_injective m k this]
    | negSucc k => exact absurd h (hdash m (k + 1))
  | negSucc m =>
    cases b with
    | ofNat k => exact absurd h.symm (hdash k (m + 1))
    | negSucc k =>
      have h1 : "-" ++ Nat.repr (m + 1) = "-" ++ Nat.repr (k + 1) := h
      have h2 : Nat.repr (m + 1) = Nat.repr (k + 1) := by
        have := congrArg String.toList h1
        simp only [String.toList, String.data_append, List.append_cancel_left_eq] at this
        exact String.ext this
      have := natRepr_injective _ _ h2
      have : m = k := by omega
      rw [this]


theorem split_at_dash (a : List Char) :
    ∀ (b x y : List Char), '-' ∉ a → '-' ∉ b → a ++ '-' :: x = b ++ '-' :: y →
      a = b ∧ x = y := by
  induction a with
  | nil =>
    intro b x y _ hb h
    cases b with
    | nil => simpa using h
    | cons c b =>
      simp only [List.nil_append, List.cons_append, List.cons.injEq] at h
      exact absurd (h.1 ▸ List.mem_cons_self _ _) hb
  | cons c a ih =>
    intro b x y ha hb h
    cases b with
    | nil =>
      simp only [List.nil_append, List.cons_append, List.cons.injEq] at h
      exact absurd (h.1 ▸ List.mem_cons_self _ _) ha
    | cons d b =>
      simp only [List.cons_append, List.cons.injEq] at h
      obtain ⟨h1, h2⟩ := ih b x y (fun hm => ha (List.mem_cons_of_mem _ hm))
        (fun hm => hb (List.mem_cons_of_mem _ hm)) h.2
      exact ⟨by rw [h.1, h1], h2⟩

theorem removeDashes_no_dash (s : String) : '-' ∉ (removeDashes s).toList := by
  simp [removeDashes]

theorem clientIdFor_injective (cfg1 cfg2 : SeaTableClient) (now1 now2 : Int)
    (h : clientIdFor cfg1 now1 = clientIdFor cfg2 now2) :
    removeDashes cfg1.BaseUUID = removeDashes cfg2.BaseUUID ∧ now1 = now2 := by
  unfold clientIdFor at h
  have hl := congrArg String.toList h
  simp only [String.toList, String.data_append, List.append_assoc,
    List.append_cancel_left_eq] at hl
  have hsplit := split_at_dash _ _ _ _ (removeDashes_no_dash cfg1.BaseUUID)
    (removeDashes_no_dash cfg2.BaseUUID) hl
  exact ⟨String.ext hsplit.1, intToString_injective now1 now2 (String.ext hsplit.2)⟩

/-- Claim C24.  The id a registration returns is `st-`, the base id with its
dashes removed, `-`, and the timestamp in decimal; and two registrations
return the same id exactly when their base ids are equal once the dashes are
removed and their timestamps are equal, so that a different timestamp, or a
base id that differs beyond dashes, gives a different id. -/
theorem clientId_distinct (reg1 reg2 : Registry) (cfg1 cfg2 : SeaTableClient)
    (now1 now2 : Int) :
    (registerSeaTableClient reg1 cfg1 now1).1 =
      "st-" ++ removeDashes cfg1.BaseUUID ++ "-" ++ toString now1 ∧
    ((registerSeaTableClient reg1 cfg1 now1).1 = (registerSeaTableClient reg2 cfg2 now2).1 ↔
      removeDashes cfg1.BaseUUID = removeDashes cfg2.BaseUUID ∧ now1 = now2) := by
  refine ⟨rfl, ?_, ?_⟩
  · intro h
    exact clientIdFor_injective cfg1 cfg2 now1 now2 h
  · intro h
    simp only [registerSeaTableClient, clientIdFor, h.1, h.2]


/-! ## Registry entries are kept -/

theorem runCalls_keeps (id : String) (cfg : SeaTableClient) (calls : List RegistryCall) :
    ∀ reg : Registry, getSeaTableClient reg id = some cfg →
      (∀ cfg2 now2, RegistryCall.register cfg2 now2 ∈ calls → clientIdFor cfg2 now2 ≠ id) →
      getSeaTableClient (runCalls reg calls) id = some cfg := by
  induction calls with
  | nil => intro reg h _; exact h
  | cons call rest ih =>
    intro reg h hfresh
    have hrest : ∀ cfg2 now2, RegistryCall.register cfg2 now2 ∈ rest →
        clientIdFor cfg2 now2 ≠ id :=
      fun cfg2 now2 hm => hfresh cfg2 now2 (List.mem_cons_of_mem _ hm)
    cases call with
    | lookup k => exact ih reg h hrest
    | register cfg2 now2 =>
      apply ih _ _ hrest
      have hne := hfresh cfg2 now2 (List.mem_cons_self _ _)
      simp only [runCall, getSeaTableClient, registerSeaTableClient, mapSet, mapGet]
      rw [if_neg hne]
      exact h

/-- Counterexample to C23.  A config is registered at the clock reading 42; a
second config, whose base id differs only by a dash, is then registered at the
same clock reading and receives the same id; the lookup of that id no longer
returns the first config. -/
theorem registry_overwrite_counterexample :
    (registerSeaTableClient emptyRegistry ⟨"https://a.example", "ab-12", "t1"⟩ 42).1 =
      "st-ab12-42" ∧
    getSeaTableClient
      (registerSeaTableClient emptyRegistry ⟨"https://a.example", "ab-12", "t1"⟩ 42).2
      "st-ab12-42" = some ⟨"https://a.example", "ab-12", "t1"⟩ ∧
    getSeaTableClient
      (runCalls (registerSeaTableClient emptyRegistry ⟨"https://a.example", "ab-12", "t1"⟩ 42).2
        [.register ⟨"https://b.example", "ab12", "t2"⟩ 42])
      "st-ab12-42" = some ⟨"https://b.example", "ab12", "t2"⟩ := by
  decide

/-- Claim C23, amended.  Once a registration has returned an id, every later
lookup of that id returns the config given to that registration, whatever
lookups and registrations happen in between, provided none of those
registrations has both the same base id up to dashes and the same timestamp
(such a registration receives the same id and replaces the entry); and a
lookup leaves the registry as it is. -/
theorem registry_keeps (reg : Registry) (cfg : SeaTableClient) (now : Int)
    (calls : List RegistryCall)
    (hfresh : ∀ cfg2 now2, RegistryCall.register cfg2 now2 ∈ calls →
      ¬ (removeDashes cfg2.BaseUUID = removeDashes cfg.BaseUUID ∧ now2 = now)) :
    getSeaTableClient (runCalls (registerSeaTableClient reg cfg now).2 calls)
        (registerSeaTableClient reg cfg now).1 = some cfg ∧
    ∀ (reg2 : Registry) (id : String), runCall reg2 (.lookup id) = reg2 := by
  refine ⟨?_, fun _ _ => rfl⟩
  apply runCalls_keeps
  · simp [getSeaTableClient, registerSeaTableClient, mapGet_mapSet_same]
  · intro cfg2 now2 hm heq
    exact hfresh cfg2 now2 hm (clientIdFor_injective cfg2 cfg now2 now heq)

/-- The amended C23 on an example: after the example config is registered at 42,
a lookup, a registration of another base and a registration of the same base
at 43 leave its entry in place. -/
theorem registry_keeps_witness :
    getSeaTableClient
      (runCalls (registerSeaTableClient emptyRegistry exampleCfg 42).2
        [.lookup "st-ab12-42", .register ⟨"https://b.example", "cd-34", "t2"⟩ 42,
          .register ⟨"https://b.example", "ab12", "t2"⟩ 43])
      (registerSeaTableClient emptyRegistry exampleCfg 42).1 = some exampleCfg :=
  (registry_keeps emptyRegistry exampleCfg 42
    [.lookup "st-ab12-42", .register ⟨"https://b.example", "cd-34", "t2"⟩ 42,
      .register ⟨"https://b.example", "ab12", "t2"⟩ 43]
    (by
      intro cfg2 now2 hm
      simp only [List.mem_cons, List.mem_singleton, List.not_mem_nil, or_false,
        RegistryCall.register.injEq, reduceCtorEq, false_or] at hm
      rcases hm with ⟨rfl, rfl⟩ | ⟨rfl, rfl⟩
      · decide
      · decide)).1


/-! ## The request built by the executor -/

theorem tokensNotBlank_empty : TokensNotBlank emptyRegistry := by
  intro id cfg hget
  simp [getSeaTableClient, emptyRegistry, mapGet] at hget

theorem tokensNotBlank_register (reg : Registry) (cfg : SeaTableClient) (now : Int)
    (hreg : TokensNotBlank reg) (htoken : trimSpace cfg.Token ≠ "") :
    TokensNotBlank (registerSeaTableClient reg cfg now).2 := by
  intro id cfg2 hget
  simp only [getSeaTableClient, registerSeaTableClient, mapSet, mapGet] at hget
  split at hget
  · cases hget
    exact htoken
  · exact hreg id cfg2 hget

/-- Connect registers no blank token: a registry without blank tokens has none
after a run of Connect, whatever the inputs and whether or not the run
succeeds. -/
theorem connect_tokensNotBlank (reg : Registry) (now : Int) (n : SeaTableConnect)
    (hreg : TokensNotBlank reg) : TokensNotBlank (SeaTableConnect.OnMessage reg now n).2 := by
  unfold SeaTableConnect.OnMessage
  repeat' first
    | exact hreg
    | split
    | dsimp only
  all_goals
    first
      | exact hreg
      | exact tokensNotBlank_register reg _ now hreg (by assumption)

/-- Claim C25.  Every request `doSeaTableRequest` builds has the method, the URL
and the body it was given (the body being sent as its JSON serialisation), the
header `Accept: application/json`, the header `Content-Type: application/json`
exactly when a body was given, and, for every token that is empty or not
blank, the header `Authorization` exactly when the token is not empty, with
the value `Bearer ` followed by the token as given.  The code tests the token
with its surrounding white space removed, so a non-empty token and a token
that passes the test differ only when the token is white space alone, and no
such token reaches `doSeaTableRequest`: the nodes pass the token of a client
found in the registry, the registry starts without blank tokens and Connect,
which alone registers clients, never adds one; so on the token of every
registered client the header is set.  When the request is answered, the status
code and the body returned to the caller are those of the response, for every
status code, and no error is returned; when the body cannot be read, the
status code returned is still that of the response. -/
theorem request_headers (env : Env) (k : Nat) (method : String) (url : Url) (token : String)
    (body : Option Value) (req : HttpRequest)
    (hreq : (doSeaTableRequest env k method url token body).2 = some req) :
    req.method = method ∧ req.url = url ∧ req.body = body ∧
    mapGet req.headers "Accept" = some "application/json" ∧
    mapGet req.headers "Content-Type" =
      (if body.isSome then some "application/json" else none) ∧
    mapGet req.headers "Authorization" =
      (if trimSpace token ≠ "" then some ("Bearer " ++ token) else none) ∧
    ((token = "" ∨ trimSpace token ≠ "") →
      mapGet req.headers "Authorization" =
        (if token ≠ "" then some ("Bearer " ++ token) else none)) ∧
    (∀ (reg : Registry) (id : String) (cfg : SeaTableClient), TokensNotBlank reg →
      getSeaTableClient reg id = some cfg → token = cfg.Token →
      token ≠ "" ∧ mapGet req.headers "Authorization" = some ("Bearer " ++ token)) ∧
    (TokensNotBlank emptyRegistry ∧
      ∀ (reg : Registry) (now : Int) (n : SeaTableConnect), TokensNotBlank reg →
        TokensNotBlank (SeaTableConnect.OnMessage reg now n).2) ∧
    (∀ b status, env.roundTrip k req = .reply b status →
      (doSeaTableRequest env k method url token body).1 = ⟨b, status, none⟩) ∧
    (∀ status e, env.roundTrip k req = .readFailed status e →
      (doSeaTableRequest env k method url token body).1.status = status) := by
  have hr := doSeaTableRequest_sent_eq env k method url token body req hreq
  have hauth : mapGet req.headers "Authorization" =
      (if trimSpace token ≠ "" then some ("Bearer " ++ token) else none) := by
    rw [hr]
    cases body <;> by_cases ht : trimSpace token = "" <;>
      simp [requestHeaders, mapGet, ht]
  have hblank : trimSpace token ≠ "" → token ≠ "" := by
    intro ht he
    apply ht
    rw [he]
    rfl
  refine ⟨by rw [hr], by rw [hr], by rw [hr], ?_, ?_, hauth, ?_, ?_,
    ⟨tokensNotBlank_empty, connect_tokensNotBlank⟩, ?_, ?_⟩
  · rw [hr]
    cases body <;> by_cases ht : trimSpace token = "" <;>
      simp [requestHeaders, mapGet, ht]
  · rw [hr]
    cases body <;> by_cases ht : trimSpace token = "" <;>
      simp [requestHeaders, mapGet, ht]
  · intro htoken
    rw [hauth]
    rcases htoken with he | ht
    · have hts : trimSpace token = "" := by rw [he]; rfl
      rw [if_neg (fun h => h hts), if_neg (fun h => h he)]
    · rw [if_pos ht, if_pos (hblank ht)]
  · intro reg id cfg hinv hget htok
    have ht : trimSpace token ≠ "" := by
      rw [htok]
      exact hinv id cfg hget
    refine ⟨hblank ht, ?_⟩
    rw [hauth, if_pos ht]
  · intro b status hrt
    exact doSeaTableRequest_replied env k method url token body req b status hreq hrt
  · intro status e hrt
    subst hr
    unfold doSeaTableRequest at hreq ⊢
    cases h1 : body.bind env.marshalError with
    | some e1 => simp [h1] at hreq
    | none =>
      cases h2 : env.newRequestError method url with
      | some e2 => simp [h1, h2] at hreq
      | none => simp only [h1, h2, hrt]

/-- C25 on examples.  A POST with a body and the token `secret` of the
registered example client, answered with status 500, carries the three
headers and returns that status and body; a GET without a body and with the
empty token carries `Accept` alone; and the registry Connect leaves behind on
the example inputs has no blank token. -/
theorem request_headers_witness :
    (requestOf "POST" (sqlUrl exampleCfg) "secret" (some (.str "x"))).headers =
      [("Authorization", "Bearer secret"), ("Content-Type", "application/json"),
        ("Accept", "application/json")] ∧
    mapGet (requestOf "POST" (sqlUrl exampleCfg) "secret" (some (.str "x"))).headers
      "Accept" = some "application/json" ∧
    mapGet (requestOf "POST" (sqlUrl exampleCfg) "secret" (some (.str "x"))).headers
      "Content-Type" = some "application/json" ∧
    mapGet (requestOf "POST" (sqlUrl exampleCfg) "secret" (some (.str "x"))).headers
      "Authorization" = some "Bearer secret" ∧
    (("secret" : String) ≠ "" ∧
      mapGet (requestOf "POST" (sqlUrl exampleCfg) "secret" (some (.str "x"))).headers
        "Authorization" = some "Bearer secret") ∧
    (doSeaTableRequest (exampleEnv 500) 0 "POST" (sqlUrl exampleCfg) "secret"
      (some (.str "x"))).1 = ⟨"right", 500, none⟩ ∧
    (doSeaTableRequest (exampleEnv 200) 0 "GET" (sqlUrl exampleCfg) "" none).2 =
      some ⟨"GET", sqlUrl exampleCfg, [("Accept", "application/json")], none⟩ ∧
    mapGet (requestOf "GET" (sqlUrl exampleCfg) "" none).headers "Authorization" = none ∧
    mapGet (requestOf "GET" (sqlUrl exampleCfg) "" none).headers "Content-Type" = none ∧
    TokensNotBlank (SeaTableConnect.OnMessage emptyRegistry 42
      (connectNode "https://cloud.example/")).2 :=
  ⟨rfl,
    (request_headers (exampleEnv 500) 0 "POST" (sqlUrl exampleCfg) "secret" (some (.str "x"))
      (requestOf "POST" (sqlUrl exampleCfg) "secret" (some (.str "x"))) rfl).2.2.2.1,
    (request_headers (exampleEnv 500) 0 "POST" (sqlUrl exampleCfg) "secret" (some (.str "x"))
      (requestOf "POST" (sqlUrl exampleCfg) "secret" (some (.str "x"))) rfl).2.2.2.2.1,
    (request_headers (exampleEnv 500) 0 "POST" (sqlUrl exampleCfg) "secret" (some (.str "x"))
      (requestOf "POST" (sqlUrl exampleCfg) "secret" (some (.str "x"))) rfl).2.2.2.2.2.2.1
      (Or.inr (by decide)),
    (request_headers (exampleEnv 500) 0 "POST" (sqlUrl exampleCfg) "secret" (some (.str "x"))
      (requestOf "POST" (sqlUrl exampleCfg) "secret" (some (.str "x"))) rfl).2.2.2.2.2.2.2.1
      exampleRegistry "st-ab12-42" exampleCfg
      ((request_headers (exampleEnv 500) 0 "POST" (sqlUrl exampleCfg) "secret"
        (some (.str "x")) (requestOf "POST" (sqlUrl exampleCfg) "secret" (some (.str "x")))
        rfl).2.2.2.2.2.2.2.2.1.2 emptyRegistry 42 (connectNode "https://cloud.example/")
        (request_headers (exampleEnv 500) 0 "POST" (sqlUrl exampleCfg) "secret"
          (some (.str "x")) (requestOf "POST" (sqlUrl exampleCfg) "secret" (some (.str "x")))
          rfl).2.2.2.2.2.2.2.2.1.1)
      (by decide) rfl,
    (request_headers (exampleEnv 500) 0 "POST" (sqlUrl exampleCfg) "secret" (some (.str "x"))
      (requestOf "POST" (sqlUrl exampleCfg) "secret" (some (.str "x"))) rfl).2.2.2.2.2.2.2.2.2.1
      "right" 500 rfl,
    rfl,
    (request_headers (exampleEnv 200) 0 "GET" (sqlUrl exampleCfg) "" none
      (requestOf "GET" (sqlUrl exampleCfg) "" none) rfl).2.2.2.2.2.2.1 (Or.inl rfl),
    (request_headers (exampleEnv 200) 0 "GET" (sqlUrl exampleCfg) "" none
      (requestOf "GET" (sqlUrl exampleCfg) "" none) rfl).2.2.2.2.1,
    (request_headers (exampleEnv 200) 0 "GET" (sqlUrl exampleCfg) "" none
      (requestOf "GET" (sqlUrl exampleCfg) "" none) rfl).2.2.2.2.2.2.2.2.1.2 emptyRegistry 42
      (connectNode "https://cloud.example/")
      (request_headers (exampleEnv 200) 0 "GET" (sqlUrl exampleCfg) "" none
        (requestOf "GET" (sqlUrl exampleCfg) "" none) rfl).2.2.2.2.2.2.2.2.1.1⟩


/-! ## The fetches and the counters of Auto Link -/

theorem fetchRowsForKey_sent_eq (env : Env) (k : Nat) (cfg : SeaTableClient)
    (tableName keyColumn : String) (limit : Int) (req : HttpRequest)
    (h : (fetchRowsForKey env k cfg tableName keyColumn limit).2 = some req) :
    req = fetchRequest cfg tableName keyColumn limit := by
  have h2 : (doSeaTableRequest env k "POST" (sqlUrl cfg) cfg.Token
      (some (fetchBody tableName keyColumn limit))).2 = some req := by
    unfold fetchRowsForKey at h
    cases herr : (doSeaTableRequest env k "POST" (sqlUrl cfg) cfg.Token
        (some (fetchBody tableName keyColumn limit))).1.err <;> simpa [herr] using h
  exact doSeaTableRequest_sent_eq env k _ _ _ _ req h2

theorem linkLoop_result (env : Env) (cfg : SeaTableClient)
    (linkID tableName otherTableName leftKeyCol : String) (dryRun : Bool) (idx : KeyIndex)
    (T : String → List String) (hidx : ∀ k, (mapGet idx k).getD [] = T k) :
    ∀ (rows : List Row) (c : LinkCounters) (tr : List HttpRequest),
      ∃ puts : List HttpRequest,
        (linkLoop env cfg linkID tableName otherTableName leftKeyCol dryRun idx rows c tr).2 =
          tr ++ puts ∧
        (∀ r ∈ puts, r.method = "PUT") ∧
        (∀ c', (linkLoop env cfg linkID tableName otherTableName leftKeyCol dryRun idx
            rows c tr).1 = .ok c' →
          c' = ⟨c.processed + rows.length, c.matched + matchedCount env leftKeyCol T rows,
            c.skipped + (rows.length - matchedCount env leftKeyCol T rows),
            c.created + targetCount env leftKeyCol T rows⟩ ∧
          puts = (if dryRun then []
            else putRequests env cfg linkID tableName otherTableName leftKeyCol T rows)) := by
  intro rows
  induction rows with
  | nil =>
    intro c tr
    refine ⟨[], by simp [linkLoop], by simp, ?_⟩
    intro c' hc
    simp only [linkLoop, Except.ok.injEq] at hc
    subst hc
    simp [matchedCount, targetCount, putRequests]
  | cons row rows ih =>
    intro c tr
    have hmlen := List.length_filter_le (isMatched env leftKeyCol T) rows
    cases hm : isMatched env leftKeyCol T row with
    | false =>
      rw [linkLoop_skip env cfg linkID tableName otherTableName leftKeyCol dryRun idx T hidx
        row rows c tr hm]
      obtain ⟨puts, h1, h2, h3⟩ := ih ⟨c.processed + 1, c.matched, c.skipped + 1, c.created⟩ tr
      refine ⟨puts, h1, h2, ?_⟩
      intro c' hc
      obtain ⟨h4, h5⟩ := h3 c' hc
      refine ⟨?_, ?_⟩
      · rw [h4]
        simp only [matchedCount, targetCount, List.filter_cons, hm, List.length_cons] at hmlen ⊢
        simp only [Bool.false_eq_true, if_false, LinkCounters.mk.injEq]
        push_cast
        refine ⟨by ring, trivial, by omega, trivial⟩
      · rw [h5]
        simp [putRequests, List.filter_cons, hm]
    | true =>
      have hcount : matchedCount env leftKeyCol T (row :: rows) =
          matchedCount env leftKeyCol T rows + 1 := by
        simp [matchedCount, List.filter_cons, hm]
      have htarget : targetCount env leftKeyCol T (row :: rows) =
          (T (getStringFromRow env row leftKeyCol)).length +
            targetCount env leftKeyCol T rows := by
        simp [targetCount, List.filter_cons, hm]
      have hp : putRequests env cfg linkID tableName otherTableName leftKeyCol T (row :: rows) =
          putRequest env cfg linkID tableName otherTableName leftKeyCol T row ::
            putRequests env cfg linkID tableName otherTableName leftKeyCol T rows := by
        simp [putRequests, List.filter_cons, hm]
      have hcounters : ∀ c' : LinkCounters,
          c' = ⟨c.processed + 1 + rows.length,
            c.matched + 1 + matchedCount env leftKeyCol T rows,
            c.skipped + (rows.length - matchedCount env leftKeyCol T rows),
            c.created + (T (getStringFromRow env row leftKeyCol)).length +
              targetCount env leftKeyCol T rows⟩ →
          c' = ⟨c.processed + (row :: rows).length,
            c.matched + matchedCount env leftKeyCol T (row :: rows),
            c.skipped + ((row :: rows).length - matchedCount env leftKeyCol T (row :: rows)),
            c.created + targetCount env leftKeyCol T (row :: rows)⟩ := by
        intro c' hc'
        rw [hc', hcount, htarget]
        simp only [List.length_cons, LinkCounters.mk.injEq]
        push_cast
        refine ⟨by ring, by ring, by ring, by ring⟩
      cases dryRun with
      | true =>
        rw [linkLoop_dry env cfg linkID tableName otherTableName leftKeyCol idx T hidx
          row rows c tr hm]
        obtain ⟨puts, h1, h2, h3⟩ := ih
          ⟨c.processed + 1, c.matched + 1, c.skipped,
            c.created + (T (getStringFromRow env row leftKeyCol)).length⟩ tr
        refine ⟨puts, h1, h2, ?_⟩
        intro c' hc
        obtain ⟨h4, h5⟩ := h3 c' hc
        exact ⟨hcounters c' h4, by simpa using h5⟩
      | false =>
        cases he : (doSeaTableRequest env tr.length "PUT" (linksUrl cfg) cfg.Token
            (some (linkUpdateBody linkID tableName otherTableName
              (getStringFromRow env row "_id")
              (T (getStringFromRow env row leftKeyCol))))).1.err with
        | none =>
          rw [linkLoop_put_ok env cfg linkID tableName otherTableName leftKeyCol idx T hidx
            row rows c tr hm he]
          obtain ⟨puts, h1, h2, h3⟩ := ih
            ⟨c.processed + 1, c.matched + 1, c.skipped,
              c.created + (T (getStringFromRow env row leftKeyCol)).length⟩
            (tr ++ [putRequest env cfg linkID tableName otherTableName leftKeyCol T row])
          refine ⟨putRequest env cfg linkID tableName otherTableName leftKeyCol T row :: puts,
            by rw [h1]; simp, ?_, ?_⟩
          · intro r hr
            rcases List.mem_cons.mp hr with rfl | hr
            · rfl
            · exact h2 r hr
          · intro c' hc
            obtain ⟨h4, h5⟩ := h3 c' hc
            refine ⟨hcounters c' h4, ?_⟩
            rw [hp]
            simpa using h5
        | some e =>
          rw [linkLoop_put_err env cfg linkID tableName otherTableName leftKeyCol idx T hidx
            row rows c tr hm e he]
          refine ⟨_, rfl, ?_, by intro c' hc; simp at hc⟩
          intro r hr
          have := doSeaTableRequest_sent_eq env _ _ _ _ _ r (Option.mem_toList.mp hr)
          rw [this]


theorem autoLinkRun_shape (env : Env) (cfg : SeaTableClient)
    (tableName otherTableName linkID leftKeyCol rightKeyCol : String) (maxLeft maxRight : Int)
    (dryRun : Bool) :
    (∀ req, (autoLinkRun env cfg tableName otherTableName linkID leftKeyCol rightKeyCol maxLeft
        maxRight dryRun).2[0]? = some req →
      req = fetchRequest cfg otherTableName rightKeyCol maxRight) ∧
    (∀ req, (autoLinkRun env cfg tableName otherTableName linkID leftKeyCol rightKeyCol maxLeft
        maxRight dryRun).2[1]? = some req →
      req = fetchRequest cfg tableName leftKeyCol maxLeft) ∧
    (∀ o, (autoLinkRun env cfg tableName otherTableName linkID leftKeyCol rightKeyCol maxLeft
        maxRight dryRun).1 = .ok o →
      ∃ rightRows leftRows,
        (fetchRowsForKey env 0 cfg otherTableName rightKeyCol maxRight).1 = .ok rightRows ∧
        (fetchRowsForKey env 1 cfg tableName leftKeyCol maxLeft).1 = .ok leftRows ∧
        o = ⟨leftRows.length,
          matchedCount env leftKeyCol (rightTargets env rightKeyCol rightRows) leftRows,
          leftRows.length -
            matchedCount env leftKeyCol (rightTargets env rightKeyCol rightRows) leftRows,
          targetCount env leftKeyCol (rightTargets env rightKeyCol rightRows) leftRows,
          "override"⟩ ∧
        (autoLinkRun env cfg tableName otherTableName linkID leftKeyCol rightKeyCol maxLeft
          maxRight dryRun).2 =
          fetchRequest cfg otherTableName rightKeyCol maxRight ::
            fetchRequest cfg tableName leftKeyCol maxLeft ::
            (if dryRun then []
              else putRequests env cfg linkID tableName otherTableName leftKeyCol
                (rightTargets env rightKeyCol rightRows) leftRows)) := by
  unfold autoLinkRun
  cases hfr : (fetchRowsForKey env 0 cfg otherTableName rightKeyCol maxRight).1 with
  | error e =>
    simp only [hfr]
    cases hq : (fetchRowsForKey env 0 cfg otherTableName rightKeyCol maxRight).2 with
    | none => simp
    | some q =>
      have := fetchRowsForKey_sent_eq env 0 cfg _ _ _ q hq
      simp [this]
  | ok rightRows =>
    have hs1 := fetchRowsForKey_ok_sent env 0 cfg otherTableName rightKeyCol maxRight _ hfr
    simp only [hfr, hs1, Option.toList_some, List.length_singleton]
    cases hfl : (fetchRowsForKey env 1 cfg tableName leftKeyCol maxLeft).1 with
    | error e =>
      simp only [hfl]
      cases hq : (fetchRowsForKey env 1 cfg tableName leftKeyCol maxLeft).2 with
      | none => simp
      | some q =>
        have := fetchRowsForKey_sent_eq env 1 cfg _ _ _ q hq
        simp [this]
    | ok leftRows =>
      have hs2 := fetchRowsForKey_ok_sent env 1 cfg tableName leftKeyCol maxLeft _ hfl
      have hidx : ∀ k, (mapGet (buildRightIndex env rightKeyCol rightRows []) k).getD [] =
          rightTargets env rightKeyCol rightRows k := by
        intro k
        simpa [mapGet] using buildRightIndex_getD env rightKeyCol rightRows [] k
      obtain ⟨puts, h1, _, h3⟩ := linkLoop_result env cfg linkID tableName otherTableName
        leftKeyCol dryRun (buildRightIndex env rightKeyCol rightRows [])
        (rightTargets env rightKeyCol rightRows) hidx leftRows ⟨0, 0, 0, 0⟩
        [fetchRequest cfg otherTableName rightKeyCol maxRight,
          fetchRequest cfg tableName leftKeyCol maxLeft]
      simp only [hfl, hs2, Option.toList_some, List.singleton_append]
      cases hloop : (linkLoop env cfg linkID tableName otherTableName leftKeyCol dryRun
          (buildRightIndex env rightKeyCol rightRows []) leftRows ⟨0, 0, 0, 0⟩
          [fetchRequest cfg otherTableName rightKeyCol maxRight,
            fetchRequest cfg tableName leftKeyCol maxLeft]).1 with
      | error e =>
        simp only [hloop, h1]
        simp
      | ok c =>
        obtain ⟨h4, h5⟩ := h3 c hloop
        simp only [hloop, h1]
        refine ⟨by simp, by simp, ?_⟩
        intro o ho
        simp only [Except.ok.injEq] at ho
        refine ⟨rightRows, leftRows, rfl, rfl, ?_, ?_⟩
        · rw [← ho, h4]
          simp
        · rw [h5]
          simp


/-- Claim C26.  The request `fetchRowsForKey` sends for a table name, a key
column and a limit is a POST to the SQL endpoint whose body holds the text
`SELECT _id, K FROM T WHERE K IS NOT NULL LIMIT n`, with the table name and
the key column inserted as they are, and `convert_keys` set to true.  With
valid inputs, the first request Auto Link sends is this request for the other
table, the right key column and the right row limit, and the second is this
request for the table, the left key column and the left row limit, each limit
being 1000 when the option is zero or negative. -/
theorem fetch_statement (env : Env) (k : Nat) (cfg : SeaTableClient)
    (tableName keyColumn : String) (limit : Int) :
    (∀ req, (fetchRowsForKey env k cfg tableName keyColumn limit).2 = some req →
      req = fetchRequest cfg tableName keyColumn limit ∧
      req.method = "POST" ∧ req.url = sqlUrl cfg ∧
      req.body = some (.obj [("sql", .str ("SELECT _id, " ++ keyColumn ++ " FROM " ++
          tableName ++ " WHERE " ++ keyColumn ++ " IS NOT NULL LIMIT " ++ toString limit)),
        ("convert_keys", .bool true)])) ∧
    (∀ (reg : Registry) (n : SeaTableAutoLink)
      (table otherTable linkID leftKeyCol rightKeyCol : String),
      ValidInputs reg n cfg table otherTable linkID leftKeyCol rightKeyCol →
      (∀ req, (SeaTableAutoLink.OnMessage env reg n).2[0]? = some req →
        req = fetchRequest cfg otherTable rightKeyCol
          (if n.OptMaxRightRows ≤ 0 then 1000 else n.OptMaxRightRows)) ∧
      (∀ req, (SeaTableAutoLink.OnMessage env reg n).2[1]? = some req →
        req = fetchRequest cfg table leftKeyCol
          (if n.OptMaxLeftRows ≤ 0 then 1000 else n.OptMaxLeftRows))) := by
  refine ⟨?_, ?_⟩
  · intro req hreq
    have h := fetchRowsForKey_sent_eq env k cfg tableName keyColumn limit req hreq
    subst h
    exact ⟨rfl, rfl, rfl, rfl⟩
  · intro reg n table otherTable linkID leftKeyCol rightKeyCol hv
    rw [OnMessage_eq_run env reg n cfg _ _ _ _ _ hv]
    have hs := autoLinkRun_shape env cfg table otherTable linkID leftKeyCol rightKeyCol
      (clampMaxRows n.OptMaxLeftRows) (clampMaxRows n.OptMaxRightRows) n.OptDryRun
    exact ⟨hs.1, hs.2.1⟩

/-- C26 on the example: the fetch of the other table sends
`SELECT _id, key FROM Customers WHERE key IS NOT NULL LIMIT 500`, and the
second request of Auto Link fetches the table with the limit 1000 that
replaces the option 0. -/
theorem fetch_statement_witness :
    ((fetchRequest exampleCfg "Customers" "key" 500).method = "POST" ∧
      (fetchRequest exampleCfg "Customers" "key" 500).url = sqlUrl exampleCfg ∧
      (fetchRequest exampleCfg "Customers" "key" 500).body =
        some (.obj [("sql", .str "SELECT _id, key FROM Customers WHERE key IS NOT NULL LIMIT 500"),
          ("convert_keys", .bool true)])) ∧
    (SeaTableAutoLink.OnMessage (exampleEnv 200) exampleRegistry (exampleNode false)).2[1]? =
      some (fetchRequest exampleCfg "Orders" "key" 1000) ∧
    fetchRequest exampleCfg "Orders" "key" 1000 =
      fetchRequest exampleCfg "Orders" "key"
        (if (exampleNode false).OptMaxLeftRows ≤ 0 then 1000
          else (exampleNode false).OptMaxLeftRows) :=
  ⟨((fetch_statement (exampleEnv 200) 0 exampleCfg "Customers" "key" 500).1
      (fetchRequest exampleCfg "Customers" "key" 500) rfl).2,
    rfl,
    ((fetch_statement (exampleEnv 200) 0 exampleCfg "Customers" "key" 500).2 exampleRegistry
      (exampleNode false) "Orders" "Customers" "Lk01" "key" "key" (exampleNode_valid false)).2
      (fetchRequest exampleCfg "Orders" "key" 1000) rfl⟩


theorem sum_ge_length (l : List Row) (f : Row → Nat) (hf : ∀ r ∈ l, 1 ≤ f r) :
    l.length ≤ (l.map f).sum := by
  induction l with
  | nil => simp
  | cons r rest ih =>
    have h1 := hf r (List.mem_cons_self _ _)
    have h2 := ih (fun x hx => hf x (List.mem_cons_of_mem _ hx))
    simp only [List.length_cons, List.map_cons, List.sum_cons]
    omega

theorem matched_le_targets (env : Env) (leftKeyCol : String) (T : String → List String)
    (leftRows : List Row) :
    matchedCount env leftKeyCol T leftRows ≤ targetCount env leftKeyCol T leftRows := by
  unfold matchedCount targetCount
  apply sum_ge_length
  intro r hr
  have hm := (List.mem_filter.mp hr).2
  simp only [isMatched, decide_eq_true_eq] at hm
  exact Nat.pos_of_ne_zero (fun h0 => hm.2.2 (List.length_eq_zero.mp h0))

theorem linkUpdateCalls_puts (env : Env) (cfg : SeaTableClient)
    (linkID tableName otherTableName leftKeyCol : String) (T : String → List String)
    (leftRows : List Row) (f1 f2 : HttpRequest) (h1 : f1.method = "POST")
    (h2 : f2.method = "POST") :
    linkUpdateCalls (f1 :: f2 ::
        putRequests env cfg linkID tableName otherTableName leftKeyCol T leftRows) =
      putRequests env cfg linkID tableName otherTableName leftKeyCol T leftRows := by
  unfold linkUpdateCalls
  rw [List.filter_cons_of_neg (by simp [h1]), List.filter_cons_of_neg (by simp [h2])]
  apply List.filter_eq_self.mpr
  intro r hr
  simp only [putRequests, List.mem_map] at hr
  obtain ⟨row, _, rfl⟩ := hr
  simp [putRequest]

theorem carriedIds_puts (env : Env) (cfg : SeaTableClient)
    (linkID tableName otherTableName leftKeyCol : String) (T : String → List String)
    (leftRows : List Row) :
    ((putRequests env cfg linkID tableName otherTableName leftKeyCol T leftRows).map
      carriedIds).sum = targetCount env leftKeyCol T leftRows := by
  unfold putRequests targetCount
  rw [List.map_map]
  congr 1
  apply List.map_congr_left
  intro row _
  simp [putRequest, carriedIds, linkUpdateBody, mapGet]


/-- Claim C28.  Whenever Auto Link succeeds, in dry-run mode or not, its inputs
were valid and both fetches returned rows, and its counters satisfy:
processed is the number of left rows fetched and equals matched plus skipped,
and createdLinks is at least matched.  With dry-run off, the number of
link-update calls it sent equals matched and createdLinks is the total number
of target ids those calls carry; with dry-run on it sent no link-update
call. -/
theorem autoLink_invariants (env : Env) (reg : Registry) (n : SeaTableAutoLink)
    (o : AutoLinkOutputs) (hok : (SeaTableAutoLink.OnMessage env reg n).1 = .ok o) :
    o.OutProcessedLeftRows = o.OutMatchedRows + o.OutSkippedRows ∧
    (∃ cfg tableName otherTableName linkID leftKeyCol rightKeyCol leftRows,
      ValidInputs reg n cfg tableName otherTableName linkID leftKeyCol rightKeyCol ∧
      (fetchRowsForKey env 1 cfg tableName leftKeyCol (clampMaxRows n.OptMaxLeftRows)).1 =
        .ok leftRows ∧
      o.OutProcessedLeftRows = leftRows.length) ∧
    o.OutCreatedLinks ≥ o.OutMatchedRows ∧
    (n.OptDryRun = false →
      ((linkUpdateCalls (SeaTableAutoLink.OnMessage env reg n).2).length : Int) =
        o.OutMatchedRows ∧
      ((((linkUpdateCalls (SeaTableAutoLink.OnMessage env reg n).2).map carriedIds).sum : Nat) :
        Int) = o.OutCreatedLinks) ∧
    (n.OptDryRun = true → linkUpdateCalls (SeaTableAutoLink.OnMessage env reg n).2 = []) := by
  rcases OnMessage_cases reg n with ⟨e, he⟩ | ⟨cfg, tableName, otherTableName, linkID,
    leftKeyCol, rightKeyCol, hv⟩
  · have hn : withDryRun n n.OptDryRun = n := by cases n; rfl
    have := he env n.OptDryRun
    rw [hn] at this
    rw [this] at hok
    cases hok
  · rw [OnMessage_eq_run env reg n cfg _ _ _ _ _ hv] at hok ⊢
    obtain ⟨rightRows, leftRows, _, hleft, ho, htrace⟩ :=
      (autoLinkRun_shape env cfg tableName otherTableName linkID leftKeyCol rightKeyCol
        (clampMaxRows n.OptMaxLeftRows) (clampMaxRows n.OptMaxRightRows) n.OptDryRun).2.2 o hok
    have hle := matched_le_targets env leftKeyCol (rightTargets env rightKeyCol rightRows)
      leftRows
    rw [htrace, ho]
    refine ⟨by simp, ⟨cfg, tableName, otherTableName, linkID, leftKeyCol, rightKeyCol,
      leftRows, hv, hleft, rfl⟩, by simp only [ge_iff_le]; exact_mod_cast hle, ?_, ?_⟩
    · intro hdry
      simp only [hdry, Bool.false_eq_true, if_false]
      rw [linkUpdateCalls_puts env cfg linkID tableName otherTableName leftKeyCol _ leftRows
        _ _ rfl rfl, carriedIds_puts]
      refine ⟨?_, rfl⟩
      simp [putRequests, matchedCount]
    · intro hdry
      simp only [hdry, if_true]
      rfl

/-- C28 on the example of the specification: processed 2 is matched 1 plus
skipped 1, createdLinks 2 is at least matched, and the one link-update call
carries two target ids. -/
theorem autoLink_invariants_witness :
    ((2 : Int) = 1 + 1 ∧ (2 : Int) ≥ 1) ∧
    ((linkUpdateCalls
        (SeaTableAutoLink.OnMessage (exampleEnv 200) exampleRegistry
          (exampleNode false)).2).length : Int) = 1 ∧
    ((((linkUpdateCalls
        (SeaTableAutoLink.OnMessage (exampleEnv 200) exampleRegistry
          (exampleNode false)).2).map carriedIds).sum : Nat) : Int) = 2 :=
  ⟨⟨(autoLink_invariants (exampleEnv 200) exampleRegistry (exampleNode false)
      ⟨2, 1, 1, 2, "override"⟩ rfl).1,
    (autoLink_invariants (exampleEnv 200) exampleRegistry (exampleNode false)
      ⟨2, 1, 1, 2, "override"⟩ rfl).2.2.1⟩,
    ((autoLink_invariants (exampleEnv 200) exampleRegistry (exampleNode false)
      ⟨2, 1, 1, 2, "override"⟩ rfl).2.2.2.1 rfl).1,
    ((autoLink_invariants (exampleEnv 200) exampleRegistry (exampleNode false)
      ⟨2, 1, 1, 2, "override"⟩ rfl).2.2.2.1 rfl).2⟩


/-! ## The response shapes of `fetchRowsForKey` -/

theorem objectRows_eq_filterMap (items : List Value) :
    objectRows items = items.filterMap asObject := by
  induction items with
  | nil => rfl
  | cons v rest ih =>
    cases v <;> simp [objectRows, asObject, ih]

theorem parseFetchedRows_typed (env : Env) (body : String) (rows : List Row)
    (h : env.jsonUnmarshalResults body = .ok (some rows)) :
    parseFetchedRows env body = .ok rows := by
  unfold parseFetchedRows
  simp only [h]

theorem parseFetchedRows_fallback (env : Env) (body : String)
    (h : ∀ rows, env.jsonUnmarshalResults body ≠ .ok (some rows)) :
    parseFetchedRows env body =
      match unmarshalObject env body with
      | .error e => .error e
      | .ok alt =>
        match mapGet alt "results" with
        | some (.arr items) => .ok (objectRows items)
        | _ => .error (.errorf "unexpected SQL response for fetchRowsForKey") := by
  unfold parseFetchedRows
  split
  · rename_i rows hr
    exact absurd hr (h rows)
  · rfl


theorem fetchRowsForKey_parsed (env : Env) (k : Nat) (cfg : SeaTableClient)
    (tableName keyColumn : String) (limit : Int) (body : String) (status : Int)
    (hcall : (doSeaTableRequest env k "POST" (sqlUrl cfg) cfg.Token
      (some (fetchBody tableName keyColumn limit))).1 = ⟨body, status, none⟩) :
    (fetchRowsForKey env k cfg tableName keyColumn limit).1 = parseFetchedRows env body := by
  unfold fetchRowsForKey
  simp only [hcall]

theorem parseFetchedRows_other (env : Env) (body : String)
    (h1 : ∀ rows, env.jsonUnmarshalResults body ≠ .ok (some rows))
    (h2 : ∀ fields items, env.jsonUnmarshal body = .ok (.obj fields) →
      mapGet fields "results" ≠ some (.arr items)) :
    ∃ e, parseFetchedRows env body = .error e ∧
      (e = .errorf "unexpected SQL response for fetchRowsForKey" ∨
        unmarshalObject env body = .error e) := by
  rw [parseFetchedRows_fallback env body h1]
  cases hj : env.jsonUnmarshal body with
  | error e =>
    have hu : unmarshalObject env body = .error e := by simp [unmarshalObject, hj]
    exact ⟨e, by simp [hu], Or.inr hu⟩
  | ok v =>
    cases v with
    | obj fields =>
      have hu : unmarshalObject env body = .ok fields := by simp [unmarshalObject, hj]
      simp only [hu]
      cases hr : mapGet fields "results" with
      | none => exact ⟨_, rfl, Or.inl rfl⟩
      | some w =>
        cases w with
        | arr items => exact absurd hr (h2 fields items hj)
        | null => exact ⟨_, rfl, Or.inl rfl⟩
        | bool _ => exact ⟨_, rfl, Or.inl rfl⟩
        | float64 _ => exact ⟨_, rfl, Or.inl rfl⟩
        | int _ => exact ⟨_, rfl, Or.inl rfl⟩
        | str _ => exact ⟨_, rfl, Or.inl rfl⟩
        | obj _ => exact ⟨_, rfl, Or.inl rfl⟩
    | null =>
      have hu : unmarshalObject env body = .ok [] := by simp [unmarshalObject, hj]
      simp only [hu]
      exact ⟨_, rfl, Or.inl rfl⟩
    | bool _ =>
      have hu : unmarshalObject env body = .error (.external
          "json: cannot unmarshal into Go value of type map[string]interface {}") := by
        simp [unmarshalObject, hj]
      exact ⟨_, by simp [hu], Or.inr hu⟩
    | float64 _ =>
      have hu : unmarshalObject env body = .error (.external
          "json: cannot unmarshal into Go value of type map[string]interface {}") := by
        simp [unmarshalObject, hj]
      exact ⟨_, by simp [hu], Or.inr hu⟩
    | int _ =>
      have hu : unmarshalObject env body = .error (.external
          "json: cannot unmarshal into Go value of type map[string]interface {}") := by
        simp [unmarshalObject, hj]
      exact ⟨_, by simp [hu], Or.inr hu⟩
    | str _ =>
      have hu : unmarshalObject env body = .error (.external
          "json: cannot unmarshal into Go value of type map[string]interface {}") := by
        simp [unmarshalObject, hj]
      exact ⟨_, by simp [hu], Or.inr hu⟩
    | arr _ =>
      have hu : unmarshalObject env body = .error (.external
          "json: cannot unmarshal into Go value of type map[string]interface {}") := by
        simp [unmarshalObject, hj]
      exact ⟨_, by simp [hu], Or.inr hu⟩


/-- Counterexample to C27.  The response body is an object whose `results` array
holds the single element null, which is not an object; `fetchRowsForKey` does
not drop it but returns one row, the nil row the typed envelope decodes null
to, where keeping only the elements that are objects gives no row. -/
theorem fetch_shapes_counterexample :
    nullRowEnv.jsonUnmarshal "nulls" = .ok (.obj [("results", .arr [.null])]) ∧
    [Value.null].filterMap asObject = [] ∧
    (fetchRowsForKey nullRowEnv 0 exampleCfg "Orders" "key" 10).1 = .ok [none] :=
  ⟨rfl, rfl, rfl⟩

/-- Claim C27, amended.  For a call that was answered with a body,
`fetchRowsForKey` succeeds in exactly two cases.  When the body decodes into
the typed envelope with a results list that is not nil, it returns that list
as decoded (a null element is kept as a nil row).  Otherwise, when the body is
a JSON object whose `results` field is an array, it returns the elements of
the array that are objects, in order.  For every other body it fails, with the
decoding error of the body or with the error `unexpected SQL response for
fetchRowsForKey`. -/
theorem fetch_shapes (env : Env) (k : Nat) (cfg : SeaTableClient)
    (tableName keyColumn : String) (limit : Int) (body : String) (status : Int)
    (hcall : (doSeaTableRequest env k "POST" (sqlUrl cfg) cfg.Token
      (some (fetchBody tableName keyColumn limit))).1 = ⟨body, status, none⟩) :
    (∀ rows, env.jsonUnmarshalResults body = .ok (some rows) →
      (fetchRowsForKey env k cfg tableName keyColumn limit).1 = .ok rows) ∧
    ((∀ rows, env.jsonUnmarshalResults body ≠ .ok (some rows)) →
      (∀ fields items, env.jsonUnmarshal body = .ok (.obj fields) →
        mapGet fields "results" = some (.arr items) →
        (fetchRowsForKey env k cfg tableName keyColumn limit).1 =
          .ok (items.filterMap asObject)) ∧
      ((∀ fields items, env.jsonUnmarshal body = .ok (.obj fields) →
          mapGet fields "results" ≠ some (.arr items)) →
        ∃ e, (fetchRowsForKey env k cfg tableName keyColumn limit).1 = .error e ∧
          (e = .errorf "unexpected SQL response for fetchRowsForKey" ∨
            unmarshalObject env body = .error e))) := by
  rw [fetchRowsForKey_parsed env k cfg tableName keyColumn limit body status hcall]
  refine ⟨fun rows h => parseFetchedRows_typed env body rows h, fun h1 => ⟨?_, ?_⟩⟩
  · intro fields items hj hr
    rw [parseFetchedRows_fallback env body h1]
    have hu : unmarshalObject env body = .ok fields := by simp [unmarshalObject, hj]
    simp only [hu, hr, objectRows_eq_filterMap]
  · intro h2
    exact parseFetchedRows_other env body h1 h2

/-- The amended C27 on the examples: the typed envelope of the example response
is returned as decoded, and of an array holding an object, a string and an
object the two objects are kept. -/
theorem fetch_shapes_witness :
    (fetchRowsForKey (exampleEnv 200) 0 exampleCfg "Customers" "key" 500).1 =
      .ok exampleRightRows ∧
    (fetchRowsForKey mixedEnv 0 exampleCfg "Customers" "key" 500).1 =
      .ok ([Value.obj [("_id", .str "r1")], .str "x", .obj [("_id", .str "r2")]].filterMap
        asObject) ∧
    [Value.obj [("_id", .str "r1")], .str "x", .obj [("_id", .str "r2")]].filterMap asObject =
      [some [("_id", .str "r1")], some [("_id", .str "r2")]] :=
  ⟨(fetch_shapes (exampleEnv 200) 0 exampleCfg "Customers" "key" 500 "right" 200 rfl).1
      exampleRightRows rfl,
    ((fetch_shapes mixedEnv 0 exampleCfg "Customers" "key" 500 "mixed" 200 rfl).2
      (fun rows h => by cases h)).1 _ _ rfl rfl,
    rfl⟩


/-! ## Bounds on the paging of Rows Get Many -/

theorem rowsBefore_step (pages : List (List Value)) :
    ∀ i, rowsBefore pages (i + 1) = rowsBefore pages i + ((pages.getD i []).length : Int) := by
  induction pages with
  | nil => intro i; simp [rowsBefore]
  | cons page pages ih =>
    intro i
    cases i with
    | zero => simp [rowsBefore]
    | succ i =>
      rw [rowsBefore_succ, rowsBefore_succ, ih i]
      simp only [List.getD_cons_succ]
      ring

theorem rowsBefore_flatten (pages : List (List Value)) :
    rowsBefore pages pages.length = (pages.flatten.length : Int) := by
  simp [rowsBefore, List.length_flatten]

theorem rowsBefore_past (pages : List (List Value)) (i : Nat) (hi : pages.length ≤ i) :
    rowsBefore pages i = rowsBefore pages pages.length := by
  simp [rowsBefore, List.take_of_length_le hi]

theorem pagesFrom_getD (env : Env) (reqs : List HttpRequest) :
    ∀ (k i : Nat) (req : HttpRequest), reqs[i]? = some req →
      (pagesFrom env k reqs).getD i [] = answerPage env (k + i) req := by
  induction reqs with
  | nil => intro k i req h; simp at h
  | cons r rs ih =>
    intro k i req h
    cases i with
    | zero =>
      simp only [List.getElem?_cons_zero, Option.some.injEq] at h
      simp [pagesFrom, h]
    | succ i =>
      simp only [List.getElem?_cons_succ] at h
      simp only [pagesFrom, List.getD_cons_succ]
      rw [ih (k + 1) i req h]
      congr 1
      omega

theorem requestsFor_limit (cfg : SeaTableClient) (tableName viewName : String) (convert : Bool)
    (pageSize maxRows : Int) :
    ∀ (pages : List (List Value)) (offset fetched : Int) (i : Nat), i < pages.length →
      ∃ off, (requestsFor cfg tableName viewName convert pageSize maxRows offset fetched
          pages)[i]? =
        some (getRowsRequest cfg tableName viewName convert off
          (min pageSize (maxRows - (fetched + rowsBefore pages i)))) := by
  intro pages
  induction pages with
  | nil => intro offset fetched i hi; simp at hi
  | cons page pages ih =>
    intro offset fetched i hi
    cases i with
    | zero => exact ⟨offset, by simp [requestsFor, rowsBefore_zero]⟩
    | succ i =>
      have hi2 : i < pages.length := by simpa using hi
      obtain ⟨off, h⟩ := ih (wrapInt64 (offset + page.length)) (fetched + page.length) i hi2
      refine ⟨off, ?_⟩
      simp only [requestsFor, List.getElem?_cons_succ, rowsBefore_succ]
      rw [h]
      congr 3
      omega

theorem before_lt_cap (pageSize maxRows : Int) (pages : List (List Value)) (hm : 1 ≤ maxRows)
    (hcont : ∀ i, i + 1 < pages.length → continuesAt pageSize maxRows 0 pages i) :
    ∀ i, i < pages.length → rowsBefore pages i < maxRows := by
  intro i hi
  cases i with
  | zero => rw [rowsBefore_zero]; omega
  | succ j =>
    have := (hcont j hi).2.2
    omega

theorem before_ge_pages (pageSize maxRows : Int) (pages : List (List Value))
    (hcont : ∀ i, i + 1 < pages.length → continuesAt pageSize maxRows 0 pages i) :
    ∀ i, i < pages.length → (i : Int) * pageSize ≤ rowsBefore pages i := by
  intro i
  induction i with
  | zero => intro _; simp [rowsBefore_zero]
  | succ j ih =>
    intro hj
    have h1 := ih (by omega)
    obtain ⟨_, h2, h3⟩ := hcont j hj
    rw [rowsBefore_step] at h3 ⊢
    have hfull : pageSize ≤ ((pages.getD j []).length : Int) := by
      rcases min_choice pageSize (maxRows - (0 + rowsBefore pages j)) with hmin | hmin
      · rw [hmin] at h2; exact h2
      · rw [hmin] at h2; omega
    push_cast
    linarith


theorem specPageSize_range (p : Int) : 1 ≤ specPageSize p ∧ specPageSize p ≤ 1000 := by
  unfold specPageSize
  split <;> omega

theorem specMaxRows_pos (m : Int) : 1 ≤ specMaxRows m := by
  unfold specMaxRows
  split <;> omega

theorem rowsGetManyRun_limits (env : Env) (cfg : SeaTableClient) (tableName viewName : String)
    (start0 pageSize0 maxRows0 : Int) (convert : Bool) :
    ∀ i req,
      (rowsGetManyRun env cfg tableName viewName start0 pageSize0 maxRows0 convert).2[i]? =
        some req →
      ∃ offset,
        req = getRowsRequest cfg tableName viewName convert offset
          (min (specPageSize pageSize0) (specMaxRows maxRows0 -
            rowsBefore (pagesFrom env 0 (rowsGetManyRun env cfg tableName viewName start0
              pageSize0 maxRows0 convert).2) i)) ∧
        rowsBefore (pagesFrom env 0 (rowsGetManyRun env cfg tableName viewName start0
          pageSize0 maxRows0 convert).2) i < specMaxRows maxRows0 := by
  intro i req hreq
  have hspec := (rowsGetManyRun_spec env cfg tableName viewName start0 pageSize0 maxRows0
    convert).2.1
  have hcont := (rowsGetManyRun_continues env cfg tableName viewName start0 pageSize0 maxRows0
    convert).2.1
  have hlen := pagesFrom_length env (rowsGetManyRun env cfg tableName viewName start0 pageSize0
    maxRows0 convert).2 0
  have hi : i < (rowsGetManyRun env cfg tableName viewName start0 pageSize0 maxRows0
      convert).2.length := by
    by_contra hge
    rw [List.getElem?_eq_none (by omega)] at hreq
    cases hreq
  obtain ⟨off, hoff⟩ := requestsFor_limit cfg tableName viewName convert
    (specPageSize pageSize0) (specMaxRows maxRows0)
    (pagesFrom env 0 (rowsGetManyRun env cfg tableName viewName start0 pageSize0 maxRows0
      convert).2) (specStart start0) 0 i (by omega)
  rw [← hspec, hreq] at hoff
  refine ⟨off, ?_, ?_⟩
  · simp only [Option.some.injEq] at hoff
    rw [hoff]
    congr 2
    omega
  · exact before_lt_cap (specPageSize pageSize0) (specMaxRows maxRows0) _
      (specMaxRows_pos maxRows0) (fun j hj => hcont j (by omega)) i (by omega)


theorem rowsGetManyRun_bounded (env : Env) (cfg : SeaTableClient) (tableName viewName : String)
    (start0 pageSize0 maxRows0 : Int) (convert : Bool)
    (hbound : ∀ (i : Nat) (offset limit : Int), 1 ≤ limit →
      ((answerPage env i (getRowsRequest cfg tableName viewName convert offset limit)).length :
        Int) ≤ limit) :
    ∀ i, rowsBefore (pagesFrom env 0 (rowsGetManyRun env cfg tableName viewName start0
      pageSize0 maxRows0 convert).2) i ≤ specMaxRows maxRows0 := by
  have hlen := pagesFrom_length env (rowsGetManyRun env cfg tableName viewName start0 pageSize0
    maxRows0 convert).2 0
  have hP := specPageSize_range pageSize0
  have hM := specMaxRows_pos maxRows0
  have hstep : ∀ j, j < (rowsGetManyRun env cfg tableName viewName start0 pageSize0 maxRows0
      convert).2.length →
      rowsBefore (pagesFrom env 0 (rowsGetManyRun env cfg tableName viewName start0
        pageSize0 maxRows0 convert).2) (j + 1) ≤ specMaxRows maxRows0 := by
    intro j hj
    obtain ⟨off, hreq, hlt⟩ := rowsGetManyRun_limits env cfg tableName viewName start0
      pageSize0 maxRows0 convert j _ (List.getElem?_eq_getElem hj)
    have hpage := pagesFrom_getD env _ 0 j _ (List.getElem?_eq_getElem hj)
    rw [hreq, Nat.zero_add] at hpage
    have hb := hbound j off (min (specPageSize pageSize0) (specMaxRows maxRows0 -
      rowsBefore (pagesFrom env 0 (rowsGetManyRun env cfg tableName viewName start0
        pageSize0 maxRows0 convert).2) j)) (le_min hP.1 (by omega))
    rw [← hpage] at hb
    rw [rowsBefore_step]
    have := min_le_right (specPageSize pageSize0) (specMaxRows maxRows0 -
      rowsBefore (pagesFrom env 0 (rowsGetManyRun env cfg tableName viewName start0
        pageSize0 maxRows0 convert).2) j)
    omega
  intro i
  cases i with
  | zero => rw [rowsBefore_zero]; omega
  | succ j =>
    by_cases hj : j < (rowsGetManyRun env cfg tableName viewName start0 pageSize0 maxRows0
        convert).2.length
    · exact hstep j hj
    · rw [rowsBefore_past _ _ (by omega)]
      cases hn : (pagesFrom env 0 (rowsGetManyRun env cfg tableName viewName start0
          pageSize0 maxRows0 convert).2).length with
      | zero => rw [rowsBefore_zero]; omega
      | succ k => exact hstep k (by omega)

/-- Claim C29.  With valid inputs and a page source that never answers a request
for `limit` rows with more than `limit` rows, the number of rows Rows Get Many
has accumulated never exceeds the normalised maxRows, after any number of
pages and in the rows it outputs; and every request it sends asks for a limit
between 1 and 1000. -/
theorem rowsGetMany_bounded (env : Env) (reg : Registry) (n : SeaTableRowsGetMany)
    (cfg : SeaTableClient) (tableName : String) (hv : ValidPaging reg n cfg tableName)
    (hbound : ∀ (i : Nat) (offset limit : Int), 1 ≤ limit →
      ((answerPage env i
        (getRowsRequest cfg tableName n.OptViewName n.OptConvert offset limit)).length : Int) ≤
          limit) :
    (∀ i, rowsBefore (pagesFrom env 0 (SeaTableRowsGetMany.OnMessage env reg n).2) i ≤
      specMaxRows n.OptMaxRows) ∧
    (∀ out, (SeaTableRowsGetMany.OnMessage env reg n).1 = some (.ok out) →
      (out.OutRows.length : Int) ≤ specMaxRows n.OptMaxRows) ∧
    (∀ req ∈ (SeaTableRowsGetMany.OnMessage env reg n).2,
      ∃ offset limit,
        req = getRowsRequest cfg tableName n.OptViewName n.OptConvert offset limit ∧
        1 ≤ limit ∧ limit ≤ 1000) := by
  rw [rowsGetMany_eq_run env reg n cfg tableName hv]
  have hall := rowsGetManyRun_bounded env cfg tableName n.OptViewName n.OptStart n.OptPageSize
    n.OptMaxRows n.OptConvert hbound
  refine ⟨hall, ?_, ?_⟩
  · intro out hout
    have hrows := ((rowsGetManyRun_spec env cfg tableName n.OptViewName n.OptStart
      n.OptPageSize n.OptMaxRows n.OptConvert).2.2 out hout).1
    rw [hrows, ← rowsBefore_flatten]
    exact hall _
  · intro req hmem
    obtain ⟨i, hi⟩ := List.mem_iff_getElem?.mp hmem
    obtain ⟨off, hreq, hlt⟩ := rowsGetManyRun_limits env cfg tableName n.OptViewName n.OptStart
      n.OptPageSize n.OptMaxRows n.OptConvert i req hi
    have hP := specPageSize_range n.OptPageSize
    exact ⟨off, _, hreq, le_min hP.1 (by omega), le_trans (min_le_left _ _) hP.2⟩


/-- C29 on an example: the page source returns one row and then none, never more
than asked for; the run outputs one row, at most 10000, and its single request
asks for 1000 rows. -/
theorem rowsGetMany_bounded_witness :
    (∀ out, (SeaTableRowsGetMany.OnMessage oneRowEnv exampleRegistry pagingNode).1 =
        some (.ok out) →
      (out.OutRows.length : Int) ≤ specMaxRows pagingNode.OptMaxRows) ∧
    (SeaTableRowsGetMany.OnMessage oneRowEnv exampleRegistry pagingNode).2 =
      [getRowsRequest exampleCfg "Orders" "" true 0 1000] :=
  ⟨(rowsGetMany_bounded oneRowEnv exampleRegistry pagingNode exampleCfg "Orders"
      (examplePaging_valid pagingNode rfl rfl)
      (fun i offset limit hl => by
        cases i with
        | zero => exact hl
        | succ j =>
          show (((([] : List Value).length : Nat) : Int)) ≤ limit
          exact le_trans (by decide) hl)).2.1,
    rfl⟩


theorem rowsGetMany_cases (env : Env) (reg : Registry) (n : SeaTableRowsGetMany) :
    (∃ e, SeaTableRowsGetMany.OnMessage env reg n = (some (.error e), [])) ∨
    ∃ cfg tableName, ValidPaging reg n cfg tableName := by
  unfold SeaTableRowsGetMany.OnMessage
  cases h1 : n.InClientID with
  | error e => exact Or.inl ⟨e, rfl⟩
  | ok cid =>
    dsimp only
    cases h2 : getSeaTableClient reg cid with
    | none => exact Or.inl ⟨_, rfl⟩
    | some cfg =>
      dsimp only
      cases h3 : n.InTableName with
      | error e => exact Or.inl ⟨e, rfl⟩
      | ok s =>
        dsimp only
        by_cases h4 : trimSpace s = ""
        · exact Or.inl ⟨_, by rw [if_pos h4]⟩
        · exact Or.inr ⟨cfg, trimSpace s, ⟨cid, h1, h2⟩, ⟨s, h3, rfl, h4⟩⟩

theorem rowsGetManyRun_count (env : Env) (cfg : SeaTableClient) (tableName viewName : String)
    (start0 pageSize0 maxRows0 : Int) (convert : Bool) :
    ((rowsGetManyRun env cfg tableName viewName start0 pageSize0 maxRows0 convert).2.length :
      Int) ≤ (specMaxRows maxRows0 + specPageSize pageSize0 - 1) / specPageSize pageSize0 := by
  have hcont := (rowsGetManyRun_continues env cfg tableName viewName start0 pageSize0 maxRows0
    convert).2.1
  have hlen := pagesFrom_length env (rowsGetManyRun env cfg tableName viewName start0 pageSize0
    maxRows0 convert).2 0
  have hP := specPageSize_range pageSize0
  have hM := specMaxRows_pos maxRows0
  rw [Int.le_ediv_iff_mul_le (by omega)]
  cases hn : (rowsGetManyRun env cfg tableName viewName start0 pageSize0 maxRows0
      convert).2.length with
  | zero =>
    simp only [Nat.cast_zero, zero_mul]
    omega
  | succ k =>
    have hc : ∀ i, i + 1 < (pagesFrom env 0 (rowsGetManyRun env cfg tableName viewName start0
        pageSize0 maxRows0 convert).2).length →
        continuesAt (specPageSize pageSize0) (specMaxRows maxRows0) 0
          (pagesFrom env 0 (rowsGetManyRun env cfg tableName viewName start0 pageSize0
            maxRows0 convert).2) i := fun i hi => hcont i (by omega)
    have h1 := before_ge_pages (specPageSize pageSize0) (specMaxRows maxRows0) _ hc k (by omega)
    have h2 := before_lt_cap (specPageSize pageSize0) (specMaxRows maxRows0) _ hM hc k
      (by omega)
    push_cast
    linarith

/-- Claim C30.  The paging loop of Rows Get Many terminates for every page
source: the method returns, whatever the pages hold.  The accumulated count of
rows strictly increases over every request that is followed by another, and
the number of requests sent is at most the normalised maxRows divided by the
normalised page size, rounded up. -/
theorem rowsGetMany_terminates (env : Env) (reg : Registry) (n : SeaTableRowsGetMany) :
    (SeaTableRowsGetMany.OnMessage env reg n).1 ≠ none ∧
    (∀ i, i + 1 < (SeaTableRowsGetMany.OnMessage env reg n).2.length →
      rowsBefore (pagesFrom env 0 (SeaTableRowsGetMany.OnMessage env reg n).2) i <
        rowsBefore (pagesFrom env 0 (SeaTableRowsGetMany.OnMessage env reg n).2) (i + 1)) ∧
    ((SeaTableRowsGetMany.OnMessage env reg n).2.length : Int) ≤
      (specMaxRows n.OptMaxRows + specPageSize n.OptPageSize - 1) / specPageSize n.OptPageSize := by
  rcases rowsGetMany_cases env reg n with ⟨e, he⟩ | ⟨cfg, tableName, hv⟩
  · rw [he]
    refine ⟨by simp, by simp, ?_⟩
    have hP := specPageSize_range n.OptPageSize
    have hM := specMaxRows_pos n.OptMaxRows
    rw [Int.le_ediv_iff_mul_le (by omega)]
    simp only [List.length_nil, Nat.cast_zero, zero_mul]
    omega
  · rw [rowsGetMany_eq_run env reg n cfg tableName hv]
    refine ⟨(rowsGetManyRun_spec env cfg tableName n.OptViewName n.OptStart n.OptPageSize
      n.OptMaxRows n.OptConvert).1, ?_, rowsGetManyRun_count env cfg tableName n.OptViewName
      n.OptStart n.OptPageSize n.OptMaxRows n.OptConvert⟩
    intro i hi
    have hc := (rowsGetManyRun_continues env cfg tableName n.OptViewName n.OptStart
      n.OptPageSize n.OptMaxRows n.OptConvert).2.1 i hi
    rw [rowsBefore_step]
    have hpos : 0 < (((pagesFrom env 0 (rowsGetManyRun env cfg tableName n.OptViewName n.OptStart
        n.OptPageSize n.OptMaxRows n.OptConvert).2).getD i []).length) :=
      Nat.pos_of_ne_zero hc.1
    omega


/-- C30 on the paging example: with at most 10000 rows and pages of 1000 the run
sends no more than ten requests. -/
theorem rowsGetMany_terminates_witness :
    ((SeaTableRowsGetMany.OnMessage pagingEnv exampleRegistry pagingNode).2.length : Int) ≤
      (specMaxRows 10000 + specPageSize 1000 - 1) / specPageSize 1000 :=
  (rowsGetMany_terminates pagingEnv exampleRegistry pagingNode).2.2


end SeaTable
